import Mathlib

/-!
# SignalGenerator: the signal catalog and its text codec

A shallow embedding of the catalog part of `SignalGenerator.cpp`
(mu1492/SignalGenerator): the per-variant line encoders
`createSignalString*`, the line decoder inside `handleSignalOpen`, and the
slots that mutate the catalog (`handleAddReplaceSignal`, `handleEditSignal`,
`handleSaveSignal`, `handleRemoveSignal`, `handleSignalNew`,
`handleSignalOpen`).

Text (`std::string`, `QString`) is a list of characters.  The numeric
conversions of the Qt library (`QString::number`, `QString::toDouble`,
`QString::toInt`) are library code; they are modelled in the first sections.
-/

namespace SignalGenerator

/-- Text: both `std::string` and `QString` values. -/
abbrev Str := List Char

/-! ## Text primitives -/

/-- The parameter delimiter `SUBSTR_DELIMITER` (and the local `DELIM` of
`handleSignalOpen`): a comma followed by one blank. -/
def SUBSTR_DELIMITER : Str := [',', ' ']

/-- Position of the first occurrence of `d` in `s` (`std::string::find`),
`none` for `npos`. -/
def find : Str → Str → Option Nat
  | [], d => if d.isEmpty then some 0 else none
  | c :: cs, d =>
    if d.isPrefixOf (c :: cs) then some 0 else (find cs d).map (· + 1)

/-- The inner `while` loop of the tokeniser in `handleSignalOpen`: as long
as the delimiter is found, the text before it is pushed and erased together
with the delimiter.  Each round removes at least the delimiter, so a fuel of
the line length plus one is never exhausted. -/
def splitLoop : Nat → Str → List Str → Str × List Str
  | 0, currentLine, substringsVec => (currentLine, substringsVec)
  | fuel + 1, currentLine, substringsVec =>
    match find currentLine SUBSTR_DELIMITER with
    | some pos =>
      splitLoop fuel (currentLine.drop (pos + SUBSTR_DELIMITER.length))
        (substringsVec ++ [currentLine.take pos])
    | none => (currentLine, substringsVec)

/-- The tokeniser of `handleSignalOpen`: the loop above, then the rest of
the line is pushed only when it is not empty. -/
def substrings (line : Str) : List Str :=
  let r := splitLoop (line.length + 1) line []
  if r.1.length ≠ 0 then r.2 ++ [r.1] else r.2

/-- Splitting at every delimiter, scanning left to right: the reference
reading of "split on the delimiter".  `cur` holds the characters of the
current token in reverse. -/
def splitAll : Str → Str → List Str
  | [], cur => [cur.reverse]
  | ',' :: ' ' :: rest, cur => cur.reverse :: splitAll rest []
  | c :: rest, cur => splitAll rest (c :: cur)

/-! ## Library model: decimal digits and `int` -/

/-- The character of a decimal digit. -/
def digitChar : Nat → Char
  | 0 => '0' | 1 => '1' | 2 => '2' | 3 => '3' | 4 => '4'
  | 5 => '5' | 6 => '6' | 7 => '7' | 8 => '8' | _ => '9'

/-- The value of a decimal digit character. -/
def digitVal (c : Char) : Option Nat :=
  if c = '0' then some 0 else if c = '1' then some 1
  else if c = '2' then some 2 else if c = '3' then some 3
  else if c = '4' then some 4 else if c = '5' then some 5
  else if c = '6' then some 6 else if c = '7' then some 7
  else if c = '8' then some 8 else if c = '9' then some 9
  else none

/-- Decimal digits of `n`, most significant first, pushed in front of
`acc`; `fuel` bounds the number of digits produced. -/
def natDigitsAux : Nat → Nat → Str → Str
  | 0, _, acc => acc
  | fuel + 1, n, acc =>
    if n < 10 then digitChar n :: acc
    else natDigitsAux fuel (n / 10) (digitChar (n % 10) :: acc)

/-- Decimal text of a natural number, without leading zeros. -/
def natDigits (n : Nat) : Str := natDigitsAux (n + 1) n []

/-- Value of a text made of decimal digits only, read after the value `acc`
of the digits already seen; `none` when another character occurs. -/
def digitsValue : Str → Nat → Option Nat
  | [], acc => some acc
  | c :: cs, acc =>
    match digitVal c with
    | some d => digitsValue cs (acc * 10 + d)
    | none => none

/-- A non-empty run of decimal digits, as a number. -/
def parseNat (s : Str) : Option Nat :=
  if s.isEmpty then none else digitsValue s 0

/-- White space as the Qt conversions skip it at both ends of a text. -/
def isSpace (c : Char) : Bool :=
  c = ' ' || c = '\t' || c = '\n' || c = '\r' || c = '\x0b' || c = '\x0c'

/-- A text without its leading and trailing white space. -/
def trimmed (s : Str) : Str :=
  ((s.dropWhile isSpace).reverse.dropWhile isSpace).reverse

/-- The C++ type `int` (32 bits, two's complement). -/
def CInt : Type := { v : Int // -2147483648 ≤ v ∧ v ≤ 2147483647 }

instance : DecidableEq CInt := inferInstanceAs (DecidableEq (Subtype _))

/-- An integer as an `int`, when it is in range. -/
def CInt.ofInt? (v : Int) : Option CInt :=
  if h : -2147483648 ≤ v ∧ v ≤ 2147483647 then some ⟨v, h⟩ else none

/-- Decimal text of an integer: `QString::number( int )`. -/
def numberInt (v : Int) : Str :=
  if v < 0 then '-' :: natDigits v.natAbs else natDigits v.natAbs

/-- The conversion `QString::toInt( &ok )` in base 10: surrounding white
space is skipped, one sign is allowed, the rest must be decimal digits and
the value must fit an `int`; `none` stands for `ok == false`. -/
def toInt (s : Str) : Option CInt :=
  match trimmed s with
  | '-' :: ds => (parseNat ds).bind fun n => CInt.ofInt? (-(n : Int))
  | '+' :: ds => (parseNat ds).bind fun n => CInt.ofInt? (n : Int)
  | ds => (parseNat ds).bind fun n => CInt.ofInt? (n : Int)

/-- The conversion `QString::toInt()` without the `ok` flag: 0 on failure. -/
def toIntOrZero (s : Str) : Int :=
  match toInt s with
  | some v => v.val
  | none => 0

/-! ## Library model: `double` and its text conversions -/

/-- The C++ type `double` (IEEE 754 binary64).  `finite neg m e` is the
number `(-1)^neg * m * 2^e`. -/
inductive Dbl where
  | finite (neg : Bool) (m : Nat) (e : Int)
  | inf (neg : Bool)
  | nan
  deriving DecidableEq, Repr

/-- The representations that are binary64 values: a zero, a subnormal
(`m < 2^52` at the least exponent) or a normal number (53 significant
bits). -/
def Dbl.isBinary64 : Dbl → Bool
  | .finite _ m e =>
    (m == 0 && e == 0)
      || (0 < m && m < 4503599627370496 && e == -1074)
      || (4503599627370496 ≤ m && m < 9007199254740992 && -1074 ≤ e && e ≤ 971)
  | .inf _ => true
  | .nan => true

/-- The fraction `n / d` scaled by `b^s`, as a fraction of naturals. -/
def scalePow (b n d : Nat) (s : Int) : Nat × Nat :=
  if 0 ≤ s then (n * b ^ s.toNat, d) else (n, d * b ^ (-s).toNat)

/-- The decimal exponent of the positive fraction `n / d`: the `k` with
`10^k ≤ n / d < 10^(k+1)`.  It is the difference of the digit counts of
`n` and `d`, or one less. -/
def decimalExponent (n d : Nat) : Int :=
  let k : Int := ((natDigits n).length : Int) - ((natDigits d).length : Int)
  let q := scalePow 10 n d (-k)
  if q.2 ≤ q.1 then k else k - 1

/-- The fraction `n / d` rounded to the nearest natural, halves upwards. -/
def roundHalfUp (n d : Nat) : Nat :=
  if d ≤ 2 * (n % d) then n / d + 1 else n / d

/-- The six significant decimal digits of the positive fraction `n / d` and
its decimal exponent: `n / d` is `M * 10^(k-5)` up to rounding, with
`100000 ≤ M ≤ 999999`. -/
def sixDigits (n d : Nat) : Nat × Int :=
  let k := decimalExponent n d
  let q := scalePow 10 n d (5 - k)
  let M := roundHalfUp q.1 q.2
  if M = 1000000 then (100000, k + 1) else (M, k)

/-- A digit text without its trailing zeros. -/
def chopTrailingZeros (s : Str) : Str :=
  (s.reverse.dropWhile (· == '0')).reverse

/-- The exponent part of the scientific form: a sign and at least two
digits. -/
def exponentText (k : Int) : Str :=
  let ds := natDigits k.natAbs
  (if k < 0 then '-' else '+') :: (if ds.length < 2 then '0' :: ds else ds)

/-- The significant digits `ds` with decimal exponent `k` in the `g` format
of precision 6: scientific form when `k < -4` or `k ≥ 6`, plain decimal form
otherwise, no trailing zeros and no bare decimal point. -/
def formatG (ds : Str) (k : Int) : Str :=
  if k < -4 ∨ 6 ≤ k then
    match ds with
    | [] => []
    | [c] => c :: 'e' :: exponentText k
    | c :: rest => c :: '.' :: (rest ++ 'e' :: exponentText k)
  else if k < 0 then
    '0' :: '.' :: (List.replicate (-k - 1).toNat '0' ++ ds)
  else
    let whole := ds.take (k.toNat + 1)
    let frac := ds.drop (k.toNat + 1)
    let whole := whole ++ List.replicate (k.toNat + 1 - whole.length) '0'
    if frac.isEmpty then whole else whole ++ '.' :: frac

/-- The text of a `double`: `QString::number( double )` with its default
arguments, format `g` and precision 6 (what the encoders call). -/
def numberDouble : Dbl → Str
  | .nan => ['n', 'a', 'n']
  | .inf neg => if neg then ['-', 'i', 'n', 'f'] else ['i', 'n', 'f']
  | .finite neg m e =>
    let body :=
      if m = 0 then ['0']
      else
        let f := scalePow 2 m 1 e
        let r := sixDigits f.1 f.2
        formatG (chopTrailingZeros (natDigits r.1)) r.2
    if neg then '-' :: body else body

/-- The position of the leading binary digit of `n` (0 for `n < 2`);
`fuel` bounds the number of halvings. -/
def log2Aux : Nat → Nat → Nat
  | 0, _ => 0
  | fuel + 1, n => if n < 2 then 0 else log2Aux fuel (n / 2) + 1

/-- The integer part of the binary logarithm of `n`. -/
def log2Floor (n : Nat) : Nat := log2Aux n n

/-- The fraction `n / d` rounded to the nearest natural, halves to the
even neighbour. -/
def roundHalfEven (n d : Nat) : Nat :=
  let q := n / d
  let r := n % d
  if 2 * r < d then q
  else if d < 2 * r then q + 1
  else if q % 2 = 0 then q else q + 1

/-- The binary64 value nearest to the decimal number `(-1)^neg * N * 10^E`
(ties to even); `none` when the number overflows, or is not zero but rounds
to zero. -/
def roundToDouble (neg : Bool) (N : Nat) (E : Int) : Option Dbl :=
  if N = 0 then some (.finite neg 0 0)
  else
    let f := scalePow 10 N 1 E
    let t : Int := (log2Floor f.1 : Int) - (log2Floor f.2 : Int)
    let b := scalePow 2 f.1 f.2 (-t)
    let t := if b.2 ≤ b.1 then t else t - 1
    let e : Int := max (t - 52) (-1074)
    let g := scalePow 2 f.1 f.2 (-e)
    let m := roundHalfEven g.1 g.2
    let r : Nat × Int := if m = 9007199254740992 then (4503599627370496, e + 1) else (m, e)
    if 971 < r.2 then none
    else if r.1 = 0 then none
    else some (.finite neg r.1 r.2)

/-- Splits a text at its first exponent letter. -/
def splitExponent : Str → Str × Option Str
  | [] => ([], none)
  | c :: cs =>
    if c = 'e' ∨ c = 'E' then ([], some cs)
    else ((c :: (splitExponent cs).1), (splitExponent cs).2)

/-- Splits a text at its first decimal point. -/
def splitPoint : Str → Str × Str
  | [] => ([], [])
  | c :: cs => if c = '.' then ([], cs) else (c :: (splitPoint cs).1, (splitPoint cs).2)

/-- A signed decimal integer as used for the exponent. -/
def parseExponent (s : Str) : Option Int :=
  match s with
  | '-' :: ds => (parseNat ds).map fun n => -(n : Int)
  | '+' :: ds => (parseNat ds).map fun n => (n : Int)
  | ds => (parseNat ds).map fun n => (n : Int)

/-- An unsigned decimal number: digits, possibly a point and more digits,
possibly an exponent; at least one digit before the exponent. -/
def parseUnsigned (neg : Bool) (s : Str) : Option Dbl :=
  let p := splitExponent s
  let q := splitPoint p.1
  if q.1.isEmpty ∧ q.2.isEmpty then none
  else
    match digitsValue (q.1 ++ q.2) 0 with
    | none => none
    | some N =>
      match p.2 with
      | none => roundToDouble neg N (-(q.2.length : Int))
      | some ex =>
        match parseExponent ex with
        | none => none
        | some x => roundToDouble neg N (x - (q.2.length : Int))

/-- The conversion `QString::toDouble( &ok )`: surrounding white space is
skipped, the texts `nan`, `inf`, `+inf` and `-inf` are read as such, any
other text must be a decimal number in the C locale and is rounded to the
nearest `double`; `none` stands for `ok == false`. -/
def toDouble (s : Str) : Option Dbl :=
  let t := trimmed s
  if t = ['n', 'a', 'n'] then some .nan
  else if t = ['i', 'n', 'f'] ∨ t = ['+', 'i', 'n', 'f'] then some (.inf false)
  else if t = ['-', 'i', 'n', 'f'] then some (.inf true)
  else
    match t with
    | '-' :: ds => parseUnsigned true ds
    | '+' :: ds => parseUnsigned false ds
    | ds => parseUnsigned false ds

/-! ## Library model: fixed-width integers, IEEE arithmetic, `std::stoi` and `std::stod` -/

/-- Abnormal ends of a slot.  The first three are exceptions that leave the
slot because nothing catches them: `std::out_of_range` (thrown by
`vector::at`, `map::at`, `string::substr`, `std::stoi` and `std::stod`),
`std::invalid_argument` (thrown by `std::stoi` and `std::stod`) and
`std::length_error` (thrown by `vector::resize`).  The last is behaviour that
C++ leaves undefined (erasing past the end of the vector, reading through a
null or dangling pointer, converting a `double` to an integer type that
cannot hold it). -/
inductive Fault where
  | outOfRange
  | invalidArgument
  | lengthError
  | undefinedBehaviour
  deriving DecidableEq

deriving instance DecidableEq for Except

/-- The conversion of an `int` to `int16_t`: the value modulo `2^16`, in
`[-32768, 32767]`. -/
def toInt16 (v : Int) : Int := (v + 32768) % 65536 - 32768

/-- The conversion of an integer to an enumeration whose underlying type is
`uint8_t`: the value modulo `2^8`. -/
def toUInt8 (v : Int) : Nat := (v % 256).toNat

/-- The conversion of an integer to `size_t` (64 bits): the value modulo
`2^64`. -/
def toSizeT (v : Int) : Nat := (v % 18446744073709551616).toNat

/-- The member `std::string::substr( pos, len )`: the characters from `pos`
on, at most `len` of them; `std::out_of_range` when `pos` is beyond the end
of the text. -/
def substr (s : Str) (pos len : Nat) : Except Fault Str :=
  if pos ≤ s.length then .ok ((s.drop pos).take len) else .error .outOfRange

/-- The access `at( i )` of a `std::vector`. -/
def vecAt {α : Type} (v : List α) (i : Nat) : Except Fault α :=
  match v[i]? with
  | some x => .ok x
  | none => .error .outOfRange

/-- The access `at( key )` of a `std::map`, the map given by its entries. -/
def mapAt {κ α : Type} [DecidableEq κ] (m : List (κ × α)) (key : κ) : Except Fault α :=
  match m.find? (fun entry => entry.1 = key) with
  | some entry => .ok entry.2
  | none => .error .outOfRange

/-- Reads decimal digits from the front of a text: the value of the digits
read after the value `acc`, their number added to `count`, and the rest of
the text. -/
def readDigits : Str → Nat → Nat → Nat × Nat × Str
  | [], acc, count => (acc, count, [])
  | c :: cs, acc, count =>
    match digitVal c with
    | some d => readDigits cs (acc * 10 + d) (count + 1)
    | none => (acc, count, c :: cs)

/-- A leading sign and the text after it. -/
def readSign : Str → Bool × Str
  | '-' :: rest => (true, rest)
  | '+' :: rest => (false, rest)
  | rest => (false, rest)

/-- The conversion `std::stoi( str )`: white space is skipped, one sign is
allowed, then the longest run of decimal digits is read and whatever follows
is ignored; `std::invalid_argument` without a digit, `std::out_of_range`
when the value does not fit an `int`. -/
def stoi (str : Str) : Except Fault Int :=
  let s := readSign (str.dropWhile isSpace)
  let r := readDigits s.2 0 0
  if r.2.1 = 0 then .error .invalidArgument
  else
    let v : Int := if s.1 then -(r.1 : Int) else (r.1 : Int)
    if -2147483648 ≤ v ∧ v ≤ 2147483647 then .ok v else .error .outOfRange

/-- The positive fraction `n / d` rounded to binary64 (nearest, ties to
even) as `m * 2^e`; then whether the rounding changed the value, and whether
the value is tiny, that is below `2^-1022` when rounded to 53 bits without a
bound on the exponent. -/
def roundBinary64 (n d : Nat) : Nat × Int × Bool × Bool :=
  let t0 : Int := (log2Floor n : Int) - (log2Floor d : Int)
  let b := scalePow 2 n d (-t0)
  let t := if b.2 ≤ b.1 then t0 else t0 - 1
  let u := scalePow 2 n d (-(t - 52))
  let tu := if roundHalfEven u.1 u.2 = 9007199254740992 then t + 1 else t
  let e : Int := max (t - 52) (-1074)
  let g := scalePow 2 n d (-e)
  let m := roundHalfEven g.1 g.2
  let r : Nat × Int := if m = 9007199254740992 then (4503599627370496, e + 1) else (m, e)
  (r.1, r.2, decide (g.1 % g.2 ≠ 0), decide (tu < -1022))

/-- The result of an arithmetic operation whose exact value is
`(-1)^neg * n / d`: the nearest binary64 value, an infinity on overflow. -/
def Dbl.ofFraction (neg : Bool) (n d : Nat) : Dbl :=
  if n = 0 then .finite neg 0 0
  else
    let r := roundBinary64 n d
    if 971 < r.2.1 then .inf neg
    else if r.1 = 0 then .finite neg 0 0
    else .finite neg r.1 r.2.1

/-- The result of `strtod` for the exact value `(-1)^neg * n / d`, as
`std::stod` passes it on: `std::out_of_range` where `strtod` reports
`ERANGE`, which glibc does on overflow and for a tiny value that the
rounding changes. -/
def stodRound (neg : Bool) (n d : Nat) : Except Fault Dbl :=
  if n = 0 then .ok (.finite neg 0 0)
  else
    let r := roundBinary64 n d
    if 971 < r.2.1 then .error .outOfRange
    else if r.2.2.2 ∧ r.2.2.1 then .error .outOfRange
    else if r.1 = 0 then .ok (.finite neg 0 0)
    else .ok (.finite neg r.1 r.2.1)

/-- The exponent part of a decimal or hexadecimal number, `rest` being the
text after the exponent letter: a sign and digits; 0 when no digit follows
(the exponent letter is then not part of the number). -/
def readExponent (rest : Str) : Int :=
  let s := readSign rest
  let r := readDigits s.2 0 0
  if r.2.1 = 0 then 0 else if s.1 then -(r.1 : Int) else (r.1 : Int)

/-- The value of a hexadecimal digit. -/
def hexVal (c : Char) : Option Nat :=
  match digitVal c with
  | some d => some d
  | none =>
    if c = 'a' ∨ c = 'A' then some 10 else if c = 'b' ∨ c = 'B' then some 11
    else if c = 'c' ∨ c = 'C' then some 12 else if c = 'd' ∨ c = 'D' then some 13
    else if c = 'e' ∨ c = 'E' then some 14 else if c = 'f' ∨ c = 'F' then some 15
    else none

/-- Reads hexadecimal digits from the front of a text, as `readDigits` does
for decimal ones. -/
def readHexDigits : Str → Nat → Nat → Nat × Nat × Str
  | [], acc, count => (acc, count, [])
  | c :: cs, acc, count =>
    match hexVal c with
    | some d => readHexDigits cs (acc * 16 + d) (count + 1)
    | none => (acc, count, c :: cs)

/-- The decimal form of `strtod`, the sign already read: digits, possibly a
point and more digits, at least one digit in all, possibly an exponent.  The
longest such prefix counts and the rest of the text is ignored. -/
def stodDecimal (neg : Bool) (u : Str) : Except Fault Dbl :=
  let a := readDigits u 0 0
  let b : Nat × Nat × Str :=
    match a.2.2 with
    | '.' :: rest => readDigits rest a.1 0
    | rest => (a.1, 0, rest)
  if a.2.1 + b.2.1 = 0 then .error .invalidArgument
  else
    let x : Int :=
      match b.2.2 with
      | c :: rest => if c = 'e' ∨ c = 'E' then readExponent rest else 0
      | [] => 0
    let f := scalePow 10 b.1 1 (x - (b.2.1 : Int))
    stodRound neg f.1 f.2

/-- The hexadecimal form of `strtod`, `u` being the text after `0x`:
hexadecimal digits, possibly a point and more digits, possibly a binary
exponent after `p`; `none` when no digit follows `0x`. -/
def stodHex (neg : Bool) (u : Str) : Option (Except Fault Dbl) :=
  let a := readHexDigits u 0 0
  let b : Nat × Nat × Str :=
    match a.2.2 with
    | '.' :: rest => readHexDigits rest a.1 0
    | rest => (a.1, 0, rest)
  if a.2.1 + b.2.1 = 0 then none
  else
    let x : Int :=
      match b.2.2 with
      | c :: rest => if c = 'p' ∨ c = 'P' then readExponent rest else 0
      | [] => 0
    let f := scalePow 2 b.1 1 (x - 4 * (b.2.1 : Int))
    some (stodRound neg f.1 f.2)

/-- The conversion `std::stod( str )`, with the `strtod` of glibc: white
space is skipped, one sign is allowed, then comes `inf` or `nan` in any
letter case, a hexadecimal number after `0x`, or a decimal number.  What
follows the number is ignored.  `std::invalid_argument` when there is no
number, `std::out_of_range` when `strtod` reports a range error. -/
def stod (str : Str) : Except Fault Dbl :=
  let s := readSign (str.dropWhile isSpace)
  match s.2 with
  | c1 :: c2 :: rest =>
    if (c1 = 'i' ∨ c1 = 'I') ∧ (c2 = 'n' ∨ c2 = 'N')
        ∧ (rest.head? = some 'f' ∨ rest.head? = some 'F') then .ok (.inf s.1)
    else if (c1 = 'n' ∨ c1 = 'N') ∧ (c2 = 'a' ∨ c2 = 'A')
        ∧ (rest.head? = some 'n' ∨ rest.head? = some 'N') then .ok .nan
    else if c1 = '0' ∧ (c2 = 'x' ∨ c2 = 'X') then
      match stodHex s.1 rest with
      | some r => r
      | none => .ok (.finite s.1 0 0)
    else stodDecimal s.1 s.2
  | u => stodDecimal s.1 u

/-- The `double` 0. -/
def Dbl.zero : Dbl := .finite false 0 0

/-- The `double` nearest to 0.1. -/
def Dbl.tenth : Dbl := .finite false 7205759403792794 (-56)

/-- The `double` nearest to 1e-2. -/
def Dbl.hundredth : Dbl := .finite false 5764607523034235 (-59)

/-- The `double` nearest to 1e-7. -/
def Dbl.tenMillionth : Dbl := .finite false 7555786372591432 (-76)

/-- The `double` nearest to 1.7e+38. -/
def Dbl.noValue : Dbl := .finite false 8999725064576941 74

/-- The function `std::fabs`. -/
def Dbl.abs : Dbl → Dbl
  | .finite _ m e => .finite false m e
  | .inf _ => .inf false
  | .nan => .nan

/-- The unary minus. -/
def Dbl.neg : Dbl → Dbl
  | .finite neg m e => .finite (!neg) m e
  | .inf neg => .inf (!neg)
  | .nan => .nan

/-- The number `(-1)^neg * m * 2^e` as a multiple of `2^k`, for `k ≤ e`. -/
def Dbl.scaled (neg : Bool) (m : Nat) (e k : Int) : Int :=
  if neg then -((m * 2 ^ (e - k).toNat : Nat) : Int) else ((m * 2 ^ (e - k).toNat : Nat) : Int)

/-- The sum of two `double` values. -/
def Dbl.add : Dbl → Dbl → Dbl
  | .nan, _ => .nan
  | _, .nan => .nan
  | .inf a, .inf b => if a = b then .inf a else .nan
  | .inf a, .finite _ _ _ => .inf a
  | .finite _ _ _, .inf b => .inf b
  | .finite a m e, .finite b m2 e2 =>
    let k := min e e2
    let x := Dbl.scaled a m e k + Dbl.scaled b m2 e2 k
    if x = 0 then .finite (a && b) 0 0
    else
      let f := scalePow 2 x.natAbs 1 k
      Dbl.ofFraction (decide (x < 0)) f.1 f.2

/-- The difference of two `double` values. -/
def Dbl.sub (a b : Dbl) : Dbl := Dbl.add a b.neg

/-- The product of two `double` values. -/
def Dbl.mul : Dbl → Dbl → Dbl
  | .nan, _ => .nan
  | _, .nan => .nan
  | .inf a, .inf b => .inf (a != b)
  | .inf a, .finite b m _ => if m = 0 then .nan else .inf (a != b)
  | .finite a m _, .inf b => if m = 0 then .nan else .inf (a != b)
  | .finite a m e, .finite b m2 e2 =>
    let f := scalePow 2 (m * m2) 1 (e + e2)
    Dbl.ofFraction (a != b) f.1 f.2

/-- The quotient of two `double` values. -/
def Dbl.div : Dbl → Dbl → Dbl
  | .nan, _ => .nan
  | _, .nan => .nan
  | .inf _, .inf _ => .nan
  | .inf a, .finite b _ _ => .inf (a != b)
  | .finite a _ _, .inf b => .finite (a != b) 0 0
  | .finite a m e, .finite b m2 e2 =>
    if m2 = 0 then (if m = 0 then .nan else .inf (a != b))
    else
      let f := scalePow 2 m m2 (e - e2)
      Dbl.ofFraction (a != b) f.1 f.2

/-- The comparison `a < b` of two `double` values. -/
def Dbl.lt : Dbl → Dbl → Bool
  | .nan, _ => false
  | _, .nan => false
  | .inf a, .inf b => a && !b
  | .inf a, .finite _ _ _ => a
  | .finite _ _ _, .inf b => !b
  | .finite a m e, .finite b m2 e2 =>
    decide (Dbl.scaled a m e (min e e2) < Dbl.scaled b m2 e2 (min e e2))

/-- The function `std::max` on `double` values: the second argument when
the first is less, else the first. -/
def Dbl.max (a b : Dbl) : Dbl := if Dbl.lt a b then b else a

/-- The conversion of an integer to `double`, exact for the 16-bit values it
is used on. -/
def Dbl.ofInt (v : Int) : Dbl := Dbl.ofFraction (decide (v < 0)) v.natAbs 1

/-! ## The data model: `SignalItem` -/

/-- Modelled from the spec: `SignalItem.h` is not among the sources.  The
type tag of a signal item ("the variant's integer discriminant"): twelve
variants, eleven parametric ones and the imported SMC data, after the
invalid tag; the enumerators are numbered from `SIGNAL_TYPE_INVALID = 0`,
with `SIGNAL_TYPE_FIRST = SIGNAL_TYPE_TRIANGLE`, in the order in which the
`switch` statements of `SignalGenerator.cpp` list them. -/
inductive SignalType where
  | SIGNAL_TYPE_INVALID
  | SIGNAL_TYPE_TRIANGLE
  | SIGNAL_TYPE_RECTANGLE
  | SIGNAL_TYPE_PULSE
  | SIGNAL_TYPE_RISEFALL
  | SIGNAL_TYPE_SINDAMP
  | SIGNAL_TYPE_SINRISE
  | SIGNAL_TYPE_WAVSIN
  | SIGNAL_TYPE_AMSIN
  | SIGNAL_TYPE_SINDAMPSIN
  | SIGNAL_TYPE_TRAPDAMPSIN
  | SIGNAL_TYPE_NOISE
  | SIGNAL_TYPE_SMC
  deriving DecidableEq, Repr

/-- Modelled from the spec: the integer value of a type tag (the
enumeration of `SignalItem.h`, see `SignalType`). -/
def SignalType.toInt : SignalType → Int
  | .SIGNAL_TYPE_INVALID => 0
  | .SIGNAL_TYPE_TRIANGLE => 1
  | .SIGNAL_TYPE_RECTANGLE => 2
  | .SIGNAL_TYPE_PULSE => 3
  | .SIGNAL_TYPE_RISEFALL => 4
  | .SIGNAL_TYPE_SINDAMP => 5
  | .SIGNAL_TYPE_SINRISE => 6
  | .SIGNAL_TYPE_WAVSIN => 7
  | .SIGNAL_TYPE_AMSIN => 8
  | .SIGNAL_TYPE_SINDAMPSIN => 9
  | .SIGNAL_TYPE_TRAPDAMPSIN => 10
  | .SIGNAL_TYPE_NOISE => 11
  | .SIGNAL_TYPE_SMC => 12

/-- Modelled from the spec: `static_cast<SignalItem::SignalType>( n )` as
the `switch` statements see it: the enumerator of value `n`; a value that
names no enumerator selects no `case` label, just as the invalid tag. -/
def SignalType.ofInt (n : Int) : SignalType :=
  if n = 1 then .SIGNAL_TYPE_TRIANGLE
  else if n = 2 then .SIGNAL_TYPE_RECTANGLE
  else if n = 3 then .SIGNAL_TYPE_PULSE
  else if n = 4 then .SIGNAL_TYPE_RISEFALL
  else if n = 5 then .SIGNAL_TYPE_SINDAMP
  else if n = 6 then .SIGNAL_TYPE_SINRISE
  else if n = 7 then .SIGNAL_TYPE_WAVSIN
  else if n = 8 then .SIGNAL_TYPE_AMSIN
  else if n = 9 then .SIGNAL_TYPE_SINDAMPSIN
  else if n = 10 then .SIGNAL_TYPE_TRAPDAMPSIN
  else if n = 11 then .SIGNAL_TYPE_NOISE
  else if n = 12 then .SIGNAL_TYPE_SMC
  else .SIGNAL_TYPE_INVALID

/-- Modelled from the spec: the record `SignalItem::SignalTriangle` of
`SignalItem.h` (not among the sources), with the members that
`SignalGenerator.cpp` reads and writes; its constant member `type` is
`SignalTriangle.type` below. -/
structure SignalTriangle where
  tPeriod : Dbl
  tRise : Dbl
  tFall : Dbl
  tDelay : Dbl
  yMax : Dbl
  yMin : Dbl
  deriving DecidableEq

/-- The member `type` of a `SignalTriangle`: always the tag of its variant. -/
def SignalTriangle.type (_ : SignalTriangle) : SignalType := .SIGNAL_TYPE_TRIANGLE

/-- Modelled from the spec: the record `SignalItem::SignalRectangle` of
`SignalItem.h` (not among the sources), with the members that
`SignalGenerator.cpp` reads and writes; its constant member `type` is
`SignalRectangle.type` below. -/
structure SignalRectangle where
  tPeriod : Dbl
  fillFactor : Dbl
  tDelay : Dbl
  yMax : Dbl
  yMin : Dbl
  deriving DecidableEq

/-- The member `type` of a `SignalRectangle`: always the tag of its variant. -/
def SignalRectangle.type (_ : SignalRectangle) : SignalType := .SIGNAL_TYPE_RECTANGLE

/-- Modelled from the spec: the record `SignalItem::SignalPulse` of
`SignalItem.h` (not among the sources), with the members that
`SignalGenerator.cpp` reads and writes; its constant member `type` is
`SignalPulse.type` below. -/
structure SignalPulse where
  tPeriod : Dbl
  tRise : Dbl
  tWidth : Dbl
  tFall : Dbl
  tDelay : Dbl
  yMax : Dbl
  yMin : Dbl
  deriving DecidableEq

/-- The member `type` of a `SignalPulse`: always the tag of its variant. -/
def SignalPulse.type (_ : SignalPulse) : SignalType := .SIGNAL_TYPE_PULSE

/-- Modelled from the spec: the record `SignalItem::SignalRiseFall` of
`SignalItem.h` (not among the sources), with the members that
`SignalGenerator.cpp` reads and writes; its constant member `type` is
`SignalRiseFall.type` below. -/
structure SignalRiseFall where
  tDelay : Dbl
  tDelayRise : Dbl
  tRampRise : Dbl
  tDelayFall : Dbl
  tRampFall : Dbl
  yMax : Dbl
  yMin : Dbl
  deriving DecidableEq

/-- The member `type` of a `SignalRiseFall`: always the tag of its variant. -/
def SignalRiseFall.type (_ : SignalRiseFall) : SignalType := .SIGNAL_TYPE_RISEFALL

/-- Modelled from the spec: the record `SignalItem::SignalSinDamp` of
`SignalItem.h` (not among the sources), with the members that
`SignalGenerator.cpp` reads and writes; its constant member `type` is
`SignalSinDamp.type` below. -/
structure SignalSinDamp where
  freqHz : Dbl
  phiRad : Dbl
  tDelay : Dbl
  amplit : Dbl
  offset : Dbl
  damping : Dbl
  deriving DecidableEq

/-- The member `type` of a `SignalSinDamp`: always the tag of its variant. -/
def SignalSinDamp.type (_ : SignalSinDamp) : SignalType := .SIGNAL_TYPE_SINDAMP

/-- Modelled from the spec: the record `SignalItem::SignalSinRise` of
`SignalItem.h` (not among the sources), with the members that
`SignalGenerator.cpp` reads and writes; its constant member `type` is
`SignalSinRise.type` below. -/
structure SignalSinRise where
  freqHz : Dbl
  phiRad : Dbl
  tEnd : Dbl
  tDelay : Dbl
  amplit : Dbl
  offset : Dbl
  damping : Dbl
  deriving DecidableEq

/-- The member `type` of a `SignalSinRise`: always the tag of its variant. -/
def SignalSinRise.type (_ : SignalSinRise) : SignalType := .SIGNAL_TYPE_SINRISE

/-- Modelled from the spec: the record `SignalItem::SignalWavSin` of
`SignalItem.h` (not among the sources), with the members that
`SignalGenerator.cpp` reads and writes; its constant member `type` is
`SignalWavSin.type` below. -/
structure SignalWavSin where
  freqHz : Dbl
  phiRad : Dbl
  tDelay : Dbl
  amplit : Dbl
  offset : Dbl
  index : CInt
  deriving DecidableEq

/-- The member `type` of a `SignalWavSin`: always the tag of its variant. -/
def SignalWavSin.type (_ : SignalWavSin) : SignalType := .SIGNAL_TYPE_WAVSIN

/-- Modelled from the spec: the record `SignalItem::SignalAmSin` of
`SignalItem.h` (not among the sources), with the members that
`SignalGenerator.cpp` reads and writes; its constant member `type` is
`SignalAmSin.type` below. -/
structure SignalAmSin where
  carrierFreqHz : Dbl
  carrierAmplitude : Dbl
  carrierOffset : Dbl
  carrierTDelay : Dbl
  modulationFreqHz : Dbl
  modulationPhiRad : Dbl
  modulationIndex : Dbl
  deriving DecidableEq

/-- The member `type` of a `SignalAmSin`: always the tag of its variant. -/
def SignalAmSin.type (_ : SignalAmSin) : SignalType := .SIGNAL_TYPE_AMSIN

/-- Modelled from the spec: the record `SignalItem::SignalSinDampSin` of
`SignalItem.h` (not among the sources), with the members that
`SignalGenerator.cpp` reads and writes; its constant member `type` is
`SignalSinDampSin.type` below. -/
structure SignalSinDampSin where
  freqSinHz : Dbl
  tPeriodEnv : Dbl
  tDelay : Dbl
  amplit : Dbl
  offset : Dbl
  dampingType : CInt
  deriving DecidableEq

/-- The member `type` of a `SignalSinDampSin`: always the tag of its variant. -/
def SignalSinDampSin.type (_ : SignalSinDampSin) : SignalType := .SIGNAL_TYPE_SINDAMPSIN

/-- Modelled from the spec: the record `SignalItem::SignalTrapDampSin` of
`SignalItem.h` (not among the sources), with the members that
`SignalGenerator.cpp` reads and writes; its constant member `type` is
`SignalTrapDampSin.type` below. -/
structure SignalTrapDampSin where
  tPeriod : Dbl
  tRise : Dbl
  tWidth : Dbl
  tFall : Dbl
  tDelay : Dbl
  tCross : Dbl
  freqHz : Dbl
  amplit : Dbl
  offset : Dbl
  deriving DecidableEq

/-- The member `type` of a `SignalTrapDampSin`: always the tag of its variant. -/
def SignalTrapDampSin.type (_ : SignalTrapDampSin) : SignalType := .SIGNAL_TYPE_TRAPDAMPSIN

/-- Modelled from the spec: the record `SignalItem::SignalNoise` of
`SignalItem.h` (not among the sources), with the members that
`SignalGenerator.cpp` reads and writes; its constant member `type` is
`SignalNoise.type` below. -/
structure SignalNoise where
  noiseType : CInt
  gamma : Dbl
  tDelay : Dbl
  amplit : Dbl
  offset : Dbl
  deriving DecidableEq

/-- The member `type` of a `SignalNoise`: always the tag of its variant. -/
def SignalNoise.type (_ : SignalNoise) : SignalType := .SIGNAL_TYPE_NOISE

/-- Modelled from the spec: the record `SignalItem::SignalSmc` of
`SignalItem.h`, with the members that `createSmcSignal` writes. -/
structure SignalSmc where
  nrPoints : Int
  sps : Dbl
  maxAccelMs2 : Dbl
  accelDataVec : List Dbl
  deriving DecidableEq

/-- Modelled from the spec: an object of class `SignalItem` (`SignalItem.h`),
as built by one of its constructors `SignalItem( sig )`: the data of one
variant; `getType()` is `SignalItem.getType`. -/
inductive SignalItem where
  | triangle (sig : SignalTriangle)
  | rectangle (sig : SignalRectangle)
  | pulse (sig : SignalPulse)
  | riseFall (sig : SignalRiseFall)
  | sinDamp (sig : SignalSinDamp)
  | sinRise (sig : SignalSinRise)
  | wavSin (sig : SignalWavSin)
  | amSin (sig : SignalAmSin)
  | sinDampSin (sig : SignalSinDampSin)
  | trapDampSin (sig : SignalTrapDampSin)
  | noise (sig : SignalNoise)
  | smc (sig : SignalSmc)
  deriving DecidableEq

/-- The accessor `SignalItem::getType()`. -/
def SignalItem.getType : SignalItem → SignalType
  | .triangle _ => .SIGNAL_TYPE_TRIANGLE
  | .rectangle _ => .SIGNAL_TYPE_RECTANGLE
  | .pulse _ => .SIGNAL_TYPE_PULSE
  | .riseFall _ => .SIGNAL_TYPE_RISEFALL
  | .sinDamp _ => .SIGNAL_TYPE_SINDAMP
  | .sinRise _ => .SIGNAL_TYPE_SINRISE
  | .wavSin _ => .SIGNAL_TYPE_WAVSIN
  | .amSin _ => .SIGNAL_TYPE_AMSIN
  | .sinDampSin _ => .SIGNAL_TYPE_SINDAMPSIN
  | .trapDampSin _ => .SIGNAL_TYPE_TRAPDAMPSIN
  | .noise _ => .SIGNAL_TYPE_NOISE
  | .smc _ => .SIGNAL_TYPE_SMC

/-! ## Encoding: `createSignalString*` -/

/-- Format a string for Triangle signals: `createSignalStringTriangle`. -/
def createSignalStringTriangle (aSignal : SignalTriangle) : Str :=
  let lineString := numberInt aSignal.type.toInt
  let lineString := lineString ++ (SUBSTR_DELIMITER ++ numberDouble aSignal.tPeriod)
  let lineString := lineString ++ (SUBSTR_DELIMITER ++ numberDouble aSignal.tRise)
  let lineString := lineString ++ (SUBSTR_DELIMITER ++ numberDouble aSignal.tFall)
  let lineString := lineString ++ (SUBSTR_DELIMITER ++ numberDouble aSignal.tDelay)
  let lineString := lineString ++ (SUBSTR_DELIMITER ++ numberDouble aSignal.yMax)
  let lineString := lineString ++ (SUBSTR_DELIMITER ++ numberDouble aSignal.yMin)
  lineString

/-- Format a string for Rectangle signals: `createSignalStringRectangle`. -/
def createSignalStringRectangle (aSignal : SignalRectangle) : Str :=
  let lineString := numberInt aSignal.type.toInt
  let lineString := lineString ++ (SUBSTR_DELIMITER ++ numberDouble aSignal.tPeriod)
  let lineString := lineString ++ (SUBSTR_DELIMITER ++ numberDouble aSignal.fillFactor)
  let lineString := lineString ++ (SUBSTR_DELIMITER ++ numberDouble aSignal.tDelay)
  let lineString := lineString ++ (SUBSTR_DELIMITER ++ numberDouble aSignal.yMax)
  let lineString := lineString ++ (SUBSTR_DELIMITER ++ numberDouble aSignal.yMin)
  lineString

/-- Format a string for Pulse signals: `createSignalStringPulse`. -/
def createSignalStringPulse (aSignal : SignalPulse) : Str :=
  let lineString := numberInt aSignal.type.toInt
  let lineString := lineString ++ (SUBSTR_DELIMITER ++ numberDouble aSignal.tPeriod)
  let lineString := lineString ++ (SUBSTR_DELIMITER ++ numberDouble aSignal.tRise)
  let lineString := lineString ++ (SUBSTR_DELIMITER ++ numberDouble aSignal.tWidth)
  let lineString := lineString ++ (SUBSTR_DELIMITER ++ numberDouble aSignal.tFall)
  let lineString := lineString ++ (SUBSTR_DELIMITER ++ numberDouble aSignal.tDelay)
  let lineString := lineString ++ (SUBSTR_DELIMITER ++ numberDouble aSignal.yMax)
  let lineString := lineString ++ (SUBSTR_DELIMITER ++ numberDouble aSignal.yMin)
  lineString

/-- Format a string for RiseFall signals: `createSignalStringRiseFall`. -/
def createSignalStringRiseFall (aSignal : SignalRiseFall) : Str :=
  let lineString := numberInt aSignal.type.toInt
  let lineString := lineString ++ (SUBSTR_DELIMITER ++ numberDouble aSignal.tDelay)
  let lineString := lineString ++ (SUBSTR_DELIMITER ++ numberDouble aSignal.tDelayRise)
  let lineString := lineString ++ (SUBSTR_DELIMITER ++ numberDouble aSignal.tRampRise)
  let lineString := lineString ++ (SUBSTR_DELIMITER ++ numberDouble aSignal.tDelayFall)
  let lineString := lineString ++ (SUBSTR_DELIMITER ++ numberDouble aSignal.tRampFall)
  let lineString := lineString ++ (SUBSTR_DELIMITER ++ numberDouble aSignal.yMax)
  let lineString := lineString ++ (SUBSTR_DELIMITER ++ numberDouble aSignal.yMin)
  lineString

/-- Format a string for SinDamp signals: `createSignalStringSinDamp`. -/
def createSignalStringSinDamp (aSignal : SignalSinDamp) : Str :=
  let lineString := numberInt aSignal.type.toInt
  let lineString := lineString ++ (SUBSTR_DELIMITER ++ numberDouble aSignal.freqHz)
  let lineString := lineString ++ (SUBSTR_DELIMITER ++ numberDouble aSignal.phiRad)
  let lineString := lineString ++ (SUBSTR_DELIMITER ++ numberDouble aSignal.tDelay)
  let lineString := lineString ++ (SUBSTR_DELIMITER ++ numberDouble aSignal.amplit)
  let lineString := lineString ++ (SUBSTR_DELIMITER ++ numberDouble aSignal.offset)
  let lineString := lineString ++ (SUBSTR_DELIMITER ++ numberDouble aSignal.damping)
  lineString

/-- Format a string for SinRise signals: `createSignalStringSinRise`. -/
def createSignalStringSinRise (aSignal : SignalSinRise) : Str :=
  let lineString := numberInt aSignal.type.toInt
  let lineString := lineString ++ (SUBSTR_DELIMITER ++ numberDouble aSignal.freqHz)
  let lineString := lineString ++ (SUBSTR_DELIMITER ++ numberDouble aSignal.phiRad)
  let lineString := lineString ++ (SUBSTR_DELIMITER ++ numberDouble aSignal.tEnd)
  let lineString := lineString ++ (SUBSTR_DELIMITER ++ numberDouble aSignal.tDelay)
  let lineString := lineString ++ (SUBSTR_DELIMITER ++ numberDouble aSignal.amplit)
  let lineString := lineString ++ (SUBSTR_DELIMITER ++ numberDouble aSignal.offset)
  let lineString := lineString ++ (SUBSTR_DELIMITER ++ numberDouble aSignal.damping)
  lineString

/-- Format a string for WavSin signals: `createSignalStringWavSin`. -/
def createSignalStringWavSin (aSignal : SignalWavSin) : Str :=
  let lineString := numberInt aSignal.type.toInt
  let lineString := lineString ++ (SUBSTR_DELIMITER ++ numberDouble aSignal.freqHz)
  let lineString := lineString ++ (SUBSTR_DELIMITER ++ numberDouble aSignal.phiRad)
  let lineString := lineString ++ (SUBSTR_DELIMITER ++ numberDouble aSignal.tDelay)
  let lineString := lineString ++ (SUBSTR_DELIMITER ++ numberDouble aSignal.amplit)
  let lineString := lineString ++ (SUBSTR_DELIMITER ++ numberDouble aSignal.offset)
  let lineString := lineString ++ (SUBSTR_DELIMITER ++ numberInt aSignal.index.val)
  lineString

/-- Format a string for AmSin signals: `createSignalStringAmSin`. -/
def createSignalStringAmSin (aSignal : SignalAmSin) : Str :=
  let lineString := numberInt aSignal.type.toInt
  let lineString := lineString ++ (SUBSTR_DELIMITER ++ numberDouble aSignal.carrierFreqHz)
  let lineString := lineString ++ (SUBSTR_DELIMITER ++ numberDouble aSignal.carrierAmplitude)
  let lineString := lineString ++ (SUBSTR_DELIMITER ++ numberDouble aSignal.carrierOffset)
  let lineString := lineString ++ (SUBSTR_DELIMITER ++ numberDouble aSignal.carrierTDelay)
  let lineString := lineString ++ (SUBSTR_DELIMITER ++ numberDouble aSignal.modulationFreqHz)
  let lineString := lineString ++ (SUBSTR_DELIMITER ++ numberDouble aSignal.modulationPhiRad)
  let lineString := lineString ++ (SUBSTR_DELIMITER ++ numberDouble aSignal.modulationIndex)
  lineString

/-- Format a string for SinDampSin signals: `createSignalStringSinDampSin`. -/
def createSignalStringSinDampSin (aSignal : SignalSinDampSin) : Str :=
  let lineString := numberInt aSignal.type.toInt
  let lineString := lineString ++ (SUBSTR_DELIMITER ++ numberDouble aSignal.freqSinHz)
  let lineString := lineString ++ (SUBSTR_DELIMITER ++ numberDouble aSignal.tPeriodEnv)
  let lineString := lineString ++ (SUBSTR_DELIMITER ++ numberDouble aSignal.tDelay)
  let lineString := lineString ++ (SUBSTR_DELIMITER ++ numberDouble aSignal.amplit)
  let lineString := lineString ++ (SUBSTR_DELIMITER ++ numberDouble aSignal.offset)
  let lineString := lineString ++ (SUBSTR_DELIMITER ++ numberInt aSignal.dampingType.val)
  lineString

/-- Format a string for TrapDampSin signals: `createSignalStringTrapDampSin`. -/
def createSignalStringTrapDampSin (aSignal : SignalTrapDampSin) : Str :=
  let lineString := numberInt aSignal.type.toInt
  let lineString := lineString ++ (SUBSTR_DELIMITER ++ numberDouble aSignal.tPeriod)
  let lineString := lineString ++ (SUBSTR_DELIMITER ++ numberDouble aSignal.tRise)
  let lineString := lineString ++ (SUBSTR_DELIMITER ++ numberDouble aSignal.tWidth)
  let lineString := lineString ++ (SUBSTR_DELIMITER ++ numberDouble aSignal.tFall)
  let lineString := lineString ++ (SUBSTR_DELIMITER ++ numberDouble aSignal.tDelay)
  let lineString := lineString ++ (SUBSTR_DELIMITER ++ numberDouble aSignal.tCross)
  let lineString := lineString ++ (SUBSTR_DELIMITER ++ numberDouble aSignal.freqHz)
  let lineString := lineString ++ (SUBSTR_DELIMITER ++ numberDouble aSignal.amplit)
  let lineString := lineString ++ (SUBSTR_DELIMITER ++ numberDouble aSignal.offset)
  lineString

/-- Format a string for Noise signals: `createSignalStringNoise`. -/
def createSignalStringNoise (aSignal : SignalNoise) : Str :=
  let lineString := numberInt aSignal.type.toInt
  let lineString := lineString ++ (SUBSTR_DELIMITER ++ numberInt aSignal.noiseType.val)
  let lineString := lineString ++ (SUBSTR_DELIMITER ++ numberDouble aSignal.gamma)
  let lineString := lineString ++ (SUBSTR_DELIMITER ++ numberDouble aSignal.tDelay)
  let lineString := lineString ++ (SUBSTR_DELIMITER ++ numberDouble aSignal.amplit)
  let lineString := lineString ++ (SUBSTR_DELIMITER ++ numberDouble aSignal.offset)
  lineString

/-! ## Decoding: the body of the line loop of `handleSignalOpen` -/

/-- The `SIGNAL_TYPE_TRIANGLE` branch of the decoder: 6 parameters are
expected; each one is converted in turn and the first failure gives up. -/
def decodeTriangle (substringsVec : List Str) : Option SignalTriangle :=
  let ssCount := substringsVec.length
  let expectedParams := 6
  if expectedParams = ssCount - 1 then do
    let tPeriod ← toDouble (substringsVec.getD 1 [])
    let tRise ← toDouble (substringsVec.getD 2 [])
    let tFall ← toDouble (substringsVec.getD 3 [])
    let tDelay ← toDouble (substringsVec.getD 4 [])
    let yMax ← toDouble (substringsVec.getD 5 [])
    let yMin ← toDouble (substringsVec.getD 6 [])
    pure { tPeriod, tRise, tFall, tDelay, yMax, yMin }
  else none

/-- The `SIGNAL_TYPE_RECTANGLE` branch of the decoder: 5 parameters are
expected; each one is converted in turn and the first failure gives up. -/
def decodeRectangle (substringsVec : List Str) : Option SignalRectangle :=
  let ssCount := substringsVec.length
  let expectedParams := 5
  if expectedParams = ssCount - 1 then do
    let tPeriod ← toDouble (substringsVec.getD 1 [])
    let fillFactor ← toDouble (substringsVec.getD 2 [])
    let tDelay ← toDouble (substringsVec.getD 3 [])
    let yMax ← toDouble (substringsVec.getD 4 [])
    let yMin ← toDouble (substringsVec.getD 5 [])
    pure { tPeriod, fillFactor, tDelay, yMax, yMin }
  else none

/-- The `SIGNAL_TYPE_PULSE` branch of the decoder: 7 parameters are
expected; each one is converted in turn and the first failure gives up. -/
def decodePulse (substringsVec : List Str) : Option SignalPulse :=
  let ssCount := substringsVec.length
  let expectedParams := 7
  if expectedParams = ssCount - 1 then do
    let tPeriod ← toDouble (substringsVec.getD 1 [])
    let tRise ← toDouble (substringsVec.getD 2 [])
    let tWidth ← toDouble (substringsVec.getD 3 [])
    let tFall ← toDouble (substringsVec.getD 4 [])
    let tDelay ← toDouble (substringsVec.getD 5 [])
    let yMax ← toDouble (substringsVec.getD 6 [])
    let yMin ← toDouble (substringsVec.getD 7 [])
    pure { tPeriod, tRise, tWidth, tFall, tDelay, yMax, yMin }
  else none

/-- The `SIGNAL_TYPE_RISEFALL` branch of the decoder: 7 parameters are
expected; each one is converted in turn and the first failure gives up. -/
def decodeRiseFall (substringsVec : List Str) : Option SignalRiseFall :=
  let ssCount := substringsVec.length
  let expectedParams := 7
  if expectedParams = ssCount - 1 then do
    let tDelay ← toDouble (substringsVec.getD 1 [])
    let tDelayRise ← toDouble (substringsVec.getD 2 [])
    let tRampRise ← toDouble (substringsVec.getD 3 [])
    let tDelayFall ← toDouble (substringsVec.getD 4 [])
    let tRampFall ← toDouble (substringsVec.getD 5 [])
    let yMax ← toDouble (substringsVec.getD 6 [])
    let yMin ← toDouble (substringsVec.getD 7 [])
    pure { tDelay, tDelayRise, tRampRise, tDelayFall, tRampFall, yMax, yMin }
  else none

/-- The `SIGNAL_TYPE_SINDAMP` branch of the decoder: 6 parameters are
expected; each one is converted in turn and the first failure gives up. -/
def decodeSinDamp (substringsVec : List Str) : Option SignalSinDamp :=
  let ssCount := substringsVec.length
  let expectedParams := 6
  if expectedParams = ssCount - 1 then do
    let freqHz ← toDouble (substringsVec.getD 1 [])
    let phiRad ← toDouble (substringsVec.getD 2 [])
    let tDelay ← toDouble (substringsVec.getD 3 [])
    let amplit ← toDouble (substringsVec.getD 4 [])
    let offset ← toDouble (substringsVec.getD 5 [])
    let damping ← toDouble (substringsVec.getD 6 [])
    pure { freqHz, phiRad, tDelay, amplit, offset, damping }
  else none

/-- The `SIGNAL_TYPE_SINRISE` branch of the decoder: 7 parameters are
expected; each one is converted in turn and the first failure gives up. -/
def decodeSinRise (substringsVec : List Str) : Option SignalSinRise :=
  let ssCount := substringsVec.length
  let expectedParams := 7
  if expectedParams = ssCount - 1 then do
    let freqHz ← toDouble (substringsVec.getD 1 [])
    let phiRad ← toDouble (substringsVec.getD 2 [])
    let tEnd ← toDouble (substringsVec.getD 3 [])
    let tDelay ← toDouble (substringsVec.getD 4 [])
    let amplit ← toDouble (substringsVec.getD 5 [])
    let offset ← toDouble (substringsVec.getD 6 [])
    let damping ← toDouble (substringsVec.getD 7 [])
    pure { freqHz, phiRad, tEnd, tDelay, amplit, offset, damping }
  else none

/-- The `SIGNAL_TYPE_WAVSIN` branch of the decoder: 6 parameters are
expected; each one is converted in turn and the first failure gives up. -/
def decodeWavSin (substringsVec : List Str) : Option SignalWavSin :=
  let ssCount := substringsVec.length
  let expectedParams := 6
  if expectedParams = ssCount - 1 then do
    let freqHz ← toDouble (substringsVec.getD 1 [])
    let phiRad ← toDouble (substringsVec.getD 2 [])
    let tDelay ← toDouble (substringsVec.getD 3 [])
    let amplit ← toDouble (substringsVec.getD 4 [])
    let offset ← toDouble (substringsVec.getD 5 [])
    let index ← toInt (substringsVec.getD 6 [])
    pure { freqHz, phiRad, tDelay, amplit, offset, index }
  else none

/-- The `SIGNAL_TYPE_AMSIN` branch of the decoder: 7 parameters are
expected; each one is converted in turn and the first failure gives up. -/
def decodeAmSin (substringsVec : List Str) : Option SignalAmSin :=
  let ssCount := substringsVec.length
  let expectedParams := 7
  if expectedParams = ssCount - 1 then do
    let carrierFreqHz ← toDouble (substringsVec.getD 1 [])
    let carrierAmplitude ← toDouble (substringsVec.getD 2 [])
    let carrierOffset ← toDouble (substringsVec.getD 3 [])
    let carrierTDelay ← toDouble (substringsVec.getD 4 [])
    let modulationFreqHz ← toDouble (substringsVec.getD 5 [])
    let modulationPhiRad ← toDouble (substringsVec.getD 6 [])
    let modulationIndex ← toDouble (substringsVec.getD 7 [])
    pure { carrierFreqHz, carrierAmplitude, carrierOffset, carrierTDelay, modulationFreqHz, modulationPhiRad, modulationIndex }
  else none

/-- The `SIGNAL_TYPE_SINDAMPSIN` branch of the decoder: 6 parameters are
expected; each one is converted in turn and the first failure gives up. -/
def decodeSinDampSin (substringsVec : List Str) : Option SignalSinDampSin :=
  let ssCount := substringsVec.length
  let expectedParams := 6
  if expectedParams = ssCount - 1 then do
    let freqSinHz ← toDouble (substringsVec.getD 1 [])
    let tPeriodEnv ← toDouble (substringsVec.getD 2 [])
    let tDelay ← toDouble (substringsVec.getD 3 [])
    let amplit ← toDouble (substringsVec.getD 4 [])
    let offset ← toDouble (substringsVec.getD 5 [])
    let dampingType ← toInt (substringsVec.getD 6 [])
    pure { freqSinHz, tPeriodEnv, tDelay, amplit, offset, dampingType }
  else none

/-- The `SIGNAL_TYPE_TRAPDAMPSIN` branch of the decoder: 9 parameters are
expected; each one is converted in turn and the first failure gives up. -/
def decodeTrapDampSin (substringsVec : List Str) : Option SignalTrapDampSin :=
  let ssCount := substringsVec.length
  let expectedParams := 9
  if expectedParams = ssCount - 1 then do
    let tPeriod ← toDouble (substringsVec.getD 1 [])
    let tRise ← toDouble (substringsVec.getD 2 [])
    let tWidth ← toDouble (substringsVec.getD 3 [])
    let tFall ← toDouble (substringsVec.getD 4 [])
    let tDelay ← toDouble (substringsVec.getD 5 [])
    let tCross ← toDouble (substringsVec.getD 6 [])
    let freqHz ← toDouble (substringsVec.getD 7 [])
    let amplit ← toDouble (substringsVec.getD 8 [])
    let offset ← toDouble (substringsVec.getD 9 [])
    pure { tPeriod, tRise, tWidth, tFall, tDelay, tCross, freqHz, amplit, offset }
  else none

/-- The `SIGNAL_TYPE_NOISE` branch of the decoder: 5 parameters are
expected; each one is converted in turn and the first failure gives up. -/
def decodeNoise (substringsVec : List Str) : Option SignalNoise :=
  let ssCount := substringsVec.length
  let expectedParams := 5
  if expectedParams = ssCount - 1 then do
    let noiseType ← toInt (substringsVec.getD 1 [])
    let gamma ← toDouble (substringsVec.getD 2 [])
    let tDelay ← toDouble (substringsVec.getD 3 [])
    let amplit ← toDouble (substringsVec.getD 4 [])
    let offset ← toDouble (substringsVec.getD 5 [])
    pure { noiseType, gamma, tDelay, amplit, offset }
  else none

/-- The body of the line loop of `handleSignalOpen` after tokenising: with
at least two substrings, the first one is read as the type tag and the
branch of that type converts the others.  The result is the new item
(`crtSignal`) with its line text (`lineString`); `none` when no item is
created. -/
def decodeSubstrings (substringsVec : List Str) : Option (SignalItem × Str) :=
  let ssCount := substringsVec.length
  if 2 ≤ ssCount then
    match SignalType.ofInt (toIntOrZero (substringsVec.getD 0 [])) with
    | .SIGNAL_TYPE_TRIANGLE =>
      (decodeTriangle substringsVec).map fun sig => (.triangle sig, createSignalStringTriangle sig)
    | .SIGNAL_TYPE_RECTANGLE =>
      (decodeRectangle substringsVec).map fun sig => (.rectangle sig, createSignalStringRectangle sig)
    | .SIGNAL_TYPE_PULSE =>
      (decodePulse substringsVec).map fun sig => (.pulse sig, createSignalStringPulse sig)
    | .SIGNAL_TYPE_RISEFALL =>
      (decodeRiseFall substringsVec).map fun sig => (.riseFall sig, createSignalStringRiseFall sig)
    | .SIGNAL_TYPE_SINDAMP =>
      (decodeSinDamp substringsVec).map fun sig => (.sinDamp sig, createSignalStringSinDamp sig)
    | .SIGNAL_TYPE_SINRISE =>
      (decodeSinRise substringsVec).map fun sig => (.sinRise sig, createSignalStringSinRise sig)
    | .SIGNAL_TYPE_WAVSIN =>
      (decodeWavSin substringsVec).map fun sig => (.wavSin sig, createSignalStringWavSin sig)
    | .SIGNAL_TYPE_AMSIN =>
      (decodeAmSin substringsVec).map fun sig => (.amSin sig, createSignalStringAmSin sig)
    | .SIGNAL_TYPE_SINDAMPSIN =>
      (decodeSinDampSin substringsVec).map fun sig => (.sinDampSin sig, createSignalStringSinDampSin sig)
    | .SIGNAL_TYPE_TRAPDAMPSIN =>
      (decodeTrapDampSin substringsVec).map fun sig => (.trapDampSin sig, createSignalStringTrapDampSin sig)
    | .SIGNAL_TYPE_NOISE =>
      (decodeNoise substringsVec).map fun sig => (.noise sig, createSignalStringNoise sig)
    | .SIGNAL_TYPE_SMC => none
    | .SIGNAL_TYPE_INVALID => none
  else none

/-- One line of the catalog file through the tokeniser and the decoder. -/
def decodeLine (currentLine : Str) : Option (SignalItem × Str) :=
  decodeSubstrings (substrings currentLine)

/-- The line text of an item, as `handleSaveSignal` selects the encoder by
type; the SMC variant has none. -/
def SignalItem.lineString? : SignalItem → Option Str
  | .triangle sig => some (createSignalStringTriangle sig)
  | .rectangle sig => some (createSignalStringRectangle sig)
  | .pulse sig => some (createSignalStringPulse sig)
  | .riseFall sig => some (createSignalStringRiseFall sig)
  | .sinDamp sig => some (createSignalStringSinDamp sig)
  | .sinRise sig => some (createSignalStringSinRise sig)
  | .wavSin sig => some (createSignalStringWavSin sig)
  | .amSin sig => some (createSignalStringAmSin sig)
  | .sinDampSin sig => some (createSignalStringSinDampSin sig)
  | .trapDampSin sig => some (createSignalStringTrapDampSin sig)
  | .noise sig => some (createSignalStringNoise sig)
  | .smc _ => none

/-! ## The SMC record -/

/-- The table `Smc::DATA_TYPE_FILE_STRINGS`: the labels of the data types
0 to 6, in the order of their keys. -/
def DATA_TYPE_FILE_STRINGS : List Str :=
  [ "0 UNKNOWN".toList,
    "1 UNCORRECTED ACCELEROGRAM".toList,
    "2 CORRECTED ACCELEROGRAM".toList,
    "3 VELOCITY".toList,
    "4 DISPLACEMENT".toList,
    "5 RESPONSE SPECTRA".toList,
    "6 FOURIER AMPLITUDE SPECTRA OF CORRECTED ACCELERATION".toList ]

/-- The table `Smc::SENSOR_TYPE_NAMES`. -/
def SENSOR_TYPE_NAMES : List (Int × Str) :=
  [ (2, "Sprengnether SA-3000 3-component fba".toList),
    (30, "Kinemetrics FBA-13 3-component fba".toList),
    (31, "Kinemetrics FBA-11 1-component fba".toList),
    (101, "SMA-1".toList),
    (102, "C&GS Standard".toList),
    (103, "AR-240".toList),
    (104, "RFT-250".toList),
    (105, "RFT-350".toList),
    (106, "MO-2".toList),
    (107, "RMT-280".toList),
    (108, "SMA-2/3".toList),
    (109, "DSA-1/DSA-3".toList),
    (110, "DCA-300".toList),
    (111, "DCA-333".toList),
    (112, "A-700".toList),
    (113, "SSA-1".toList),
    (114, "CRA-1".toList),
    (115, "MO-2".toList),
    (116, "FBA-3".toList),
    (117, "SMA-2".toList),
    (118, "DCA-310".toList),
    (119, "FBA-13".toList),
    (120, "SSA-2".toList),
    (121, "SSR-1".toList),
    (122, "BIDRA".toList),
    (123, "CR-1".toList),
    (124, "PDR-1".toList),
    (125, "Kinemetrics FBA-23".toList),
    (126, "Kinemetrics Episensor".toList),
    (127, "Kinemetrics FBA-4g".toList),
    (128, "Kinemetrics FBA-2g".toList),
    (129, "Kinemetrics FBA-1g".toList),
    (130, "Kinemetrics FBA-0.5g".toList),
    (131, "Kinemetrics FBA-0.25g".toList),
    (132, "Kinemetrics FBA-0.1g".toList),
    (133, "WR1".toList),
    (134, "S6000".toList),
    (135, "Mark Products L22".toList),
    (136, "Products L4C".toList),
    (137, "CMG3".toList),
    (138, "CMG3T".toList),
    (139, "CMG40T".toList),
    (140, "CMG5".toList),
    (141, "KS-2000".toList),
    (900, "custom instrument".toList),
    (1302, "Reftek Model 130-ANSS/02".toList) ]

/-- The table `Smc::STRUCTURE_TYPE_NAMES`, keyed by the structure types 0
to 4. -/
def STRUCTURE_TYPE_NAMES : List (Nat × Str) :=
  [ (0, "not a structure".toList),
    (1, "building".toList),
    (2, "bridge".toList),
    (3, "dam".toList),
    (4, "other".toList) ]

/-- The type `Smc::StructureBuilding`. -/
structure StructureBuilding where
  nrFloorsAboveGrade : Int
  nrStoriesBelowGrade : Int
  floorNrWhereLocated : Int
  deriving DecidableEq

/-- The type `Smc::StructureBridge`; `whereLocated` holds the value of the
enumeration `BridgeLocation`. -/
structure StructureBridge where
  nrSpans : Int
  whereLocated : Nat
  deriving DecidableEq

/-- The type `Smc::StructureDam`, both members holding the values of their
enumerations. -/
structure StructureDam where
  location : Nat
  constructionType : Nat
  deriving DecidableEq

/-- The type `Smc::Epicenter`. -/
structure Epicenter where
  latitude : Dbl
  longitude : Dbl
  depthKm : Dbl
  deriving DecidableEq

/-- The type `Smc::EarthquakeMagnitude`. -/
structure EarthquakeMagnitude where
  momentMagnitude : Dbl
  surfaceWaveMagnitude : Dbl
  localMagnitude : Dbl
  other : Dbl
  deriving DecidableEq

/-- The type `Smc::Station`. -/
structure Station where
  latitude : Dbl
  longitude : Dbl
  elevationMeters : Dbl
  offsetNorthMeters : Dbl
  offsetEastMeters : Dbl
  offsetUpMeters : Dbl
  deriving DecidableEq

/-- The type `Smc::TimeAccelerationPair`. -/
structure TimeAccelerationPair where
  time : Dbl
  accelerationMs2 : Dbl
  deriving DecidableEq

/-- The class `Smc`: the two format flags, the data type of the file, the
members of the integer header (`int16_t` as `Int`, `uint16_t` and the
enumerations as `Nat`), those of the real header, and the data.  The text
members that hold the fields of the text header for the display (station
code, date, names, magnitudes as text) are left out: nothing reads them
back. -/
structure Smc where
  mSmcFormatOk : Bool
  mSmcTypeAccelerogram : Bool
  mTextDataTypeFile : Nat
  mNoValueInteger : Int
  mVerticalOrientation : Int
  mHorizontalOrientation : Int
  mSensorTypeCode : Int
  mSensorTypeStr : Str
  mHeaderCommentLinesCount : Int
  mDataValuesCount : Int
  mDataLinesCount : Nat
  mStructureType : Nat
  mStructureTypeName : Str
  mStructureBuilding : StructureBuilding
  mStructureBridge : StructureBridge
  mStructureDam : StructureDam
  mStationNr : Int
  mFirstRecordedSampleIndex : Int
  mLastRecordedSampleIndex : Int
  mNoValueReal : Dbl
  mSamplingRate : Dbl
  mEpicenter : Epicenter
  mEarthquakeMagnitude : EarthquakeMagnitude
  mSeismicMomentNm : Dbl
  mStation : Station
  mEpicentralDistanceKm : Dbl
  mEpicenterToStationAzimuth : Dbl
  mDigitizationUnitsPerCm : Dbl
  mSensorCutoffFrequency : Dbl
  mSensorDampingCoefficient : Dbl
  mRecorderSensitivityCmG : Dbl
  mMaximumFromRecord : TimeAccelerationPair
  mMinimumFromRecord : TimeAccelerationPair
  mDataVector : List Dbl
  mDataValuesRecordedCount : Int
  mDataLengthSeconds : Dbl
  deriving DecidableEq

/-- The constructor `Smc::Smc()`. -/
def Smc.init : Smc :=
  { mSmcFormatOk := true
    mSmcTypeAccelerogram := true
    mTextDataTypeFile := 0
    mNoValueInteger := -32768
    mVerticalOrientation := 0
    mHorizontalOrientation := 0
    mSensorTypeCode := 0
    mSensorTypeStr := []
    mHeaderCommentLinesCount := 0
    mDataValuesCount := 0
    mDataLinesCount := 0
    mStructureType := 0
    mStructureTypeName := []
    mStructureBuilding := { nrFloorsAboveGrade := 0, nrStoriesBelowGrade := 0, floorNrWhereLocated := 0 }
    mStructureBridge := { nrSpans := 0, whereLocated := 0 }
    mStructureDam := { location := 0, constructionType := 0 }
    mStationNr := 0
    mFirstRecordedSampleIndex := 0
    mLastRecordedSampleIndex := 0
    mNoValueReal := Dbl.noValue
    mSamplingRate := Dbl.zero
    mEpicenter := { latitude := Dbl.zero, longitude := Dbl.zero, depthKm := Dbl.zero }
    mEarthquakeMagnitude :=
      { momentMagnitude := Dbl.zero, surfaceWaveMagnitude := Dbl.zero,
        localMagnitude := Dbl.zero, other := Dbl.zero }
    mSeismicMomentNm := Dbl.zero
    mStation :=
      { latitude := Dbl.zero, longitude := Dbl.zero, elevationMeters := Dbl.zero,
        offsetNorthMeters := Dbl.zero, offsetEastMeters := Dbl.zero, offsetUpMeters := Dbl.zero }
    mEpicentralDistanceKm := Dbl.zero
    mEpicenterToStationAzimuth := Dbl.zero
    mDigitizationUnitsPerCm := Dbl.zero
    mSensorCutoffFrequency := Dbl.zero
    mSensorDampingCoefficient := Dbl.zero
    mRecorderSensitivityCmG := Dbl.zero
    mMaximumFromRecord := { time := Dbl.zero, accelerationMs2 := Dbl.zero }
    mMinimumFromRecord := { time := Dbl.zero, accelerationMs2 := Dbl.zero }
    mDataVector := []
    mDataValuesRecordedCount := 0
    mDataLengthSeconds := Dbl.zero }

/-! ## The window state and the list model -/

/-- The message boxes that the catalog slots show. -/
inductive Message where
  /-- "Please save the current signal first." -/
  | saveFirst
  /-- "Please stop generating the current signal first." -/
  | stopFirst
  /-- "The selected file does not contain any valid signal." -/
  | noValidSignal
  /-- "Could not open file ..." -/
  | couldNotOpen (fileName : Str)
  /-- "The list of signal items is now empty" -/
  | listEmpty
  /-- "Current file has no SMC header." -/
  | noSmcHeader
  /-- "Current file is not an accelerogram in SMC format." -/
  | notAccelerogram
  /-- "No valid data length found in SMC file." -/
  | noValidDataLength
  /-- "No data values specified in SMC file." -/
  | noDataValues
  /-- "Invalid sampling rate value found in SMC file." -/
  | invalidSamplingRate
  /-- "No data sampling rate found in SMC file." -/
  | noSamplingRate
  /-- "Expected data length was `expected` , it is `actual`." -/
  | expectedDataLength (expected : Int) (actual : Nat)
  /-- "SMC file format is wrong at line `crtLineNr`." -/
  | wrongFormatAtLine (crtLineNr : Int)
  deriving DecidableEq

/-- The members of the window object `SignalGenerator` that the catalog
slots use.  The `SignalItem` objects created with `new` live in `heap`, a
pointer is a position in it (objects are never deleted), `mSignalsVector`
holds pointers, `mEditedSignal` is a pointer or null.  `mSignalsList` holds
the rows of `mSignalsListModel`, `tabIndex` the current tab of
`SignalTypesTab`, `mSmc` the record of the SMC file read last, and `messages`
the message boxes shown so far. -/
structure State where
  mSignalUndefined : Bool
  mSignalReady : Bool
  mSignalStarted : Bool
  mSignalPaused : Bool
  mSignalIsSmc : Bool
  mCurrentSignalType : Int
  tabIndex : Int
  mSignalTriangle : SignalTriangle
  mSignalRectangle : SignalRectangle
  mSignalPulse : SignalPulse
  mSignalRiseFall : SignalRiseFall
  mSignalSinDamp : SignalSinDamp
  mSignalSinRise : SignalSinRise
  mSignalWavSin : SignalWavSin
  mSignalAmSin : SignalAmSin
  mSignalSinDampSin : SignalSinDampSin
  mSignalTrapDampSin : SignalTrapDampSin
  mSignalNoise : SignalNoise
  heap : List SignalItem
  mSignalsVector : List Nat
  mSignalsList : List Str
  mEditedSignal : Option Nat
  mIsSignalEdited : Bool
  mSmc : Smc
  messages : List Message

/-- The object a pointer addresses. -/
def State.deref (st : State) (p : Nat) : Option SignalItem := st.heap[p]?

/-- The catalog: the items that the pointers of `mSignalsVector` address,
in the order of the vector. -/
def State.catalog (st : State) : List SignalItem :=
  st.mSignalsVector.filterMap st.deref

/-- Every pointer of `mSignalsVector` addresses an object of the heap. -/
def State.wf (st : State) : Prop :=
  ∀ p ∈ st.mSignalsVector, p < st.heap.length

instance (st : State) : Decidable st.wf :=
  inferInstanceAs (Decidable (∀ p ∈ st.mSignalsVector, p < st.heap.length))

/-- Shows a message box. -/
def State.show (st : State) (m : Message) : State :=
  { st with messages := st.messages ++ [m] }

/-- The operator `new SignalItem( sig )`: the object is added to the heap,
its position is the pointer. -/
def State.new (st : State) (item : SignalItem) : State × Nat :=
  ({ st with heap := st.heap ++ [item] }, st.heap.length)

/-- The call `QStringListModel::insertRow( row )`: an empty row, when `row`
is a position of the list or its end. -/
def insertRow (rows : List Str) (row : Int) : List Str :=
  if 0 ≤ row ∧ row ≤ rows.length then
    rows.take row.toNat ++ [[]] ++ rows.drop row.toNat
  else rows

/-- The calls `index( row )` and `setData( index, value )` of the list
model: nothing happens when the row does not exist. -/
def setData (rows : List Str) (row : Int) (value : Str) : List Str :=
  if 0 ≤ row ∧ row < rows.length then rows.set row.toNat value else rows

/-- The call `QStringListModel::removeRows( row, count )`: refused as a
whole when the rows do not all exist. -/
def removeRows (rows : List Str) (row count : Int) : List Str :=
  if count ≤ 0 ∨ row < 0 ∨ (rows.length : Int) < row + count then rows
  else rows.take row.toNat ++ rows.drop (row + count).toNat

/-- The call `removeRow( row )`. -/
def removeRow (rows : List Str) (row : Int) : List Str := removeRows rows row 1

/-- The access `mSignalsVector.at( crtRow )` with an `int` index. -/
def vectorAt (v : List Nat) (crtRow : Int) : Except Fault Nat :=
  if 0 ≤ crtRow then
    match v[crtRow.toNat]? with
    | some p => .ok p
    | none => .error .outOfRange
  else .error .outOfRange

/-- The slot `handleSignalTypeChanged`: the current signal type follows the
current tab (tab `i` is the tab of the type `SIGNAL_TYPE_FIRST + i`, as
`createTabSignalsMap` names them), and an edit in progress is cancelled. -/
def handleSignalTypeChanged (st : State) : State :=
  let st :=
    if 0 ≤ st.tabIndex ∧ st.tabIndex < 12 then
      { st with mCurrentSignalType := SignalType.SIGNAL_TYPE_TRIANGLE.toInt + st.tabIndex }
    else st
  if st.mIsSignalEdited then
    { st with mEditedSignal := none, mIsSignalEdited := false }
  else st

/-- The call `SignalTypesTab->setCurrentIndex( crtTab )`: when the tab
exists and is not the current one it becomes current, and the signal
`currentChanged` runs `handleSignalTypeChanged`. -/
def setCurrentTab (st : State) (crtTab : Int) : State :=
  if 0 ≤ crtTab ∧ crtTab < 12 ∧ crtTab ≠ st.tabIndex then
    handleSignalTypeChanged { st with tabIndex := crtTab }
  else st

/-- The state that the constructor leaves: no signal, nothing edited, the
Triangle tab current.  The form members have no initial value in the
constructor; `form` stands for their content. -/
def State.initial
    (formTriangle : SignalTriangle)
    (formRectangle : SignalRectangle)
    (formPulse : SignalPulse)
    (formRiseFall : SignalRiseFall)
    (formSinDamp : SignalSinDamp)
    (formSinRise : SignalSinRise)
    (formWavSin : SignalWavSin)
    (formAmSin : SignalAmSin)
    (formSinDampSin : SignalSinDampSin)
    (formTrapDampSin : SignalTrapDampSin)
    (formNoise : SignalNoise)
    : State :=
  { mSignalUndefined := true
    mSignalReady := false
    mSignalStarted := false
    mSignalPaused := false
    mSignalIsSmc := false
    mCurrentSignalType := SignalType.SIGNAL_TYPE_TRIANGLE.toInt
    tabIndex := 0
    mSignalTriangle := formTriangle
    mSignalRectangle := formRectangle
    mSignalPulse := formPulse
    mSignalRiseFall := formRiseFall
    mSignalSinDamp := formSinDamp
    mSignalSinRise := formSinRise
    mSignalWavSin := formWavSin
    mSignalAmSin := formAmSin
    mSignalSinDampSin := formSinDampSin
    mSignalTrapDampSin := formTrapDampSin
    mSignalNoise := formNoise
    heap := []
    mSignalsVector := []
    mSignalsList := []
    mEditedSignal := none
    mIsSignalEdited := false
    mSmc := Smc.init
    messages := [] }

/-- The item that `new SignalItem( mSignal<Type> )` builds from the form
member of the given type; none for the SMC type and for a value that names
no parametric type. -/
def State.formItem (st : State) : SignalType → Option SignalItem
  | .SIGNAL_TYPE_TRIANGLE => some (.triangle st.mSignalTriangle)
  | .SIGNAL_TYPE_RECTANGLE => some (.rectangle st.mSignalRectangle)
  | .SIGNAL_TYPE_PULSE => some (.pulse st.mSignalPulse)
  | .SIGNAL_TYPE_RISEFALL => some (.riseFall st.mSignalRiseFall)
  | .SIGNAL_TYPE_SINDAMP => some (.sinDamp st.mSignalSinDamp)
  | .SIGNAL_TYPE_SINRISE => some (.sinRise st.mSignalSinRise)
  | .SIGNAL_TYPE_WAVSIN => some (.wavSin st.mSignalWavSin)
  | .SIGNAL_TYPE_AMSIN => some (.amSin st.mSignalAmSin)
  | .SIGNAL_TYPE_SINDAMPSIN => some (.sinDampSin st.mSignalSinDampSin)
  | .SIGNAL_TYPE_TRAPDAMPSIN => some (.trapDampSin st.mSignalTrapDampSin)
  | .SIGNAL_TYPE_NOISE => some (.noise st.mSignalNoise)
  | .SIGNAL_TYPE_SMC => none
  | .SIGNAL_TYPE_INVALID => none

/-! ## The catalog slots -/

/-- The data of an edited item copied into the form member of its type
(the `memcpy` calls of `handleEditSignal`); nothing for the SMC variant. -/
def State.fillForm (st : State) : SignalItem → State
  | .triangle sig => { st with mSignalTriangle := sig }
  | .rectangle sig => { st with mSignalRectangle := sig }
  | .pulse sig => { st with mSignalPulse := sig }
  | .riseFall sig => { st with mSignalRiseFall := sig }
  | .sinDamp sig => { st with mSignalSinDamp := sig }
  | .sinRise sig => { st with mSignalSinRise := sig }
  | .wavSin sig => { st with mSignalWavSin := sig }
  | .amSin sig => { st with mSignalAmSin := sig }
  | .sinDampSin sig => { st with mSignalSinDampSin := sig }
  | .trapDampSin sig => { st with mSignalTrapDampSin := sig }
  | .noise sig => { st with mSignalNoise := sig }
  | .smc _ => st

/-- The slot `handleEditSignal`, with the current row of the list view as
`crtRow`: the item of that row becomes the edited item, its tab is made
current, its data are copied into the form and the edit begins. -/
def handleEditSignal (st : State) (crtRow : Int) : Except Fault State :=
  match vectorAt st.mSignalsVector crtRow with
  | .error fault => .error fault
  | .ok p =>
    let st := { st with mEditedSignal := some p }
    match st.deref p with
    | none => .error .undefinedBehaviour
    | some item =>
      let sigType := item.getType
      let crtTab := sigType.toInt - SignalType.SIGNAL_TYPE_TRIANGLE.toInt
      let st := setCurrentTab st crtTab
      match st.mEditedSignal, sigType with
      | _, .SIGNAL_TYPE_SMC => .ok { st with mIsSignalEdited := true }
      | none, _ => .error .undefinedBehaviour
      | some q, _ =>
        match st.deref q with
        | none => .error .undefinedBehaviour
        | some edited => .ok { (st.fillForm edited) with mIsSignalEdited := true }

/-- The add branch of `handleAddReplaceSignal`: a row is appended to the
list model; for a parametric current type a new item is built from the
form, pushed on the vector, and its line text is written to the new row. -/
def addSignal (st : State) : State :=
  let row : Int := st.mSignalsList.length
  let st := { st with mSignalsList := insertRow st.mSignalsList row }
  let sigType := SignalType.ofInt st.mCurrentSignalType
  match st.formItem sigType with
  | none => st
  | some item =>
    let (st, crtSignal) := st.new item
    let st := { st with mSignalsVector := st.mSignalsVector ++ [crtSignal] }
    let st :=
      match item.lineString? with
      | some lineString => { st with mSignalsList := setData st.mSignalsList row lineString }
      | none => st
    { st with mSignalUndefined := false, mSignalReady := false }

/-- The replace branch of `handleAddReplaceSignal`: the edited object is
overwritten with an item built from the form member of its own type (the
SMC variant is left alone), the row text is rewritten, and the pointer is
stored in the vector at the current row. -/
def replaceSignal (st : State) (crtRow : Int) : Except Fault State :=
  match st.mEditedSignal with
  | none => .ok st
  | some p =>
    match st.deref p with
    | none => .error .undefinedBehaviour
    | some edited =>
      let sigType := edited.getType
      let st :=
        match st.formItem sigType with
        | some item =>
          { st with
            heap := st.heap.set p item
            mSignalsList :=
              match item.lineString? with
              | some lineString => setData st.mSignalsList crtRow lineString
              | none => st.mSignalsList }
        | none => st
      if 0 ≤ crtRow ∧ crtRow.toNat < st.mSignalsVector.length then
        .ok { st with
              mSignalsVector := st.mSignalsVector.set crtRow.toNat p
              mEditedSignal := none
              mIsSignalEdited := false
              mSignalReady := false }
      else .error .outOfRange

/-- The slot `handleAddReplaceSignal`, with the current row of the list
view as `crtRow`. -/
def handleAddReplaceSignal (st : State) (crtRow : Int) : Except Fault State :=
  if !st.mIsSignalEdited then .ok (addSignal st) else replaceSignal st crtRow

/-- The line that `handleSaveSignal` writes for the object behind a
pointer: the encoded item and a newline for a parametric item, nothing
otherwise. -/
def State.savedLine (st : State) (p : Nat) : Str :=
  match st.deref p with
  | some item =>
    match item.lineString? with
    | some lineString => lineString ++ ['\n']
    | none => []
  | none => []

/-- The text that the loop of `handleSaveSignal` sends to the output file,
item after item. -/
def State.savedText (st : State) : Str :=
  st.mSignalsVector.foldl (fun text p => text ++ st.savedLine p) []

/-- The slot `handleSaveSignal`: `fileName` is the name chosen in the file
dialog and `isOpen` tells whether the output file could be opened.  The
result is the new state and the text written to the file, if any. -/
def handleSaveSignal (st : State) (fileName : Str) (isOpen : Bool) :
    State × Option Str :=
  if isOpen then ({ st with mSignalReady := true }, some st.savedText)
  else if fileName.length ≠ 0 then (st.show (.couldNotOpen fileName), none)
  else (st, none)

/-- The slot `handleRemoveSignal`, with the current row of the list view as
`crtRow`: the row leaves the list model and the pointer at that position
leaves the vector. -/
def handleRemoveSignal (st : State) (crtRow : Int) : Except Fault State :=
  let st := { st with mSignalsList := removeRow st.mSignalsList crtRow }
  if 0 ≤ crtRow ∧ crtRow.toNat < st.mSignalsVector.length then
    let st := { st with mSignalsVector := st.mSignalsVector.eraseIdx crtRow.toNat }
    let st := { st with mSignalUndefined := st.mSignalsVector.isEmpty }
    .ok (if st.mSignalUndefined then st.show .listEmpty else st)
  else .error .undefinedBehaviour

/-- The slot `handleSignalNew`. -/
def handleSignalNew (st : State) : State :=
  if !st.mSignalUndefined && st.mSignalStarted then st.show .stopFirst
  else
    let st := { st with
      mSignalUndefined := false
      mSignalReady := false
      mSignalStarted := false
      mSignalPaused := false
      mSignalIsSmc := false
      mIsSignalEdited := false
      mCurrentSignalType := SignalType.SIGNAL_TYPE_TRIANGLE.toInt }
    let st := setCurrentTab st 0
    let st := handleSignalTypeChanged st
    { st with
      mSignalsList := removeRows st.mSignalsList 0 st.mSignalsVector.length
      mSignalsVector := [] }

/-- One round of the line loop of `handleSignalOpen`: when the line gives an
item, the item is pushed on the vector and its line text becomes a new row
of the list model; otherwise nothing changes. -/
def openLine (st : State) (currentLine : Str) : State :=
  match decodeLine currentLine with
  | some (item, lineString) =>
    let (st, crtSignal) := st.new item
    let st := { st with mSignalsVector := st.mSignalsVector ++ [crtSignal] }
    let row : Int := st.mSignalsList.length
    { st with mSignalsList := setData (insertRow st.mSignalsList row) row lineString }
  | none => st

/-- The part of `handleSignalOpen` that runs when neither guard refuses
the request: the state is reset and the catalog cleared, then `file` is what
the chosen file holds, line by line (`none` when it cannot be opened, and
then `fileName` decides about the message). -/
def openSignalFile (st : State) (fileName : Str) (file : Option (List Str)) : State :=
  let st := { st with
    mSignalUndefined := true
    mSignalReady := false
    mSignalStarted := false
    mSignalPaused := false
    mSignalIsSmc := false
    mIsSignalEdited := false }
  let st := { st with
    mSignalsList := removeRows st.mSignalsList 0 st.mSignalsVector.length
    mSignalsVector := [] }
  match file with
  | some lines =>
    let st := lines.foldl openLine st
    if st.mSignalsVector.length ≠ 0 then
      { st with mSignalUndefined := false, mSignalReady := true, mSignalIsSmc := false }
    else st.show .noValidSignal
  | none =>
    if fileName.length ≠ 0 then st.show (.couldNotOpen fileName) else st

/-- The slot `handleSignalOpen`: refused with a message while a signal is
defined and not saved, or defined and being generated. -/
def handleSignalOpen (st : State) (fileName : Str) (file : Option (List Str)) : State :=
  if !st.mSignalUndefined && !st.mSignalReady then st.show .saveFirst
  else if !st.mSignalUndefined && st.mSignalStarted then st.show .stopFirst
  else openSignalFile st fileName file

/-! ## The SMC import -/

/-- The constant `Smc::LAST_TEXT_LINE_NR`. -/
def LAST_TEXT_LINE_NR : Int := 11

/-- The constant `Smc::LAST_INT_LINE_NR`. -/
def LAST_INT_LINE_NR : Int := 17

/-- The constant `Smc::LAST_REAL_LINE_NR`. -/
def LAST_REAL_LINE_NR : Int := 27

/-- The constant `Smc::HEADER_INT_VALUE_LENGTH`. -/
def HEADER_INT_VALUE_LENGTH : Nat := 10

/-- The constant `Smc::HEADER_REAL_VALUE_LENGTH`. -/
def HEADER_REAL_VALUE_LENGTH : Nat := 15

/-- The constant `Smc::DATA_VALUES_PER_LINE`. -/
def DATA_VALUES_PER_LINE : Nat := 8

/-- The constant `Smc::DATA_VALUE_LENGTH`. -/
def DATA_VALUE_LENGTH : Nat := 10

/-- The constant `Smc::STRUCTURE_TYPE_MAX_KNOWN`. -/
def STRUCTURE_TYPE_MAX_KNOWN : Nat := 4

/-- The value `Smc::INT_FIELD_UNDEFINED_VALUE` of the enumeration `IntField`. -/
def INT_FIELD_UNDEFINED_VALUE : Nat := 0

/-- The value `Smc::INT_FIELD_VERTICAL_ORIENTATION_FROM_UP`. -/
def INT_FIELD_VERTICAL_ORIENTATION_FROM_UP : Nat := 12

/-- The value `Smc::INT_FIELD_HORIZONTAL_ORIENTATION_FROM_NORTH_TO_EAST`. -/
def INT_FIELD_HORIZONTAL_ORIENTATION_FROM_NORTH_TO_EAST : Nat := 13

/-- The value `Smc::INT_FIELD_SENSOR_TYPE_CODE`. -/
def INT_FIELD_SENSOR_TYPE_CODE : Nat := 14

/-- The value `Smc::INT_FIELD_NR_OF_COMMENT_LINES`. -/
def INT_FIELD_NR_OF_COMMENT_LINES : Nat := 15

/-- The value `Smc::INT_FIELD_NR_OF_VALUES`. -/
def INT_FIELD_NR_OF_VALUES : Nat := 16

/-- The value `Smc::INT_FIELD_STRUCTURE_TYPE`. -/
def INT_FIELD_STRUCTURE_TYPE : Nat := 18

/-- The value `Smc::INT_FIELD_TOTAL_NR_OF_FLOORS_ABOVE_GRADE`. -/
def INT_FIELD_TOTAL_NR_OF_FLOORS_ABOVE_GRADE : Nat := 22

/-- The value `Smc::INT_FIELD_TOTAL_NR_OF_STORIES_BELOW_GRADE`. -/
def INT_FIELD_TOTAL_NR_OF_STORIES_BELOW_GRADE : Nat := 23

/-- The value `Smc::INT_FIELD_FLOOR_NR`. -/
def INT_FIELD_FLOOR_NR : Nat := 24

/-- The value `Smc::INT_FIELD_NR_OF_SPANS`. -/
def INT_FIELD_NR_OF_SPANS : Nat := 25

/-- The value `Smc::INT_FIELD_TRANSDUCER_LOCATION_BRIDGES`. -/
def INT_FIELD_TRANSDUCER_LOCATION_BRIDGES : Nat := 26

/-- The value `Smc::INT_FIELD_TRANSDUCER_LOCATION_DAMS`. -/
def INT_FIELD_TRANSDUCER_LOCATION_DAMS : Nat := 27

/-- The value `Smc::INT_FIELD_CONSTRUCTION_TYPE`. -/
def INT_FIELD_CONSTRUCTION_TYPE : Nat := 28

/-- The value `Smc::INT_FIELD_STATION_NR`. -/
def INT_FIELD_STATION_NR : Nat := 29

/-- The value `Smc::INT_FIELD_FIRST_RECORDED_SAMPLE`. -/
def INT_FIELD_FIRST_RECORDED_SAMPLE : Nat := 30

/-- The value `Smc::INT_FIELD_LAST_RECORDED_SAMPLE`. -/
def INT_FIELD_LAST_RECORDED_SAMPLE : Nat := 31

/-- The value `Smc::REAL_FIELD_UNDEFINED_VALUE` of the enumeration `RealField`. -/
def REAL_FIELD_UNDEFINED_VALUE : Nat := 0

/-- The value `Smc::REAL_FIELD_SAMPLING_RATE`. -/
def REAL_FIELD_SAMPLING_RATE : Nat := 1

/-- The value `Smc::REAL_FIELD_EARTHQUAKE_LATITUDE`. -/
def REAL_FIELD_EARTHQUAKE_LATITUDE : Nat := 2

/-- The value `Smc::REAL_FIELD_EARTHQUAKE_LONGITUDE`. -/
def REAL_FIELD_EARTHQUAKE_LONGITUDE : Nat := 3

/-- The value `Smc::REAL_FIELD_EARTHQUAKE_DEPTH_KM`. -/
def REAL_FIELD_EARTHQUAKE_DEPTH_KM : Nat := 4

/-- The value `Smc::REAL_FIELD_SOURCE_MOMENT_MAGNITUDE`. -/
def REAL_FIELD_SOURCE_MOMENT_MAGNITUDE : Nat := 5

/-- The value `Smc::REAL_FIELD_SOURCE_SURFACE_WAVE_MAGNITUDE`. -/
def REAL_FIELD_SOURCE_SURFACE_WAVE_MAGNITUDE : Nat := 6

/-- The value `Smc::REAL_FIELD_SOURCE_LOCAL_MAGNITUDE`. -/
def REAL_FIELD_SOURCE_LOCAL_MAGNITUDE : Nat := 7

/-- The value `Smc::REAL_FIELD_SOURCE_OTHER`. -/
def REAL_FIELD_SOURCE_OTHER : Nat := 8

/-- The value `Smc::REAL_FIELD_SEISMIC_MOMENT_DYNE_CM`. -/
def REAL_FIELD_SEISMIC_MOMENT_DYNE_CM : Nat := 9

/-- The value `Smc::REAL_FIELD_STATION_LATITUDE`. -/
def REAL_FIELD_STATION_LATITUDE : Nat := 10

/-- The value `Smc::REAL_FIELD_STATION_LONGITUDE`. -/
def REAL_FIELD_STATION_LONGITUDE : Nat := 11

/-- The value `Smc::REAL_FIELD_STATION_ELEVATION_M`. -/
def REAL_FIELD_STATION_ELEVATION_M : Nat := 12

/-- The value `Smc::REAL_FIELD_STATION_OFFSET_N_M`. -/
def REAL_FIELD_STATION_OFFSET_N_M : Nat := 13

/-- The value `Smc::REAL_FIELD_STATION_OFFSET_E_M`. -/
def REAL_FIELD_STATION_OFFSET_E_M : Nat := 14

/-- The value `Smc::REAL_FIELD_STATION_OFFSET_UP_M`. -/
def REAL_FIELD_STATION_OFFSET_UP_M : Nat := 15

/-- The value `Smc::REAL_FIELD_EPICENTRAL_DISTANCE_KM`. -/
def REAL_FIELD_EPICENTRAL_DISTANCE_KM : Nat := 16

/-- The value `Smc::REAL_FIELD_EPICENTER_TO_STATION_AZIMUTH`. -/
def REAL_FIELD_EPICENTER_TO_STATION_AZIMUTH : Nat := 17

/-- The value `Smc::REAL_FIELD_DIGITIZATION_UNITS_1_CM`. -/
def REAL_FIELD_DIGITIZATION_UNITS_1_CM : Nat := 18

/-- The value `Smc::REAL_FIELD_SENSOR_CUTOFF_FREQUENCY_HZ`. -/
def REAL_FIELD_SENSOR_CUTOFF_FREQUENCY_HZ : Nat := 21

/-- The value `Smc::REAL_FIELD_SENSOR_DAMPING_COEFFICIENT`. -/
def REAL_FIELD_SENSOR_DAMPING_COEFFICIENT : Nat := 22

/-- The value `Smc::REAL_FIELD_RECORDER_SENSITIVITY_CM_G`. -/
def REAL_FIELD_RECORDER_SENSITIVITY_CM_G : Nat := 23

/-- The value `Smc::REAL_FIELD_TIME_OF_MAXIMUM_S`. -/
def REAL_FIELD_TIME_OF_MAXIMUM_S : Nat := 28

/-- The value `Smc::REAL_FIELD_VALUE_OF_MAXIMUM_CM_S2`. -/
def REAL_FIELD_VALUE_OF_MAXIMUM_CM_S2 : Nat := 29

/-- The value `Smc::REAL_FIELD_TIME_OF_MINIMUM_S`. -/
def REAL_FIELD_TIME_OF_MINIMUM_S : Nat := 30

/-- The value `Smc::REAL_FIELD_VALUE_OF_MINIMUM_CM_S2`. -/
def REAL_FIELD_VALUE_OF_MINIMUM_CM_S2 : Nat := 31

/-- The function `checkValidInteger`, on the record it reads the sentinel
from. -/
def checkValidInteger (mSmc : Smc) (aIntValue : Int) : Bool :=
  decide (aIntValue ≠ mSmc.mNoValueInteger)

/-- The function `checkValidReal`: the value is farther than `1.e-7` from
the sentinel of the record. -/
def checkValidReal (mSmc : Smc) (aRealValue : Dbl) : Bool :=
  Dbl.lt Dbl.tenMillionth (Dbl.abs (Dbl.sub aRealValue mSmc.mNoValueReal))

/-- The loop that cuts a line into fields of `width` characters and pushes
them on `substringsVec`, the last field being shorter when the line length
is no multiple of `width`; `rest` is the line from the position `i` on.
Every round moves `i` on, so a fuel of the line length is never
exhausted. -/
def pushFields (width : Nat) : Nat → Str → List Str → List Str
  | 0, _, substringsVec => substringsVec
  | fuel + 1, rest, substringsVec =>
    if rest.isEmpty then substringsVec
    else pushFields width fuel (rest.drop width) (substringsVec ++ [rest.take width])

/-- The fields of `width` characters of a line, pushed on `substringsVec`. -/
def fields (width : Nat) (currentLine : Str) (substringsVec : List Str) : List Str :=
  pushFields width currentLine.length currentLine substringsVec

/-- The loops that convert every text of `substringsVec`, the first text
that does not convert ending the slot. -/
def convertAll {α : Type} (convert : Str → Except Fault α) : List Str → Except Fault (List α)
  | [] => .ok []
  | s :: rest =>
    match convert s with
    | .error fault => .error fault
    | .ok v =>
      match convertAll convert rest with
      | .error fault => .error fault
      | .ok vs => .ok (v :: vs)

/-- The comparison of a literal with the part of the line that starts at
`pos` and has the length of the literal. -/
def literalAt (literal : Str) (currentLine : Str) (pos : Nat) : Except Fault Bool :=
  match substr currentLine pos literal.length with
  | .ok part => .ok (decide (literal = part))
  | .error fault => .error fault

/-- The operator `&&` on a value and a comparison that is only evaluated
when the value is true. -/
def andThen (a : Bool) (b : Except Fault Bool) : Except Fault Bool :=
  if a then b else .ok false

/-- The operator `||` on a value and a comparison that is only evaluated
when the value is false. -/
def orElse (a : Bool) (b : Except Fault Bool) : Except Fault Bool :=
  if a then .ok true else b

/-- One line of the text header: what the `switch` on the line number does
to the record, and the message boxes it shows.  The calls of `substr` that
only fill text members are kept, since each of them can end the slot. -/
def textLine (mSmc : Smc) (crtLineNr : Int) (currentLine : Str) :
    Except Fault (Smc × List Message) :=
  if crtLineNr = 1 then
    match DATA_TYPE_FILE_STRINGS.findIdx? (fun label => label == trimmed currentLine) with
    | none =>
      .ok ({ mSmc with mSmcFormatOk := false, mSmcTypeAccelerogram := false }, [.noSmcHeader])
    | some i =>
      let mSmc := { mSmc with mTextDataTypeFile := i }
      let mSmc := if i ≠ 1 ∧ i ≠ 2 then { mSmc with mSmcTypeAccelerogram := false } else mSmc
      if !mSmc.mSmcTypeAccelerogram then .ok (mSmc, [.notAccelerogram]) else .ok (mSmc, [])
  else if crtLineNr = 3 then .ok (mSmc, [])
  else if crtLineNr = 4 then do
    let _ ← substr currentLine 0 3
    let _ ← substr currentLine 5 4
    let _ ← substr currentLine 11 2
    let _ ← substr currentLine 15 2
    let _ ← substr currentLine 21 2
    let _ ← substr currentLine 23 2
    let _ ← substr currentLine 26 53
    pure (mSmc, [])
  else if crtLineNr = 5 then do
    let a ← literalAt "Moment Mag=".toList currentLine 0
    let b ← andThen a (literalAt "Ms=".toList currentLine 21)
    let c ← andThen b (literalAt "Ml=".toList currentLine 34)
    let mSmc := { mSmc with mSmcFormatOk := c }
    if c then do
      let _ ← substr currentLine 11 9
      let _ ← substr currentLine 24 9
      let _ ← substr currentLine 37 9
      pure (mSmc, [])
    else pure (mSmc, [])
  else if crtLineNr = 6 then do
    let a ← literalAt "station = ".toList currentLine 0
    let b ← orElse a (literalAt "Station = ".toList currentLine 0)
    let c ← andThen b (literalAt "component=".toList currentLine 41)
    let mSmc := { mSmc with mSmcFormatOk := c }
    if c then do
      let _ ← substr currentLine 10 30
      let _ ← substr currentLine 52 6
      pure (mSmc, [])
    else do
      let a ← literalAt "station = ".toList currentLine 0
      let b ← orElse a (literalAt "Station = ".toList currentLine 0)
      let c ← andThen b (literalAt "component=".toList currentLine 36)
      let mSmc := { mSmc with mSmcFormatOk := c }
      if c then do
        let _ ← substr currentLine 10 25
        let _ ← substr currentLine 47 6
        pure (mSmc, [])
      else pure (mSmc, [])
  else if crtLineNr = 7 then do
    let a ← literalAt "epicentral dist =".toList currentLine 0
    let b ← andThen a (literalAt "pk acc =".toList currentLine 33)
    let c ← andThen a (orElse b (literalAt "pk     =".toList currentLine 33))
    let mSmc := { mSmc with mSmcFormatOk := c }
    if c then do
      let _ ← substr currentLine 17 9
      let tmpStr ← substr currentLine 41 10
      match stod (trimmed tmpStr) with
      | .ok _ => pure (mSmc, [])
      | .error .invalidArgument => pure (mSmc, [])
      | .error fault => .error fault
    else pure (mSmc, [])
  else if crtLineNr = 8 then do
    let a ← literalAt "inst type=".toList currentLine 0
    let b ← andThen a (literalAt "data source =".toList currentLine 21)
    let mSmc := { mSmc with mSmcFormatOk := b }
    if b then do
      let _ ← substr currentLine 10 5
      let _ ← substr currentLine 35 45
      pure (mSmc, [])
    else pure (mSmc, [])
  else if crtLineNr = 2 ∨ crtLineNr = 9 ∨ crtLineNr = 10 ∨ crtLineNr = 11 then
    if mSmc.mSmcFormatOk then
      .ok ({ mSmc with mSmcFormatOk := decide ("*".toList = trimmed currentLine) }, [])
    else .ok (mSmc, [])
  else .ok ({ mSmc with mSmcFormatOk := false }, [])

/-- The first part of the integer header: the sentinel, the orientations,
the sensor type with its name from the table, the number of comment lines
and the number of data values. -/
def intHeaderFields (mSmc : Smc) (tmpIntVec : List Int) : Except Fault Smc := do
  let mSmc := { mSmc with mNoValueInteger := ← vecAt tmpIntVec INT_FIELD_UNDEFINED_VALUE }
  let mSmc := { mSmc with
    mVerticalOrientation := ← vecAt tmpIntVec INT_FIELD_VERTICAL_ORIENTATION_FROM_UP }
  let mSmc := { mSmc with
    mHorizontalOrientation := ← vecAt tmpIntVec INT_FIELD_HORIZONTAL_ORIENTATION_FROM_NORTH_TO_EAST }
  let mSmc := { mSmc with mSensorTypeCode := ← vecAt tmpIntVec INT_FIELD_SENSOR_TYPE_CODE }
  let mSmc ←
    if checkValidInteger mSmc mSmc.mSensorTypeCode then do
      pure { mSmc with mSensorTypeStr := ← mapAt SENSOR_TYPE_NAMES mSmc.mSensorTypeCode }
    else pure { mSmc with mSensorTypeStr := "undefined".toList }
  let mSmc := { mSmc with
    mHeaderCommentLinesCount := ← vecAt tmpIntVec INT_FIELD_NR_OF_COMMENT_LINES }
  pure { mSmc with mDataValuesCount := ← vecAt tmpIntVec INT_FIELD_NR_OF_VALUES }

/-- The value `std::ceil( static_cast<double>( v ) / divisor )` for a 16-bit
`v` and a divisor that is a power of two: the conversion, the quotient and
its ceiling are exact in binary64, so the value is the least integer that is
not below `v / divisor`. -/
def ceilOfQuotient (v : Int) (divisor : Nat) : Int := -((-v) / (divisor : Int))

/-- The conversion `static_cast<uint16_t>` of a `double` that holds the
integer `v`: defined only when `v` is a value of `uint16_t`. -/
def doubleToUInt16 (v : Int) : Except Fault Nat :=
  if 0 ≤ v ∧ v ≤ 65535 then .ok v.toNat else .error .undefinedBehaviour

/-- The part of the integer header on the data length: a number of data
values that is the sentinel, or that gives no data line, clears the format
flag and leaves the loop with a message (the `some` case); otherwise the
number of data lines is the ceiling of the number of values over
`DATA_VALUES_PER_LINE`, and the recorded count starts as the number of
values. -/
def dataLength (mSmc : Smc) : Except Fault (Smc × Option Message) :=
  if checkValidInteger mSmc mSmc.mDataValuesCount then
    let mSmc := { mSmc with mDataValuesRecordedCount := mSmc.mDataValuesCount }
    match doubleToUInt16 (ceilOfQuotient mSmc.mDataValuesCount DATA_VALUES_PER_LINE) with
    | .error fault => .error fault
    | .ok lines =>
      let mSmc := { mSmc with mDataLinesCount := lines }
      if 0 = mSmc.mDataLinesCount then
        .ok ({ mSmc with mSmcFormatOk := false }, some .noDataValues)
      else .ok (mSmc, none)
  else .ok ({ mSmc with mSmcFormatOk := false }, some .noValidDataLength)

/-- The part of the integer header on the structure: its type with the name
of a known type, the details of a building, a bridge or a dam, and then the
station number and the indices of the first and last recorded sample as the
file gives them. -/
def intHeaderStructure (mSmc : Smc) (tmpIntVec : List Int) : Except Fault Smc := do
  let mSmc := { mSmc with
    mStructureType := toUInt8 (← vecAt tmpIntVec INT_FIELD_STRUCTURE_TYPE) }
  let mSmc := { mSmc with mStructureTypeName := "unknown".toList }
  let mSmc ←
    if mSmc.mStructureType ≤ STRUCTURE_TYPE_MAX_KNOWN then do
      pure { mSmc with mStructureTypeName := ← mapAt STRUCTURE_TYPE_NAMES mSmc.mStructureType }
    else pure mSmc
  let mSmc ←
    if mSmc.mStructureType = 1 then do
      let nrFloorsAboveGrade ← vecAt tmpIntVec INT_FIELD_TOTAL_NR_OF_FLOORS_ABOVE_GRADE
      let nrStoriesBelowGrade ← vecAt tmpIntVec INT_FIELD_TOTAL_NR_OF_STORIES_BELOW_GRADE
      let floorNrWhereLocated ← vecAt tmpIntVec INT_FIELD_FLOOR_NR
      pure { mSmc with
        mStructureBuilding :=
          { nrFloorsAboveGrade := nrFloorsAboveGrade
            nrStoriesBelowGrade := nrStoriesBelowGrade
            floorNrWhereLocated := floorNrWhereLocated } }
    else if mSmc.mStructureType = 2 then do
      let nrSpans ← vecAt tmpIntVec INT_FIELD_NR_OF_SPANS
      let whereLocated ← vecAt tmpIntVec INT_FIELD_TRANSDUCER_LOCATION_BRIDGES
      pure { mSmc with
        mStructureBridge := { nrSpans := nrSpans, whereLocated := toUInt8 whereLocated } }
    else if mSmc.mStructureType = 3 then do
      let location ← vecAt tmpIntVec INT_FIELD_TRANSDUCER_LOCATION_DAMS
      let constructionType ← vecAt tmpIntVec INT_FIELD_CONSTRUCTION_TYPE
      pure { mSmc with
        mStructureDam :=
          { location := toUInt8 location, constructionType := toUInt8 constructionType } }
    else pure mSmc
  let mSmc := { mSmc with mStationNr := ← vecAt tmpIntVec INT_FIELD_STATION_NR }
  let mSmc := { mSmc with
    mFirstRecordedSampleIndex := ← vecAt tmpIntVec INT_FIELD_FIRST_RECORDED_SAMPLE }
  pure { mSmc with
    mLastRecordedSampleIndex := ← vecAt tmpIntVec INT_FIELD_LAST_RECORDED_SAMPLE }

/-- The part of the integer header on the recorded window: an index of the
first sample that is valid and lies in the data takes the samples before it
off the recorded count, any other is replaced by 1; an index of the last
sample that is valid and lies in the data takes the samples after it off the
recorded count, any other is replaced by the number of data values.  The
count is an `int16_t`, so each difference is stored modulo `2^16`. -/
def recordedWindow (mSmc : Smc) : Smc :=
  let mSmc :=
    if checkValidInteger mSmc mSmc.mFirstRecordedSampleIndex then
      if mSmc.mFirstRecordedSampleIndex ≥ 1
          ∧ mSmc.mFirstRecordedSampleIndex ≤ mSmc.mDataValuesCount then
        { mSmc with
          mDataValuesRecordedCount :=
            toInt16 (mSmc.mDataValuesRecordedCount - (mSmc.mFirstRecordedSampleIndex - 1)) }
      else { mSmc with mFirstRecordedSampleIndex := 1 }
    else { mSmc with mFirstRecordedSampleIndex := 1 }
  if checkValidInteger mSmc mSmc.mLastRecordedSampleIndex then
    if mSmc.mLastRecordedSampleIndex ≤ mSmc.mDataValuesCount
        ∧ mSmc.mLastRecordedSampleIndex ≥ 1 then
      { mSmc with
        mDataValuesRecordedCount :=
          toInt16 (mSmc.mDataValuesRecordedCount
            - (mSmc.mDataValuesCount - mSmc.mLastRecordedSampleIndex)) }
    else { mSmc with mLastRecordedSampleIndex := mSmc.mDataValuesCount }
  else { mSmc with mLastRecordedSampleIndex := mSmc.mDataValuesCount }

/-- The call `mDataVector.resize( n )` with a 16-bit `n`: a negative `n` is
a size beyond any vector and gives `std::length_error`; otherwise the vector
is cut to `n` elements or filled up with zeros. -/
def resizeDataVector (mSmc : Smc) (n : Int) : Except Fault Smc :=
  if n < 0 then .error .lengthError
  else
    .ok { mSmc with
          mDataVector :=
            mSmc.mDataVector.take n.toNat
              ++ List.replicate (n.toNat - mSmc.mDataVector.length) Dbl.zero }

/-- What the last line of the integer header does with the converted
fields `tmpIntVec`. -/
def intHeader (mSmc : Smc) (tmpIntVec : List Int) : Except Fault (Smc × List Message) :=
  match intHeaderFields mSmc tmpIntVec with
  | .error fault => .error fault
  | .ok mSmc =>
    match dataLength mSmc with
    | .error fault => .error fault
    | .ok (mSmc, some message) => .ok (mSmc, [message])
    | .ok (mSmc, none) =>
      match intHeaderStructure mSmc tmpIntVec with
      | .error fault => .error fault
      | .ok mSmc =>
        match resizeDataVector (recordedWindow mSmc)
            (recordedWindow mSmc).mDataValuesRecordedCount with
        | .error fault => .error fault
        | .ok mSmc => .ok (mSmc, [])

/-- The part of the real header on the sampling rate: the sentinel and the
rate are stored; a rate that is not valid, or not above zero, clears the
format flag and leaves the loop with a message (the `some` case); otherwise
the length of the data in seconds is the recorded count over the rate. -/
def samplingRate (mSmc : Smc) (tmpRealVec : List Dbl) : Except Fault (Smc × Option Message) :=
  match vecAt tmpRealVec REAL_FIELD_UNDEFINED_VALUE with
  | .error fault => .error fault
  | .ok noValue =>
    let mSmc := { mSmc with mNoValueReal := noValue }
    match vecAt tmpRealVec REAL_FIELD_SAMPLING_RATE with
    | .error fault => .error fault
    | .ok rate =>
      let mSmc := { mSmc with mSamplingRate := rate }
      if checkValidReal mSmc mSmc.mSamplingRate then
        if Dbl.lt Dbl.zero mSmc.mSamplingRate then
          .ok ({ mSmc with
                 mDataLengthSeconds :=
                   Dbl.div (Dbl.ofInt mSmc.mDataValuesRecordedCount) mSmc.mSamplingRate }, none)
        else .ok ({ mSmc with mSmcFormatOk := false }, some .invalidSamplingRate)
      else .ok ({ mSmc with mSmcFormatOk := false }, some .noSamplingRate)

/-- A value of the real header in SI units: a valid value is multiplied by
`factor`, any other is kept. -/
def toSi (mSmc : Smc) (value factor : Dbl) : Dbl :=
  if checkValidReal mSmc value then Dbl.mul value factor else value

/-- The rest of the real header: the fields are stored; the seismic moment
and the accelerations of the maximum and the minimum of the record are
converted when they are valid. -/
def realHeaderFields (mSmc : Smc) (tmpRealVec : List Dbl) : Except Fault Smc := do
  let latitude ← vecAt tmpRealVec REAL_FIELD_EARTHQUAKE_LATITUDE
  let longitude ← vecAt tmpRealVec REAL_FIELD_EARTHQUAKE_LONGITUDE
  let depthKm ← vecAt tmpRealVec REAL_FIELD_EARTHQUAKE_DEPTH_KM
  let mSmc := { mSmc with
    mEpicenter := { latitude := latitude, longitude := longitude, depthKm := depthKm } }
  let momentMagnitude ← vecAt tmpRealVec REAL_FIELD_SOURCE_MOMENT_MAGNITUDE
  let surfaceWaveMagnitude ← vecAt tmpRealVec REAL_FIELD_SOURCE_SURFACE_WAVE_MAGNITUDE
  let localMagnitude ← vecAt tmpRealVec REAL_FIELD_SOURCE_LOCAL_MAGNITUDE
  let other ← vecAt tmpRealVec REAL_FIELD_SOURCE_OTHER
  let mSmc := { mSmc with
    mEarthquakeMagnitude :=
      { momentMagnitude := momentMagnitude, surfaceWaveMagnitude := surfaceWaveMagnitude,
        localMagnitude := localMagnitude, other := other } }
  let seismicMoment ← vecAt tmpRealVec REAL_FIELD_SEISMIC_MOMENT_DYNE_CM
  let mSmc := { mSmc with mSeismicMomentNm := toSi mSmc seismicMoment Dbl.tenMillionth }
  let stationLatitude ← vecAt tmpRealVec REAL_FIELD_STATION_LATITUDE
  let stationLongitude ← vecAt tmpRealVec REAL_FIELD_STATION_LONGITUDE
  let elevationMeters ← vecAt tmpRealVec REAL_FIELD_STATION_ELEVATION_M
  let offsetNorthMeters ← vecAt tmpRealVec REAL_FIELD_STATION_OFFSET_N_M
  let offsetEastMeters ← vecAt tmpRealVec REAL_FIELD_STATION_OFFSET_E_M
  let offsetUpMeters ← vecAt tmpRealVec REAL_FIELD_STATION_OFFSET_UP_M
  let mSmc := { mSmc with
    mStation :=
      { latitude := stationLatitude, longitude := stationLongitude,
        elevationMeters := elevationMeters, offsetNorthMeters := offsetNorthMeters,
        offsetEastMeters := offsetEastMeters, offsetUpMeters := offsetUpMeters } }
  let mSmc := { mSmc with
    mEpicentralDistanceKm := ← vecAt tmpRealVec REAL_FIELD_EPICENTRAL_DISTANCE_KM }
  let mSmc := { mSmc with
    mEpicenterToStationAzimuth := ← vecAt tmpRealVec REAL_FIELD_EPICENTER_TO_STATION_AZIMUTH }
  let mSmc := { mSmc with
    mDigitizationUnitsPerCm := ← vecAt tmpRealVec REAL_FIELD_DIGITIZATION_UNITS_1_CM }
  let mSmc := { mSmc with
    mSensorCutoffFrequency := ← vecAt tmpRealVec REAL_FIELD_SENSOR_CUTOFF_FREQUENCY_HZ }
  let mSmc := { mSmc with
    mSensorDampingCoefficient := ← vecAt tmpRealVec REAL_FIELD_SENSOR_DAMPING_COEFFICIENT }
  let mSmc := { mSmc with
    mRecorderSensitivityCmG := ← vecAt tmpRealVec REAL_FIELD_RECORDER_SENSITIVITY_CM_G }
  let timeOfMaximum ← vecAt tmpRealVec REAL_FIELD_TIME_OF_MAXIMUM_S
  let valueOfMaximum ← vecAt tmpRealVec REAL_FIELD_VALUE_OF_MAXIMUM_CM_S2
  let mSmc := { mSmc with
    mMaximumFromRecord :=
      { time := timeOfMaximum, accelerationMs2 := toSi mSmc valueOfMaximum Dbl.hundredth } }
  let timeOfMinimum ← vecAt tmpRealVec REAL_FIELD_TIME_OF_MINIMUM_S
  let valueOfMinimum ← vecAt tmpRealVec REAL_FIELD_VALUE_OF_MINIMUM_CM_S2
  pure { mSmc with
    mMinimumFromRecord :=
      { time := timeOfMinimum, accelerationMs2 := toSi mSmc valueOfMinimum Dbl.hundredth } }

/-- What the last line of the real header does with the converted fields
`tmpRealVec`. -/
def realHeader (mSmc : Smc) (tmpRealVec : List Dbl) : Except Fault (Smc × List Message) :=
  match samplingRate mSmc tmpRealVec with
  | .error fault => .error fault
  | .ok (mSmc, some message) => .ok (mSmc, [message])
  | .ok (mSmc, none) =>
    match realHeaderFields mSmc tmpRealVec with
    | .error fault => .error fault
    | .ok mSmc => .ok (mSmc, [])

/-- The loop that copies the recorded window: as long as `i` is not beyond
`lastRecordedIndex`, the element `i` of `dataVec`, times 0.1, is stored at
the position `j` of `mDataVector`, both with `at`; `rest` holds `dataVec`
from the position `i` on. -/
def copyWindow (lastRecordedIndex : Nat) : List Dbl → Nat → Nat → List Dbl → Except Fault (List Dbl)
  | rest, i, j, mDataVector =>
    if i ≤ lastRecordedIndex then
      match rest with
      | [] => .error .outOfRange
      | value :: rest =>
        if j < mDataVector.length then
          copyWindow lastRecordedIndex rest (i + 1) (j + 1)
            (mDataVector.set j (Dbl.mul Dbl.tenth value))
        else .error .outOfRange
    else .ok mDataVector

/-- What the last data line does with the converted values `dataVec`: a
number of values other than the one the header gives ends the parse with a
message that tells both; otherwise the recorded window is copied. -/
def dataValues (mSmc : Smc) (dataVec : List Dbl) : Except Fault (Smc × List Message) :=
  if dataVec.length ≠ toSizeT mSmc.mDataValuesCount then
    .ok ({ mSmc with mSmcFormatOk := false },
         [.expectedDataLength mSmc.mDataValuesCount dataVec.length])
  else
    let firstRecordedIndex := toSizeT (mSmc.mFirstRecordedSampleIndex - 1)
    let lastRecordedIndex :=
      toSizeT ((dataVec.length : Int) - 1
        - (mSmc.mDataValuesCount - mSmc.mLastRecordedSampleIndex))
    match copyWindow lastRecordedIndex (dataVec.drop firstRecordedIndex) firstRecordedIndex 0
        mSmc.mDataVector with
    | .error fault => .error fault
    | .ok mDataVector => .ok ({ mSmc with mDataVector := mDataVector }, [])

/-- The local variables of the line loop of `handleSmcOpen` together with
the record: the fields collected so far, the number of the line read last,
and the message boxes shown in the loop. -/
structure SmcLoop where
  mSmc : Smc
  substringsVec : List Str
  crtLineNr : Int
  shown : List Message

/-- The loop state with the record and the messages that a line of a header
or of the data leaves. -/
def SmcLoop.after (ls : SmcLoop) (crtLineNr : Int) (substringsVec : List Str)
    (r : Except Fault (Smc × List Message)) : Except Fault SmcLoop :=
  match r with
  | .error fault => .error fault
  | .ok (mSmc, shown) =>
    .ok { mSmc := mSmc, substringsVec := substringsVec, crtLineNr := crtLineNr,
          shown := ls.shown ++ shown }

/-- The fields that a line of the integer header, the real header or the
data adds to `substringsVec`: the vector is cleared first when the line is
the first of its part, then the fields of `width` characters of the line
are pushed. -/
def collectFields (firstLineNr crtLineNr : Int) (width : Nat) (currentLine : Str)
    (substringsVec : List Str) : List Str :=
  fields width currentLine (if firstLineNr = crtLineNr then [] else substringsVec)

/-- One round of the line loop of `handleSmcOpen`: the line counter goes
up, and the line is handled as a line of the text header, the integer
header, the real header, the comments or the data, after its number; a line
after the data is passed over.  The fields of the integer header, the real
header and the data are collected line by line and converted at the last
line of their part. -/
def smcLine (ls : SmcLoop) (currentLine : Str) : Except Fault SmcLoop :=
  let crtLineNr := ls.crtLineNr + 1
  if crtLineNr ≤ LAST_TEXT_LINE_NR then
    ls.after crtLineNr ls.substringsVec (textLine ls.mSmc crtLineNr currentLine)
  else if crtLineNr ≤ LAST_INT_LINE_NR then
    let substringsVec :=
      collectFields (LAST_TEXT_LINE_NR + 1) crtLineNr HEADER_INT_VALUE_LENGTH currentLine
        ls.substringsVec
    if LAST_INT_LINE_NR = crtLineNr then
      match convertAll stoi substringsVec with
      | .error fault => .error fault
      | .ok values => ls.after crtLineNr substringsVec (intHeader ls.mSmc (values.map toInt16))
    else .ok { ls with substringsVec := substringsVec, crtLineNr := crtLineNr }
  else if crtLineNr ≤ LAST_REAL_LINE_NR then
    let substringsVec :=
      collectFields (LAST_INT_LINE_NR + 1) crtLineNr HEADER_REAL_VALUE_LENGTH currentLine
        ls.substringsVec
    if LAST_REAL_LINE_NR = crtLineNr then
      match convertAll stod substringsVec with
      | .error fault => .error fault
      | .ok tmpRealVec => ls.after crtLineNr substringsVec (realHeader ls.mSmc tmpRealVec)
    else .ok { ls with substringsVec := substringsVec, crtLineNr := crtLineNr }
  else if crtLineNr ≤ LAST_REAL_LINE_NR + ls.mSmc.mHeaderCommentLinesCount then
    let substringsVec := if LAST_INT_LINE_NR + 1 = crtLineNr then [] else ls.substringsVec
    .ok { ls with substringsVec := substringsVec ++ [currentLine], crtLineNr := crtLineNr }
  else if crtLineNr
      ≤ LAST_REAL_LINE_NR + ls.mSmc.mHeaderCommentLinesCount + ls.mSmc.mDataLinesCount then
    let substringsVec :=
      collectFields (LAST_REAL_LINE_NR + ls.mSmc.mHeaderCommentLinesCount + 1) crtLineNr
        DATA_VALUE_LENGTH currentLine ls.substringsVec
    if LAST_REAL_LINE_NR + ls.mSmc.mHeaderCommentLinesCount + ls.mSmc.mDataLinesCount
        = crtLineNr then
      match convertAll stod substringsVec with
      | .error fault => .error fault
      | .ok dataVec => ls.after crtLineNr substringsVec (dataValues ls.mSmc dataVec)
    else .ok { ls with substringsVec := substringsVec, crtLineNr := crtLineNr }
  else .ok { ls with crtLineNr := crtLineNr }

/-- The line loop of `handleSmcOpen`: the lines are read one after the
other as long as the format flag of the record is set. -/
def smcLoop : List Str → SmcLoop → Except Fault SmcLoop
  | [], ls => .ok ls
  | currentLine :: rest, ls =>
    if ls.mSmc.mSmcFormatOk then
      match smcLine ls currentLine with
      | .error fault => .error fault
      | .ok ls => smcLoop rest ls
    else .ok ls

/-- The loop state before the first line: the record as its constructor
leaves it, no field, no line, no message. -/
def SmcLoop.start : SmcLoop :=
  { mSmc := Smc.init, substringsVec := [], crtLineNr := 0, shown := [] }

/-- The function `createSmcSignal`: the imported item is built from the
record (the number of points, the sampling rate, the greater of the absolute
values of the two extreme accelerations, the data), the SMC type and its tab
become current, and a new object with the item is pushed on the vector.  The
call `resize( nrPoints )` on the data of the item gives `std::length_error`
for a negative number of points, as in `resizeDataVector`. -/
def createSmcSignal (st : State) : Except Fault State :=
  let sig : SignalSmc :=
    { nrPoints := st.mSmc.mDataValuesRecordedCount
      sps := st.mSmc.mSamplingRate
      maxAccelMs2 :=
        Dbl.max (Dbl.abs st.mSmc.mMaximumFromRecord.accelerationMs2)
          (Dbl.abs st.mSmc.mMinimumFromRecord.accelerationMs2)
      accelDataVec := st.mSmc.mDataVector }
  if sig.nrPoints < 0 then .error .lengthError
  else
    let st := { st with mCurrentSignalType := SignalType.SIGNAL_TYPE_SMC.toInt }
    let crtTab := st.mCurrentSignalType - SignalType.SIGNAL_TYPE_TRIANGLE.toInt
    let st := setCurrentTab st crtTab
    let st := handleSignalTypeChanged st
    let (st, smcSignal) := st.new (.smc sig)
    .ok { st with mSignalsVector := st.mSignalsVector ++ [smcSignal] }

/-- The part of `handleSmcOpen` that runs when neither guard refuses the
request: the state is reset and the vector cleared (the list model is not
touched), then `file` is what the chosen file holds, line by line (`none`
when it cannot be opened, and then `fileName` decides about the message).
When the loop leaves the format flag set, the signal is marked as defined,
ready and SMC and the imported item is created; otherwise a message tells
the number of the line read last. -/
def openSmcFile (st : State) (fileName : Str) (file : Option (List Str)) :
    Except Fault State :=
  let st := { st with
    mSignalUndefined := true
    mSignalReady := false
    mSignalStarted := false
    mSignalPaused := false
    mSignalIsSmc := false
    mIsSignalEdited := false }
  let st := { st with mSignalsVector := [] }
  match file with
  | some lines =>
    match smcLoop lines SmcLoop.start with
    | .error fault => .error fault
    | .ok ls =>
      let st := { st with mSmc := ls.mSmc, messages := st.messages ++ ls.shown }
      if st.mSmc.mSmcFormatOk then
        createSmcSignal { st with
          mSignalUndefined := false
          mSignalReady := true
          mSignalIsSmc := true }
      else .ok (st.show (.wrongFormatAtLine ls.crtLineNr))
  | none =>
    .ok (if fileName.length ≠ 0 then st.show (.couldNotOpen fileName) else st)

/-- The slot `handleSmcOpen`: refused with a message while a signal is
defined and not saved, or defined and being generated. -/
def handleSmcOpen (st : State) (fileName : Str) (file : Option (List Str)) :
    Except Fault State :=
  if !st.mSignalUndefined && !st.mSignalReady then .ok (st.show .saveFirst)
  else if !st.mSignalUndefined && st.mSignalStarted then .ok (st.show .stopFirst)
  else openSmcFile st fileName file

/-! ## Auxiliary notions used in the statements -/

/-- Characters that occur in the text of a number: neither a comma nor
white space. -/
def plainChar (c : Char) : Bool := c != ',' && !isSpace c

/-- The declared type of a parameter: `double` or `int`. -/
inductive FieldKind where
  | real
  | integer
  deriving DecidableEq

/-- The value of a parameter. -/
inductive FieldValue where
  | real (x : Dbl)
  | integer (v : CInt)
  deriving DecidableEq

/-- The declared type a value belongs to. -/
def FieldValue.kind : FieldValue → FieldKind
  | .real _ => .real
  | .integer _ => .integer

/-- The text of a parameter value, as the encoders write it. -/
def FieldValue.text : FieldValue → Str
  | .real x => numberDouble x
  | .integer v => numberInt v.val

/-- One token read as a parameter of the given declared type. -/
def parseField : FieldKind → Str → Option FieldValue
  | .real, s => (toDouble s).map .real
  | .integer, s => (toInt s).map .integer

/-- Tokens read one by one as parameters of the given declared types; both
lists must have the same length and every token must convert. -/
def parseFields : List FieldKind → List Str → Option (List FieldValue)
  | [], [] => some []
  | k :: ks, t :: ts =>
    match parseField k t with
    | some v => (parseFields ks ts).map (v :: ·)
    | none => none
  | _, _ => none

/-- The eleven parametric types: every type but the invalid one and SMC. -/
def SignalType.isParametric : SignalType → Bool
  | .SIGNAL_TYPE_INVALID => false
  | .SIGNAL_TYPE_SMC => false
  | _ => true

/-- The declared types of the parameters of each parametric type, in the
order of the catalog line. -/
def fieldKinds : SignalType → List FieldKind
  | .SIGNAL_TYPE_TRIANGLE => [.real, .real, .real, .real, .real, .real]
  | .SIGNAL_TYPE_RECTANGLE => [.real, .real, .real, .real, .real]
  | .SIGNAL_TYPE_PULSE => [.real, .real, .real, .real, .real, .real, .real]
  | .SIGNAL_TYPE_RISEFALL => [.real, .real, .real, .real, .real, .real, .real]
  | .SIGNAL_TYPE_SINDAMP => [.real, .real, .real, .real, .real, .real]
  | .SIGNAL_TYPE_SINRISE => [.real, .real, .real, .real, .real, .real, .real]
  | .SIGNAL_TYPE_WAVSIN => [.real, .real, .real, .real, .real, .integer]
  | .SIGNAL_TYPE_AMSIN => [.real, .real, .real, .real, .real, .real, .real]
  | .SIGNAL_TYPE_SINDAMPSIN => [.real, .real, .real, .real, .real, .integer]
  | .SIGNAL_TYPE_TRAPDAMPSIN => [.real, .real, .real, .real, .real, .real, .real, .real, .real]
  | .SIGNAL_TYPE_NOISE => [.integer, .real, .real, .real, .real]
  | .SIGNAL_TYPE_SMC => []
  | .SIGNAL_TYPE_INVALID => []

/-- The number of parameters of each parametric type. -/
def expectedParams : SignalType → Nat
  | .SIGNAL_TYPE_TRIANGLE => 6
  | .SIGNAL_TYPE_RECTANGLE => 5
  | .SIGNAL_TYPE_PULSE => 7
  | .SIGNAL_TYPE_RISEFALL => 7
  | .SIGNAL_TYPE_SINDAMP => 6
  | .SIGNAL_TYPE_SINRISE => 7
  | .SIGNAL_TYPE_WAVSIN => 6
  | .SIGNAL_TYPE_AMSIN => 7
  | .SIGNAL_TYPE_SINDAMPSIN => 6
  | .SIGNAL_TYPE_TRAPDAMPSIN => 9
  | .SIGNAL_TYPE_NOISE => 5
  | .SIGNAL_TYPE_SMC => 0
  | .SIGNAL_TYPE_INVALID => 0

/-- The parameter values of an item, in the order of the catalog line (none
for the SMC variant, which has no line). -/
def SignalItem.fieldValues : SignalItem → List FieldValue
  | .triangle sig => [.real sig.tPeriod, .real sig.tRise, .real sig.tFall, .real sig.tDelay, .real sig.yMax, .real sig.yMin]
  | .rectangle sig => [.real sig.tPeriod, .real sig.fillFactor, .real sig.tDelay, .real sig.yMax, .real sig.yMin]
  | .pulse sig => [.real sig.tPeriod, .real sig.tRise, .real sig.tWidth, .real sig.tFall, .real sig.tDelay, .real sig.yMax, .real sig.yMin]
  | .riseFall sig => [.real sig.tDelay, .real sig.tDelayRise, .real sig.tRampRise, .real sig.tDelayFall, .real sig.tRampFall, .real sig.yMax, .real sig.yMin]
  | .sinDamp sig => [.real sig.freqHz, .real sig.phiRad, .real sig.tDelay, .real sig.amplit, .real sig.offset, .real sig.damping]
  | .sinRise sig => [.real sig.freqHz, .real sig.phiRad, .real sig.tEnd, .real sig.tDelay, .real sig.amplit, .real sig.offset, .real sig.damping]
  | .wavSin sig => [.real sig.freqHz, .real sig.phiRad, .real sig.tDelay, .real sig.amplit, .real sig.offset, .integer sig.index]
  | .amSin sig => [.real sig.carrierFreqHz, .real sig.carrierAmplitude, .real sig.carrierOffset, .real sig.carrierTDelay, .real sig.modulationFreqHz, .real sig.modulationPhiRad, .real sig.modulationIndex]
  | .sinDampSin sig => [.real sig.freqSinHz, .real sig.tPeriodEnv, .real sig.tDelay, .real sig.amplit, .real sig.offset, .integer sig.dampingType]
  | .trapDampSin sig => [.real sig.tPeriod, .real sig.tRise, .real sig.tWidth, .real sig.tFall, .real sig.tDelay, .real sig.tCross, .real sig.freqHz, .real sig.amplit, .real sig.offset]
  | .noise sig => [.integer sig.noiseType, .real sig.gamma, .real sig.tDelay, .real sig.amplit, .real sig.offset]
  | .smc _ => []

/-- The item of a parametric type with the given parameter values, when
they are as many as the type has parameters, each of its declared type. -/
def SignalItem.ofFieldValues : SignalType → List FieldValue → Option SignalItem
  | .SIGNAL_TYPE_TRIANGLE, [.real tPeriod, .real tRise, .real tFall, .real tDelay, .real yMax, .real yMin] =>
    some (.triangle { tPeriod, tRise, tFall, tDelay, yMax, yMin })
  | .SIGNAL_TYPE_RECTANGLE, [.real tPeriod, .real fillFactor, .real tDelay, .real yMax, .real yMin] =>
    some (.rectangle { tPeriod, fillFactor, tDelay, yMax, yMin })
  | .SIGNAL_TYPE_PULSE, [.real tPeriod, .real tRise, .real tWidth, .real tFall, .real tDelay, .real yMax, .real yMin] =>
    some (.pulse { tPeriod, tRise, tWidth, tFall, tDelay, yMax, yMin })
  | .SIGNAL_TYPE_RISEFALL, [.real tDelay, .real tDelayRise, .real tRampRise, .real tDelayFall, .real tRampFall, .real yMax, .real yMin] =>
    some (.riseFall { tDelay, tDelayRise, tRampRise, tDelayFall, tRampFall, yMax, yMin })
  | .SIGNAL_TYPE_SINDAMP, [.real freqHz, .real phiRad, .real tDelay, .real amplit, .real offset, .real damping] =>
    some (.sinDamp { freqHz, phiRad, tDelay, amplit, offset, damping })
  | .SIGNAL_TYPE_SINRISE, [.real freqHz, .real phiRad, .real tEnd, .real tDelay, .real amplit, .real offset, .real damping] =>
    some (.sinRise { freqHz, phiRad, tEnd, tDelay, amplit, offset, damping })
  | .SIGNAL_TYPE_WAVSIN, [.real freqHz, .real phiRad, .real tDelay, .real amplit, .real offset, .integer index] =>
    some (.wavSin { freqHz, phiRad, tDelay, amplit, offset, index })
  | .SIGNAL_TYPE_AMSIN, [.real carrierFreqHz, .real carrierAmplitude, .real carrierOffset, .real carrierTDelay, .real modulationFreqHz, .real modulationPhiRad, .real modulationIndex] =>
    some (.amSin { carrierFreqHz, carrierAmplitude, carrierOffset, carrierTDelay, modulationFreqHz, modulationPhiRad, modulationIndex })
  | .SIGNAL_TYPE_SINDAMPSIN, [.real freqSinHz, .real tPeriodEnv, .real tDelay, .real amplit, .real offset, .integer dampingType] =>
    some (.sinDampSin { freqSinHz, tPeriodEnv, tDelay, amplit, offset, dampingType })
  | .SIGNAL_TYPE_TRAPDAMPSIN, [.real tPeriod, .real tRise, .real tWidth, .real tFall, .real tDelay, .real tCross, .real freqHz, .real amplit, .real offset] =>
    some (.trapDampSin { tPeriod, tRise, tWidth, tFall, tDelay, tCross, freqHz, amplit, offset })
  | .SIGNAL_TYPE_NOISE, [.integer noiseType, .real gamma, .real tDelay, .real amplit, .real offset] =>
    some (.noise { noiseType, gamma, tDelay, amplit, offset })
  | _, _ => none

/-- The texts of a catalog line: the tag, then the parameters. -/
def SignalItem.texts (item : SignalItem) : List Str :=
  numberInt item.getType.toInt :: item.fieldValues.map FieldValue.text

/-- The decoder as the catalog format describes it: at least two tokens,
the first one read as the tag of a parametric type, as many further tokens
as the type has parameters, each one converted as its declared type; the
result is the item together with its line text. -/
def decodeReference (tokens : List Str) : Option (SignalItem × Str) :=
  if 2 ≤ tokens.length then
    let t := SignalType.ofInt (toIntOrZero (tokens.getD 0 []))
    if t.isParametric ∧ tokens.length = expectedParams t + 1 then
      match parseFields (fieldKinds t) tokens.tail with
      | some values =>
        match SignalItem.ofFieldValues t values with
        | some item => some (item, SUBSTR_DELIMITER.intercalate item.texts)
        | none => none
      | none => none
    else none
  else none

/-- The item that a catalog line decodes to, if any. -/
def decodeItem (currentLine : Str) : Option SignalItem :=
  (decodeLine currentLine).map Prod.fst

/-- Splitting on the delimiter as the tokeniser does it: the reference
split, without its last token when that one is empty. -/
def splitTokens (line : Str) : List Str :=
  let tokens := splitAll line []
  if tokens.getLastD [] = [] then tokens.dropLast else tokens

/-- The `double` 1. -/
def Dbl.one : Dbl := .finite false 4503599627370496 (-52)

/-- A Triangle record with the given period, every other parameter 1. -/
def sampleTriangle (tPeriod : Dbl) : SignalTriangle :=
  { tPeriod := tPeriod, tRise := Dbl.one, tFall := Dbl.one, tDelay := Dbl.one,
    yMax := Dbl.one, yMin := Dbl.one }

/-- The catalog operation "replace the record at `index` by `d`" as the
window offers it: `handleEditSignal` on the row, the data of `d` entered in
the form of its type, then `handleAddReplaceSignal` on the same row. -/
def replaceAt (st : State) (index : Int) (d : SignalItem) : Except Fault State :=
  match handleEditSignal st index with
  | .ok st1 => handleAddReplaceSignal (st1.fillForm d) index
  | .error f => .error f

/-- A form content for sample states: every parameter 1, every integer
parameter 0. -/
def sampleState : State :=
  State.initial
    { tPeriod := Dbl.one, tRise := Dbl.one, tFall := Dbl.one, tDelay := Dbl.one, yMax := Dbl.one, yMin := Dbl.one }
    { tPeriod := Dbl.one, fillFactor := Dbl.one, tDelay := Dbl.one, yMax := Dbl.one, yMin := Dbl.one }
    { tPeriod := Dbl.one, tRise := Dbl.one, tWidth := Dbl.one, tFall := Dbl.one, tDelay := Dbl.one, yMax := Dbl.one, yMin := Dbl.one }
    { tDelay := Dbl.one, tDelayRise := Dbl.one, tRampRise := Dbl.one, tDelayFall := Dbl.one, tRampFall := Dbl.one, yMax := Dbl.one, yMin := Dbl.one }
    { freqHz := Dbl.one, phiRad := Dbl.one, tDelay := Dbl.one, amplit := Dbl.one, offset := Dbl.one, damping := Dbl.one }
    { freqHz := Dbl.one, phiRad := Dbl.one, tEnd := Dbl.one, tDelay := Dbl.one, amplit := Dbl.one, offset := Dbl.one, damping := Dbl.one }
    { freqHz := Dbl.one, phiRad := Dbl.one, tDelay := Dbl.one, amplit := Dbl.one, offset := Dbl.one, index := ⟨0, by decide⟩ }
    { carrierFreqHz := Dbl.one, carrierAmplitude := Dbl.one, carrierOffset := Dbl.one, carrierTDelay := Dbl.one, modulationFreqHz := Dbl.one, modulationPhiRad := Dbl.one, modulationIndex := Dbl.one }
    { freqSinHz := Dbl.one, tPeriodEnv := Dbl.one, tDelay := Dbl.one, amplit := Dbl.one, offset := Dbl.one, dampingType := ⟨0, by decide⟩ }
    { tPeriod := Dbl.one, tRise := Dbl.one, tWidth := Dbl.one, tFall := Dbl.one, tDelay := Dbl.one, tCross := Dbl.one, freqHz := Dbl.one, amplit := Dbl.one, offset := Dbl.one }
    { noiseType := ⟨0, by decide⟩, gamma := Dbl.one, tDelay := Dbl.one, amplit := Dbl.one, offset := Dbl.one }

/-- A state whose catalog holds the given items, each an object of its own,
as it is after the items were added and saved. -/
def sampleCatalogState (items : List SignalItem) : State :=
  { sampleState with
    mSignalUndefined := false
    mSignalReady := true
    heap := items
    mSignalsVector := List.range items.length
    mSignalsList := items.filterMap SignalItem.lineString? }

/-- A Rectangle item with the given period, every other parameter 1. -/
def sampleRectangle (tPeriod : Dbl) : SignalItem :=
  .rectangle { tPeriod := tPeriod, fillFactor := Dbl.one, tDelay := Dbl.one,
               yMax := Dbl.one, yMin := Dbl.one }

/-- An imported item with two samples. -/
def sampleSmc : SignalItem :=
  .smc { nrPoints := 2, sps := Dbl.one, maxAccelMs2 := Dbl.one,
         accelDataVec := [Dbl.one, Dbl.one] }

/-- What the last line of the integer header leaves in the record when the
parse goes on: a count of data values of at least 1, the two indices of the
recorded window inside the data, the recorded count as the length of the
window, not negative, the data vector of that length, and at least one data
line. -/
def WindowOk (m : Smc) : Prop :=
  1 ≤ m.mDataValuesCount ∧ m.mDataValuesCount ≤ 32767
    ∧ 1 ≤ m.mFirstRecordedSampleIndex ∧ m.mFirstRecordedSampleIndex ≤ m.mDataValuesCount
    ∧ 1 ≤ m.mLastRecordedSampleIndex ∧ m.mLastRecordedSampleIndex ≤ m.mDataValuesCount
    ∧ m.mDataValuesRecordedCount = m.mLastRecordedSampleIndex - m.mFirstRecordedSampleIndex + 1
    ∧ 0 ≤ m.mDataValuesRecordedCount
    ∧ (m.mDataVector.length : Int) = m.mDataValuesRecordedCount
    ∧ 1 ≤ m.mDataLinesCount

/-- Two records with the same members of the integer header that the data
part reads, and the same data. -/
def SameWindow (a b : Smc) : Prop :=
  b.mDataValuesCount = a.mDataValuesCount
    ∧ b.mFirstRecordedSampleIndex = a.mFirstRecordedSampleIndex
    ∧ b.mLastRecordedSampleIndex = a.mLastRecordedSampleIndex
    ∧ b.mDataValuesRecordedCount = a.mDataValuesRecordedCount
    ∧ b.mDataVector = a.mDataVector
    ∧ b.mDataLinesCount = a.mDataLinesCount
    ∧ b.mHeaderCommentLinesCount = a.mHeaderCommentLinesCount

/-- Whether an item is of the imported (SMC) variant. -/
def SignalItem.isSmc : SignalItem → Bool
  | .smc _ => true
  | _ => false

/-- The constant `SMC_TAB_INDEX` of `updateControls`: the tab of the SMC
type. -/
def SMC_TAB_INDEX : Int :=
  SignalType.SIGNAL_TYPE_SMC.toInt - SignalType.SIGNAL_TYPE_TRIANGLE.toInt

/-- One action on the window: one of the slots of the catalog, run to its
end (a slot that ends in a fault has no state after it), the choice of a tab
by the user, or an input in a form (the data of an item entered in the form
of its type).  The user can choose a tab only when it is enabled:
`updateControls`, which runs at the end of the import that sets
`mSignalIsSmc`, leaves no tab but the SMC tab enabled while the signal is an
SMC signal. -/
inductive Step : State → State → Prop where
  | signalNew (st : State) : Step st (handleSignalNew st)
  | signalOpen (st : State) (fileName : Str) (file : Option (List Str)) :
      Step st (handleSignalOpen st fileName file)
  | smcOpen (st st' : State) (fileName : Str) (file : Option (List Str)) :
      handleSmcOpen st fileName file = .ok st' → Step st st'
  | addReplace (st st' : State) (crtRow : Int) :
      handleAddReplaceSignal st crtRow = .ok st' → Step st st'
  | edit (st st' : State) (crtRow : Int) : handleEditSignal st crtRow = .ok st' → Step st st'
  | remove (st st' : State) (crtRow : Int) :
      handleRemoveSignal st crtRow = .ok st' → Step st st'
  | save (st : State) (fileName : Str) (isOpen : Bool) :
      Step st (handleSaveSignal st fileName isOpen).1
  | selectTab (st : State) (crtTab : Int) :
      (st.mSignalIsSmc = true → crtTab = SMC_TAB_INDEX) → Step st (setCurrentTab st crtTab)
  | input (st : State) (d : SignalItem) : Step st (st.fillForm d)

/-- The states of the window that the actions lead to from a state that
the constructor leaves, with any content of the forms. -/
inductive Reachable : State → Prop where
  | initial (formTriangle : SignalTriangle) (formRectangle : SignalRectangle)
      (formPulse : SignalPulse) (formRiseFall : SignalRiseFall) (formSinDamp : SignalSinDamp)
      (formSinRise : SignalSinRise) (formWavSin : SignalWavSin) (formAmSin : SignalAmSin)
      (formSinDampSin : SignalSinDampSin) (formTrapDampSin : SignalTrapDampSin)
      (formNoise : SignalNoise) :
      Reachable (State.initial formTriangle formRectangle formPulse formRiseFall formSinDamp
        formSinRise formWavSin formAmSin formSinDampSin formTrapDampSin formNoise)
  | step (st st' : State) : Reachable st → Step st st' → Reachable st'

/-- Whether the object behind a pointer, if there is one, is of the variant
that the flag `mSignalIsSmc` tells. -/
def State.modeOk (st : State) (p : Nat) : Prop :=
  ∀ item, st.heap[p]? = some item → item.isSmc = st.mSignalIsSmc

/-- What the actions keep true: the pointers of the vector are valid and
their objects are of the variant that `mSignalIsSmc` tells; so is the edited
object while an item is edited; and while the signal is an SMC signal the
SMC type and its tab are current and the vector holds at most one
pointer. -/
def State.catalogInvariant (st : State) : Prop :=
  st.wf
    ∧ (∀ p ∈ st.mSignalsVector, st.modeOk p)
    ∧ (st.mIsSignalEdited = true →
        ∀ q, st.mEditedSignal = some q → q < st.heap.length ∧ st.modeOk q)
    ∧ (st.mSignalIsSmc = true →
        st.mCurrentSignalType = SignalType.SIGNAL_TYPE_SMC.toInt ∧ st.tabIndex = SMC_TAB_INDEX
          ∧ st.mSignalsVector.length ≤ 1)

/-- Whether an operation ends without a fault. -/
def succeeded {α : Type} : Except Fault α → Bool
  | .ok _ => true
  | .error _ => false

/-- The result of an operation, `fallback` when it ends in a fault. -/
def resultOr {α : Type} (fallback : α) : Except Fault α → α
  | .ok a => a
  | .error _ => fallback

/-- The text header of a sample SMC file: the eleven lines of an
accelerogram of type 2. -/
def sampleSmcText : List Str :=
  ["2 CORRECTED ACCELEROGRAM".toList,
   "*".toList,
   "STA1".toList,
   "GMT  2020  01  15    1234  Sample earthquake".toList,
   "Moment Mag=   6.5    Ms=   6.1    Ml=   5.9   ".toList,
   "station = Sample station                 component= N90E  ".toList,
   "epicentral dist =  12.5          pk acc =    98.1  ".toList,
   "inst type=SMA-1      data source = USGS".toList,
   "*".toList,
   "*".toList,
   "*".toList]

/-- The integer header of the sample SMC file, 48 fields of 10 characters
on six lines: the sentinel -32768, sensor type 101, one comment line, four
data values, and the recorded window from sample 2 to sample 3. -/
def sampleSmcIntegers : List Str :=
  ["    -32768    -32768    -32768    -32768    -32768    -32768    -32768    -32768".toList,
   "    -32768    -32768    -32768    -32768         0        90       101         1".toList,
   "         4    -32768         0    -32768    -32768    -32768    -32768    -32768".toList,
   "    -32768    -32768    -32768    -32768    -32768       123         2         3".toList,
   "    -32768    -32768    -32768    -32768    -32768    -32768    -32768    -32768".toList,
   "    -32768    -32768    -32768    -32768    -32768    -32768    -32768    -32768".toList]

/-- The real header of the sample SMC file, 50 fields of 15 characters on
ten lines: the sentinel 1.7e38, the sampling rate 200, the seismic moment
2.5e25 and the accelerations 98.1 and -120.5 of the maximum and the minimum
of the record. -/
def sampleSmcReals : List Str :=
  ["  1.7000000E+38  2.0000000E+02  1.7000000E+38  1.7000000E+38  1.7000000E+38".toList,
   "  1.7000000E+38  1.7000000E+38  1.7000000E+38  1.7000000E+38  2.5000000E+25".toList,
   "  1.7000000E+38  1.7000000E+38  1.7000000E+38  1.7000000E+38  1.7000000E+38".toList,
   "  1.7000000E+38  1.7000000E+38  1.7000000E+38  1.7000000E+38  1.7000000E+38".toList,
   "  1.7000000E+38  1.7000000E+38  1.7000000E+38  1.7000000E+38  1.7000000E+38".toList,
   "  1.7000000E+38  1.7000000E+38  1.7000000E+38  1.7000000E+38  9.8100000E+01".toList,
   "  1.7000000E+38 -1.2050000E+02  1.7000000E+38  1.7000000E+38  1.7000000E+38".toList,
   "  1.7000000E+38  1.7000000E+38  1.7000000E+38  1.7000000E+38  1.7000000E+38".toList,
   "  1.7000000E+38  1.7000000E+38  1.7000000E+38  1.7000000E+38  1.7000000E+38".toList,
   "  1.7000000E+38  1.7000000E+38  1.7000000E+38  1.7000000E+38  1.7000000E+38".toList]

/-- The header of the sample SMC file with its comment line: 28 lines. -/
def sampleSmcHeader : List Str :=
  sampleSmcText ++ sampleSmcIntegers ++ sampleSmcReals ++ ["| a comment".toList]

/-- The data line of the sample SMC file: the four values 10, 50, 20 and
30, each on 10 characters. -/
def sampleSmcData : Str := "1.0000E+015.0000E+012.0000E+013.0000E+01".toList

/-- A data line with three values only: 10, 50 and 20. -/
def sampleSmcShortData : Str := "1.0000E+015.0000E+012.0000E+01".toList

/-- The loop state after the header of the sample SMC file. -/
def sampleSmcLoop : SmcLoop := resultOr SmcLoop.start (smcLoop sampleSmcHeader SmcLoop.start)

/-- The loop state after the whole sample SMC file. -/
def sampleSmcDone : SmcLoop :=
  resultOr SmcLoop.start (smcLoop (sampleSmcHeader ++ [sampleSmcData]) SmcLoop.start)

/-- The window after the sample SMC file was imported into the initial
window. -/
def sampleSmcImported : State :=
  resultOr sampleState
    (handleSmcOpen sampleState "a.smc".toList (some (sampleSmcHeader ++ [sampleSmcData])))

/-- The loop state after the first eight lines of the sample SMC file. -/
def sampleSmcEight : SmcLoop :=
  resultOr SmcLoop.start (smcLoop (sampleSmcText.take 8) SmcLoop.start)

/-- The loop state after the first eight lines of the sample SMC file and a
ninth line that is not the asterisk the format asks for. -/
def sampleSmcNinth : SmcLoop := resultOr SmcLoop.start (smcLine sampleSmcEight "x".toList)

/-- The `double` 98.1. -/
def Dbl.sampleAcceleration : Dbl := .finite false 6903173803828838 (-46)

/-- The fields of a real header with the sentinel of the constructor, the
sampling rate 200 and the acceleration 98.1 of the maximum of the record;
every other field is the sentinel. -/
def sampleRealFields : List Dbl :=
  ((List.replicate 32 Dbl.noValue).set REAL_FIELD_SAMPLING_RATE (Dbl.ofInt 200)).set
    REAL_FIELD_VALUE_OF_MAXIMUM_CM_S2 Dbl.sampleAcceleration

/-- The `double` 2^-30, about 9.3e-10. -/
def Dbl.sampleSmall : Dbl := .finite false 4503599627370496 (-82)

/-- The fields of a real header whose sentinel is 0, with the sampling rate
200 and the acceleration 2^-30 of the maximum of the record; every other
field is the sentinel. -/
def sampleNearSentinelFields : List Dbl :=
  ((List.replicate 32 Dbl.zero).set REAL_FIELD_SAMPLING_RATE (Dbl.ofInt 200)).set
    REAL_FIELD_VALUE_OF_MAXIMUM_CM_S2 Dbl.sampleSmall

/-- The record with another type of data and another accelerogram flag,
the two members that line 1 of the text header sets. -/
def Smc.retyped (m : Smc) (dataType : Nat) (accelerogram : Bool) : Smc :=
  { m with mTextDataTypeFile := dataType, mSmcTypeAccelerogram := accelerogram }

/-- The loop state with the record retyped and with the messages `shown`
before its own. -/
def SmcLoop.retyped (ls : SmcLoop) (dataType : Nat) (accelerogram : Bool)
    (shown : List Message) : SmcLoop :=
  { ls with mSmc := ls.mSmc.retyped dataType accelerogram, shown := shown ++ ls.shown }

/-- The fault that ends an operation, if one does. -/
def faultOf {α : Type} : Except Fault α → Option Fault
  | .ok _ => none
  | .error fault => some fault

/-- The converted fields of an integer header with the sentinel -32768
everywhere but for the orientations 0 and 90 and the given sensor type
code. -/
def sampleIntFields (code : Int) : List Int :=
  (((List.replicate 48 (-32768)).set INT_FIELD_VERTICAL_ORIENTATION_FROM_UP 0).set
    INT_FIELD_HORIZONTAL_ORIENTATION_FROM_NORTH_TO_EAST 90).set INT_FIELD_SENSOR_TYPE_CODE code

/-- The sample SMC file with the sentinel 1.7e38 in the place of the
acceleration 98.1 of the maximum of the record. -/
def sampleSmcNoMaximum : List Str :=
  sampleSmcText ++ sampleSmcIntegers ++ sampleSmcReals.set 5 (sampleSmcReals.getD 2 [])
    ++ ["| a comment".toList, sampleSmcData]

/-- The integer header of the sample SMC file with the text 40000 as the
number of data values. -/
def sampleSmcWrappedIntegers : List Str :=
  sampleSmcIntegers.set 2
    "     40000    -32768         0    -32768    -32768    -32768    -32768    -32768".toList

/-- The loop state after the text header of the sample SMC file and the
first five lines of the integer header with the number 40000. -/
def sampleSmcSixteen : SmcLoop :=
  resultOr SmcLoop.start
    (smcLoop (sampleSmcText ++ sampleSmcWrappedIntegers.take 5) SmcLoop.start)

/-- The integers that `std::stoi` reads from the 48 fields of the integer
header with the number 40000. -/
def sampleSmcWrappedValues : List Int :=
  resultOr []
    (convertAll stoi
      (collectFields (LAST_TEXT_LINE_NR + 1) (sampleSmcSixteen.crtLineNr + 1)
        HEADER_INT_VALUE_LENGTH (sampleSmcWrappedIntegers.getD 5 [])
        sampleSmcSixteen.substringsVec))

/-- The window in use: the states that the actions of the user lead to from
a state that the constructor leaves, each with the current row of
`ActiveSignalList`, the row that the slots read as `crtRow`.  An action is
one of the slots of the catalog run to its end (a slot that ends in a fault
has no state after it), a start, pause or stop of the generation (which
sets `mSignalStarted` and `mSignalPaused` only), the choice of a tab, an
input in a form, or a change of the current row (by the user, or by the
view when rows are added or removed).  The restrictions are those that
`updateControls` puts on the controls.  The choice of a tab is restricted
as in `Step`.  The SMC open slot alone raises `mSignalIsSmc`, and it ends
with `updateControls`, which hides `SignalItemActionButton`; the button is
shown again only by a call with `mSignalIsSmc` cleared: while the signal is
an SMC signal, `handleAddReplaceSignal` does not run.  `handleEditSignal`
alone raises `mIsSignalEdited`, and it ends with `updateControls`, which,
when the signal is no SMC signal, disables the buttons Edit and Remove
(`activeSignalBtnCondition` asks for `!mIsSignalEdited`) and the list
(`ActiveSignalList->setEnabled( !mIsSignalEdited )`); they are enabled
again only by a call with `mIsSignalEdited` cleared: while an item is
edited and the signal is no SMC signal, there is no second Edit, no Remove
and no change of the current row.  No other condition of `updateControls`
is imposed, and none at all on Edit, Remove and the current row while the
signal is an SMC signal, so that the window in use has no fewer states than
the program. -/
inductive Session : State → Int → Prop where
  | initial (formTriangle : SignalTriangle) (formRectangle : SignalRectangle)
      (formPulse : SignalPulse) (formRiseFall : SignalRiseFall) (formSinDamp : SignalSinDamp)
      (formSinRise : SignalSinRise) (formWavSin : SignalWavSin) (formAmSin : SignalAmSin)
      (formSinDampSin : SignalSinDampSin) (formTrapDampSin : SignalTrapDampSin)
      (formNoise : SignalNoise) :
      Session (State.initial formTriangle formRectangle formPulse formRiseFall formSinDamp
        formSinRise formWavSin formAmSin formSinDampSin formTrapDampSin formNoise) (-1)
  | signalNew (st : State) (row : Int) : Session st row → Session (handleSignalNew st) row
  | signalOpen (st : State) (row : Int) (fileName : Str) (file : Option (List Str)) :
      Session st row → Session (handleSignalOpen st fileName file) row
  | smcOpen (st st' : State) (row : Int) (fileName : Str) (file : Option (List Str)) :
      Session st row → handleSmcOpen st fileName file = .ok st' → Session st' row
  | addReplace (st st' : State) (row : Int) :
      Session st row → st.mSignalIsSmc = false →
      handleAddReplaceSignal st row = .ok st' → Session st' row
  | edit (st st' : State) (row : Int) :
      Session st row → (st.mSignalIsSmc = false → st.mIsSignalEdited = false) →
      handleEditSignal st row = .ok st' → Session st' row
  | remove (st st' : State) (row : Int) :
      Session st row → (st.mSignalIsSmc = false → st.mIsSignalEdited = false) →
      handleRemoveSignal st row = .ok st' → Session st' row
  | save (st : State) (row : Int) (fileName : Str) (isOpen : Bool) :
      Session st row → Session (handleSaveSignal st fileName isOpen).1 row
  | generate (st : State) (row : Int) (started paused : Bool) :
      Session st row →
      Session { st with mSignalStarted := started, mSignalPaused := paused } row
  | selectTab (st : State) (row : Int) (crtTab : Int) :
      Session st row → (st.mSignalIsSmc = true → crtTab = SMC_TAB_INDEX) →
      Session (setCurrentTab st crtTab) row
  | input (st : State) (row : Int) (d : SignalItem) : Session st row → Session (st.fillForm d) row
  | currentRow (st : State) (row row' : Int) :
      Session st row → (st.mSignalIsSmc = false → st.mIsSignalEdited = false) →
      Session st row'

/-- What the actions keep true of the vector and the current row: no
pointer is twice in the vector, and while an item is edited and the signal
is no SMC signal, the edited pointer is the one at the current row. -/
def State.rowInvariant (st : State) (row : Int) : Prop :=
  st.mSignalsVector.Nodup
    ∧ (st.mIsSignalEdited = true → st.mSignalIsSmc = false →
        ∃ p, st.mEditedSignal = some p ∧ vectorAt st.mSignalsVector row = .ok p)

/-- The `double` 2. -/
def Dbl.two : Dbl := .finite false 4503599627370496 (-51)

/-- The `double` 4. -/
def Dbl.four : Dbl := .finite false 4503599627370496 (-50)

/-- The window after New and three additions: a Triangle record `A` in the
Triangle tab, then two Rectangle records `B` and `C`, of the periods 1 and
2, in the Rectangle tab. -/
def sampleThreeAdded : State :=
  addSignal ((addSignal ((setCurrentTab
    (addSignal ((handleSignalNew sampleState).fillForm (.triangle (sampleTriangle Dbl.one))))
    1).fillForm (sampleRectangle Dbl.one))).fillForm (sampleRectangle Dbl.two))

/-- The window after the row 1 of `sampleThreeAdded` was removed. -/
def sampleAfterRemoval : State :=
  resultOr sampleThreeAdded (handleRemoveSignal sampleThreeAdded 1)

/-- What the actions keep true of the list model: while the signal is no
SMC signal, the list has a row for every pointer of the vector. -/
def State.rowsInvariant (st : State) : Prop :=
  st.mSignalIsSmc = false → st.mSignalsVector.length ≤ st.mSignalsList.length

/-! # Lemmas and theorems -/

/-! ## The tokeniser -/

theorem find_delimiter_nil : find [] SUBSTR_DELIMITER = none := by
  simp [find, SUBSTR_DELIMITER]

theorem find_delimiter_hit (rest : Str) :
    find (',' :: ' ' :: rest) SUBSTR_DELIMITER = some 0 := by
  simp [find, SUBSTR_DELIMITER, List.isPrefixOf]

theorem find_delimiter_step (c : Char) (rest : Str)
    (h : ∀ r, c = ',' → rest = ' ' :: r → False) :
    find (c :: rest) SUBSTR_DELIMITER = (find rest SUBSTR_DELIMITER).map (· + 1) := by
  cases rest with
  | nil => simp [find, SUBSTR_DELIMITER, List.isPrefixOf]
  | cons b r =>
    have hb : ¬ (c = ',' ∧ b = ' ') := fun hh => h r hh.1 (by rw [hh.2])
    have : List.isPrefixOf [',', ' '] (c :: b :: r) = false := by
      simp only [List.isPrefixOf, Bool.and_true, Bool.and_eq_false_imp, beq_iff_eq]
      intro h1
      simp only [beq_eq_false_iff_ne, ne_eq]
      intro h2
      exact hb ⟨h1.symm, h2.symm⟩
    rw [find, SUBSTR_DELIMITER, this]
    simp

/-- What the first delimiter found means for the reference split. -/
theorem splitAll_of_find (s : Str) : ∀ (cur : Str),
    (∀ pos, find s SUBSTR_DELIMITER = some pos →
      splitAll s cur = (cur.reverse ++ s.take pos) :: splitAll (s.drop (pos + 2)) []) ∧
    (find s SUBSTR_DELIMITER = none → splitAll s cur = [cur.reverse ++ s]) := by
  induction s using List.rec with
  | nil => intro cur; simp [find_delimiter_nil, splitAll]
  | cons c rest ih =>
    intro cur
    by_cases h : ∀ r, c = ',' → rest = ' ' :: r → False
    · rw [find_delimiter_step c rest h, splitAll.eq_3 cur c rest h]
      obtain ⟨ih1, ih2⟩ := ih (c :: cur)
      constructor
      · intro pos hp
        simp only [Option.map_eq_some'] at hp
        obtain ⟨q, hq, rfl⟩ := hp
        rw [ih1 q hq]
        simp
      · intro hn
        simp only [Option.map_eq_none'] at hn
        rw [ih2 hn]; simp
    · push_neg at h
      obtain ⟨r, rfl, rfl, -⟩ := h
      simp [find_delimiter_hit, splitAll]

theorem find_lt_length (s : Str) : ∀ pos, find s SUBSTR_DELIMITER = some pos → pos + 2 ≤ s.length := by
  induction s using List.rec with
  | nil => simp [find_delimiter_nil]
  | cons c rest ih =>
    intro pos hp
    by_cases h : ∀ r, c = ',' → rest = ' ' :: r → False
    · rw [find_delimiter_step c rest h] at hp
      simp only [Option.map_eq_some'] at hp
      obtain ⟨q, hq, rfl⟩ := hp
      have := ih q hq
      simp; omega
    · push_neg at h
      obtain ⟨r, rfl, rfl, -⟩ := h
      simp [find_delimiter_hit] at hp
      subst hp; simp

theorem splitAll_ne_nil (s cur : Str) : splitAll s cur ≠ [] := by
  induction s using List.rec generalizing cur with
  | nil => simp [splitAll]
  | cons c rest ih =>
    by_cases h : ∀ r, c = ',' → rest = ' ' :: r → False
    · rw [splitAll.eq_3 cur c rest h]; exact ih _
    · push_neg at h
      obtain ⟨r, rfl, rfl, -⟩ := h
      simp [splitAll]

/-- The loop of the tokeniser never runs out of fuel: with more fuel than
characters it stops with the last token of the reference split as the rest
of the line, the tokens before it pushed in order. -/
theorem splitLoop_eq (fuel : Nat) : ∀ (s : Str) (acc : List Str), s.length < fuel →
    splitLoop fuel s acc =
      ((splitAll s []).getLastD [], acc ++ (splitAll s []).dropLast) := by
  induction fuel with
  | zero => intro s acc h; omega
  | succ fuel ih =>
    intro s acc h
    obtain ⟨h1, h2⟩ := splitAll_of_find s []
    rw [splitLoop]
    cases hf : find s SUBSTR_DELIMITER with
    | none =>
      simp only []
      rw [h2 hf]; simp
    | some pos =>
      simp only []
      have hlen := find_lt_length s pos hf
      rw [ih _ _ (by simp [SUBSTR_DELIMITER]; omega), h1 pos hf]
      have hne := splitAll_ne_nil (List.drop (pos + 2) s) []
      simp only [SUBSTR_DELIMITER, List.length_cons, List.length_nil, List.reverse_nil, List.nil_append]
      obtain ⟨a, l, hal⟩ := List.exists_cons_of_ne_nil hne
      rw [hal]
      simp [List.dropLast_cons_of_ne_nil, List.getLastD_cons]

/-! ## The text of integers -/

theorem digitVal_digitChar (d : Nat) (h : d < 10) : digitVal (digitChar d) = some d := by
  interval_cases d <;> rfl

theorem digitChar_plain (d : Nat) : plainChar (digitChar d) = true := by
  unfold digitChar
  split <;> decide

theorem digitChar_isDigit (d : Nat) : (digitVal (digitChar d)).isSome = true := by
  unfold digitChar
  split <;> decide

theorem natDigitsAux_append (fuel : Nat) : ∀ (n : Nat) (acc : Str),
    natDigitsAux fuel n acc = natDigitsAux fuel n [] ++ acc := by
  induction fuel with
  | zero => intro n acc; simp [natDigitsAux]
  | succ fuel ih =>
    intro n acc
    simp only [natDigitsAux]
    split
    · simp
    · rw [ih (n / 10) (digitChar (n % 10) :: acc), ih (n / 10) [digitChar (n % 10)]]
      simp

theorem digitsValue_append (xs ys : Str) : ∀ a : Nat,
    digitsValue (xs ++ ys) a = (digitsValue xs a).bind (digitsValue ys) := by
  induction xs with
  | nil => intro a; simp [digitsValue]
  | cons c cs ih =>
    intro a
    simp only [List.cons_append, digitsValue]
    cases digitVal c with
    | none => simp
    | some d => simp [ih]

theorem digitsValue_natDigitsAux (fuel : Nat) : ∀ (n a : Nat), n < fuel →
    digitsValue (natDigitsAux fuel n []) a
      = some (a * 10 ^ (natDigitsAux fuel n []).length + n) := by
  induction fuel with
  | zero => intro n a h; omega
  | succ fuel ih =>
    intro n a h
    simp only [natDigitsAux]
    split
    · rename_i h10
      simp [digitsValue, digitVal_digitChar n h10]
    · rename_i h10
      rw [natDigitsAux_append, digitsValue_append, ih (n / 10) a (by omega)]
      simp [digitsValue, digitVal_digitChar (n % 10) (Nat.mod_lt _ (by norm_num))]
      rw [pow_succ]
      have := Nat.div_add_mod n 10
      nlinarith [Nat.div_add_mod n 10]

theorem natDigitsAux_ne_nil (fuel n : Nat) : natDigitsAux (fuel + 1) n [] ≠ [] := by
  simp only [natDigitsAux]
  split
  · simp
  · rw [natDigitsAux_append]; simp

theorem natDigits_ne_nil (n : Nat) : natDigits n ≠ [] := natDigitsAux_ne_nil n n

theorem parseNat_natDigits (n : Nat) : parseNat (natDigits n) = some n := by
  have h := natDigits_ne_nil n
  unfold parseNat
  rw [if_neg (by simpa using h)]
  unfold natDigits
  rw [digitsValue_natDigitsAux (n + 1) n 0 (by omega)]
  simp

theorem natDigitsAux_all (P : Char → Prop) (hP : ∀ d, P (digitChar d)) (fuel : Nat) :
    ∀ (n : Nat) (acc : Str), (∀ c ∈ acc, P c) → ∀ c ∈ natDigitsAux fuel n acc, P c := by
  induction fuel with
  | zero => intro n acc h; simpa [natDigitsAux] using h
  | succ fuel ih =>
    intro n acc h
    simp only [natDigitsAux]
    split
    · intro c hc
      rcases List.mem_cons.1 hc with rfl | hc
      · exact hP _
      · exact h c hc
    · apply ih
      intro c hc
      rcases List.mem_cons.1 hc with rfl | hc
      · exact hP _
      · exact h c hc

theorem natDigits_plain (n : Nat) : ∀ c ∈ natDigits n, plainChar c = true :=
  natDigitsAux_all (fun c => plainChar c = true) digitChar_plain _ _ _ (by simp)

theorem natDigits_isDigit (n : Nat) : ∀ c ∈ natDigits n, (digitVal c).isSome = true :=
  natDigitsAux_all (fun c => (digitVal c).isSome = true) digitChar_isDigit _ _ _ (by simp)

theorem numberInt_plain (v : Int) : ∀ c ∈ numberInt v, plainChar c = true := by
  intro c hc
  unfold numberInt at hc
  split at hc
  · rcases List.mem_cons.1 hc with rfl | hc
    · decide
    · exact natDigits_plain _ c hc
  · exact natDigits_plain _ c hc

theorem numberInt_ne_nil (v : Int) : numberInt v ≠ [] := by
  unfold numberInt
  split
  · simp
  · exact natDigits_ne_nil _

theorem dropWhile_isSpace_plain (s : Str) (h : ∀ c ∈ s, plainChar c = true) :
    s.dropWhile isSpace = s := by
  cases s with
  | nil => rfl
  | cons c cs =>
    have hc := h c (List.mem_cons_self _ _)
    have : isSpace c = false := by
      unfold plainChar at hc
      simp at hc
      simpa using hc.2
    simp [List.dropWhile, this]

theorem trimmed_plain (s : Str) (h : ∀ c ∈ s, plainChar c = true) : trimmed s = s := by
  unfold trimmed
  rw [dropWhile_isSpace_plain s h, dropWhile_isSpace_plain s.reverse (by simpa using h)]
  simp

theorem toInt_numberInt (v : CInt) : toInt (numberInt v.val) = some v := by
  unfold toInt
  rw [trimmed_plain _ (numberInt_plain _)]
  obtain ⟨x, hx⟩ := v
  simp only
  unfold numberInt
  by_cases hneg : x < 0
  · rw [if_pos hneg]
    simp only [parseNat_natDigits, Option.some_bind]
    unfold CInt.ofInt?
    have : -((x.natAbs : Nat) : Int) = x := by omega
    simp only [this]
    rw [dif_pos hx]
  · rw [if_neg hneg]
    have hne := natDigits_ne_nil x.natAbs
    obtain ⟨c, cs, hcs⟩ := List.exists_cons_of_ne_nil hne
    have hd := natDigits_isDigit x.natAbs c (by rw [hcs]; simp)
    have h1 : c ≠ '-' := by rintro rfl; simp [digitVal] at hd
    have h2 : c ≠ '+' := by rintro rfl; simp [digitVal] at hd
    have hp := parseNat_natDigits x.natAbs
    rw [hcs] at hp ⊢
    split
    · rename_i heq; simp at heq; exact absurd heq.1 h1
    · rename_i heq; simp at heq; exact absurd heq.1 h2
    · rw [hp]
      simp only [Option.some_bind]
      unfold CInt.ofInt?
      have : ((x.natAbs : Nat) : Int) = x := by omega
      simp only [this]
      rw [dif_pos hx]

/-! ## The text of doubles -/

theorem natDigitsAux_bounds (fuel : Nat) : ∀ n : Nat, n < fuel →
    n < 10 ^ (natDigitsAux fuel n []).length ∧
      (1 ≤ n → 10 ^ ((natDigitsAux fuel n []).length - 1) ≤ n) := by
  induction fuel with
  | zero => intro n h; omega
  | succ fuel ih =>
    intro n h
    simp only [natDigitsAux]
    split
    · rename_i h10
      simp only [List.length_singleton, pow_one, Nat.sub_self, pow_zero]
      omega
    · rename_i h10
      rw [natDigitsAux_append]
      obtain ⟨h1, h2⟩ := ih (n / 10) (by omega)
      have h3 := h2 (by omega)
      simp only [List.length_append, List.length_singleton, Nat.add_sub_cancel]
      constructor
      · rw [pow_succ]; omega
      · have hpos : 1 ≤ (natDigitsAux fuel (n / 10) []).length := by
          cases fuel with
          | zero => omega
          | succ f =>
            have := natDigitsAux_ne_nil f (n / 10)
            exact Nat.one_le_iff_ne_zero.2 (by simpa using this)
        intro _
        have : 10 ^ (natDigitsAux fuel (n / 10) []).length
            = 10 ^ ((natDigitsAux fuel (n / 10) []).length - 1) * 10 := by
          rw [← pow_succ]; congr 1; omega
        rw [this]; omega

theorem natDigits_bounds (n : Nat) (h : 1 ≤ n) :
    10 ^ ((natDigits n).length - 1) ≤ n ∧ n < 10 ^ (natDigits n).length :=
  ⟨(natDigitsAux_bounds (n + 1) n (by omega)).2 h, (natDigitsAux_bounds (n + 1) n (by omega)).1⟩

theorem scalePow_ge (n d : Nat) (hn : 1 ≤ n) (hd : 1 ≤ d) (s : Int)
    (hs : (natDigits d).length + 1 ≤ (natDigits n).length + s) :
    (scalePow 10 n d s).2 ≤ (scalePow 10 n d s).1 := by
  obtain ⟨hn1, -⟩ := natDigits_bounds n hn
  obtain ⟨-, hd2⟩ := natDigits_bounds d hd
  have ha : 1 ≤ (natDigits n).length := Nat.one_le_iff_ne_zero.2 (by simpa using natDigits_ne_nil n)
  unfold scalePow
  split
  · rename_i h0
    simp only
    obtain ⟨t, rfl⟩ := Int.eq_ofNat_of_zero_le h0
    simp only [Int.toNat_ofNat]
    calc d ≤ 10 ^ (natDigits d).length := hd2.le
      _ ≤ 10 ^ ((natDigits n).length - 1 + t) := Nat.pow_le_pow_right (by norm_num) (by omega)
      _ = 10 ^ ((natDigits n).length - 1) * 10 ^ t := pow_add _ _ _
      _ ≤ n * 10 ^ t := Nat.mul_le_mul_right _ hn1
  · rename_i h0
    simp only
    have : ∃ t : Nat, s = -(t : Int) := ⟨(-s).toNat, by omega⟩
    obtain ⟨t, rfl⟩ := this
    simp only [neg_neg, Int.toNat_ofNat]
    calc d * 10 ^ t ≤ 10 ^ (natDigits d).length * 10 ^ t := Nat.mul_le_mul_right _ hd2.le
      _ = 10 ^ ((natDigits d).length + t) := (pow_add _ _ _).symm
      _ ≤ 10 ^ ((natDigits n).length - 1) := Nat.pow_le_pow_right (by norm_num) (by omega)
      _ ≤ n := hn1

theorem scalePow_snd_pos (b n d : Nat) (hb : 1 ≤ b) (hd : 1 ≤ d) (s : Int) :
    1 ≤ (scalePow b n d s).2 := by
  unfold scalePow
  split
  · exact hd
  · exact Nat.mul_pos hd (Nat.pow_pos hb)

theorem decimalExponent_le (n d : Nat) :
    decimalExponent n d ≤ ((natDigits n).length : Int) - ((natDigits d).length : Int) := by
  unfold decimalExponent
  simp only
  split <;> omega

theorem roundHalfUp_pos (n d : Nat) (hd : 1 ≤ d) (h : d ≤ n) : 1 ≤ roundHalfUp n d := by
  unfold roundHalfUp
  have : 1 ≤ n / d := Nat.div_pos h hd
  split <;> omega

theorem sixDigits_pos (n d : Nat) (hn : 1 ≤ n) (hd : 1 ≤ d) : 1 ≤ (sixDigits n d).1 := by
  unfold sixDigits
  simp only
  split
  · norm_num
  · apply roundHalfUp_pos
    · exact scalePow_snd_pos 10 n d (by norm_num) hd _
    · apply scalePow_ge n d hn hd
      have := decimalExponent_le n d
      omega

theorem digitsValue_zeros (s : Str) (h : ∀ c ∈ s, c = '0') : digitsValue s 0 = some 0 := by
  induction s with
  | nil => rfl
  | cons c cs ih =>
    have hc := h c (List.mem_cons_self _ _)
    subst hc
    simp only [digitsValue]
    have : digitVal '0' = some 0 := rfl
    rw [this]
    exact ih (fun c hc => h c (List.mem_cons_of_mem _ hc))

theorem chopTrailingZeros_ne_nil (n : Nat) (h : 1 ≤ n) :
    chopTrailingZeros (natDigits n) ≠ [] := by
  unfold chopTrailingZeros
  intro hnil
  simp only [List.reverse_eq_nil_iff, List.dropWhile_eq_nil_iff, List.mem_reverse,
    beq_iff_eq] at hnil
  have h0 := digitsValue_zeros _ hnil
  have hp := parseNat_natDigits n
  unfold parseNat at hp
  rw [if_neg (by simpa using natDigits_ne_nil n), h0] at hp
  simp at hp
  omega

theorem chopTrailingZeros_mem (s : Str) : ∀ c ∈ chopTrailingZeros s, c ∈ s := by
  intro c hc
  unfold chopTrailingZeros at hc
  rw [List.mem_reverse] at hc
  have := (List.dropWhile_sublist (fun x => x == '0') (l := s.reverse)).subset hc
  simpa using this

theorem exponentText_plain (k : Int) : ∀ c ∈ exponentText k, plainChar c = true := by
  intro c hc
  unfold exponentText at hc
  simp only at hc
  rcases List.mem_cons.1 hc with rfl | hc
  · split <;> decide
  · split at hc
    · rcases List.mem_cons.1 hc with rfl | hc
      · decide
      · exact natDigits_plain _ c hc
    · exact natDigits_plain _ c hc

theorem formatG_plain (ds : Str) (k : Int) (h : ∀ c ∈ ds, plainChar c = true) :
    ∀ c ∈ formatG ds k, plainChar c = true := by
  intro c hc
  unfold formatG at hc
  have hdot : plainChar '.' = true := by decide
  have he : plainChar 'e' = true := by decide
  have h0 : plainChar '0' = true := by decide
  split at hc
  · split at hc
    · simp at hc
    · simp only [List.mem_cons] at hc
      rcases hc with rfl | rfl | hc
      · exact h _ (by simp)
      · exact he
      · exact exponentText_plain k c hc
    · rename_i c0 rest _
      simp only [List.mem_cons, List.mem_append] at hc
      rcases hc with rfl | rfl | hc | rfl | hc
      · exact h _ (by simp)
      · exact hdot
      · exact h _ (by simp [hc])
      · exact he
      · exact exponentText_plain k c hc
  · split at hc
    · simp only [List.mem_cons, List.mem_append, List.mem_replicate] at hc
      rcases hc with rfl | rfl | ⟨-, rfl⟩ | hc
      · exact h0
      · exact hdot
      · exact h0
      · exact h c hc
    · simp only at hc
      split at hc
      · simp only [List.mem_append, List.mem_replicate] at hc
        rcases hc with hc | ⟨-, rfl⟩
        · exact h c (List.mem_of_mem_take hc)
        · exact h0
      · simp only [List.mem_append, List.mem_replicate, List.mem_cons] at hc
        rcases hc with (hc | ⟨-, rfl⟩) | rfl | hc
        · exact h c (List.mem_of_mem_take hc)
        · exact h0
        · exact hdot
        · exact h c (List.mem_of_mem_drop hc)

theorem formatG_ne_nil (ds : Str) (k : Int) (h : ds ≠ []) : formatG ds k ≠ [] := by
  unfold formatG
  split
  · split
    · exact absurd rfl h
    · simp
    · simp
  · split
    · simp
    · obtain ⟨c, cs, rfl⟩ := List.exists_cons_of_ne_nil h
      simp only
      split <;> simp

theorem numberDouble_plain (x : Dbl) : ∀ c ∈ numberDouble x, plainChar c = true := by
  intro c hc
  cases x with
  | nan =>
    simp only [numberDouble, List.mem_cons, List.mem_singleton, List.not_mem_nil,
      or_false] at hc
    rcases hc with rfl | rfl | rfl <;> decide
  | inf neg =>
    cases neg <;> simp [numberDouble] at hc <;> rcases hc with rfl | rfl | rfl | rfl <;> decide
  | finite neg m e =>
    have body : ∀ c ∈ (if m = 0 then ['0'] else
        formatG (chopTrailingZeros (natDigits (sixDigits (scalePow 2 m 1 e).1 (scalePow 2 m 1 e).2).1))
          (sixDigits (scalePow 2 m 1 e).1 (scalePow 2 m 1 e).2).2), plainChar c = true := by
      intro c hc
      split at hc
      · simp at hc; subst hc; decide
      · exact formatG_plain _ _ (fun c hc => natDigits_plain _ c (chopTrailingZeros_mem _ c hc)) c hc
    simp only [numberDouble] at hc
    split at hc
    · rcases List.mem_cons.1 hc with rfl | hc
      · decide
      · exact body c hc
    · exact body c hc

theorem scalePow_two_fst_pos (m : Nat) (e : Int) (hm : 1 ≤ m) : 1 ≤ (scalePow 2 m 1 e).1 := by
  unfold scalePow
  split
  · exact Nat.mul_pos hm (Nat.pow_pos (by norm_num))
  · exact hm

theorem numberDouble_ne_nil (x : Dbl) : numberDouble x ≠ [] := by
  cases x with
  | nan => simp [numberDouble]
  | inf neg => cases neg <;> simp [numberDouble]
  | finite neg m e =>
    simp only [numberDouble]
    split
    · simp
    · split
      · simp
      · rename_i hm
        apply formatG_ne_nil
        apply chopTrailingZeros_ne_nil
        apply sixDigits_pos
        · exact scalePow_two_fst_pos m e (by omega)
        · exact scalePow_snd_pos 2 m 1 (by norm_num) (by norm_num) e

/-! ## The codec -/

/-- The tokeniser computes the reference split without an empty last token. -/
theorem substrings_eq_splitTokens (line : Str) : substrings line = splitTokens line := by
  unfold substrings splitTokens
  rw [splitLoop_eq _ _ _ (Nat.lt_succ_self _)]
  simp only [List.nil_append]
  have hne := splitAll_ne_nil line []
  by_cases h : (splitAll line []).getLastD [] = []
  · rw [if_neg (by simpa using h), if_pos h]
  · have hlen : ((splitAll line []).getLastD []).length ≠ 0 := by
      simpa using h
    rw [if_pos hlen, if_neg h]
    obtain ⟨l, a, hla⟩ := (List.eq_nil_or_concat (splitAll line [])).resolve_left hne
    rw [hla]
    simp

theorem intercalate_cons_cons (sep a b : Str) (l : List Str) :
    sep.intercalate (a :: b :: l) = a ++ (sep ++ sep.intercalate (b :: l)) := by
  simp [List.intercalate, List.intersperse]

theorem intercalate_singleton (sep a : Str) : sep.intercalate [a] = a := by
  simp [List.intercalate, List.intersperse]

theorem splitAll_append_plain (t : Str) (h : ∀ c ∈ t, plainChar c = true) :
    ∀ (rest cur : Str), splitAll (t ++ rest) cur = splitAll rest (t.reverse ++ cur) := by
  induction t with
  | nil => intro rest cur; simp
  | cons c cs ih =>
    intro rest cur
    have hc : c ≠ ',' := by
      have := h c (List.mem_cons_self _ _)
      intro hh; subst hh; simp [plainChar] at this
    rw [List.cons_append, splitAll.eq_3 cur c (cs ++ rest) (fun _ h1 _ => hc h1),
      ih (fun c hc => h c (List.mem_cons_of_mem _ hc))]
    simp

/-- The reference split of a line made of comma-free texts joined by the
delimiter gives the texts back. -/
theorem splitAll_intercalate (t : Str) (ts : List Str) :
    (∀ s ∈ t :: ts, ∀ c ∈ s, plainChar c = true) → ∀ cur : Str,
    splitAll (SUBSTR_DELIMITER.intercalate (t :: ts)) cur = (cur.reverse ++ t) :: ts := by
  induction ts generalizing t with
  | nil =>
    intro h cur
    rw [intercalate_singleton]
    have := splitAll_append_plain t (h t (by simp)) [] cur
    simp only [List.append_nil] at this
    rw [this]; simp [splitAll]
  | cons b l ih =>
    intro h cur
    rw [intercalate_cons_cons, splitAll_append_plain t (h t (by simp))]
    simp only [SUBSTR_DELIMITER, List.cons_append, List.nil_append]
    rw [splitAll.eq_2]
    have := ih b (fun s hs => h s (List.mem_cons_of_mem _ hs)) []
    simp only [SUBSTR_DELIMITER] at this
    rw [this]; simp

theorem substrings_intercalate (t : Str) (ts : List Str)
    (h : ∀ s ∈ t :: ts, ∀ c ∈ s, plainChar c = true) (hne : ∀ s ∈ t :: ts, s ≠ []) :
    substrings (SUBSTR_DELIMITER.intercalate (t :: ts)) = t :: ts := by
  rw [substrings_eq_splitTokens]
  unfold splitTokens
  simp only
  rw [splitAll_intercalate t ts h []]
  simp only [List.reverse_nil, List.nil_append]
  have : (t :: ts).getLastD [] ≠ [] := by
    rw [List.getLastD_eq_getLast?]
    have h1 : (t :: ts).getLast? = some ((t :: ts).getLast (by simp)) := List.getLast?_eq_getLast _ _
    rw [h1]
    exact hne _ (List.getLast_mem _)
  rw [if_neg this]

theorem createSignalStringTriangle_eq (sig : SignalTriangle) :
    createSignalStringTriangle sig = SUBSTR_DELIMITER.intercalate (SignalItem.triangle sig).texts := by
  simp [createSignalStringTriangle, SignalItem.texts, SignalItem.fieldValues, FieldValue.text,
    SignalItem.getType, SignalTriangle.type, List.intercalate, List.intersperse]

theorem createSignalStringRectangle_eq (sig : SignalRectangle) :
    createSignalStringRectangle sig = SUBSTR_DELIMITER.intercalate (SignalItem.rectangle sig).texts := by
  simp [createSignalStringRectangle, SignalItem.texts, SignalItem.fieldValues, FieldValue.text,
    SignalItem.getType, SignalRectangle.type, List.intercalate, List.intersperse]

theorem createSignalStringPulse_eq (sig : SignalPulse) :
    createSignalStringPulse sig = SUBSTR_DELIMITER.intercalate (SignalItem.pulse sig).texts := by
  simp [createSignalStringPulse, SignalItem.texts, SignalItem.fieldValues, FieldValue.text,
    SignalItem.getType, SignalPulse.type, List.intercalate, List.intersperse]

theorem createSignalStringRiseFall_eq (sig : SignalRiseFall) :
    createSignalStringRiseFall sig = SUBSTR_DELIMITER.intercalate (SignalItem.riseFall sig).texts := by
  simp [createSignalStringRiseFall, SignalItem.texts, SignalItem.fieldValues, FieldValue.text,
    SignalItem.getType, SignalRiseFall.type, List.intercalate, List.intersperse]

theorem createSignalStringSinDamp_eq (sig : SignalSinDamp) :
    createSignalStringSinDamp sig = SUBSTR_DELIMITER.intercalate (SignalItem.sinDamp sig).texts := by
  simp [createSignalStringSinDamp, SignalItem.texts, SignalItem.fieldValues, FieldValue.text,
    SignalItem.getType, SignalSinDamp.type, List.intercalate, List.intersperse]

theorem createSignalStringSinRise_eq (sig : SignalSinRise) :
    createSignalStringSinRise sig = SUBSTR_DELIMITER.intercalate (SignalItem.sinRise sig).texts := by
  simp [createSignalStringSinRise, SignalItem.texts, SignalItem.fieldValues, FieldValue.text,
    SignalItem.getType, SignalSinRise.type, List.intercalate, List.intersperse]

theorem createSignalStringWavSin_eq (sig : SignalWavSin) :
    createSignalStringWavSin sig = SUBSTR_DELIMITER.intercalate (SignalItem.wavSin sig).texts := by
  simp [createSignalStringWavSin, SignalItem.texts, SignalItem.fieldValues, FieldValue.text,
    SignalItem.getType, SignalWavSin.type, List.intercalate, List.intersperse]

theorem createSignalStringAmSin_eq (sig : SignalAmSin) :
    createSignalStringAmSin sig = SUBSTR_DELIMITER.intercalate (SignalItem.amSin sig).texts := by
  simp [createSignalStringAmSin, SignalItem.texts, SignalItem.fieldValues, FieldValue.text,
    SignalItem.getType, SignalAmSin.type, List.intercalate, List.intersperse]

theorem createSignalStringSinDampSin_eq (sig : SignalSinDampSin) :
    createSignalStringSinDampSin sig = SUBSTR_DELIMITER.intercalate (SignalItem.sinDampSin sig).texts := by
  simp [createSignalStringSinDampSin, SignalItem.texts, SignalItem.fieldValues, FieldValue.text,
    SignalItem.getType, SignalSinDampSin.type, List.intercalate, List.intersperse]

theorem createSignalStringTrapDampSin_eq (sig : SignalTrapDampSin) :
    createSignalStringTrapDampSin sig = SUBSTR_DELIMITER.intercalate (SignalItem.trapDampSin sig).texts := by
  simp [createSignalStringTrapDampSin, SignalItem.texts, SignalItem.fieldValues, FieldValue.text,
    SignalItem.getType, SignalTrapDampSin.type, List.intercalate, List.intersperse]

theorem createSignalStringNoise_eq (sig : SignalNoise) :
    createSignalStringNoise sig = SUBSTR_DELIMITER.intercalate (SignalItem.noise sig).texts := by
  simp [createSignalStringNoise, SignalItem.texts, SignalItem.fieldValues, FieldValue.text,
    SignalItem.getType, SignalNoise.type, List.intercalate, List.intersperse]

theorem lineString?_eq (item : SignalItem) (h : item.getType.isParametric = true) :
    item.lineString? = some (SUBSTR_DELIMITER.intercalate item.texts) := by
  cases item with
  | smc sig => simp [SignalItem.getType, SignalType.isParametric] at h
  | triangle sig => simp only [SignalItem.lineString?, createSignalStringTriangle_eq]
  | rectangle sig => simp only [SignalItem.lineString?, createSignalStringRectangle_eq]
  | pulse sig => simp only [SignalItem.lineString?, createSignalStringPulse_eq]
  | riseFall sig => simp only [SignalItem.lineString?, createSignalStringRiseFall_eq]
  | sinDamp sig => simp only [SignalItem.lineString?, createSignalStringSinDamp_eq]
  | sinRise sig => simp only [SignalItem.lineString?, createSignalStringSinRise_eq]
  | wavSin sig => simp only [SignalItem.lineString?, createSignalStringWavSin_eq]
  | amSin sig => simp only [SignalItem.lineString?, createSignalStringAmSin_eq]
  | sinDampSin sig => simp only [SignalItem.lineString?, createSignalStringSinDampSin_eq]
  | trapDampSin sig => simp only [SignalItem.lineString?, createSignalStringTrapDampSin_eq]
  | noise sig => simp only [SignalItem.lineString?, createSignalStringNoise_eq]

theorem length_succ_cases {α : Type} (l : List α) (n : Nat) (h : l.length = n + 1) :
    ∃ a l', l = a :: l' ∧ l'.length = n := by
  cases l with
  | nil => simp at h
  | cons a l' => exact ⟨a, l', rfl, by simpa using h⟩

theorem decodeTriangle_eq (tokens : List Str) :
    (decodeTriangle tokens).map (fun sig => (SignalItem.triangle sig, createSignalStringTriangle sig))
      = (if tokens.length = expectedParams .SIGNAL_TYPE_TRIANGLE + 1 then
          match parseFields (fieldKinds .SIGNAL_TYPE_TRIANGLE) tokens.tail with
          | some values =>
            match SignalItem.ofFieldValues .SIGNAL_TYPE_TRIANGLE values with
            | some item => some (item, SUBSTR_DELIMITER.intercalate item.texts)
            | none => none
          | none => none
        else none) := by
  by_cases hlen : tokens.length = 6 + 1
  · rw [if_pos (by simpa [expectedParams] using hlen)]
    unfold decodeTriangle
    simp only [hlen, Nat.add_sub_cancel, if_true]
    obtain ⟨t0, r0, rfl, hl0⟩ := length_succ_cases tokens 6 hlen
    obtain ⟨t1, r1, rfl, hl1⟩ := length_succ_cases r0 5 hl0
    obtain ⟨t2, r2, rfl, hl2⟩ := length_succ_cases r1 4 hl1
    obtain ⟨t3, r3, rfl, hl3⟩ := length_succ_cases r2 3 hl2
    obtain ⟨t4, r4, rfl, hl4⟩ := length_succ_cases r3 2 hl3
    obtain ⟨t5, r5, rfl, hl5⟩ := length_succ_cases r4 1 hl4
    obtain ⟨t6, r6, rfl, hl6⟩ := length_succ_cases r5 0 hl5
    obtain rfl := List.length_eq_zero.1 hl6
    simp only [List.getD_cons_succ, List.getD_cons_zero, List.tail_cons, fieldKinds]
    cases h1 : toDouble t1 with
    | none => simp [parseFields, parseField, h1]
    | some tPeriod =>
      cases h2 : toDouble t2 with
      | none => simp [parseFields, parseField, h1, h2]
      | some tRise =>
        cases h3 : toDouble t3 with
        | none => simp [parseFields, parseField, h1, h2, h3]
        | some tFall =>
          cases h4 : toDouble t4 with
          | none => simp [parseFields, parseField, h1, h2, h3, h4]
          | some tDelay =>
            cases h5 : toDouble t5 with
            | none => simp [parseFields, parseField, h1, h2, h3, h4, h5]
            | some yMax =>
              cases h6 : toDouble t6 with
              | none => simp [parseFields, parseField, h1, h2, h3, h4, h5, h6]
              | some yMin =>
                simp [parseFields, parseField, h1, h2, h3, h4, h5, h6, SignalItem.ofFieldValues, createSignalStringTriangle_eq]
  · rw [if_neg (by simpa [expectedParams] using hlen)]
    unfold decodeTriangle
    by_cases h : 6 = tokens.length - 1
    · have h0 : tokens.length = 0 := by omega
      have := List.length_eq_zero.1 h0
      subst this
      simp at h
    · simp [h]

theorem decodeRectangle_eq (tokens : List Str) :
    (decodeRectangle tokens).map (fun sig => (SignalItem.rectangle sig, createSignalStringRectangle sig))
      = (if tokens.length = expectedParams .SIGNAL_TYPE_RECTANGLE + 1 then
          match parseFields (fieldKinds .SIGNAL_TYPE_RECTANGLE) tokens.tail with
          | some values =>
            match SignalItem.ofFieldValues .SIGNAL_TYPE_RECTANGLE values with
            | some item => some (item, SUBSTR_DELIMITER.intercalate item.texts)
            | none => none
          | none => none
        else none) := by
  by_cases hlen : tokens.length = 5 + 1
  · rw [if_pos (by simpa [expectedParams] using hlen)]
    unfold decodeRectangle
    simp only [hlen, Nat.add_sub_cancel, if_true]
    obtain ⟨t0, r0, rfl, hl0⟩ := length_succ_cases tokens 5 hlen
    obtain ⟨t1, r1, rfl, hl1⟩ := length_succ_cases r0 4 hl0
    obtain ⟨t2, r2, rfl, hl2⟩ := length_succ_cases r1 3 hl1
    obtain ⟨t3, r3, rfl, hl3⟩ := length_succ_cases r2 2 hl2
    obtain ⟨t4, r4, rfl, hl4⟩ := length_succ_cases r3 1 hl3
    obtain ⟨t5, r5, rfl, hl5⟩ := length_succ_cases r4 0 hl4
    obtain rfl := List.length_eq_zero.1 hl5
    simp only [List.getD_cons_succ, List.getD_cons_zero, List.tail_cons, fieldKinds]
    cases h1 : toDouble t1 with
    | none => simp [parseFields, parseField, h1]
    | some tPeriod =>
      cases h2 : toDouble t2 with
      | none => simp [parseFields, parseField, h1, h2]
      | some fillFactor =>
        cases h3 : toDouble t3 with
        | none => simp [parseFields, parseField, h1, h2, h3]
        | some tDelay =>
          cases h4 : toDouble t4 with
          | none => simp [parseFields, parseField, h1, h2, h3, h4]
          | some yMax =>
            cases h5 : toDouble t5 with
            | none => simp [parseFields, parseField, h1, h2, h3, h4, h5]
            | some yMin =>
              simp [parseFields, parseField, h1, h2, h3, h4, h5, SignalItem.ofFieldValues, createSignalStringRectangle_eq]
  · rw [if_neg (by simpa [expectedParams] using hlen)]
    unfold decodeRectangle
    by_cases h : 5 = tokens.length - 1
    · have h0 : tokens.length = 0 := by omega
      have := List.length_eq_zero.1 h0
      subst this
      simp at h
    · simp [h]

theorem decodePulse_eq (tokens : List Str) :
    (decodePulse tokens).map (fun sig => (SignalItem.pulse sig, createSignalStringPulse sig))
      = (if tokens.length = expectedParams .SIGNAL_TYPE_PULSE + 1 then
          match parseFields (fieldKinds .SIGNAL_TYPE_PULSE) tokens.tail with
          | some values =>
            match SignalItem.ofFieldValues .SIGNAL_TYPE_PULSE values with
            | some item => some (item, SUBSTR_DELIMITER.intercalate item.texts)
            | none => none
          | none => none
        else none) := by
  by_cases hlen : tokens.length = 7 + 1
  · rw [if_pos (by simpa [expectedParams] using hlen)]
    unfold decodePulse
    simp only [hlen, Nat.add_sub_cancel, if_true]
    obtain ⟨t0, r0, rfl, hl0⟩ := length_succ_cases tokens 7 hlen
    obtain ⟨t1, r1, rfl, hl1⟩ := length_succ_cases r0 6 hl0
    obtain ⟨t2, r2, rfl, hl2⟩ := length_succ_cases r1 5 hl1
    obtain ⟨t3, r3, rfl, hl3⟩ := length_succ_cases r2 4 hl2
    obtain ⟨t4, r4, rfl, hl4⟩ := length_succ_cases r3 3 hl3
    obtain ⟨t5, r5, rfl, hl5⟩ := length_succ_cases r4 2 hl4
    obtain ⟨t6, r6, rfl, hl6⟩ := length_succ_cases r5 1 hl5
    obtain ⟨t7, r7, rfl, hl7⟩ := length_succ_cases r6 0 hl6
    obtain rfl := List.length_eq_zero.1 hl7
    simp only [List.getD_cons_succ, List.getD_cons_zero, List.tail_cons, fieldKinds]
    cases h1 : toDouble t1 with
    | none => simp [parseFields, parseField, h1]
    | some tPeriod =>
      cases h2 : toDouble t2 with
      | none => simp [parseFields, parseField, h1, h2]
      | some tRise =>
        cases h3 : toDouble t3 with
        | none => simp [parseFields, parseField, h1, h2, h3]
        | some tWidth =>
          cases h4 : toDouble t4 with
          | none => simp [parseFields, parseField, h1, h2, h3, h4]
          | some tFall =>
            cases h5 : toDouble t5 with
            | none => simp [parseFields, parseField, h1, h2, h3, h4, h5]
            | some tDelay =>
              cases h6 : toDouble t6 with
              | none => simp [parseFields, parseField, h1, h2, h3, h4, h5, h6]
              | some yMax =>
                cases h7 : toDouble t7 with
                | none => simp [parseFields, parseField, h1, h2, h3, h4, h5, h6, h7]
                | some yMin =>
                  simp [parseFields, parseField, h1, h2, h3, h4, h5, h6, h7, SignalItem.ofFieldValues, createSignalStringPulse_eq]
  · rw [if_neg (by simpa [expectedParams] using hlen)]
    unfold decodePulse
    by_cases h : 7 = tokens.length - 1
    · have h0 : tokens.length = 0 := by omega
      have := List.length_eq_zero.1 h0
      subst this
      simp at h
    · simp [h]

theorem decodeRiseFall_eq (tokens : List Str) :
    (decodeRiseFall tokens).map (fun sig => (SignalItem.riseFall sig, createSignalStringRiseFall sig))
      = (if tokens.length = expectedParams .SIGNAL_TYPE_RISEFALL + 1 then
          match parseFields (fieldKinds .SIGNAL_TYPE_RISEFALL) tokens.tail with
          | some values =>
            match SignalItem.ofFieldValues .SIGNAL_TYPE_RISEFALL values with
            | some item => some (item, SUBSTR_DELIMITER.intercalate item.texts)
            | none => none
          | none => none
        else none) := by
  by_cases hlen : tokens.length = 7 + 1
  · rw [if_pos (by simpa [expectedParams] using hlen)]
    unfold decodeRiseFall
    simp only [hlen, Nat.add_sub_cancel, if_true]
    obtain ⟨t0, r0, rfl, hl0⟩ := length_succ_cases tokens 7 hlen
    obtain ⟨t1, r1, rfl, hl1⟩ := length_succ_cases r0 6 hl0
    obtain ⟨t2, r2, rfl, hl2⟩ := length_succ_cases r1 5 hl1
    obtain ⟨t3, r3, rfl, hl3⟩ := length_succ_cases r2 4 hl2
    obtain ⟨t4, r4, rfl, hl4⟩ := length_succ_cases r3 3 hl3
    obtain ⟨t5, r5, rfl, hl5⟩ := length_succ_cases r4 2 hl4
    obtain ⟨t6, r6, rfl, hl6⟩ := length_succ_cases r5 1 hl5
    obtain ⟨t7, r7, rfl, hl7⟩ := length_succ_cases r6 0 hl6
    obtain rfl := List.length_eq_zero.1 hl7
    simp only [List.getD_cons_succ, List.getD_cons_zero, List.tail_cons, fieldKinds]
    cases h1 : toDouble t1 with
    | none => simp [parseFields, parseField, h1]
    | some tDelay =>
      cases h2 : toDouble t2 with
      | none => simp [parseFields, parseField, h1, h2]
      | some tDelayRise =>
        cases h3 : toDouble t3 with
        | none => simp [parseFields, parseField, h1, h2, h3]
        | some tRampRise =>
          cases h4 : toDouble t4 with
          | none => simp [parseFields, parseField, h1, h2, h3, h4]
          | some tDelayFall =>
            cases h5 : toDouble t5 with
            | none => simp [parseFields, parseField, h1, h2, h3, h4, h5]
            | some tRampFall =>
              cases h6 : toDouble t6 with
              | none => simp [parseFields, parseField, h1, h2, h3, h4, h5, h6]
              | some yMax =>
                cases h7 : toDouble t7 with
                | none => simp [parseFields, parseField, h1, h2, h3, h4, h5, h6, h7]
                | some yMin =>
                  simp [parseFields, parseField, h1, h2, h3, h4, h5, h6, h7, SignalItem.ofFieldValues, createSignalStringRiseFall_eq]
  · rw [if_neg (by simpa [expectedParams] using hlen)]
    unfold decodeRiseFall
    by_cases h : 7 = tokens.length - 1
    · have h0 : tokens.length = 0 := by omega
      have := List.length_eq_zero.1 h0
      subst this
      simp at h
    · simp [h]

theorem decodeSinDamp_eq (tokens : List Str) :
    (decodeSinDamp tokens).map (fun sig => (SignalItem.sinDamp sig, createSignalStringSinDamp sig))
      = (if tokens.length = expectedParams .SIGNAL_TYPE_SINDAMP + 1 then
          match parseFields (fieldKinds .SIGNAL_TYPE_SINDAMP) tokens.tail with
          | some values =>
            match SignalItem.ofFieldValues .SIGNAL_TYPE_SINDAMP values with
            | some item => some (item, SUBSTR_DELIMITER.intercalate item.texts)
            | none => none
          | none => none
        else none) := by
  by_cases hlen : tokens.length = 6 + 1
  · rw [if_pos (by simpa [expectedParams] using hlen)]
    unfold decodeSinDamp
    simp only [hlen, Nat.add_sub_cancel, if_true]
    obtain ⟨t0, r0, rfl, hl0⟩ := length_succ_cases tokens 6 hlen
    obtain ⟨t1, r1, rfl, hl1⟩ := length_succ_cases r0 5 hl0
    obtain ⟨t2, r2, rfl, hl2⟩ := length_succ_cases r1 4 hl1
    obtain ⟨t3, r3, rfl, hl3⟩ := length_succ_cases r2 3 hl2
    obtain ⟨t4, r4, rfl, hl4⟩ := length_succ_cases r3 2 hl3
    obtain ⟨t5, r5, rfl, hl5⟩ := length_succ_cases r4 1 hl4
    obtain ⟨t6, r6, rfl, hl6⟩ := length_succ_cases r5 0 hl5
    obtain rfl := List.length_eq_zero.1 hl6
    simp only [List.getD_cons_succ, List.getD_cons_zero, List.tail_cons, fieldKinds]
    cases h1 : toDouble t1 with
    | none => simp [parseFields, parseField, h1]
    | some freqHz =>
      cases h2 : toDouble t2 with
      | none => simp [parseFields, parseField, h1, h2]
      | some phiRad =>
        cases h3 : toDouble t3 with
        | none => simp [parseFields, parseField, h1, h2, h3]
        | some tDelay =>
          cases h4 : toDouble t4 with
          | none => simp [parseFields, parseField, h1, h2, h3, h4]
          | some amplit =>
            cases h5 : toDouble t5 with
            | none => simp [parseFields, parseField, h1, h2, h3, h4, h5]
            | some offset =>
              cases h6 : toDouble t6 with
              | none => simp [parseFields, parseField, h1, h2, h3, h4, h5, h6]
              | some damping =>
                simp [parseFields, parseField, h1, h2, h3, h4, h5, h6, SignalItem.ofFieldValues, createSignalStringSinDamp_eq]
  · rw [if_neg (by simpa [expectedParams] using hlen)]
    unfold decodeSinDamp
    by_cases h : 6 = tokens.length - 1
    · have h0 : tokens.length = 0 := by omega
      have := List.length_eq_zero.1 h0
      subst this
      simp at h
    · simp [h]

theorem decodeSinRise_eq (tokens : List Str) :
    (decodeSinRise tokens).map (fun sig => (SignalItem.sinRise sig, createSignalStringSinRise sig))
      = (if tokens.length = expectedParams .SIGNAL_TYPE_SINRISE + 1 then
          match parseFields (fieldKinds .SIGNAL_TYPE_SINRISE) tokens.tail with
          | some values =>
            match SignalItem.ofFieldValues .SIGNAL_TYPE_SINRISE values with
            | some item => some (item, SUBSTR_DELIMITER.intercalate item.texts)
            | none => none
          | none => none
        else none) := by
  by_cases hlen : tokens.length = 7 + 1
  · rw [if_pos (by simpa [expectedParams] using hlen)]
    unfold decodeSinRise
    simp only [hlen, Nat.add_sub_cancel, if_true]
    obtain ⟨t0, r0, rfl, hl0⟩ := length_succ_cases tokens 7 hlen
    obtain ⟨t1, r1, rfl, hl1⟩ := length_succ_cases r0 6 hl0
    obtain ⟨t2, r2, rfl, hl2⟩ := length_succ_cases r1 5 hl1
    obtain ⟨t3, r3, rfl, hl3⟩ := length_succ_cases r2 4 hl2
    obtain ⟨t4, r4, rfl, hl4⟩ := length_succ_cases r3 3 hl3
    obtain ⟨t5, r5, rfl, hl5⟩ := length_succ_cases r4 2 hl4
    obtain ⟨t6, r6, rfl, hl6⟩ := length_succ_cases r5 1 hl5
    obtain ⟨t7, r7, rfl, hl7⟩ := length_succ_cases r6 0 hl6
    obtain rfl := List.length_eq_zero.1 hl7
    simp only [List.getD_cons_succ, List.getD_cons_zero, List.tail_cons, fieldKinds]
    cases h1 : toDouble t1 with
    | none => simp [parseFields, parseField, h1]
    | some freqHz =>
      cases h2 : toDouble t2 with
      | none => simp [parseFields, parseField, h1, h2]
      | some phiRad =>
        cases h3 : toDouble t3 with
        | none => simp [parseFields, parseField, h1, h2, h3]
        | some tEnd =>
          cases h4 : toDouble t4 with
          | none => simp [parseFields, parseField, h1, h2, h3, h4]
          | some tDelay =>
            cases h5 : toDouble t5 with
            | none => simp [parseFields, parseField, h1, h2, h3, h4, h5]
            | some amplit =>
              cases h6 : toDouble t6 with
              | none => simp [parseFields, parseField, h1, h2, h3, h4, h5, h6]
              | some offset =>
                cases h7 : toDouble t7 with
                | none => simp [parseFields, parseField, h1, h2, h3, h4, h5, h6, h7]
                | some damping =>
                  simp [parseFields, parseField, h1, h2, h3, h4, h5, h6, h7, SignalItem.ofFieldValues, createSignalStringSinRise_eq]
  · rw [if_neg (by simpa [expectedParams] using hlen)]
    unfold decodeSinRise
    by_cases h : 7 = tokens.length - 1
    · have h0 : tokens.length = 0 := by omega
      have := List.length_eq_zero.1 h0
      subst this
      simp at h
    · simp [h]

theorem decodeWavSin_eq (tokens : List Str) :
    (decodeWavSin tokens).map (fun sig => (SignalItem.wavSin sig, createSignalStringWavSin sig))
      = (if tokens.length = expectedParams .SIGNAL_TYPE_WAVSIN + 1 then
          match parseFields (fieldKinds .SIGNAL_TYPE_WAVSIN) tokens.tail with
          | some values =>
            match SignalItem.ofFieldValues .SIGNAL_TYPE_WAVSIN values with
            | some item => some (item, SUBSTR_DELIMITER.intercalate item.texts)
            | none => none
          | none => none
        else none) := by
  by_cases hlen : tokens.length = 6 + 1
  · rw [if_pos (by simpa [expectedParams] using hlen)]
    unfold decodeWavSin
    simp only [hlen, Nat.add_sub_cancel, if_true]
    obtain ⟨t0, r0, rfl, hl0⟩ := length_succ_cases tokens 6 hlen
    obtain ⟨t1, r1, rfl, hl1⟩ := length_succ_cases r0 5 hl0
    obtain ⟨t2, r2, rfl, hl2⟩ := length_succ_cases r1 4 hl1
    obtain ⟨t3, r3, rfl, hl3⟩ := length_succ_cases r2 3 hl2
    obtain ⟨t4, r4, rfl, hl4⟩ := length_succ_cases r3 2 hl3
    obtain ⟨t5, r5, rfl, hl5⟩ := length_succ_cases r4 1 hl4
    obtain ⟨t6, r6, rfl, hl6⟩ := length_succ_cases r5 0 hl5
    obtain rfl := List.length_eq_zero.1 hl6
    simp only [List.getD_cons_succ, List.getD_cons_zero, List.tail_cons, fieldKinds]
    cases h1 : toDouble t1 with
    | none => simp [parseFields, parseField, h1]
    | some freqHz =>
      cases h2 : toDouble t2 with
      | none => simp [parseFields, parseField, h1, h2]
      | some phiRad =>
        cases h3 : toDouble t3 with
        | none => simp [parseFields, parseField, h1, h2, h3]
        | some tDelay =>
          cases h4 : toDouble t4 with
          | none => simp [parseFields, parseField, h1, h2, h3, h4]
          | some amplit =>
            cases h5 : toDouble t5 with
            | none => simp [parseFields, parseField, h1, h2, h3, h4, h5]
            | some offset =>
              cases h6 : toInt t6 with
              | none => simp [parseFields, parseField, h1, h2, h3, h4, h5, h6]
              | some index =>
                simp [parseFields, parseField, h1, h2, h3, h4, h5, h6, SignalItem.ofFieldValues, createSignalStringWavSin_eq]
  · rw [if_neg (by simpa [expectedParams] using hlen)]
    unfold decodeWavSin
    by_cases h : 6 = tokens.length - 1
    · have h0 : tokens.length = 0 := by omega
      have := List.length_eq_zero.1 h0
      subst this
      simp at h
    · simp [h]

theorem decodeAmSin_eq (tokens : List Str) :
    (decodeAmSin tokens).map (fun sig => (SignalItem.amSin sig, createSignalStringAmSin sig))
      = (if tokens.length = expectedParams .SIGNAL_TYPE_AMSIN + 1 then
          match parseFields (fieldKinds .SIGNAL_TYPE_AMSIN) tokens.tail with
          | some values =>
            match SignalItem.ofFieldValues .SIGNAL_TYPE_AMSIN values with
            | some item => some (item, SUBSTR_DELIMITER.intercalate item.texts)
            | none => none
          | none => none
        else none) := by
  by_cases hlen : tokens.length = 7 + 1
  · rw [if_pos (by simpa [expectedParams] using hlen)]
    unfold decodeAmSin
    simp only [hlen, Nat.add_sub_cancel, if_true]
    obtain ⟨t0, r0, rfl, hl0⟩ := length_succ_cases tokens 7 hlen
    obtain ⟨t1, r1, rfl, hl1⟩ := length_succ_cases r0 6 hl0
    obtain ⟨t2, r2, rfl, hl2⟩ := length_succ_cases r1 5 hl1
    obtain ⟨t3, r3, rfl, hl3⟩ := length_succ_cases r2 4 hl2
    obtain ⟨t4, r4, rfl, hl4⟩ := length_succ_cases r3 3 hl3
    obtain ⟨t5, r5, rfl, hl5⟩ := length_succ_cases r4 2 hl4
    obtain ⟨t6, r6, rfl, hl6⟩ := length_succ_cases r5 1 hl5
    obtain ⟨t7, r7, rfl, hl7⟩ := length_succ_cases r6 0 hl6
    obtain rfl := List.length_eq_zero.1 hl7
    simp only [List.getD_cons_succ, List.getD_cons_zero, List.tail_cons, fieldKinds]
    cases h1 : toDouble t1 with
    | none => simp [parseFields, parseField, h1]
    | some carrierFreqHz =>
      cases h2 : toDouble t2 with
      | none => simp [parseFields, parseField, h1, h2]
      | some carrierAmplitude =>
        cases h3 : toDouble t3 with
        | none => simp [parseFields, parseField, h1, h2, h3]
        | some carrierOffset =>
          cases h4 : toDouble t4 with
          | none => simp [parseFields, parseField, h1, h2, h3, h4]
          | some carrierTDelay =>
            cases h5 : toDouble t5 with
            | none => simp [parseFields, parseField, h1, h2, h3, h4, h5]
            | some modulationFreqHz =>
              cases h6 : toDouble t6 with
              | none => simp [parseFields, parseField, h1, h2, h3, h4, h5, h6]
              | some modulationPhiRad =>
                cases h7 : toDouble t7 with
                | none => simp [parseFields, parseField, h1, h2, h3, h4, h5, h6, h7]
                | some modulationIndex =>
                  simp [parseFields, parseField, h1, h2, h3, h4, h5, h6, h7, SignalItem.ofFieldValues, createSignalStringAmSin_eq]
  · rw [if_neg (by simpa [expectedParams] using hlen)]
    unfold decodeAmSin
    by_cases h : 7 = tokens.length - 1
    · have h0 : tokens.length = 0 := by omega
      have := List.length_eq_zero.1 h0
      subst this
      simp at h
    · simp [h]

theorem decodeSinDampSin_eq (tokens : List Str) :
    (decodeSinDampSin tokens).map (fun sig => (SignalItem.sinDampSin sig, createSignalStringSinDampSin sig))
      = (if tokens.length = expectedParams .SIGNAL_TYPE_SINDAMPSIN + 1 then
          match parseFields (fieldKinds .SIGNAL_TYPE_SINDAMPSIN) tokens.tail with
          | some values =>
            match SignalItem.ofFieldValues .SIGNAL_TYPE_SINDAMPSIN values with
            | some item => some (item, SUBSTR_DELIMITER.intercalate item.texts)
            | none => none
          | none => none
        else none) := by
  by_cases hlen : tokens.length = 6 + 1
  · rw [if_pos (by simpa [expectedParams] using hlen)]
    unfold decodeSinDampSin
    simp only [hlen, Nat.add_sub_cancel, if_true]
    obtain ⟨t0, r0, rfl, hl0⟩ := length_succ_cases tokens 6 hlen
    obtain ⟨t1, r1, rfl, hl1⟩ := length_succ_cases r0 5 hl0
    obtain ⟨t2, r2, rfl, hl2⟩ := length_succ_cases r1 4 hl1
    obtain ⟨t3, r3, rfl, hl3⟩ := length_succ_cases r2 3 hl2
    obtain ⟨t4, r4, rfl, hl4⟩ := length_succ_cases r3 2 hl3
    obtain ⟨t5, r5, rfl, hl5⟩ := length_succ_cases r4 1 hl4
    obtain ⟨t6, r6, rfl, hl6⟩ := length_succ_cases r5 0 hl5
    obtain rfl := List.length_eq_zero.1 hl6
    simp only [List.getD_cons_succ, List.getD_cons_zero, List.tail_cons, fieldKinds]
    cases h1 : toDouble t1 with
    | none => simp [parseFields, parseField, h1]
    | some freqSinHz =>
      cases h2 : toDouble t2 with
      | none => simp [parseFields, parseField, h1, h2]
      | some tPeriodEnv =>
        cases h3 : toDouble t3 with
        | none => simp [parseFields, parseField, h1, h2, h3]
        | some tDelay =>
          cases h4 : toDouble t4 with
          | none => simp [parseFields, parseField, h1, h2, h3, h4]
          | some amplit =>
            cases h5 : toDouble t5 with
            | none => simp [parseFields, parseField, h1, h2, h3, h4, h5]
            | some offset =>
              cases h6 : toInt t6 with
              | none => simp [parseFields, parseField, h1, h2, h3, h4, h5, h6]
              | some dampingType =>
                simp [parseFields, parseField, h1, h2, h3, h4, h5, h6, SignalItem.ofFieldValues, createSignalStringSinDampSin_eq]
  · rw [if_neg (by simpa [expectedParams] using hlen)]
    unfold decodeSinDampSin
    by_cases h : 6 = tokens.length - 1
    · have h0 : tokens.length = 0 := by omega
      have := List.length_eq_zero.1 h0
      subst this
      simp at h
    · simp [h]

theorem decodeTrapDampSin_eq (tokens : List Str) :
    (decodeTrapDampSin tokens).map (fun sig => (SignalItem.trapDampSin sig, createSignalStringTrapDampSin sig))
      = (if tokens.length = expectedParams .SIGNAL_TYPE_TRAPDAMPSIN + 1 then
          match parseFields (fieldKinds .SIGNAL_TYPE_TRAPDAMPSIN) tokens.tail with
          | some values =>
            match SignalItem.ofFieldValues .SIGNAL_TYPE_TRAPDAMPSIN values with
            | some item => some (item, SUBSTR_DELIMITER.intercalate item.texts)
            | none => none
          | none => none
        else none) := by
  by_cases hlen : tokens.length = 9 + 1
  · rw [if_pos (by simpa [expectedParams] using hlen)]
    unfold decodeTrapDampSin
    simp only [hlen, Nat.add_sub_cancel, if_true]
    obtain ⟨t0, r0, rfl, hl0⟩ := length_succ_cases tokens 9 hlen
    obtain ⟨t1, r1, rfl, hl1⟩ := length_succ_cases r0 8 hl0
    obtain ⟨t2, r2, rfl, hl2⟩ := length_succ_cases r1 7 hl1
    obtain ⟨t3, r3, rfl, hl3⟩ := length_succ_cases r2 6 hl2
    obtain ⟨t4, r4, rfl, hl4⟩ := length_succ_cases r3 5 hl3
    obtain ⟨t5, r5, rfl, hl5⟩ := length_succ_cases r4 4 hl4
    obtain ⟨t6, r6, rfl, hl6⟩ := length_succ_cases r5 3 hl5
    obtain ⟨t7, r7, rfl, hl7⟩ := length_succ_cases r6 2 hl6
    obtain ⟨t8, r8, rfl, hl8⟩ := length_succ_cases r7 1 hl7
    obtain ⟨t9, r9, rfl, hl9⟩ := length_succ_cases r8 0 hl8
    obtain rfl := List.length_eq_zero.1 hl9
    simp only [List.getD_cons_succ, List.getD_cons_zero, List.tail_cons, fieldKinds]
    cases h1 : toDouble t1 with
    | none => simp [parseFields, parseField, h1]
    | some tPeriod =>
      cases h2 : toDouble t2 with
      | none => simp [parseFields, parseField, h1, h2]
      | some tRise =>
        cases h3 : toDouble t3 with
        | none => simp [parseFields, parseField, h1, h2, h3]
        | some tWidth =>
          cases h4 : toDouble t4 with
          | none => simp [parseFields, parseField, h1, h2, h3, h4]
          | some tFall =>
            cases h5 : toDouble t5 with
            | none => simp [parseFields, parseField, h1, h2, h3, h4, h5]
            | some tDelay =>
              cases h6 : toDouble t6 with
              | none => simp [parseFields, parseField, h1, h2, h3, h4, h5, h6]
              | some tCross =>
                cases h7 : toDouble t7 with
                | none => simp [parseFields, parseField, h1, h2, h3, h4, h5, h6, h7]
                | some freqHz =>
                  cases h8 : toDouble t8 with
                  | none => simp [parseFields, parseField, h1, h2, h3, h4, h5, h6, h7, h8]
                  | some amplit =>
                    cases h9 : toDouble t9 with
                    | none => simp [parseFields, parseField, h1, h2, h3, h4, h5, h6, h7, h8, h9]
                    | some offset =>
                      simp [parseFields, parseField, h1, h2, h3, h4, h5, h6, h7, h8, h9, SignalItem.ofFieldValues, createSignalStringTrapDampSin_eq]
  · rw [if_neg (by simpa [expectedParams] using hlen)]
    unfold decodeTrapDampSin
    by_cases h : 9 = tokens.length - 1
    · have h0 : tokens.length = 0 := by omega
      have := List.length_eq_zero.1 h0
      subst this
      simp at h
    · simp [h]

theorem decodeNoise_eq (tokens : List Str) :
    (decodeNoise tokens).map (fun sig => (SignalItem.noise sig, createSignalStringNoise sig))
      = (if tokens.length = expectedParams .SIGNAL_TYPE_NOISE + 1 then
          match parseFields (fieldKinds .SIGNAL_TYPE_NOISE) tokens.tail with
          | some values =>
            match SignalItem.ofFieldValues .SIGNAL_TYPE_NOISE values with
            | some item => some (item, SUBSTR_DELIMITER.intercalate item.texts)
            | none => none
          | none => none
        else none) := by
  by_cases hlen : tokens.length = 5 + 1
  · rw [if_pos (by simpa [expectedParams] using hlen)]
    unfold decodeNoise
    simp only [hlen, Nat.add_sub_cancel, if_true]
    obtain ⟨t0, r0, rfl, hl0⟩ := length_succ_cases tokens 5 hlen
    obtain ⟨t1, r1, rfl, hl1⟩ := length_succ_cases r0 4 hl0
    obtain ⟨t2, r2, rfl, hl2⟩ := length_succ_cases r1 3 hl1
    obtain ⟨t3, r3, rfl, hl3⟩ := length_succ_cases r2 2 hl2
    obtain ⟨t4, r4, rfl, hl4⟩ := length_succ_cases r3 1 hl3
    obtain ⟨t5, r5, rfl, hl5⟩ := length_succ_cases r4 0 hl4
    obtain rfl := List.length_eq_zero.1 hl5
    simp only [List.getD_cons_succ, List.getD_cons_zero, List.tail_cons, fieldKinds]
    cases h1 : toInt t1 with
    | none => simp [parseFields, parseField, h1]
    | some noiseType =>
      cases h2 : toDouble t2 with
      | none => simp [parseFields, parseField, h1, h2]
      | some gamma =>
        cases h3 : toDouble t3 with
        | none => simp [parseFields, parseField, h1, h2, h3]
        | some tDelay =>
          cases h4 : toDouble t4 with
          | none => simp [parseFields, parseField, h1, h2, h3, h4]
          | some amplit =>
            cases h5 : toDouble t5 with
            | none => simp [parseFields, parseField, h1, h2, h3, h4, h5]
            | some offset =>
              simp [parseFields, parseField, h1, h2, h3, h4, h5, SignalItem.ofFieldValues, createSignalStringNoise_eq]
  · rw [if_neg (by simpa [expectedParams] using hlen)]
    unfold decodeNoise
    by_cases h : 5 = tokens.length - 1
    · have h0 : tokens.length = 0 := by omega
      have := List.length_eq_zero.1 h0
      subst this
      simp at h
    · simp [h]

/-- The decoder of `handleSignalOpen` computes the reference decoder. -/
theorem decodeSubstrings_eq_reference (tokens : List Str) :
    decodeSubstrings tokens = decodeReference tokens := by
  unfold decodeSubstrings decodeReference
  by_cases h2 : 2 ≤ tokens.length
  · simp only [h2, if_true]
    generalize SignalType.ofInt (toIntOrZero (tokens.getD 0 [])) = t
    cases t with
    | SIGNAL_TYPE_INVALID => simp [SignalType.isParametric]
    | SIGNAL_TYPE_SMC => simp [SignalType.isParametric]
    | SIGNAL_TYPE_TRIANGLE => simp only [decodeTriangle_eq, SignalType.isParametric, true_and]
    | SIGNAL_TYPE_RECTANGLE => simp only [decodeRectangle_eq, SignalType.isParametric, true_and]
    | SIGNAL_TYPE_PULSE => simp only [decodePulse_eq, SignalType.isParametric, true_and]
    | SIGNAL_TYPE_RISEFALL => simp only [decodeRiseFall_eq, SignalType.isParametric, true_and]
    | SIGNAL_TYPE_SINDAMP => simp only [decodeSinDamp_eq, SignalType.isParametric, true_and]
    | SIGNAL_TYPE_SINRISE => simp only [decodeSinRise_eq, SignalType.isParametric, true_and]
    | SIGNAL_TYPE_WAVSIN => simp only [decodeWavSin_eq, SignalType.isParametric, true_and]
    | SIGNAL_TYPE_AMSIN => simp only [decodeAmSin_eq, SignalType.isParametric, true_and]
    | SIGNAL_TYPE_SINDAMPSIN => simp only [decodeSinDampSin_eq, SignalType.isParametric, true_and]
    | SIGNAL_TYPE_TRAPDAMPSIN => simp only [decodeTrapDampSin_eq, SignalType.isParametric, true_and]
    | SIGNAL_TYPE_NOISE => simp only [decodeNoise_eq, SignalType.isParametric, true_and]
  · simp [h2]

theorem ofInt_toInt (t : SignalType) : SignalType.ofInt t.toInt = t := by
  cases t <;> rfl

theorem toIntOrZero_numberInt (v : CInt) : toIntOrZero (numberInt v.val) = v.val := by
  unfold toIntOrZero
  rw [toInt_numberInt]

theorem toIntOrZero_tag (t : SignalType) : toIntOrZero (numberInt t.toInt) = t.toInt := by
  have h : (-2147483648 : Int) ≤ t.toInt ∧ t.toInt ≤ 2147483647 := by
    cases t <;> simp [SignalType.toInt]
  exact toIntOrZero_numberInt ⟨t.toInt, h⟩

theorem parseField_kind (k : FieldKind) (s : Str) (v : FieldValue)
    (h : parseField k s = some v) : v.kind = k := by
  cases k <;> simp only [parseField, Option.map_eq_some'] at h <;>
    obtain ⟨x, -, rfl⟩ := h <;> rfl

theorem parseFields_kinds : ∀ (ks : List FieldKind) (ts : List Str) (vs : List FieldValue),
    parseFields ks ts = some vs → vs.map FieldValue.kind = ks ∧ ts.length = ks.length
  | [], [], vs, h => by
    simp only [parseFields, Option.some.injEq] at h; subst h; simp
  | [], _ :: _, vs, h => by simp [parseFields] at h
  | _ :: _, [], vs, h => by simp [parseFields] at h
  | k :: ks, t :: ts, vs, h => by
    simp only [parseFields] at h
    cases hk : parseField k t with
    | none => simp [hk] at h
    | some v =>
      simp only [hk, Option.map_eq_some'] at h
      obtain ⟨vs', hvs', rfl⟩ := h
      have := parseFields_kinds ks ts vs' hvs'
      simp [parseField_kind k t v hk, this.1, this.2]

/-- A token that does not convert makes the conversion of the whole line
fail, whatever its position. -/
theorem parseFields_none_of_bad : ∀ (ks : List FieldKind) (ts : List Str) (k : Nat),
    k < ks.length → parseField (ks.getD k .real) (ts.getD k []) = none →
    parseFields ks ts = none
  | [], _, k, hk, _ => by simp at hk
  | _ :: _, [], _, _, _ => by simp [parseFields]
  | k0 :: ks, t :: ts, 0, _, h => by
    simp only [List.getD_cons_zero] at h
    simp [parseFields, h]
  | k0 :: ks, t :: ts, k + 1, hk, h => by
    simp only [List.getD_cons_succ] at h
    have := parseFields_none_of_bad ks ts k (by simpa using hk) h
    simp only [parseFields, this]
    cases parseField k0 t <;> simp

theorem parseFields_roundtrip : ∀ (vs : List FieldValue),
    (∀ v ∈ vs, parseField v.kind v.text = some v) →
    parseFields (vs.map FieldValue.kind) (vs.map FieldValue.text) = some vs
  | [], _ => by simp [parseFields]
  | v :: vs, h => by
    simp only [List.map_cons, parseFields, h v (List.mem_cons_self _ _)]
    rw [parseFields_roundtrip vs (fun w hw => h w (List.mem_cons_of_mem _ hw))]
    simp

theorem ofFieldValues_some (t : SignalType) (vs : List FieldValue) (item : SignalItem)
    (h : SignalItem.ofFieldValues t vs = some item) :
    item.fieldValues = vs ∧ item.getType = t := by
  unfold SignalItem.ofFieldValues at h
  split at h <;> simp only [Option.some.injEq, reduceCtorEq] at h <;> subst h <;>
    simp [SignalItem.fieldValues, SignalItem.getType]

theorem ofFieldValues_fieldValues (item : SignalItem) (h : item.getType.isParametric = true) :
    SignalItem.ofFieldValues item.getType item.fieldValues = some item := by
  cases item <;> first
    | rfl
    | simp [SignalItem.getType, SignalType.isParametric] at h

theorem fieldValues_kinds (item : SignalItem) :
    item.fieldValues.map FieldValue.kind = fieldKinds item.getType := by
  cases item <;> rfl

theorem fieldKinds_length (t : SignalType) : (fieldKinds t).length = expectedParams t := by
  cases t <;> rfl

theorem expectedParams_ge (t : SignalType) (h : t.isParametric = true) : 5 ≤ expectedParams t := by
  cases t <;> simp [expectedParams, SignalType.isParametric] at h ⊢

theorem map_kind_cons (vs : List FieldValue) (k : FieldKind) (ks : List FieldKind)
    (h : vs.map FieldValue.kind = k :: ks) :
    ∃ v r, vs = v :: r ∧ v.kind = k ∧ r.map FieldValue.kind = ks := by
  cases vs with
  | nil => simp at h
  | cons v r =>
    simp only [List.map_cons, List.cons.injEq] at h
    exact ⟨v, r, rfl, h.1, h.2⟩

theorem kind_real (v : FieldValue) (h : v.kind = .real) : ∃ x, v = .real x := by
  cases v with
  | real x => exact ⟨x, rfl⟩
  | integer v => simp [FieldValue.kind] at h

theorem kind_integer (v : FieldValue) (h : v.kind = .integer) : ∃ x, v = .integer x := by
  cases v with
  | real x => simp [FieldValue.kind] at h
  | integer v => exact ⟨v, rfl⟩
theorem ofFieldValues_of_kinds (t : SignalType) (vs : List FieldValue)
    (ht : t.isParametric = true) (h : vs.map FieldValue.kind = fieldKinds t) :
    ∃ item, SignalItem.ofFieldValues t vs = some item := by
  cases t with
  | SIGNAL_TYPE_INVALID => simp [SignalType.isParametric] at ht
  | SIGNAL_TYPE_SMC => simp [SignalType.isParametric] at ht
  | SIGNAL_TYPE_TRIANGLE =>
    simp only [fieldKinds] at h
    obtain ⟨v0, r0, rfl, hk0, h0⟩ := map_kind_cons vs _ _ h
    obtain ⟨x0, rfl⟩ := kind_real v0 hk0
    obtain ⟨v1, r1, rfl, hk1, h1⟩ := map_kind_cons r0 _ _ h0
    obtain ⟨x1, rfl⟩ := kind_real v1 hk1
    obtain ⟨v2, r2, rfl, hk2, h2⟩ := map_kind_cons r1 _ _ h1
    obtain ⟨x2, rfl⟩ := kind_real v2 hk2
    obtain ⟨v3, r3, rfl, hk3, h3⟩ := map_kind_cons r2 _ _ h2
    obtain ⟨x3, rfl⟩ := kind_real v3 hk3
    obtain ⟨v4, r4, rfl, hk4, h4⟩ := map_kind_cons r3 _ _ h3
    obtain ⟨x4, rfl⟩ := kind_real v4 hk4
    obtain ⟨v5, r5, rfl, hk5, h5⟩ := map_kind_cons r4 _ _ h4
    obtain ⟨x5, rfl⟩ := kind_real v5 hk5
    obtain rfl := List.map_eq_nil_iff.1 h5
    exact ⟨_, rfl⟩
  | SIGNAL_TYPE_RECTANGLE =>
    simp only [fieldKinds] at h
    obtain ⟨v0, r0, rfl, hk0, h0⟩ := map_kind_cons vs _ _ h
    obtain ⟨x0, rfl⟩ := kind_real v0 hk0
    obtain ⟨v1, r1, rfl, hk1, h1⟩ := map_kind_cons r0 _ _ h0
    obtain ⟨x1, rfl⟩ := kind_real v1 hk1
    obtain ⟨v2, r2, rfl, hk2, h2⟩ := map_kind_cons r1 _ _ h1
    obtain ⟨x2, rfl⟩ := kind_real v2 hk2
    obtain ⟨v3, r3, rfl, hk3, h3⟩ := map_kind_cons r2 _ _ h2
    obtain ⟨x3, rfl⟩ := kind_real v3 hk3
    obtain ⟨v4, r4, rfl, hk4, h4⟩ := map_kind_cons r3 _ _ h3
    obtain ⟨x4, rfl⟩ := kind_real v4 hk4
    obtain rfl := List.map_eq_nil_iff.1 h4
    exact ⟨_, rfl⟩
  | SIGNAL_TYPE_PULSE =>
    simp only [fieldKinds] at h
    obtain ⟨v0, r0, rfl, hk0, h0⟩ := map_kind_cons vs _ _ h
    obtain ⟨x0, rfl⟩ := kind_real v0 hk0
    obtain ⟨v1, r1, rfl, hk1, h1⟩ := map_kind_cons r0 _ _ h0
    obtain ⟨x1, rfl⟩ := kind_real v1 hk1
    obtain ⟨v2, r2, rfl, hk2, h2⟩ := map_kind_cons r1 _ _ h1
    obtain ⟨x2, rfl⟩ := kind_real v2 hk2
    obtain ⟨v3, r3, rfl, hk3, h3⟩ := map_kind_cons r2 _ _ h2
    obtain ⟨x3, rfl⟩ := kind_real v3 hk3
    obtain ⟨v4, r4, rfl, hk4, h4⟩ := map_kind_cons r3 _ _ h3
    obtain ⟨x4, rfl⟩ := kind_real v4 hk4
    obtain ⟨v5, r5, rfl, hk5, h5⟩ := map_kind_cons r4 _ _ h4
    obtain ⟨x5, rfl⟩ := kind_real v5 hk5
    obtain ⟨v6, r6, rfl, hk6, h6⟩ := map_kind_cons r5 _ _ h5
    obtain ⟨x6, rfl⟩ := kind_real v6 hk6
    obtain rfl := List.map_eq_nil_iff.1 h6
    exact ⟨_, rfl⟩
  | SIGNAL_TYPE_RISEFALL =>
    simp only [fieldKinds] at h
    obtain ⟨v0, r0, rfl, hk0, h0⟩ := map_kind_cons vs _ _ h
    obtain ⟨x0, rfl⟩ := kind_real v0 hk0
    obtain ⟨v1, r1, rfl, hk1, h1⟩ := map_kind_cons r0 _ _ h0
    obtain ⟨x1, rfl⟩ := kind_real v1 hk1
    obtain ⟨v2, r2, rfl, hk2, h2⟩ := map_kind_cons r1 _ _ h1
    obtain ⟨x2, rfl⟩ := kind_real v2 hk2
    obtain ⟨v3, r3, rfl, hk3, h3⟩ := map_kind_cons r2 _ _ h2
    obtain ⟨x3, rfl⟩ := kind_real v3 hk3
    obtain ⟨v4, r4, rfl, hk4, h4⟩ := map_kind_cons r3 _ _ h3
    obtain ⟨x4, rfl⟩ := kind_real v4 hk4
    obtain ⟨v5, r5, rfl, hk5, h5⟩ := map_kind_cons r4 _ _ h4
    obtain ⟨x5, rfl⟩ := kind_real v5 hk5
    obtain ⟨v6, r6, rfl, hk6, h6⟩ := map_kind_cons r5 _ _ h5
    obtain ⟨x6, rfl⟩ := kind_real v6 hk6
    obtain rfl := List.map_eq_nil_iff.1 h6
    exact ⟨_, rfl⟩
  | SIGNAL_TYPE_SINDAMP =>
    simp only [fieldKinds] at h
    obtain ⟨v0, r0, rfl, hk0, h0⟩ := map_kind_cons vs _ _ h
    obtain ⟨x0, rfl⟩ := kind_real v0 hk0
    obtain ⟨v1, r1, rfl, hk1, h1⟩ := map_kind_cons r0 _ _ h0
    obtain ⟨x1, rfl⟩ := kind_real v1 hk1
    obtain ⟨v2, r2, rfl, hk2, h2⟩ := map_kind_cons r1 _ _ h1
    obtain ⟨x2, rfl⟩ := kind_real v2 hk2
    obtain ⟨v3, r3, rfl, hk3, h3⟩ := map_kind_cons r2 _ _ h2
    obtain ⟨x3, rfl⟩ := kind_real v3 hk3
    obtain ⟨v4, r4, rfl, hk4, h4⟩ := map_kind_cons r3 _ _ h3
    obtain ⟨x4, rfl⟩ := kind_real v4 hk4
    obtain ⟨v5, r5, rfl, hk5, h5⟩ := map_kind_cons r4 _ _ h4
    obtain ⟨x5, rfl⟩ := kind_real v5 hk5
    obtain rfl := List.map_eq_nil_iff.1 h5
    exact ⟨_, rfl⟩
  | SIGNAL_TYPE_SINRISE =>
    simp only [fieldKinds] at h
    obtain ⟨v0, r0, rfl, hk0, h0⟩ := map_kind_cons vs _ _ h
    obtain ⟨x0, rfl⟩ := kind_real v0 hk0
    obtain ⟨v1, r1, rfl, hk1, h1⟩ := map_kind_cons r0 _ _ h0
    obtain ⟨x1, rfl⟩ := kind_real v1 hk1
    obtain ⟨v2, r2, rfl, hk2, h2⟩ := map_kind_cons r1 _ _ h1
    obtain ⟨x2, rfl⟩ := kind_real v2 hk2
    obtain ⟨v3, r3, rfl, hk3, h3⟩ := map_kind_cons r2 _ _ h2
    obtain ⟨x3, rfl⟩ := kind_real v3 hk3
    obtain ⟨v4, r4, rfl, hk4, h4⟩ := map_kind_cons r3 _ _ h3
    obtain ⟨x4, rfl⟩ := kind_real v4 hk4
    obtain ⟨v5, r5, rfl, hk5, h5⟩ := map_kind_cons r4 _ _ h4
    obtain ⟨x5, rfl⟩ := kind_real v5 hk5
    obtain ⟨v6, r6, rfl, hk6, h6⟩ := map_kind_cons r5 _ _ h5
    obtain ⟨x6, rfl⟩ := kind_real v6 hk6
    obtain rfl := List.map_eq_nil_iff.1 h6
    exact ⟨_, rfl⟩
  | SIGNAL_TYPE_WAVSIN =>
    simp only [fieldKinds] at h
    obtain ⟨v0, r0, rfl, hk0, h0⟩ := map_kind_cons vs _ _ h
    obtain ⟨x0, rfl⟩ := kind_real v0 hk0
    obtain ⟨v1, r1, rfl, hk1, h1⟩ := map_kind_cons r0 _ _ h0
    obtain ⟨x1, rfl⟩ := kind_real v1 hk1
    obtain ⟨v2, r2, rfl, hk2, h2⟩ := map_kind_cons r1 _ _ h1
    obtain ⟨x2, rfl⟩ := kind_real v2 hk2
    obtain ⟨v3, r3, rfl, hk3, h3⟩ := map_kind_cons r2 _ _ h2
    obtain ⟨x3, rfl⟩ := kind_real v3 hk3
    obtain ⟨v4, r4, rfl, hk4, h4⟩ := map_kind_cons r3 _ _ h3
    obtain ⟨x4, rfl⟩ := kind_real v4 hk4
    obtain ⟨v5, r5, rfl, hk5, h5⟩ := map_kind_cons r4 _ _ h4
    obtain ⟨x5, rfl⟩ := kind_integer v5 hk5
    obtain rfl := List.map_eq_nil_iff.1 h5
    exact ⟨_, rfl⟩
  | SIGNAL_TYPE_AMSIN =>
    simp only [fieldKinds] at h
    obtain ⟨v0, r0, rfl, hk0, h0⟩ := map_kind_cons vs _ _ h
    obtain ⟨x0, rfl⟩ := kind_real v0 hk0
    obtain ⟨v1, r1, rfl, hk1, h1⟩ := map_kind_cons r0 _ _ h0
    obtain ⟨x1, rfl⟩ := kind_real v1 hk1
    obtain ⟨v2, r2, rfl, hk2, h2⟩ := map_kind_cons r1 _ _ h1
    obtain ⟨x2, rfl⟩ := kind_real v2 hk2
    obtain ⟨v3, r3, rfl, hk3, h3⟩ := map_kind_cons r2 _ _ h2
    obtain ⟨x3, rfl⟩ := kind_real v3 hk3
    obtain ⟨v4, r4, rfl, hk4, h4⟩ := map_kind_cons r3 _ _ h3
    obtain ⟨x4, rfl⟩ := kind_real v4 hk4
    obtain ⟨v5, r5, rfl, hk5, h5⟩ := map_kind_cons r4 _ _ h4
    obtain ⟨x5, rfl⟩ := kind_real v5 hk5
    obtain ⟨v6, r6, rfl, hk6, h6⟩ := map_kind_cons r5 _ _ h5
    obtain ⟨x6, rfl⟩ := kind_real v6 hk6
    obtain rfl := List.map_eq_nil_iff.1 h6
    exact ⟨_, rfl⟩
  | SIGNAL_TYPE_SINDAMPSIN =>
    simp only [fieldKinds] at h
    obtain ⟨v0, r0, rfl, hk0, h0⟩ := map_kind_cons vs _ _ h
    obtain ⟨x0, rfl⟩ := kind_real v0 hk0
    obtain ⟨v1, r1, rfl, hk1, h1⟩ := map_kind_cons r0 _ _ h0
    obtain ⟨x1, rfl⟩ := kind_real v1 hk1
    obtain ⟨v2, r2, rfl, hk2, h2⟩ := map_kind_cons r1 _ _ h1
    obtain ⟨x2, rfl⟩ := kind_real v2 hk2
    obtain ⟨v3, r3, rfl, hk3, h3⟩ := map_kind_cons r2 _ _ h2
    obtain ⟨x3, rfl⟩ := kind_real v3 hk3
    obtain ⟨v4, r4, rfl, hk4, h4⟩ := map_kind_cons r3 _ _ h3
    obtain ⟨x4, rfl⟩ := kind_real v4 hk4
    obtain ⟨v5, r5, rfl, hk5, h5⟩ := map_kind_cons r4 _ _ h4
    obtain ⟨x5, rfl⟩ := kind_integer v5 hk5
    obtain rfl := List.map_eq_nil_iff.1 h5
    exact ⟨_, rfl⟩
  | SIGNAL_TYPE_TRAPDAMPSIN =>
    simp only [fieldKinds] at h
    obtain ⟨v0, r0, rfl, hk0, h0⟩ := map_kind_cons vs _ _ h
    obtain ⟨x0, rfl⟩ := kind_real v0 hk0
    obtain ⟨v1, r1, rfl, hk1, h1⟩ := map_kind_cons r0 _ _ h0
    obtain ⟨x1, rfl⟩ := kind_real v1 hk1
    obtain ⟨v2, r2, rfl, hk2, h2⟩ := map_kind_cons r1 _ _ h1
    obtain ⟨x2, rfl⟩ := kind_real v2 hk2
    obtain ⟨v3, r3, rfl, hk3, h3⟩ := map_kind_cons r2 _ _ h2
    obtain ⟨x3, rfl⟩ := kind_real v3 hk3
    obtain ⟨v4, r4, rfl, hk4, h4⟩ := map_kind_cons r3 _ _ h3
    obtain ⟨x4, rfl⟩ := kind_real v4 hk4
    obtain ⟨v5, r5, rfl, hk5, h5⟩ := map_kind_cons r4 _ _ h4
    obtain ⟨x5, rfl⟩ := kind_real v5 hk5
    obtain ⟨v6, r6, rfl, hk6, h6⟩ := map_kind_cons r5 _ _ h5
    obtain ⟨x6, rfl⟩ := kind_real v6 hk6
    obtain ⟨v7, r7, rfl, hk7, h7⟩ := map_kind_cons r6 _ _ h6
    obtain ⟨x7, rfl⟩ := kind_real v7 hk7
    obtain ⟨v8, r8, rfl, hk8, h8⟩ := map_kind_cons r7 _ _ h7
    obtain ⟨x8, rfl⟩ := kind_real v8 hk8
    obtain rfl := List.map_eq_nil_iff.1 h8
    exact ⟨_, rfl⟩
  | SIGNAL_TYPE_NOISE =>
    simp only [fieldKinds] at h
    obtain ⟨v0, r0, rfl, hk0, h0⟩ := map_kind_cons vs _ _ h
    obtain ⟨x0, rfl⟩ := kind_integer v0 hk0
    obtain ⟨v1, r1, rfl, hk1, h1⟩ := map_kind_cons r0 _ _ h0
    obtain ⟨x1, rfl⟩ := kind_real v1 hk1
    obtain ⟨v2, r2, rfl, hk2, h2⟩ := map_kind_cons r1 _ _ h1
    obtain ⟨x2, rfl⟩ := kind_real v2 hk2
    obtain ⟨v3, r3, rfl, hk3, h3⟩ := map_kind_cons r2 _ _ h2
    obtain ⟨x3, rfl⟩ := kind_real v3 hk3
    obtain ⟨v4, r4, rfl, hk4, h4⟩ := map_kind_cons r3 _ _ h3
    obtain ⟨x4, rfl⟩ := kind_real v4 hk4
    obtain rfl := List.map_eq_nil_iff.1 h4
    exact ⟨_, rfl⟩

/-- What a successful run of the reference decoder says about the tokens. -/
theorem decodeReference_some (tokens : List Str) (item : SignalItem) (l : Str)
    (h : decodeReference tokens = some (item, l)) :
    item.getType = SignalType.ofInt (toIntOrZero (tokens.getD 0 []))
      ∧ item.getType.isParametric = true
      ∧ tokens.length = expectedParams item.getType + 1
      ∧ parseFields (fieldKinds item.getType) tokens.tail = some item.fieldValues
      ∧ l = SUBSTR_DELIMITER.intercalate item.texts := by
  unfold decodeReference at h
  split at h
  · simp only at h
    split at h
    · rename_i hc
      split at h
      · rename_i values hv
        split at h
        · rename_i it hit
          simp only [Option.some.injEq, Prod.mk.injEq] at h
          obtain ⟨rfl, rfl⟩ := h
          obtain ⟨h1, h2⟩ := ofFieldValues_some _ _ _ hit
          rw [h2]
          refine ⟨rfl, hc.1, hc.2, ?_, rfl⟩
          rw [hv, h1]
        · simp at h
      · simp at h
    · simp at h
  · simp at h

/-- When the tag names a parametric type, the token count fits and all
tokens convert, the reference decoder gives an item with these values. -/
theorem decodeReference_of_parse (tokens : List Str) (vs : List FieldValue)
    (ht : (SignalType.ofInt (toIntOrZero (tokens.getD 0 []))).isParametric = true)
    (hlen : tokens.length = expectedParams (SignalType.ofInt (toIntOrZero (tokens.getD 0 []))) + 1)
    (hp : parseFields (fieldKinds (SignalType.ofInt (toIntOrZero (tokens.getD 0 [])))) tokens.tail
      = some vs) :
    ∃ item, decodeReference tokens = some (item, SUBSTR_DELIMITER.intercalate item.texts)
      ∧ item.fieldValues = vs
      ∧ item.getType = SignalType.ofInt (toIntOrZero (tokens.getD 0 [])) := by
  obtain ⟨item, hitem⟩ := ofFieldValues_of_kinds _ vs ht (parseFields_kinds _ _ _ hp).1
  obtain ⟨h1, h2⟩ := ofFieldValues_some _ _ _ hitem
  refine ⟨item, ?_, h1, h2⟩
  unfold decodeReference
  have h5 := expectedParams_ge _ ht
  rw [if_pos (by omega)]
  simp only
  rw [if_pos ⟨ht, hlen⟩, hp]
  simp only [hitem]

theorem texts_plain (item : SignalItem) : ∀ s ∈ item.texts, ∀ c ∈ s, plainChar c = true := by
  intro s hs c hc
  unfold SignalItem.texts at hs
  rcases List.mem_cons.1 hs with rfl | hs
  · exact numberInt_plain _ c hc
  · obtain ⟨v, -, rfl⟩ := List.mem_map.1 hs
    cases v with
    | real x => exact numberDouble_plain x c hc
    | integer v => exact numberInt_plain _ c hc

theorem texts_ne_nil (item : SignalItem) : ∀ s ∈ item.texts, s ≠ [] := by
  intro s hs
  unfold SignalItem.texts at hs
  rcases List.mem_cons.1 hs with rfl | hs
  · exact numberInt_ne_nil _
  · obtain ⟨v, -, rfl⟩ := List.mem_map.1 hs
    cases v with
    | real x => exact numberDouble_ne_nil x
    | integer v => exact numberInt_ne_nil _

/-- The tokeniser gives back the texts that the encoder joined. -/
theorem substrings_texts (item : SignalItem) :
    substrings (SUBSTR_DELIMITER.intercalate item.texts) = item.texts :=
  substrings_intercalate _ _ (texts_plain item) (texts_ne_nil item)

/-! ## Claims on the codec -/

theorem parseFields_stable : ∀ (vs : List FieldValue),
    (∀ v ∈ vs, ∃ w, parseField v.kind v.text = some w ∧ w.text = v.text) →
    ∃ ws, parseFields (vs.map FieldValue.kind) (vs.map FieldValue.text) = some ws
      ∧ ws.map FieldValue.text = vs.map FieldValue.text
  | [], _ => ⟨[], by simp [parseFields]⟩
  | v :: vs, h => by
    obtain ⟨w, hw1, hw2⟩ := h v (List.mem_cons_self _ _)
    obtain ⟨ws, hws1, hws2⟩ := parseFields_stable vs (fun u hu => h u (List.mem_cons_of_mem _ hu))
    refine ⟨w :: ws, ?_, ?_⟩
    · simp [parseFields, hw1, hws1]
    · simp [hw2, hws2]

theorem parseFields_stable_conv : ∀ (vs ws : List FieldValue),
    parseFields (vs.map FieldValue.kind) (vs.map FieldValue.text) = some ws →
    ws.map FieldValue.text = vs.map FieldValue.text →
    ∀ v ∈ vs, ∃ w, parseField v.kind v.text = some w ∧ w.text = v.text
  | [], _, _, _ => by simp
  | v :: vs, ws, h, ht => by
    simp only [List.map_cons, parseFields] at h
    cases hv : parseField v.kind v.text with
    | none => simp [hv] at h
    | some w =>
      simp only [hv, Option.map_eq_some'] at h
      obtain ⟨ws', hws', rfl⟩ := h
      simp only [List.map_cons, List.cons.injEq] at ht
      intro u hu
      rcases List.mem_cons.1 hu with rfl | hu
      · exact ⟨w, hv, ht.1⟩
      · exact parseFields_stable_conv vs ws' hws' ht.2 u hu

theorem texts_head (item : SignalItem) :
    SignalType.ofInt (toIntOrZero (item.texts.getD 0 [])) = item.getType := by
  simp [SignalItem.texts, toIntOrZero_tag, ofInt_toInt]

theorem texts_length (item : SignalItem) :
    item.texts.length = expectedParams item.getType + 1 := by
  simp [SignalItem.texts, ← fieldKinds_length, ← fieldValues_kinds]

/-- Decoding the line of a parametric item: it succeeds exactly when every
parameter text converts, and the values of the result are the converted
ones. -/
theorem decodeLine_texts (item : SignalItem) (h : item.getType.isParametric = true)
    (ws : List FieldValue)
    (hp : parseFields (item.fieldValues.map FieldValue.kind)
      (item.fieldValues.map FieldValue.text) = some ws) :
    ∃ item', decodeLine (SUBSTR_DELIMITER.intercalate item.texts)
        = some (item', SUBSTR_DELIMITER.intercalate item'.texts)
      ∧ item'.fieldValues = ws ∧ item'.getType = item.getType := by
  unfold decodeLine
  rw [substrings_texts, decodeSubstrings_eq_reference]
  have := decodeReference_of_parse item.texts ws (by rw [texts_head]; exact h)
    (by rw [texts_head]; exact texts_length item)
    (by rw [texts_head, ← fieldValues_kinds]; simpa [SignalItem.texts] using hp)
  rw [texts_head] at this
  exact this

theorem integer_roundtrip (v : FieldValue) (h : v.kind = .integer) :
    parseField v.kind v.text = some v := by
  obtain ⟨x, rfl⟩ := kind_integer v h
  simp [FieldValue.kind, FieldValue.text, parseField, toInt_numberInt]

/-- C1 (as stated, refuted): the Triangle record with period 1234567 and
every other parameter 1 is encoded as `1, 1.23457e+06, 1, 1, 1, 1, 1`, and
this line decodes to the record with period 1234570, not to the original. -/
theorem C1_roundtrip_counterexample :
    (Dbl.finite false 5302424889720832 (-32)).isBinary64 = true
    ∧ createSignalStringTriangle (sampleTriangle (.finite false 5302424889720832 (-32)))
        = "1, 1.23457e+06, 1, 1, 1, 1, 1".toList
    ∧ decodeItem "1, 1.23457e+06, 1, 1, 1, 1, 1".toList
        = some (.triangle (sampleTriangle (.finite false 5302437774622720 (-32))))
    ∧ decodeItem (createSignalStringTriangle (sampleTriangle (.finite false 5302424889720832 (-32))))
        ≠ some (.triangle (sampleTriangle (.finite false 5302424889720832 (-32)))) := by
  decide!

/-- C1 (amended): for every item of a parametric variant whose
floating-point parameters are each read back from their own text (six
significant digits), decoding the encoded line succeeds and yields the
original item. -/
theorem C1_roundtrip_of_exact_texts (item : SignalItem)
    (h : item.getType.isParametric = true)
    (hx : ∀ x, FieldValue.real x ∈ item.fieldValues → toDouble (numberDouble x) = some x) :
    ∃ line, item.lineString? = some line ∧ decodeItem line = some item := by
  refine ⟨_, lineString?_eq item h, ?_⟩
  have hp := parseFields_roundtrip item.fieldValues (by
    intro v hv
    cases v with
    | real x => simp [FieldValue.kind, FieldValue.text, parseField, hx x hv]
    | integer v => exact integer_roundtrip _ rfl)
  obtain ⟨item', h1, h2, h3⟩ := decodeLine_texts item h _ hp
  unfold decodeItem
  rw [h1]
  simp only [Option.map_some', Option.some.injEq]
  have a := ofFieldValues_fieldValues item h
  have b := ofFieldValues_fieldValues item' (by rw [h3]; exact h)
  rw [h2, h3, a] at b
  exact (Option.some.inj b).symm

/-- C1 (amended), at the Triangle record whose period is the `double`
nearest to 0.1 and whose other parameters are 1: its line is
`1, 0.1, 1, 1, 1, 1, 1` and decodes to the record itself. -/
theorem C1_roundtrip_of_exact_texts_witness :
    ∃ line, (SignalItem.triangle
        (sampleTriangle (.finite false 7205759403792794 (-56)))).lineString? = some line
      ∧ line = "1, 0.1, 1, 1, 1, 1, 1".toList
      ∧ decodeItem line
        = some (.triangle (sampleTriangle (.finite false 7205759403792794 (-56)))) := by
  obtain ⟨line, h1, h2⟩ := C1_roundtrip_of_exact_texts
    (.triangle (sampleTriangle (.finite false 7205759403792794 (-56)))) (by decide) (by
    intro x hx
    have : x = .finite false 7205759403792794 (-56) ∨ x = Dbl.one := by
      simpa [SignalItem.fieldValues, sampleTriangle] using hx
    rcases this with rfl | rfl <;> decide!)
  refine ⟨line, h1, ?_, h2⟩
  have e : (SignalItem.triangle
      (sampleTriangle (.finite false 7205759403792794 (-56)))).lineString?
      = some "1, 0.1, 1, 1, 1, 1, 1".toList := by decide!
  rw [e] at h1
  exact (Option.some.inj h1).symm

/-- C2 (as stated, refuted): the Triangle record whose period is the
subnormal `202403 * 2^-1074` is encoded as `1, 1e-318, 1, 1, 1, 1, 1`; this
line decodes to the period `202402 * 2^-1074`, whose line is
`1, 9.99999e-319, 1, 1, 1, 1, 1`. -/
theorem C2_reencode_counterexample :
    (Dbl.finite false 202403 (-1074)).isBinary64 = true
    ∧ createSignalStringTriangle (sampleTriangle (.finite false 202403 (-1074)))
        = "1, 1e-318, 1, 1, 1, 1, 1".toList
    ∧ decodeLine "1, 1e-318, 1, 1, 1, 1, 1".toList
        = some (.triangle (sampleTriangle (.finite false 202402 (-1074))),
            "1, 9.99999e-319, 1, 1, 1, 1, 1".toList) := by
  decide!

/-- C2 (amended): for every item of a parametric variant, decoding its
encoded line and encoding the result gives the same line again exactly when
every floating-point parameter is stable under the text conversion: its
text is read as a value that has the same text. -/
theorem C2_reencode_iff_stable (item : SignalItem) (h : item.getType.isParametric = true) :
    (∃ line item', item.lineString? = some line ∧ decodeItem line = some item'
        ∧ item'.lineString? = some line)
    ↔ ∀ x, FieldValue.real x ∈ item.fieldValues →
        ∃ y, toDouble (numberDouble x) = some y ∧ numberDouble y = numberDouble x := by
  constructor
  · rintro ⟨line, item', hl, hd, hl'⟩ x hx
    rw [lineString?_eq item h, Option.some.injEq] at hl
    subst hl
    unfold decodeItem decodeLine at hd
    rw [substrings_texts, decodeSubstrings_eq_reference, Option.map_eq_some'] at hd
    obtain ⟨⟨it, l⟩, hd, rfl⟩ := hd
    obtain ⟨h1, h2, -, h4, -⟩ := decodeReference_some _ _ _ hd
    simp only at h1 h2 h4 hl'
    rw [lineString?_eq it h2, Option.some.injEq] at hl'
    have ht : it.texts = item.texts := by
      have := congrArg substrings hl'
      rwa [substrings_texts, substrings_texts] at this
    rw [texts_head] at h1
    rw [h1, ← fieldValues_kinds] at h4
    have ht' : it.fieldValues.map FieldValue.text = item.fieldValues.map FieldValue.text := by
      simp only [SignalItem.texts, List.cons.injEq] at ht
      exact ht.2
    obtain ⟨w, hw1, hw2⟩ := parseFields_stable_conv item.fieldValues it.fieldValues
      (by simpa [SignalItem.texts] using h4) ht' _ hx
    simp only [FieldValue.kind, FieldValue.text, parseField, Option.map_eq_some'] at hw1
    obtain ⟨y, hy, rfl⟩ := hw1
    exact ⟨y, hy, hw2⟩
  · intro hx
    obtain ⟨ws, hws1, hws2⟩ := parseFields_stable item.fieldValues (by
      intro v hv
      cases v with
      | real x =>
        obtain ⟨y, hy1, hy2⟩ := hx x hv
        exact ⟨.real y, by simp [FieldValue.kind, FieldValue.text, parseField, hy1], hy2⟩
      | integer v => exact ⟨_, integer_roundtrip _ rfl, rfl⟩)
    obtain ⟨item', h1, h2, h3⟩ := decodeLine_texts item h ws hws1
    refine ⟨_, item', lineString?_eq item h, ?_, ?_⟩
    · unfold decodeItem; rw [h1]; rfl
    · rw [lineString?_eq item' (by rw [h3]; exact h)]
      simp only [SignalItem.texts, h2, h3, hws2]

/-- C2 (amended), at a record whose parameters are all 1: its line is
re-encoded unchanged. -/
theorem C2_reencode_iff_stable_witness :
    ∃ line item', (SignalItem.triangle (sampleTriangle Dbl.one)).lineString? = some line
      ∧ decodeItem line = some item' ∧ item'.lineString? = some line :=
  (C2_reencode_iff_stable (.triangle (sampleTriangle Dbl.one)) (by decide)).2 (by
    intro x hx
    have : x = Dbl.one := by
      simpa [SignalItem.fieldValues, sampleTriangle] using hx
    subst this
    exact ⟨Dbl.one, by decide!, rfl⟩)

theorem openLine_of_none (st : State) (currentLine : Str) (h : decodeLine currentLine = none) :
    openLine st currentLine = st := by
  unfold openLine
  rw [h]

/-- C3: the line of a parametric item is its integer tag followed by its
`N` parameter texts, all joined by the delimiter `", "`, with `N` = 6, 5, 7,
7, 6, 7, 6, 7, 6, 9, 5 for the eleven variants; the tokeniser gives these
`N + 1` texts back; and the decoder, whenever it accepts a token list,
has been given `N + 1` tokens for the type of the item and has converted
token `k` into parameter `k` of the item, in the order of the encoder. -/
theorem C3_line_layout (item : SignalItem) (h : item.getType.isParametric = true) :
    item.lineString? = some (SUBSTR_DELIMITER.intercalate
        (numberInt item.getType.toInt :: item.fieldValues.map FieldValue.text))
    ∧ item.fieldValues.length = expectedParams item.getType
    ∧ (expectedParams .SIGNAL_TYPE_TRIANGLE = 6
        ∧ expectedParams .SIGNAL_TYPE_RECTANGLE = 5
        ∧ expectedParams .SIGNAL_TYPE_PULSE = 7
        ∧ expectedParams .SIGNAL_TYPE_RISEFALL = 7
        ∧ expectedParams .SIGNAL_TYPE_SINDAMP = 6
        ∧ expectedParams .SIGNAL_TYPE_SINRISE = 7
        ∧ expectedParams .SIGNAL_TYPE_WAVSIN = 6
        ∧ expectedParams .SIGNAL_TYPE_AMSIN = 7
        ∧ expectedParams .SIGNAL_TYPE_SINDAMPSIN = 6
        ∧ expectedParams .SIGNAL_TYPE_TRAPDAMPSIN = 9
        ∧ expectedParams .SIGNAL_TYPE_NOISE = 5)
    ∧ substrings (SUBSTR_DELIMITER.intercalate
        (numberInt item.getType.toInt :: item.fieldValues.map FieldValue.text))
        = numberInt item.getType.toInt :: item.fieldValues.map FieldValue.text
    ∧ (∀ tokens item' line', decodeSubstrings tokens = some (item', line') →
        tokens.length = expectedParams item'.getType + 1
        ∧ item'.getType = SignalType.ofInt (toIntOrZero (tokens.getD 0 []))
        ∧ parseFields (item'.fieldValues.map FieldValue.kind) tokens.tail
            = some item'.fieldValues) := by
  refine ⟨lineString?_eq item h, ?_, ?_, substrings_texts item, ?_⟩
  · rw [← fieldKinds_length, ← fieldValues_kinds, List.length_map]
  · decide
  · intro tokens item' line' hd
    rw [decodeSubstrings_eq_reference] at hd
    obtain ⟨h1, -, h3, h4, -⟩ := decodeReference_some _ _ _ hd
    exact ⟨h3, h1, by rw [fieldValues_kinds]; exact h4⟩

/-- C3, at a Triangle record. -/
theorem C3_line_layout_witness :
    (SignalItem.triangle (sampleTriangle Dbl.one)).lineString?
      = some "1, 1, 1, 1, 1, 1, 1".toList
    ∧ substrings "1, 1, 1, 1, 1, 1, 1".toList
      = ["1".toList, "1".toList, "1".toList, "1".toList, "1".toList, "1".toList, "1".toList] := by
  have h := C3_line_layout (.triangle (sampleTriangle Dbl.one)) (by decide)
  have e : SUBSTR_DELIMITER.intercalate
      (numberInt (SignalItem.triangle (sampleTriangle Dbl.one)).getType.toInt ::
        (SignalItem.triangle (sampleTriangle Dbl.one)).fieldValues.map FieldValue.text)
      = "1, 1, 1, 1, 1, 1, 1".toList := by decide!
  have e' : (numberInt (SignalItem.triangle (sampleTriangle Dbl.one)).getType.toInt ::
        (SignalItem.triangle (sampleTriangle Dbl.one)).fieldValues.map FieldValue.text)
      = ["1".toList, "1".toList, "1".toList, "1".toList, "1".toList, "1".toList, "1".toList] := by
    decide!
  rw [e, e'] at h
  exact ⟨h.1, h.2.2.2.1⟩

/-- C4: a line whose tag names a parametric type with `N` parameters and
whose tokens are not exactly `N + 1` decodes to nothing, and the line loop
leaves the window state (catalog and list) as it was. -/
theorem C4_wrong_arity_rejected (currentLine : Str)
    (_ht : (SignalType.ofInt (toIntOrZero ((substrings currentLine).getD 0 []))).isParametric
      = true)
    (hn : (substrings currentLine).length
      ≠ expectedParams (SignalType.ofInt (toIntOrZero ((substrings currentLine).getD 0 []))) + 1) :
    decodeLine currentLine = none ∧ ∀ st : State, openLine st currentLine = st := by
  have hd : decodeLine currentLine = none := by
    unfold decodeLine
    rw [decodeSubstrings_eq_reference]
    unfold decodeReference
    split
    · simp only
      rw [if_neg (fun hc => hn hc.2)]
    · rfl
  exact ⟨hd, fun st => openLine_of_none st _ hd⟩

/-- C4, at a Triangle line with two parameters instead of six. -/
theorem C4_wrong_arity_rejected_witness :
    decodeLine "1, 1, 1".toList = none
      ∧ ∀ st : State, openLine st "1, 1, 1".toList = st :=
  C4_wrong_arity_rejected "1, 1, 1".toList (by decide) (by decide)

/-- C5: a line with the right number of tokens for its parametric type in
which the token of some parameter, at any position `k`, does not convert as
the declared type of that parameter decodes to nothing, and the line loop
leaves the window state (catalog and list) as it was. -/
theorem C5_bad_token_rejected (currentLine : Str) (k : Nat)
    (hn : (substrings currentLine).length
      = expectedParams (SignalType.ofInt (toIntOrZero ((substrings currentLine).getD 0 []))) + 1)
    (hk : k < expectedParams (SignalType.ofInt (toIntOrZero ((substrings currentLine).getD 0 []))))
    (hbad : parseField
        ((fieldKinds (SignalType.ofInt (toIntOrZero ((substrings currentLine).getD 0 [])))).getD
          k .real)
        ((substrings currentLine).getD (k + 1) []) = none) :
    decodeLine currentLine = none ∧ ∀ st : State, openLine st currentLine = st := by
  have hd : decodeLine currentLine = none := by
    unfold decodeLine
    rw [decodeSubstrings_eq_reference]
    unfold decodeReference
    split
    · simp only
      split
      · have hp := parseFields_none_of_bad
          (fieldKinds (SignalType.ofInt (toIntOrZero ((substrings currentLine).getD 0 []))))
          (substrings currentLine).tail k (by rw [fieldKinds_length]; exact hk)
          (by
            cases hs : substrings currentLine with
            | nil => rw [hs] at hn; simp at hn
            | cons a l => rw [hs] at hbad; simpa using hbad)
        rw [hp]
      · rfl
    · rfl
  exact ⟨hd, fun st => openLine_of_none st _ hd⟩

/-- C5, at a WavSin line whose last token, the integer order, is `6.5`. -/
theorem C5_bad_token_rejected_witness :
    decodeLine "7, 1, 2, 3, 4, 5, 6.5".toList = none
      ∧ ∀ st : State, openLine st "7, 1, 2, 3, 4, 5, 6.5".toList = st :=
  C5_bad_token_rejected "7, 1, 2, 3, 4, 5, 6.5".toList 5 (by decide) (by decide) (by decide)

/-! ## Claims on the catalog -/

theorem getElem?_append_singleton_of_lt {α : Type} (l : List α) (a : α) (p : Nat)
    (h : p < l.length) : (l ++ [a])[p]? = l[p]? := by
  rw [List.getElem?_append_left h]

theorem filterMap_congr_mem {α β : Type} (l : List α) (f g : α → Option β)
    (h : ∀ a ∈ l, f a = g a) : l.filterMap f = l.filterMap g := by
  induction l with
  | nil => rfl
  | cons a l ih =>
    have h1 := h a (List.mem_cons_self _ _)
    have h2 := ih (fun b hb => h b (List.mem_cons_of_mem _ hb))
    simp only [List.filterMap_cons, h1, h2]

/-- One round of the line loop: the decoded item, if any, is appended to
the catalog; nothing else of the catalog changes. -/
theorem openLine_spec (st : State) (currentLine : Str) (hwf : st.wf) :
    (openLine st currentLine).catalog = st.catalog ++ (decodeItem currentLine).toList
      ∧ (openLine st currentLine).wf
      ∧ (openLine st currentLine).mSignalUndefined = st.mSignalUndefined
      ∧ (openLine st currentLine).mSignalReady = st.mSignalReady
      ∧ (openLine st currentLine).messages = st.messages := by
  unfold openLine decodeItem
  cases hd : decodeLine currentLine with
  | none => simp [hwf]
  | some r =>
    obtain ⟨item, lineString⟩ := r
    simp only [State.new, Option.map_some', Option.toList_some]
    refine ⟨?_, ?_, trivial, trivial, trivial⟩
    · simp only [State.catalog, State.deref, List.filterMap_append, List.filterMap_cons,
        List.filterMap_nil]
      have e1 : (st.heap ++ [item])[st.heap.length]? = some item := by simp
      rw [e1]
      congr 1
      apply filterMap_congr_mem
      intro p hp
      exact getElem?_append_singleton_of_lt _ _ _ (hwf p hp)
    · intro p hp
      simp only [List.mem_append, List.mem_singleton] at hp
      simp only [List.length_append, List.length_singleton]
      rcases hp with hp | rfl
      · have := hwf p hp; omega
      · omega

theorem foldl_openLine_spec (lines : List Str) : ∀ (st : State), st.wf →
    (lines.foldl openLine st).catalog = st.catalog ++ lines.filterMap decodeItem
      ∧ (lines.foldl openLine st).wf
      ∧ (lines.foldl openLine st).mSignalUndefined = st.mSignalUndefined
      ∧ (lines.foldl openLine st).mSignalReady = st.mSignalReady
      ∧ (lines.foldl openLine st).messages = st.messages := by
  induction lines with
  | nil => intro st h; simp [h]
  | cons l ls ih =>
    intro st hwf
    obtain ⟨h1, h2, h3, h4, h5⟩ := openLine_spec st l hwf
    obtain ⟨i1, i2, i3, i4, i5⟩ := ih (openLine st l) h2
    simp only [List.foldl_cons]
    refine ⟨?_, i2, i3.trans h3, i4.trans h4, i5.trans h5⟩
    rw [i1, h1, List.filterMap_cons]
    cases decodeItem l <;> simp

theorem catalog_length_of_wf (st : State) (hwf : st.wf) :
    st.catalog.length = st.mSignalsVector.length := by
  unfold State.catalog State.deref
  unfold State.wf at hwf
  generalize st.mSignalsVector = v at hwf
  induction v with
  | nil => rfl
  | cons p v ih =>
    have hp := hwf p (List.mem_cons_self _ _)
    have := ih (fun q hq => hwf q (List.mem_cons_of_mem _ hq))
    simp [List.filterMap_cons, List.getElem?_eq_getElem hp, this]

/-- The state on which the line loop of `handleSignalOpen` starts. -/
theorem openSignalFile_some (st : State) (fileName : Str) (lines : List Str) :
    ∃ st0 : State, st0.wf ∧ st0.catalog = [] ∧ st0.mSignalUndefined = true
      ∧ st0.mSignalReady = false ∧ st0.messages = st.messages
      ∧ openSignalFile st fileName (some lines) =
        if (lines.foldl openLine st0).mSignalsVector.length ≠ 0 then
          { lines.foldl openLine st0 with
            mSignalUndefined := false, mSignalReady := true, mSignalIsSmc := false }
        else (lines.foldl openLine st0).show .noValidSignal := by
  refine ⟨_, ?_, ?_, ?_, ?_, ?_, rfl⟩
  · intro p hp; simp at hp
  all_goals rfl

theorem handleSignalOpen_admitted (st : State) (fileName : Str) (file : Option (List Str))
    (h : st.mSignalUndefined = true ∨ (st.mSignalReady = true ∧ st.mSignalStarted = false)) :
    handleSignalOpen st fileName file = openSignalFile st fileName file := by
  unfold handleSignalOpen
  rcases h with h | ⟨h1, h2⟩
  · simp [h]
  · simp [h1, h2]

/-- C6: whatever the catalog held before, loading leaves it equal to the
list of the items decoded from exactly those lines that decode, in file
order (a line that does not decode is skipped and changes nothing); when
this list is not empty the load counts as successful: the signal is defined
and ready and no message is shown.  The slot `handleSignalOpen` performs
this load whenever it does not refuse the request. -/
theorem C6_open_replaces_catalog (st : State) (fileName : Str) (lines : List Str) :
    (openSignalFile st fileName (some lines)).catalog = lines.filterMap decodeItem
    ∧ (lines.filterMap decodeItem ≠ [] →
        (openSignalFile st fileName (some lines)).mSignalUndefined = false
        ∧ (openSignalFile st fileName (some lines)).mSignalReady = true
        ∧ (openSignalFile st fileName (some lines)).messages = st.messages)
    ∧ ((st.mSignalUndefined = true ∨ (st.mSignalReady = true ∧ st.mSignalStarted = false)) →
        handleSignalOpen st fileName (some lines)
          = openSignalFile st fileName (some lines)) := by
  obtain ⟨st0, hwf, hc, -, -, hm, he⟩ := openSignalFile_some st fileName lines
  obtain ⟨f1, f2, -, -, f5⟩ := foldl_openLine_spec lines st0 hwf
  rw [hc, List.nil_append] at f1
  refine ⟨?_, ?_, handleSignalOpen_admitted st fileName _⟩
  · rw [he]
    split
    · exact f1
    · exact f1
  · intro hne
    have hv : (lines.foldl openLine st0).mSignalsVector.length ≠ 0 := by
      rw [← catalog_length_of_wf _ f2, f1]
      simpa using hne
    rw [he, if_pos hv]
    exact ⟨rfl, rfl, f5.trans hm⟩

/-- C6, on a file of two valid lines around a malformed one, opened over a
catalog that holds one saved record: the catalog becomes the two decoded
records. -/
theorem C6_open_replaces_catalog_witness :
    (handleSignalOpen (sampleCatalogState [sampleRectangle Dbl.one]) "a.txt".toList
        (some ["1, 1, 1, 1, 1, 1, 1".toList, "1, 1, x".toList,
               "2, 1, 1, 1, 1, 1".toList])).catalog
      = [.triangle (sampleTriangle Dbl.one), sampleRectangle Dbl.one]
    ∧ (handleSignalOpen (sampleCatalogState [sampleRectangle Dbl.one]) "a.txt".toList
        (some ["1, 1, 1, 1, 1, 1, 1".toList, "1, 1, x".toList,
               "2, 1, 1, 1, 1, 1".toList])).mSignalReady = true := by
  have h := C6_open_replaces_catalog (sampleCatalogState [sampleRectangle Dbl.one])
    "a.txt".toList ["1, 1, 1, 1, 1, 1, 1".toList, "1, 1, x".toList, "2, 1, 1, 1, 1, 1".toList]
  have e : ["1, 1, 1, 1, 1, 1, 1".toList, "1, 1, x".toList,
      "2, 1, 1, 1, 1, 1".toList].filterMap decodeItem
      = [.triangle (sampleTriangle Dbl.one), sampleRectangle Dbl.one] := by decide!
  rw [h.2.2 (Or.inr ⟨rfl, rfl⟩), h.1, e]
  exact ⟨rfl, (h.2.1 (by rw [e]; simp)).2.1⟩

/-- C7: when no line of the file decodes (an empty file included), the
load shows the message that the file holds no valid signal, the catalog is
empty afterwards, and the signal is undefined and not ready.  The slot
`handleSignalOpen` performs this load whenever it does not refuse the
request. -/
theorem C7_open_without_valid_line (st : State) (fileName : Str) (lines : List Str)
    (h : ∀ l ∈ lines, decodeLine l = none) :
    (openSignalFile st fileName (some lines)).catalog = []
    ∧ (openSignalFile st fileName (some lines)).messages = st.messages ++ [.noValidSignal]
    ∧ (openSignalFile st fileName (some lines)).mSignalUndefined = true
    ∧ (openSignalFile st fileName (some lines)).mSignalReady = false
    ∧ ((st.mSignalUndefined = true ∨ (st.mSignalReady = true ∧ st.mSignalStarted = false)) →
        handleSignalOpen st fileName (some lines)
          = openSignalFile st fileName (some lines)) := by
  obtain ⟨st0, hwf, hc, hu, hr, hm, he⟩ := openSignalFile_some st fileName lines
  obtain ⟨f1, f2, f3, f4, f5⟩ := foldl_openLine_spec lines st0 hwf
  have hnone : lines.filterMap decodeItem = [] := by
    rw [List.filterMap_eq_nil_iff]
    intro l hl
    simp [decodeItem, h l hl]
  rw [hc, hnone, List.append_nil] at f1
  have hv : ¬ (lines.foldl openLine st0).mSignalsVector.length ≠ 0 := by
    rw [← catalog_length_of_wf _ f2, f1]; simp
  refine ⟨?_, ?_, ?_, ?_, handleSignalOpen_admitted st fileName _⟩
  · rw [he, if_neg hv]; exact f1
  · rw [he, if_neg hv]; simp only [State.show, f5, hm]
  · rw [he, if_neg hv]; exact f3.trans hu
  · rw [he, if_neg hv]; exact f4.trans hr

/-- C7, on the empty file and on a file of one malformed line. -/
theorem C7_open_without_valid_line_witness :
    (openSignalFile sampleState "a.txt".toList (some [])).catalog = []
    ∧ (openSignalFile sampleState "a.txt".toList (some ["1, x".toList])).messages
        = [.noValidSignal] :=
  ⟨(C7_open_without_valid_line sampleState "a.txt".toList [] (by simp)).1,
   (C7_open_without_valid_line sampleState "a.txt".toList ["1, x".toList]
      (by decide)).2.1⟩

theorem foldl_append_eq_flatten {α β : Type} (f : α → List β) (l : List α) : ∀ acc : List β,
    l.foldl (fun text p => text ++ f p) acc = acc ++ (l.map f).flatten := by
  induction l with
  | nil => intro acc; simp
  | cons a l ih => intro acc; simp [ih]

theorem savedLine_flatten (st : State) (v : List Nat) :
    (v.map st.savedLine).flatten
      = (((v.filterMap st.deref).filterMap SignalItem.lineString?).map (· ++ ['\n'])).flatten := by
  induction v with
  | nil => rfl
  | cons p v ih =>
    simp only [List.map_cons, List.flatten_cons, ih, List.filterMap_cons, State.savedLine]
    cases st.deref p with
    | none => simp
    | some item =>
      cases hl : item.lineString? <;> simp [hl]

theorem lineString?_isSome (item : SignalItem) :
    item.lineString?.isSome = item.getType.isParametric := by
  cases item <;> rfl

/-- C8: saving writes, for the records of the catalog in catalog order, the
encoded line of each parametric record followed by a newline, and nothing
for an imported (SMC) record: a record has a line exactly when it is
parametric, so there is one line per parametric record.  The catalog itself
is not changed. -/
theorem C8_save_writes_lines (st : State) (fileName : Str) :
    (handleSaveSignal st fileName true).2
      = some ((st.catalog.filterMap SignalItem.lineString?).map (· ++ ['\n'])).flatten
    ∧ (∀ item : SignalItem, item.lineString?.isSome = item.getType.isParametric)
    ∧ (∀ sig : SignalSmc, (SignalItem.smc sig).lineString? = none)
    ∧ ((st.catalog.filterMap SignalItem.lineString?).length
        = (st.catalog.filter fun item => item.getType.isParametric).length)
    ∧ (handleSaveSignal st fileName true).1.catalog = st.catalog := by
  refine ⟨?_, lineString?_isSome, fun _ => rfl, ?_, rfl⟩
  · simp only [handleSaveSignal, if_true, State.savedText, Option.some.injEq]
    rw [foldl_append_eq_flatten, List.nil_append, savedLine_flatten]
    rfl
  · generalize st.catalog = c
    induction c with
    | nil => rfl
    | cons item c ih =>
      have := lineString?_isSome item
      cases hl : item.lineString? with
      | none =>
        rw [hl] at this
        simp [List.filterMap_cons, hl, List.filter_cons, ← this, ih]
      | some l =>
        rw [hl] at this
        simp [List.filterMap_cons, hl, List.filter_cons, ← this, ih]

theorem eraseIdx_filterMap {α β : Type} (f : α → Option β) : ∀ (l : List α) (i : Nat),
    (∀ a ∈ l, (f a).isSome = true) →
    (l.eraseIdx i).filterMap f = (l.filterMap f).eraseIdx i
  | [], _, _ => by simp
  | a :: l, 0, h => by
    obtain ⟨b, hb⟩ := Option.isSome_iff_exists.1 (h a (List.mem_cons_self _ _))
    simp [List.filterMap_cons, hb]
  | a :: l, i + 1, h => by
    obtain ⟨b, hb⟩ := Option.isSome_iff_exists.1 (h a (List.mem_cons_self _ _))
    simp [List.filterMap_cons, hb,
      eraseIdx_filterMap f l i (fun c hc => h c (List.mem_cons_of_mem _ hc))]

theorem deref_isSome_of_wf (st : State) (hwf : st.wf) :
    ∀ p ∈ st.mSignalsVector, (st.deref p).isSome = true := by
  intro p hp
  simp [State.deref, List.getElem?_eq_getElem (hwf p hp)]

theorem getElem?_eraseIdx_cases {α : Type} : ∀ (l : List α) (i j : Nat),
    (l.eraseIdx i)[j]? = if j < i then l[j]? else l[j + 1]?
  | [], _, _ => by simp
  | a :: l, 0, j => by simp
  | a :: l, i + 1, 0 => by simp
  | a :: l, i + 1, j + 1 => by
    simp only [List.eraseIdx_cons_succ, List.getElem?_cons_succ, getElem?_eraseIdx_cases l i j]
    simp

/-- C9: removing the row `i` of a catalog of `n > i` records gives the
catalog without its element `i`: one record less, the records before `i`
in place, every later record one position down. -/
theorem C9_remove_deletes_element (st : State) (i : Nat) (hwf : st.wf)
    (hi : i < st.catalog.length) :
    ∃ st' : State, handleRemoveSignal st i = .ok st'
      ∧ st'.catalog = st.catalog.eraseIdx i
      ∧ st'.catalog.length = st.catalog.length - 1
      ∧ (∀ j, j < i → st'.catalog[j]? = st.catalog[j]?)
      ∧ (∀ j, i ≤ j → st'.catalog[j]? = st.catalog[j + 1]?) := by
  have hlen := catalog_length_of_wf st hwf
  have hc : ∀ s : State, s.heap = st.heap →
      s.mSignalsVector = st.mSignalsVector.eraseIdx i → s.catalog = st.catalog.eraseIdx i := by
    intro s h1 h2
    have hd : s.deref = st.deref := by
      funext p; simp [State.deref, h1]
    simp only [State.catalog, hd, h2]
    exact eraseIdx_filterMap _ _ _ (deref_isSome_of_wf st hwf)
  have hres : ∃ st' : State, handleRemoveSignal st i = .ok st'
      ∧ st'.catalog = st.catalog.eraseIdx i := by
    unfold handleRemoveSignal
    simp only [Int.toNat_ofNat, Int.ofNat_zero_le, true_and]
    rw [if_pos (by omega)]
    split
    · exact ⟨_, rfl, hc _ rfl rfl⟩
    · exact ⟨_, rfl, hc _ rfl rfl⟩
  obtain ⟨st', h1, h2⟩ := hres
  refine ⟨st', h1, h2, ?_, ?_, ?_⟩
  · rw [h2, List.length_eraseIdx, if_pos hi]
  · intro j hj
    rw [h2, getElem?_eraseIdx_cases, if_pos hj]
  · intro j hj
    rw [h2, getElem?_eraseIdx_cases, if_neg (by omega)]

/-- C9, on the catalog `[A, B, C]`: removing row 1 leaves `[A, C]`. -/
theorem C9_remove_deletes_element_witness :
    ∃ st' : State,
      handleRemoveSignal
        (sampleCatalogState [sampleRectangle Dbl.one, .triangle (sampleTriangle Dbl.one),
          sampleRectangle (.finite false 4503599627370496 (-51))]) (1 : Nat) = .ok st'
      ∧ st'.catalog
        = [sampleRectangle Dbl.one, sampleRectangle (.finite false 4503599627370496 (-51))] := by
  obtain ⟨st', h1, h2, -⟩ := C9_remove_deletes_element
    (sampleCatalogState [sampleRectangle Dbl.one, .triangle (sampleTriangle Dbl.one),
      sampleRectangle (.finite false 4503599627370496 (-51))]) 1 (by decide) (by decide)
  exact ⟨st', h1, h2⟩

theorem setCurrentTab_frame (st : State) (crtTab : Int) (h : st.mIsSignalEdited = false) :
    (setCurrentTab st crtTab).heap = st.heap
      ∧ (setCurrentTab st crtTab).mSignalsVector = st.mSignalsVector
      ∧ (setCurrentTab st crtTab).mEditedSignal = st.mEditedSignal
      ∧ (setCurrentTab st crtTab).mIsSignalEdited = false := by
  unfold setCurrentTab handleSignalTypeChanged
  split
  · simp only
    split <;> simp [h]
  · simp [h]

theorem fillForm_frame (st : State) (d : SignalItem) :
    (st.fillForm d).heap = st.heap
      ∧ (st.fillForm d).mSignalsVector = st.mSignalsVector
      ∧ (st.fillForm d).mEditedSignal = st.mEditedSignal
      ∧ (st.fillForm d).mIsSignalEdited = st.mIsSignalEdited := by
  cases d <;> simp [State.fillForm]

theorem fillForm_formItem (st : State) (d : SignalItem) (h : d.getType.isParametric = true) :
    (st.fillForm d).formItem d.getType = some d := by
  cases d <;> first
    | rfl
    | simp [SignalItem.getType, SignalType.isParametric] at h

theorem vector_getElem?_of_catalog (st : State) (hwf : st.wf) (i : Nat) (item : SignalItem)
    (hi : st.catalog[i]? = some item) :
    ∃ p, st.mSignalsVector[i]? = some p ∧ st.deref p = some item := by
  unfold State.catalog at hi
  unfold State.wf at hwf
  have hd := deref_isSome_of_wf st hwf
  generalize st.mSignalsVector = v at hi hd
  induction v generalizing i with
  | nil => simp at hi
  | cons q v ih =>
    obtain ⟨b, hb⟩ := Option.isSome_iff_exists.1 (hd q (List.mem_cons_self _ _))
    rw [List.filterMap_cons, hb] at hi
    cases i with
    | zero =>
      simp only [List.getElem?_cons_zero, Option.some.injEq] at hi
      subst hi
      exact ⟨q, by simp, hb⟩
    | succ i =>
      simp only [List.getElem?_cons_succ] at hi
      obtain ⟨p, hp1, hp2⟩ := ih i hi (fun c hc => hd c (List.mem_cons_of_mem _ hc))
      exact ⟨p, by simpa using hp1, hp2⟩

/-- Overwriting the object behind the pointer at position `i` changes the
element `i` of the catalog and no other, when no other pointer of the
vector addresses that object. -/
theorem filterMap_set_heap (heap : List SignalItem) (d : SignalItem) (p : Nat) :
    ∀ (v : List Nat) (i : Nat), v.Nodup → (∀ q ∈ v, q < heap.length) → v[i]? = some p →
    v.filterMap (fun q => (heap.set p d)[q]?) = (v.filterMap (fun q => heap[q]?)).set i d
  | [], i, _, _, h => by simp at h
  | q :: v, 0, hnd, hv, h => by
    simp only [List.getElem?_cons_zero, Option.some.injEq] at h
    subst h
    have hq := hv q (List.mem_cons_self _ _)
    have hne : ∀ r ∈ v, (heap.set q d)[r]? = heap[r]? := by
      intro r hr
      have : q ≠ r := fun e => (List.nodup_cons.1 hnd).1 (e ▸ hr)
      rw [List.getElem?_set_ne this]
    have e1 : (heap.set q d)[q]? = some d := by simp [hq]
    have e2 : heap[q]? = some heap[q] := List.getElem?_eq_getElem hq
    simp only [List.filterMap_cons, e1, e2, filterMap_congr_mem v _ _ hne, List.set_cons_zero]
  | q :: v, i + 1, hnd, hv, h => by
    simp only [List.getElem?_cons_succ] at h
    have hq := hv q (List.mem_cons_self _ _)
    have hpq : p ≠ q := by
      intro e
      subst e
      exact (List.nodup_cons.1 hnd).1 (List.mem_iff_getElem?.2 ⟨i, h⟩)
    have ih := filterMap_set_heap heap d p v i (List.nodup_cons.1 hnd).2
      (fun r hr => hv r (List.mem_cons_of_mem _ hr)) h
    have e1 : (heap.set p d)[q]? = heap[q]? := List.getElem?_set_ne hpq
    have e2 : heap[q]? = some heap[q] := List.getElem?_eq_getElem hq
    simp only [List.filterMap_cons, e1, e2, ih, List.set_cons_succ]

theorem getElem?_set_cases {α : Type} (l : List α) (i j : Nat) (a : α) (h : j ≠ i) :
    (l.set i a)[j]? = l[j]? := by
  rw [List.getElem?_set_ne (Ne.symm h)]

theorem set_of_getElem? {α : Type} : ∀ (l : List α) (i : Nat) (a : α),
    l[i]? = some a → l.set i a = l
  | [], _, _, h => by simp at h
  | b :: l, 0, a, h => by
    simp only [List.getElem?_cons_zero, Option.some.injEq] at h
    simp [h]
  | b :: l, i + 1, a, h => by
    simp only [List.getElem?_cons_succ] at h
    simp [set_of_getElem? l i a h]

theorem vectorAt_ok (v : List Nat) (i p : Nat) (h : v[i]? = some p) :
    vectorAt v (i : Int) = .ok p := by
  simp [vectorAt, h]

/-! ## The SMC import: the line loop and the headers -/

/-- An operation that succeeds gives its result. -/
theorem eq_ok_of_succeeded {α : Type} (x : Except Fault α) (fallback : α)
    (h : succeeded x = true) : x = .ok (resultOr fallback x) := by
  cases x with
  | ok a => rfl
  | error f => cases h

theorem after_ok (ls ls' : SmcLoop) (crtLineNr : Int) (substringsVec : List Str)
    (r : Except Fault (Smc × List Message)) (h : ls.after crtLineNr substringsVec r = .ok ls') :
    ∃ mSmc shown, r = .ok (mSmc, shown)
      ∧ ls' = { mSmc := mSmc, substringsVec := substringsVec, crtLineNr := crtLineNr,
                shown := ls.shown ++ shown } := by
  unfold SmcLoop.after at h
  split at h
  · cases h
  · cases h
    exact ⟨_, _, rfl, rfl⟩

theorem smcLine_crtLineNr (ls ls' : SmcLoop) (currentLine : Str)
    (h : smcLine ls currentLine = .ok ls') : ls'.crtLineNr = ls.crtLineNr + 1 := by
  unfold smcLine at h
  simp only at h
  split_ifs at h
  all_goals first
    | (obtain ⟨_, _, -, rfl⟩ := after_ok _ _ _ _ _ h; rfl)
    | (cases h; rfl)
    | (split at h
       · cases h
       · obtain ⟨_, _, -, rfl⟩ := after_ok _ _ _ _ _ h; rfl)

theorem smcLoop_stop (lines : List Str) (ls : SmcLoop) (h : ls.mSmc.mSmcFormatOk = false) :
    smcLoop lines ls = .ok ls := by
  cases lines with
  | nil => rfl
  | cons currentLine rest => simp [smcLoop, h]

theorem smcLoop_append (pre rest : List Str) (ls0 ls : SmcLoop)
    (hpre : smcLoop pre ls0 = .ok ls) (hok : ls.mSmc.mSmcFormatOk = true) :
    smcLoop (pre ++ rest) ls0 = smcLoop rest ls := by
  induction pre generalizing ls0 with
  | nil =>
    simp only [smcLoop] at hpre
    cases hpre
    rfl
  | cons currentLine pre ih =>
    simp only [List.cons_append, smcLoop] at hpre ⊢
    by_cases h0 : ls0.mSmc.mSmcFormatOk = true
    · rw [if_pos h0] at hpre ⊢
      cases hl : smcLine ls0 currentLine with
      | error fault => rw [hl] at hpre; cases hpre
      | ok ls1 =>
        rw [hl] at hpre
        simp only at hpre ⊢
        exact ih ls1 hpre
    · rw [if_neg h0] at hpre
      cases hpre
      exact absurd hok h0

theorem smcLoop_crtLineNr (pre : List Str) (ls0 ls : SmcLoop)
    (hpre : smcLoop pre ls0 = .ok ls) (hok : ls.mSmc.mSmcFormatOk = true) :
    ls.crtLineNr = ls0.crtLineNr + pre.length := by
  induction pre generalizing ls0 with
  | nil =>
    simp only [smcLoop] at hpre
    cases hpre
    simp
  | cons currentLine pre ih =>
    simp only [smcLoop] at hpre
    by_cases h0 : ls0.mSmc.mSmcFormatOk = true
    · rw [if_pos h0] at hpre
      cases hl : smcLine ls0 currentLine with
      | error fault => rw [hl] at hpre; cases hpre
      | ok ls1 =>
        rw [hl] at hpre
        simp only at hpre
        rw [ih ls1 hpre, smcLine_crtLineNr _ _ _ hl]
        simp only [List.length_cons, Nat.cast_add, Nat.cast_one]
        ring
    · rw [if_neg h0] at hpre
      cases hpre
      exact absurd hok h0

theorem toInt16_of_range (v : Int) (h : -32768 ≤ v ∧ v ≤ 32767) : toInt16 v = v := by
  unfold toInt16; omega

theorem toInt16_range (v : Int) : -32768 ≤ toInt16 v ∧ toInt16 v ≤ 32767 := by
  unfold toInt16; omega

theorem ceilOfQuotient_spec (v : Int) :
    8 * (ceilOfQuotient v DATA_VALUES_PER_LINE - 1) < v
      ∧ v ≤ 8 * ceilOfQuotient v DATA_VALUES_PER_LINE := by
  unfold ceilOfQuotient DATA_VALUES_PER_LINE
  simp only [Nat.cast_ofNat]
  omega

theorem vecAt_ok {α : Type} (v : List α) (i : Nat) (x : α) (h : vecAt v i = .ok x) :
    v[i]? = some x := by
  unfold vecAt at h
  split at h
  · cases h; assumption
  · cases h

theorem vecAt_mem {α : Type} (v : List α) (i : Nat) (x : α) (h : vecAt v i = .ok x) : x ∈ v :=
  List.mem_iff_getElem?.2 ⟨i, vecAt_ok v i x h⟩

theorem WindowOk.of_same {a b : Smc} (h : WindowOk a) (hs : SameWindow a b) : WindowOk b := by
  obtain ⟨h1, h2, h3, h4, h5, h6, h7⟩ := hs
  unfold WindowOk at h ⊢
  rw [h1, h2, h3, h4, h5, h6]
  exact h

theorem intHeaderFields_spec (mSmc m : Smc) (tmpIntVec : List Int)
    (h : intHeaderFields mSmc tmpIntVec = .ok m) :
    m.mDataValuesCount ∈ tmpIntVec ∧ m.mSmcFormatOk = mSmc.mSmcFormatOk := by
  unfold intHeaderFields at h
  simp only [bind, Except.bind, pure, Except.pure] at h
  repeat' split at h
  all_goals first
    | (cases h; exact ⟨vecAt_mem _ INT_FIELD_NR_OF_VALUES _ (by assumption), rfl⟩)
    | cases h

theorem dataLength_some (mSmc m : Smc) (message : Message)
    (h : dataLength mSmc = .ok (m, some message)) : m.mSmcFormatOk = false := by
  unfold dataLength at h
  simp only at h
  repeat' split at h
  all_goals first
    | (cases h; rfl)
    | cases h

theorem dataLength_none (mSmc m : Smc) (h : dataLength mSmc = .ok (m, none))
    (hmax : mSmc.mDataValuesCount ≤ 32767) :
    1 ≤ m.mDataValuesCount ∧ m.mDataValuesCount ≤ 32767
      ∧ m.mDataValuesRecordedCount = m.mDataValuesCount
      ∧ 1 ≤ m.mDataLinesCount
      ∧ m.mSmcFormatOk = mSmc.mSmcFormatOk := by
  have hc := ceilOfQuotient_spec mSmc.mDataValuesCount
  unfold dataLength at h
  simp only at h
  split at h
  · split at h
    · cases h
    · rename_i lines hl
      unfold doubleToUInt16 at hl
      split_ifs at hl with hr
      cases hl
      split at h
      · cases h
      · rename_i hz
        cases h
        simp only at hz ⊢
        refine ⟨by omega, hmax, by trivial, by omega, by trivial⟩
  · cases h

theorem intHeaderStructure_spec (mSmc m : Smc) (tmpIntVec : List Int)
    (h : intHeaderStructure mSmc tmpIntVec = .ok m) :
    m.mDataValuesCount = mSmc.mDataValuesCount
      ∧ m.mDataValuesRecordedCount = mSmc.mDataValuesRecordedCount
      ∧ m.mDataLinesCount = mSmc.mDataLinesCount
      ∧ m.mSmcFormatOk = mSmc.mSmcFormatOk
      ∧ m.mFirstRecordedSampleIndex ∈ tmpIntVec
      ∧ m.mLastRecordedSampleIndex ∈ tmpIntVec := by
  unfold intHeaderStructure at h
  simp only [bind, Except.bind, pure, Except.pure] at h
  repeat' split at h
  all_goals first
    | (cases h
       exact ⟨rfl, rfl, rfl, rfl, vecAt_mem _ INT_FIELD_FIRST_RECORDED_SAMPLE _ (by assumption),
         vecAt_mem _ INT_FIELD_LAST_RECORDED_SAMPLE _ (by assumption)⟩)
    | cases h

theorem recordedWindow_spec (m : Smc)
    (hcount : 1 ≤ m.mDataValuesCount ∧ m.mDataValuesCount ≤ 32767)
    (hstart : m.mDataValuesRecordedCount = m.mDataValuesCount)
    (hfirst : -32768 ≤ m.mFirstRecordedSampleIndex ∧ m.mFirstRecordedSampleIndex ≤ 32767)
    (hlast : -32768 ≤ m.mLastRecordedSampleIndex ∧ m.mLastRecordedSampleIndex ≤ 32767) :
    (recordedWindow m).mDataValuesCount = m.mDataValuesCount
      ∧ (recordedWindow m).mDataLinesCount = m.mDataLinesCount
      ∧ (recordedWindow m).mSmcFormatOk = m.mSmcFormatOk
      ∧ (recordedWindow m).mDataVector = m.mDataVector
      ∧ 1 ≤ (recordedWindow m).mFirstRecordedSampleIndex
      ∧ (recordedWindow m).mFirstRecordedSampleIndex ≤ m.mDataValuesCount
      ∧ 1 ≤ (recordedWindow m).mLastRecordedSampleIndex
      ∧ (recordedWindow m).mLastRecordedSampleIndex ≤ m.mDataValuesCount
      ∧ (recordedWindow m).mDataValuesRecordedCount
          = (recordedWindow m).mLastRecordedSampleIndex
            - (recordedWindow m).mFirstRecordedSampleIndex + 1 := by
  unfold recordedWindow checkValidInteger
  simp only [decide_eq_true_eq, ne_eq, ge_iff_le]
  split_ifs <;> simp only [] at * <;>
    refine ⟨?_, ?_, ?_, ?_, ?_, ?_, ?_, ?_, ?_⟩ <;>
    first
    | trivial
    | rfl
    | omega
    | (rw [toInt16_of_range (m.mDataValuesRecordedCount - (m.mFirstRecordedSampleIndex - 1))
        (by omega), toInt16_of_range _ (by omega)]; omega)
    | (rw [toInt16_of_range _ (by omega)]; omega)

theorem resizeDataVector_spec (mSmc m : Smc) (n : Int) (h : resizeDataVector mSmc n = .ok m) :
    0 ≤ n ∧ (m.mDataVector.length : Int) = n
      ∧ m = { mSmc with mDataVector := m.mDataVector } := by
  unfold resizeDataVector at h
  split_ifs at h with h1
  cases h
  refine ⟨by omega, ?_, rfl⟩
  simp only [List.length_append, List.length_take, List.length_replicate]
  omega

theorem intHeader_window (mSmc m : Smc) (tmpIntVec : List Int) (shown : List Message)
    (h : intHeader mSmc tmpIntVec = .ok (m, shown))
    (hrange : ∀ v ∈ tmpIntVec, -32768 ≤ v ∧ v ≤ 32767)
    (hok : m.mSmcFormatOk = true) : WindowOk m := by
  unfold intHeader at h
  split at h
  · cases h
  · rename_i m1 h1
    obtain ⟨hc1, -⟩ := intHeaderFields_spec _ _ _ h1
    split at h
    · cases h
    · rename_i m2 message h2
      cases h
      rw [dataLength_some _ _ _ h2] at hok
      cases hok
    · rename_i m2 h2
      obtain ⟨hd1, hd2, hd3, hd4, -⟩ := dataLength_none _ _ h2 (hrange _ hc1).2
      split at h
      · cases h
      · rename_i m3 h3
        obtain ⟨hs1, hs2, hs3, -, hs5, hs6⟩ := intHeaderStructure_spec _ _ _ h3
        split at h
        · cases h
        · rename_i m4 h4
          cases h
          obtain ⟨hr1, hr2, hr3⟩ := resizeDataVector_spec _ _ _ h4
          obtain ⟨hw1, hw2, -, -, hw5, hw6, hw7, hw8, hw9⟩ :=
            recordedWindow_spec m3 (by rw [hs1]; exact ⟨hd1, hd2⟩) (by rw [hs1, hs2]; exact hd3)
              (hrange _ hs5) (hrange _ hs6)
          unfold WindowOk
          rw [hr3]
          simp only
          rw [hw1, hs1] at *
          rw [hw2, hs3]
          exact ⟨hd1, hd2, hw5, hw6, hw7, hw8, hw9, hr1, hr2, hd4⟩

theorem samplingRate_frame (mSmc m : Smc) (tmpRealVec : List Dbl) (message : Option Message)
    (h : samplingRate mSmc tmpRealVec = .ok (m, message)) : SameWindow mSmc m := by
  unfold samplingRate at h
  simp only at h
  repeat' split at h
  all_goals first
    | (cases h; exact ⟨rfl, rfl, rfl, rfl, rfl, rfl, rfl⟩)
    | cases h

theorem samplingRate_some (mSmc m : Smc) (tmpRealVec : List Dbl) (message : Message)
    (h : samplingRate mSmc tmpRealVec = .ok (m, some message)) : m.mSmcFormatOk = false := by
  unfold samplingRate at h
  simp only at h
  repeat' split at h
  all_goals first
    | (cases h; rfl)
    | cases h

theorem realHeaderFields_frame (mSmc m : Smc) (tmpRealVec : List Dbl)
    (h : realHeaderFields mSmc tmpRealVec = .ok m) :
    SameWindow mSmc m ∧ m.mSmcFormatOk = mSmc.mSmcFormatOk := by
  unfold realHeaderFields at h
  simp only [bind, Except.bind, pure, Except.pure] at h
  repeat' split at h
  all_goals first
    | (cases h; exact ⟨⟨rfl, rfl, rfl, rfl, rfl, rfl, rfl⟩, rfl⟩)
    | cases h

theorem realHeader_frame (mSmc m : Smc) (tmpRealVec : List Dbl) (shown : List Message)
    (h : realHeader mSmc tmpRealVec = .ok (m, shown)) : SameWindow mSmc m := by
  unfold realHeader at h
  split at h
  · cases h
  · rename_i m1 message h1
    cases h
    exact samplingRate_frame _ _ _ _ h1
  · rename_i m1 h1
    split at h
    · cases h
    · rename_i m2 h2
      cases h
      obtain ⟨a1, a2, a3, a4, a5, a6, a7⟩ := samplingRate_frame _ _ _ _ h1
      obtain ⟨⟨b1, b2, b3, b4, b5, b6, b7⟩, -⟩ := realHeaderFields_frame _ _ _ h2
      exact ⟨b1.trans a1, b2.trans a2, b3.trans a3, b4.trans a4, b5.trans a5, b6.trans a6,
        b7.trans a7⟩

/-- The loop that copies the window, on a data vector cut into the part
`done` before the position `j` and the part `todo` from it on: when the
`n` positions up to `lastRecordedIndex` exist in the source and in `todo`,
they receive the source values times 0.1. -/
theorem copyWindow_spec (lastRecordedIndex : Nat) (rest : List Dbl) (i n : Nat)
    (done todo : List Dbl) (hn : i + n = lastRecordedIndex + 1)
    (hrest : n ≤ rest.length) (htodo : n ≤ todo.length) :
    copyWindow lastRecordedIndex rest i done.length (done ++ todo)
      = .ok (done ++ (rest.take n).map (Dbl.mul Dbl.tenth) ++ todo.drop n) := by
  induction n generalizing rest i done todo with
  | zero =>
    unfold copyWindow
    rw [if_neg (by omega)]
    simp
  | succ n ih =>
    cases rest with
    | nil => simp at hrest
    | cons value rest =>
      cases todo with
      | nil => simp at htodo
      | cons t todo =>
        unfold copyWindow
        rw [if_pos (by omega)]
        simp only
        rw [if_pos (by simp)]
        have hset : (done ++ t :: todo).set done.length (Dbl.mul Dbl.tenth value)
            = (done ++ [Dbl.mul Dbl.tenth value]) ++ todo := by
          rw [List.set_append_right _ _ (le_refl _)]
          simp
        have hlen : done.length + 1 = (done ++ [Dbl.mul Dbl.tenth value]).length := by simp
        rw [hset, hlen, ih rest (i + 1) (done ++ [Dbl.mul Dbl.tenth value]) todo (by omega)
          (by simpa using hrest) (by simpa using htodo)]
        simp

theorem copyWindow_empty (lastRecordedIndex : Nat) (rest : List Dbl) (i j : Nat)
    (mDataVector : List Dbl) (h : lastRecordedIndex < i) :
    copyWindow lastRecordedIndex rest i j mDataVector = .ok mDataVector := by
  unfold copyWindow
  rw [if_neg (by omega)]

theorem toSizeT_of_nonneg (v : Int) (h : 0 ≤ v ∧ v < 18446744073709551616) :
    toSizeT v = v.toNat := by
  unfold toSizeT
  rw [Int.emod_eq_of_lt h.1 h.2]

/-- The last data line on a record that the integer header left in order,
with as many values as the header gives: the data vector becomes the window
of the values, each times 0.1, and nothing else changes. -/
theorem dataValues_window (mSmc : Smc) (dataVec : List Dbl) (hw : WindowOk mSmc)
    (hlen : (dataVec.length : Int) = mSmc.mDataValuesCount) :
    dataValues mSmc dataVec
      = .ok ({ mSmc with
               mDataVector :=
                 ((dataVec.drop (mSmc.mFirstRecordedSampleIndex - 1).toNat).take
                   mSmc.mDataValuesRecordedCount.toNat).map (Dbl.mul Dbl.tenth) }, []) := by
  obtain ⟨h1, h2, h3, h4, h5, h6, h7, h8, h9, h10⟩ := hw
  unfold dataValues
  have e1 : toSizeT mSmc.mDataValuesCount = dataVec.length := by
    rw [toSizeT_of_nonneg _ (by omega)]; omega
  have e2 : toSizeT (mSmc.mFirstRecordedSampleIndex - 1)
      = (mSmc.mFirstRecordedSampleIndex - 1).toNat := toSizeT_of_nonneg _ (by omega)
  have e3 : toSizeT ((dataVec.length : Int) - 1
        - (mSmc.mDataValuesCount - mSmc.mLastRecordedSampleIndex))
      = (mSmc.mLastRecordedSampleIndex - 1).toNat := by
    rw [toSizeT_of_nonneg _ (by omega)]; congr 1; omega
  rw [if_neg (by rw [e1]; simp)]
  simp only [e2, e3]
  have hc := copyWindow_spec (mSmc.mLastRecordedSampleIndex - 1).toNat
    (dataVec.drop (mSmc.mFirstRecordedSampleIndex - 1).toNat)
    (mSmc.mFirstRecordedSampleIndex - 1).toNat mSmc.mDataValuesRecordedCount.toNat
    [] mSmc.mDataVector (by omega) (by simp only [List.length_drop]; omega) (by omega)
  simp only [List.length_nil, List.nil_append] at hc
  rw [hc]
  have hd : mSmc.mDataVector.drop mSmc.mDataValuesRecordedCount.toNat = [] := by
    apply List.drop_eq_nil_of_le; omega
  rw [hd, List.append_nil]

/-- The last data line with another number of values than the header
gives: the format flag is cleared and the message tells both numbers. -/
theorem dataValues_mismatch (mSmc : Smc) (dataVec : List Dbl)
    (hcount : 0 ≤ mSmc.mDataValuesCount ∧ mSmc.mDataValuesCount ≤ 32767)
    (hlen : (dataVec.length : Int) ≠ mSmc.mDataValuesCount) :
    dataValues mSmc dataVec
      = .ok ({ mSmc with mSmcFormatOk := false },
             [.expectedDataLength mSmc.mDataValuesCount dataVec.length]) := by
  unfold dataValues
  rw [if_pos]
  rw [toSizeT_of_nonneg _ (by omega)]
  omega

theorem dataValues_frame (mSmc m : Smc) (dataVec : List Dbl) (shown : List Message)
    (h : dataValues mSmc dataVec = .ok (m, shown)) (hw : WindowOk mSmc)
    (hok : m.mSmcFormatOk = true) : WindowOk m := by
  by_cases hlen : (dataVec.length : Int) = mSmc.mDataValuesCount
  · rw [dataValues_window mSmc dataVec hw hlen] at h
    cases h
    obtain ⟨h1, h2, h3, h4, h5, h6, h7, h8, h9, h10⟩ := hw
    refine ⟨h1, h2, h3, h4, h5, h6, h7, h8, ?_, h10⟩
    simp only [List.length_map, List.length_take, List.length_drop]
    omega
  · rw [dataValues_mismatch mSmc dataVec ⟨by have := hw.1; omega, hw.2.1⟩ hlen] at h
    cases h
    cases hok

theorem smcLine_window (ls ls' : SmcLoop) (currentLine : Str)
    (h : smcLine ls currentLine = .ok ls') (hok : ls'.mSmc.mSmcFormatOk = true)
    (hinv : 17 ≤ ls.crtLineNr → WindowOk ls.mSmc) (h17 : 17 ≤ ls'.crtLineNr) :
    WindowOk ls'.mSmc := by
  have hnr := smcLine_crtLineNr _ _ _ h
  unfold smcLine at h
  unfold LAST_TEXT_LINE_NR LAST_INT_LINE_NR LAST_REAL_LINE_NR at h
  simp only at h
  split_ifs at h with c1 c2 c3 c4 c5 c6 c7 c8
  · omega
  · split at h
    · cases h
    · rename_i values hv
      obtain ⟨m, shown, hr, rfl⟩ := after_ok _ _ _ _ _ h
      refine intHeader_window _ _ _ _ hr ?_ hok
      intro v hmem
      obtain ⟨w, -, rfl⟩ := List.mem_map.1 hmem
      exact toInt16_range w
  · omega
  · split at h
    · cases h
    · rename_i tmpRealVec hv
      obtain ⟨m, shown, hr, rfl⟩ := after_ok _ _ _ _ _ h
      exact (hinv (by omega)).of_same (realHeader_frame _ _ _ _ hr)
  · cases h
    exact hinv (by omega)
  · cases h
    exact hinv (by omega)
  · cases h
    exact hinv (by omega)
  · split at h
    · cases h
    · rename_i dataVec hv
      obtain ⟨m, shown, hr, rfl⟩ := after_ok _ _ _ _ _ h
      exact dataValues_frame _ _ _ _ hr (hinv (by omega)) hok
  · cases h
    exact hinv (by omega)
  · cases h
    exact hinv (by omega)

theorem smcLoop_window (pre : List Str) (ls0 ls : SmcLoop)
    (hpre : smcLoop pre ls0 = .ok ls) (hok : ls.mSmc.mSmcFormatOk = true)
    (hinv : 17 ≤ ls0.crtLineNr → WindowOk ls0.mSmc) (h17 : 17 ≤ ls.crtLineNr) :
    WindowOk ls.mSmc := by
  induction pre generalizing ls0 with
  | nil =>
    simp only [smcLoop] at hpre
    cases hpre
    exact hinv h17
  | cons currentLine pre ih =>
    simp only [smcLoop] at hpre
    by_cases h0 : ls0.mSmc.mSmcFormatOk = true
    · rw [if_pos h0] at hpre
      cases hl : smcLine ls0 currentLine with
      | error fault => rw [hl] at hpre; cases hpre
      | ok ls1 =>
        rw [hl] at hpre
        simp only at hpre
        by_cases h1 : ls1.mSmc.mSmcFormatOk = true
        · exact ih ls1 hpre (smcLine_window _ _ _ hl h1 hinv)
        · rw [smcLoop_stop pre ls1 (by simpa using h1)] at hpre
          cases hpre
          exact absurd hok h1
    · rw [if_neg h0] at hpre
      cases hpre
      exact absurd hok h0

/-- The state that `openSmcFile` leaves when the loop ends with the format
flag cleared. -/
theorem openSmcFile_of_violation (st : State) (fileName : Str) (lines : List Str) (ls : SmcLoop)
    (hloop : smcLoop lines SmcLoop.start = .ok ls) (hbad : ls.mSmc.mSmcFormatOk = false) :
    openSmcFile st fileName (some lines)
      = .ok { st with
              mSignalUndefined := true
              mSignalReady := false
              mSignalStarted := false
              mSignalPaused := false
              mSignalIsSmc := false
              mIsSignalEdited := false
              mSignalsVector := []
              mSmc := ls.mSmc
              messages := st.messages ++ ls.shown ++ [.wrongFormatAtLine ls.crtLineNr] } := by
  unfold openSmcFile
  simp only [hloop, hbad, State.show]
  rfl

/-! ## Claims on the SMC import -/

/-- C20: when the loop has read the lines `pre` with the format flag still
set and the next line clears the flag, the import ends there whatever
follows: the vector and the catalog are empty, the signal is undefined, the
messages of the loop are followed by the message with the number of that
line, which is the length of `pre` plus one, and the lines after it do not
matter.  The slot does so whenever its two guards pass. -/
theorem C20_first_violation_reported (st : State) (fileName : Str) (pre post : List Str)
    (currentLine : Str) (ls ls' : SmcLoop)
    (hpre : smcLoop pre SmcLoop.start = .ok ls) (hok : ls.mSmc.mSmcFormatOk = true)
    (hline : smcLine ls currentLine = .ok ls') (hbad : ls'.mSmc.mSmcFormatOk = false) :
    openSmcFile st fileName (some (pre ++ currentLine :: post))
        = .ok { st with
                mSignalUndefined := true
                mSignalReady := false
                mSignalStarted := false
                mSignalPaused := false
                mSignalIsSmc := false
                mIsSignalEdited := false
                mSignalsVector := []
                mSmc := ls'.mSmc
                messages :=
                  st.messages ++ ls'.shown ++ [.wrongFormatAtLine ((pre.length : Int) + 1)] }
      ∧ (∀ st', openSmcFile st fileName (some (pre ++ currentLine :: post)) = .ok st' →
          st'.catalog = [] ∧ st'.mSignalUndefined = true ∧ st'.mSignalIsSmc = false)
      ∧ openSmcFile st fileName (some (pre ++ currentLine :: post))
          = openSmcFile st fileName (some (pre ++ [currentLine]))
      ∧ (st.mSignalUndefined = true ∨ (st.mSignalReady = true ∧ st.mSignalStarted = false) →
          handleSmcOpen st fileName (some (pre ++ currentLine :: post))
            = openSmcFile st fileName (some (pre ++ currentLine :: post))) := by
  have hnr : ls'.crtLineNr = (pre.length : Int) + 1 := by
    rw [smcLine_crtLineNr _ _ _ hline, smcLoop_crtLineNr pre _ _ hpre hok]
    simp [SmcLoop.start]
  have hloop : ∀ rest, smcLoop (pre ++ currentLine :: rest) SmcLoop.start = .ok ls' := by
    intro rest
    rw [smcLoop_append pre _ _ _ hpre hok]
    simp only [smcLoop, hok, if_true, hline]
    exact smcLoop_stop rest ls' hbad
  have hres := openSmcFile_of_violation st fileName _ ls' (hloop post) hbad
  rw [hnr] at hres
  refine ⟨hres, ?_, ?_, ?_⟩
  · intro st' hst
    rw [hres] at hst
    cases hst
    exact ⟨rfl, rfl, rfl⟩
  · rw [hres]
    have hres2 := openSmcFile_of_violation st fileName _ ls' (hloop []) hbad
    rw [hnr] at hres2
    exact hres2.symm
  · intro hg
    unfold handleSmcOpen
    rcases hg with hg | ⟨hg1, hg2⟩
    · simp [hg]
    · simp [hg1, hg2]

/-- C20, on the first eight lines of the sample SMC file followed by a line
that is not the asterisk of line 9 and by further lines: the one message
tells line 9, and the catalog is empty. -/
theorem C20_first_violation_reported_witness :
    ∃ st' : State,
      openSmcFile sampleState "a.smc".toList
          (some (sampleSmcText.take 8 ++ "x".toList :: sampleSmcIntegers)) = .ok st'
        ∧ st'.messages = [.wrongFormatAtLine 9]
        ∧ st'.catalog = [] ∧ st'.mSignalUndefined = true := by
  have h := C20_first_violation_reported sampleState "a.smc".toList (sampleSmcText.take 8)
    sampleSmcIntegers "x".toList sampleSmcEight sampleSmcNinth
    (eq_ok_of_succeeded _ _ (by decide!)) (by decide!)
    (eq_ok_of_succeeded _ _ (by decide!)) (by decide!)
  exact ⟨_, h.1, by decide!, rfl, rfl⟩

/-- What `smcLine` does on the last data line, once the fields of the line
are converted. -/
theorem smcLine_last_data_line (ls : SmcLoop) (currentLine : Str) (dataVec : List Dbl)
    (hdata : LAST_REAL_LINE_NR < ls.crtLineNr + 1
      ∧ LAST_REAL_LINE_NR + ls.mSmc.mHeaderCommentLinesCount < ls.crtLineNr + 1)
    (hterm : LAST_REAL_LINE_NR + ls.mSmc.mHeaderCommentLinesCount + ls.mSmc.mDataLinesCount
      = ls.crtLineNr + 1)
    (hconv : convertAll stod
        (collectFields (LAST_REAL_LINE_NR + ls.mSmc.mHeaderCommentLinesCount + 1)
          (ls.crtLineNr + 1) DATA_VALUE_LENGTH currentLine ls.substringsVec) = .ok dataVec) :
    smcLine ls currentLine
      = ls.after (ls.crtLineNr + 1)
          (collectFields (LAST_REAL_LINE_NR + ls.mSmc.mHeaderCommentLinesCount + 1)
            (ls.crtLineNr + 1) DATA_VALUE_LENGTH currentLine ls.substringsVec)
          (dataValues ls.mSmc dataVec) := by
  unfold LAST_REAL_LINE_NR at hdata hterm
  unfold smcLine
  simp only
  rw [if_neg (by unfold LAST_TEXT_LINE_NR; omega), if_neg (by unfold LAST_INT_LINE_NR; omega),
    if_neg (by unfold LAST_REAL_LINE_NR; omega), if_neg (by unfold LAST_REAL_LINE_NR; omega),
    if_pos (by unfold LAST_REAL_LINE_NR; omega), if_pos (by unfold LAST_REAL_LINE_NR; omega),
    hconv]

theorem smcLoop_start_window (pre : List Str) (ls : SmcLoop)
    (hpre : smcLoop pre SmcLoop.start = .ok ls) (hok : ls.mSmc.mSmcFormatOk = true)
    (h17 : 17 ≤ ls.crtLineNr) : WindowOk ls.mSmc :=
  smcLoop_window pre _ ls hpre hok (fun h => absurd h (by simp [SmcLoop.start])) h17

theorem smcLoop_snoc (pre : List Str) (currentLine : Str) (ls ls' : SmcLoop)
    (hpre : smcLoop pre SmcLoop.start = .ok ls) (hok : ls.mSmc.mSmcFormatOk = true)
    (hline : smcLine ls currentLine = .ok ls') :
    smcLoop (pre ++ [currentLine]) SmcLoop.start = .ok ls' := by
  rw [smcLoop_append pre _ _ _ hpre hok]
  simp only [smcLoop, hok, if_true, hline]

/-- C14: when the loop has read the lines `pre` with the format flag set
and the next line is the last data line, with values that all convert and
are as many as the header gives, then the loop goes on with the flag set,
the data vector has exactly the recorded count as its length, and its
element `j` is 0.1 times the value number `first - 1 + j` of all the data
values, for every `j` below the recorded count, which is
`last - first + 1`. -/
theorem C14_recorded_series (pre : List Str) (currentLine : Str) (ls : SmcLoop)
    (dataVec : List Dbl)
    (hpre : smcLoop pre SmcLoop.start = .ok ls) (hok : ls.mSmc.mSmcFormatOk = true)
    (hdata : LAST_REAL_LINE_NR < ls.crtLineNr + 1
      ∧ LAST_REAL_LINE_NR + ls.mSmc.mHeaderCommentLinesCount < ls.crtLineNr + 1)
    (hterm : LAST_REAL_LINE_NR + ls.mSmc.mHeaderCommentLinesCount + ls.mSmc.mDataLinesCount
      = ls.crtLineNr + 1)
    (hconv : convertAll stod
        (collectFields (LAST_REAL_LINE_NR + ls.mSmc.mHeaderCommentLinesCount + 1)
          (ls.crtLineNr + 1) DATA_VALUE_LENGTH currentLine ls.substringsVec) = .ok dataVec)
    (hlen : (dataVec.length : Int) = ls.mSmc.mDataValuesCount) :
    ∃ ls' : SmcLoop, smcLoop (pre ++ [currentLine]) SmcLoop.start = .ok ls'
      ∧ ls'.mSmc.mSmcFormatOk = true
      ∧ ls'.mSmc.mFirstRecordedSampleIndex = ls.mSmc.mFirstRecordedSampleIndex
      ∧ ls'.mSmc.mLastRecordedSampleIndex = ls.mSmc.mLastRecordedSampleIndex
      ∧ ls'.mSmc.mDataValuesRecordedCount = ls.mSmc.mDataValuesRecordedCount
      ∧ ls'.mSmc.mDataValuesRecordedCount
          = ls'.mSmc.mLastRecordedSampleIndex - ls'.mSmc.mFirstRecordedSampleIndex + 1
      ∧ (ls'.mSmc.mDataVector.length : Int) = ls'.mSmc.mDataValuesRecordedCount
      ∧ ∀ j : Nat, (j : Int) < ls'.mSmc.mDataValuesRecordedCount →
          ∃ raw, dataVec[(ls'.mSmc.mFirstRecordedSampleIndex - 1).toNat + j]? = some raw
            ∧ ls'.mSmc.mDataVector[j]? = some (Dbl.mul Dbl.tenth raw) := by
  have hw := smcLoop_start_window pre ls hpre hok (by unfold LAST_REAL_LINE_NR at hdata; omega)
  have hline := smcLine_last_data_line ls currentLine dataVec hdata hterm hconv
  rw [dataValues_window _ _ hw hlen] at hline
  obtain ⟨h1, h2, h3, h4, h5, h6, h7, h8, h9, h10⟩ := hw
  refine ⟨_, smcLoop_snoc pre currentLine ls _ hpre hok hline, hok, rfl, rfl, rfl, h7, ?_, ?_⟩
  · simp only [List.length_map, List.length_take, List.length_drop]
    omega
  · intro j hj
    simp only at hj
    have hj2 : (ls.mSmc.mFirstRecordedSampleIndex - 1).toNat + j < dataVec.length := by omega
    refine ⟨dataVec[(ls.mSmc.mFirstRecordedSampleIndex - 1).toNat + j], ?_, ?_⟩
    · exact List.getElem?_eq_getElem hj2
    · simp only [List.getElem?_map]
      rw [List.getElem?_take_of_lt (by omega), List.getElem?_drop, List.getElem?_eq_getElem hj2]
      rfl

/-- C14, on the sample SMC file with the data values 10, 50, 20 and 30 and
the recorded window from 2 to 3: the data vector holds 5 and 2, which are
0.1 times the second and the third value. -/
theorem C14_recorded_series_witness :
    ∃ ls' : SmcLoop,
      smcLoop (sampleSmcHeader ++ [sampleSmcData]) SmcLoop.start = .ok ls'
        ∧ ls'.mSmc.mSmcFormatOk = true
        ∧ ls'.mSmc.mFirstRecordedSampleIndex = 2
        ∧ ls'.mSmc.mLastRecordedSampleIndex = 3
        ∧ ls'.mSmc.mDataValuesRecordedCount = 2
        ∧ ls'.mSmc.mDataVector.length = 2
        ∧ ls'.mSmc.mDataVector[0]? = some (Dbl.ofInt 5)
        ∧ ls'.mSmc.mDataVector[1]? = some (Dbl.ofInt 2) := by
  obtain ⟨ls', h1, h2, h3, h4, h5, -, h7, h8⟩ :=
    C14_recorded_series sampleSmcHeader sampleSmcData sampleSmcLoop
      [Dbl.ofInt 10, Dbl.ofInt 50, Dbl.ofInt 20, Dbl.ofInt 30]
      (eq_ok_of_succeeded _ _ (by decide!)) (by decide!) (by decide!) (by decide!)
      (by decide!) (by decide!)
  have e3 : sampleSmcLoop.mSmc.mFirstRecordedSampleIndex = 2 := by decide!
  have e4 : sampleSmcLoop.mSmc.mLastRecordedSampleIndex = 3 := by decide!
  have e5 : sampleSmcLoop.mSmc.mDataValuesRecordedCount = 2 := by decide!
  rw [e3] at h3
  rw [e4] at h4
  rw [e5] at h5
  rw [h5] at h7 h8
  rw [h3] at h8
  obtain ⟨raw0, hr0, hv0⟩ := h8 0 (by decide)
  obtain ⟨raw1, hr1, hv1⟩ := h8 1 (by decide)
  have hr0' : raw0 = Dbl.ofInt 50 := by
    have : some raw0 = some (Dbl.ofInt 50) := hr0.symm.trans (by decide!)
    exact Option.some.inj this
  have hr1' : raw1 = Dbl.ofInt 20 := by
    have : some raw1 = some (Dbl.ofInt 20) := hr1.symm.trans (by decide!)
    exact Option.some.inj this
  refine ⟨ls', h1, h2, h3, h4, h5, by exact_mod_cast h7, ?_, ?_⟩
  · rw [hv0, hr0']
    decide!
  · rw [hv1, hr1']
    decide!

/-- The state that `openSmcFile` leaves when the loop has read the lines
`pre` with the format flag set and the next line clears the flag. -/
theorem openSmcFile_line_violation (st : State) (fileName : Str) (pre post : List Str)
    (currentLine : Str) (ls ls' : SmcLoop)
    (hpre : smcLoop pre SmcLoop.start = .ok ls) (hok : ls.mSmc.mSmcFormatOk = true)
    (hline : smcLine ls currentLine = .ok ls') (hbad : ls'.mSmc.mSmcFormatOk = false) :
    openSmcFile st fileName (some (pre ++ currentLine :: post))
        = .ok { st with
                mSignalUndefined := true
                mSignalReady := false
                mSignalStarted := false
                mSignalPaused := false
                mSignalIsSmc := false
                mIsSignalEdited := false
                mSignalsVector := []
                mSmc := ls'.mSmc
                messages :=
                  st.messages ++ ls'.shown ++ [.wrongFormatAtLine ((pre.length : Int) + 1)] } := by
  have hnr : ls'.crtLineNr = (pre.length : Int) + 1 := by
    rw [smcLine_crtLineNr _ _ _ hline, smcLoop_crtLineNr pre _ _ hpre hok]
    simp [SmcLoop.start]
  have hloop : smcLoop (pre ++ currentLine :: post) SmcLoop.start = .ok ls' := by
    rw [smcLoop_append pre _ _ _ hpre hok]
    simp only [smcLoop, hok, if_true, hline]
    exact smcLoop_stop post ls' hbad
  have hres := openSmcFile_of_violation st fileName _ ls' hloop hbad
  rw [hnr] at hres
  exact hres

theorem handleSmcOpen_admitted (st : State) (fileName : Str) (file : Option (List Str))
    (h : st.mSignalUndefined = true ∨ (st.mSignalReady = true ∧ st.mSignalStarted = false)) :
    handleSmcOpen st fileName file = openSmcFile st fileName file := by
  unfold handleSmcOpen
  rcases h with h | ⟨h1, h2⟩
  · simp [h]
  · simp [h1, h2]

/-- C15: when the loop has read the lines `pre` with the format flag set
and the next line is the last data line, with values that all convert but
are not as many as the header gives, then the import ends there: the
messages of the loop are followed by the message that tells the expected and
the actual number of values and by the message with the number of the line,
the vector and the catalog are empty, and no signal is defined.  The slot
does so whenever its two guards pass. -/
theorem C15_length_mismatch (st : State) (fileName : Str) (pre post : List Str)
    (currentLine : Str) (ls : SmcLoop) (dataVec : List Dbl)
    (hpre : smcLoop pre SmcLoop.start = .ok ls) (hok : ls.mSmc.mSmcFormatOk = true)
    (hdata : LAST_REAL_LINE_NR < ls.crtLineNr + 1
      ∧ LAST_REAL_LINE_NR + ls.mSmc.mHeaderCommentLinesCount < ls.crtLineNr + 1)
    (hterm : LAST_REAL_LINE_NR + ls.mSmc.mHeaderCommentLinesCount + ls.mSmc.mDataLinesCount
      = ls.crtLineNr + 1)
    (hconv : convertAll stod
        (collectFields (LAST_REAL_LINE_NR + ls.mSmc.mHeaderCommentLinesCount + 1)
          (ls.crtLineNr + 1) DATA_VALUE_LENGTH currentLine ls.substringsVec) = .ok dataVec)
    (hlen : (dataVec.length : Int) ≠ ls.mSmc.mDataValuesCount) :
    ∃ st' : State, openSmcFile st fileName (some (pre ++ currentLine :: post)) = .ok st'
      ∧ st'.messages
          = st.messages ++ ls.shown
            ++ [.expectedDataLength ls.mSmc.mDataValuesCount dataVec.length,
                .wrongFormatAtLine ((pre.length : Int) + 1)]
      ∧ st'.catalog = [] ∧ st'.mSignalsVector = []
      ∧ st'.mSignalUndefined = true ∧ st'.mSignalReady = false ∧ st'.mSignalIsSmc = false
      ∧ st'.heap = st.heap
      ∧ (st.mSignalUndefined = true ∨ (st.mSignalReady = true ∧ st.mSignalStarted = false) →
          handleSmcOpen st fileName (some (pre ++ currentLine :: post)) = .ok st') := by
  have hw := smcLoop_start_window pre ls hpre hok (by unfold LAST_REAL_LINE_NR at hdata; omega)
  have hline := smcLine_last_data_line ls currentLine dataVec hdata hterm hconv
  rw [dataValues_mismatch _ _ ⟨by have := hw.1; omega, hw.2.1⟩ hlen] at hline
  have hres := openSmcFile_line_violation st fileName pre post currentLine ls _ hpre hok hline rfl
  refine ⟨_, hres, ?_, rfl, rfl, rfl, rfl, rfl, rfl, ?_⟩
  · simp [SmcLoop.after]
  · intro hg
    rw [handleSmcOpen_admitted st fileName _ hg, hres]

/-- C15, on the sample header, which gives four data values, followed by a
data line of three: the message tells 4 against 3, the line is number 29,
and the catalog is empty. -/
theorem C15_length_mismatch_witness :
    ∃ st' : State,
      openSmcFile sampleState "a.smc".toList (some (sampleSmcHeader ++ [sampleSmcShortData]))
          = .ok st'
        ∧ st'.messages = [.expectedDataLength 4 3, .wrongFormatAtLine 29]
        ∧ st'.catalog = [] ∧ st'.mSignalUndefined = true := by
  obtain ⟨st', h1, h2, h3, -, h5, -⟩ :=
    C15_length_mismatch sampleState "a.smc".toList sampleSmcHeader [] sampleSmcShortData
      sampleSmcLoop [Dbl.ofInt 10, Dbl.ofInt 50, Dbl.ofInt 20]
      (eq_ok_of_succeeded _ _ (by decide!)) (by decide!) (by decide!) (by decide!)
      (by decide!) (by decide!)
  exact ⟨st', h1, h2.trans (by decide!), h3, h5⟩

/-- The state that `createSmcSignal` leaves when the recorded count is not
negative and no item is being edited. -/
theorem createSmcSignal_ok (st : State) (hnn : 0 ≤ st.mSmc.mDataValuesRecordedCount)
    (hed : st.mIsSignalEdited = false) :
    ∃ st' : State, createSmcSignal st = .ok st'
      ∧ st'.heap
          = st.heap
            ++ [.smc { nrPoints := st.mSmc.mDataValuesRecordedCount
                       sps := st.mSmc.mSamplingRate
                       maxAccelMs2 :=
                         Dbl.max (Dbl.abs st.mSmc.mMaximumFromRecord.accelerationMs2)
                           (Dbl.abs st.mSmc.mMinimumFromRecord.accelerationMs2)
                       accelDataVec := st.mSmc.mDataVector }]
      ∧ st'.mSignalsVector = st.mSignalsVector ++ [st.heap.length]
      ∧ st'.mCurrentSignalType = SignalType.SIGNAL_TYPE_SMC.toInt
      ∧ st'.tabIndex = 11
      ∧ st'.mIsSignalEdited = false
      ∧ st'.mSmc = st.mSmc
      ∧ st'.mSignalIsSmc = st.mSignalIsSmc
      ∧ st'.mSignalUndefined = st.mSignalUndefined
      ∧ st'.mSignalReady = st.mSignalReady
      ∧ st'.messages = st.messages := by
  have hnn2 : ¬ st.mSmc.mDataValuesRecordedCount < 0 := by omega
  unfold createSmcSignal
  simp only [hnn2, if_false, State.new]
  by_cases ht : st.tabIndex = 11
  · refine ⟨_, rfl, ?_⟩
    simp [setCurrentTab, handleSignalTypeChanged, SignalType.toInt, ht, hed]
  · refine ⟨_, rfl, ?_⟩
    have ht2 : (11 : Int) ≠ st.tabIndex := fun h => ht h.symm
    simp [setCurrentTab, handleSignalTypeChanged, SignalType.toInt, ht2, hed]

/-- C19: when the loop has read the header and the data with the format
flag set, the import succeeds; the item that `createSmcSignal` builds has
the recorded count as its number of points, the sampling rate of the
header, the greater of the absolute values of the accelerations of the
maximum and of the minimum of the record as its peak, and the data vector as
its data; and afterwards the catalog is exactly that one item, whatever the
state held before.  The slot does so whenever its two guards pass. -/
theorem C19_import_builds_item (st : State) (fileName : Str) (lines : List Str) (ls : SmcLoop)
    (hloop : smcLoop lines SmcLoop.start = .ok ls) (hok : ls.mSmc.mSmcFormatOk = true)
    (hfull : LAST_REAL_LINE_NR ≤ ls.crtLineNr
      ∧ LAST_REAL_LINE_NR + ls.mSmc.mHeaderCommentLinesCount + ls.mSmc.mDataLinesCount
          ≤ ls.crtLineNr) :
    ∃ st' : State, openSmcFile st fileName (some lines) = .ok st'
      ∧ st'.catalog
          = [.smc { nrPoints := ls.mSmc.mDataValuesRecordedCount
                    sps := ls.mSmc.mSamplingRate
                    maxAccelMs2 :=
                      Dbl.max (Dbl.abs ls.mSmc.mMaximumFromRecord.accelerationMs2)
                        (Dbl.abs ls.mSmc.mMinimumFromRecord.accelerationMs2)
                    accelDataVec := ls.mSmc.mDataVector }]
      ∧ st'.mSmc = ls.mSmc
      ∧ st'.mSignalIsSmc = true ∧ st'.mSignalUndefined = false ∧ st'.mSignalReady = true
      ∧ st'.mCurrentSignalType = SignalType.SIGNAL_TYPE_SMC.toInt
      ∧ st'.messages = st.messages ++ ls.shown
      ∧ (st.mSignalUndefined = true ∨ (st.mSignalReady = true ∧ st.mSignalStarted = false) →
          handleSmcOpen st fileName (some lines) = .ok st') := by
  have hw := smcLoop_start_window lines ls hloop hok (by unfold LAST_REAL_LINE_NR at hfull; omega)
  have hnn : ¬ ls.mSmc.mDataValuesRecordedCount < 0 := by
    have := hw.2.2.2.2.2.2.2.1
    omega
  have hres : openSmcFile st fileName (some lines)
      = createSmcSignal
          { st with
            mSignalUndefined := false
            mSignalReady := true
            mSignalStarted := false
            mSignalPaused := false
            mSignalIsSmc := true
            mIsSignalEdited := false
            mSignalsVector := []
            mSmc := ls.mSmc
            messages := st.messages ++ ls.shown } := by
    unfold openSmcFile
    simp only [hloop, hok, if_true]
  obtain ⟨st', hc, h1, h2, h3, -, -, h6, h7, h8, h9, h10⟩ :=
    createSmcSignal_ok
      { st with
        mSignalUndefined := false
        mSignalReady := true
        mSignalStarted := false
        mSignalPaused := false
        mSignalIsSmc := true
        mIsSignalEdited := false
        mSignalsVector := []
        mSmc := ls.mSmc
        messages := st.messages ++ ls.shown } (by show 0 ≤ ls.mSmc.mDataValuesRecordedCount; omega)
      rfl
  rw [hc] at hres
  refine ⟨st', hres, ?_, h6, h7, h8, h9, h3, h10, ?_⟩
  · unfold State.catalog State.deref
    rw [h1, h2]
    simp
  · intro hg
    rw [handleSmcOpen_admitted st fileName _ hg, hres]

/-- C19, on the sample SMC file imported over a catalog that holds one saved
record: the catalog becomes the one imported item with 2 points, the rate
200, the peak 1.205 and the data 5 and 2. -/
theorem C19_import_builds_item_witness :
    ∃ st' : State,
      openSmcFile (sampleCatalogState [sampleRectangle Dbl.one]) "a.smc".toList
          (some (sampleSmcHeader ++ [sampleSmcData])) = .ok st'
        ∧ st'.catalog
          = [.smc { nrPoints := 2
                    sps := Dbl.ofInt 200
                    maxAccelMs2 := .finite false 5426837550981448 (-52)
                    accelDataVec := [Dbl.ofInt 5, Dbl.ofInt 2] }] := by
  obtain ⟨st', h1, h2, -⟩ :=
    C19_import_builds_item (sampleCatalogState [sampleRectangle Dbl.one]) "a.smc".toList
      (sampleSmcHeader ++ [sampleSmcData]) sampleSmcDone
      (eq_ok_of_succeeded _ _ (by decide!)) (by decide!) (by decide!)
  exact ⟨st', h1, h2.trans (by decide!)⟩

theorem vecAt_of_lt {α : Type} (v : List α) (i : Nat) (h : i < v.length) :
    ∃ x, vecAt v i = .ok x ∧ v[i]? = some x := by
  refine ⟨v[i], ?_, List.getElem?_eq_getElem h⟩
  unfold vecAt
  rw [List.getElem?_eq_getElem h]

theorem vecAt_of_getElem? {α : Type} (v : List α) (i : Nat) (x : α) (h : v[i]? = some x) :
    vecAt v i = .ok x := by
  unfold vecAt
  rw [h]

/-- The rest of the real header on a vector with all its fields: the three
fields in cgs units are stored through `toSi`, and the sentinel is kept. -/
theorem realHeaderFields_ok (mSmc : Smc) (tmpRealVec : List Dbl) (moment maximum minimum : Dbl)
    (hlen : 32 ≤ tmpRealVec.length)
    (h9 : tmpRealVec[REAL_FIELD_SEISMIC_MOMENT_DYNE_CM]? = some moment)
    (h29 : tmpRealVec[REAL_FIELD_VALUE_OF_MAXIMUM_CM_S2]? = some maximum)
    (h31 : tmpRealVec[REAL_FIELD_VALUE_OF_MINIMUM_CM_S2]? = some minimum) :
    ∃ m : Smc, realHeaderFields mSmc tmpRealVec = .ok m
      ∧ m.mNoValueReal = mSmc.mNoValueReal
      ∧ m.mSeismicMomentNm = toSi mSmc moment Dbl.tenMillionth
      ∧ m.mMaximumFromRecord.accelerationMs2 = toSi mSmc maximum Dbl.hundredth
      ∧ m.mMinimumFromRecord.accelerationMs2 = toSi mSmc minimum Dbl.hundredth := by
  obtain ⟨x0, hx0⟩ := vecAt_of_lt tmpRealVec REAL_FIELD_EARTHQUAKE_LATITUDE (by unfold REAL_FIELD_EARTHQUAKE_LATITUDE; omega)
  obtain ⟨x1, hx1⟩ := vecAt_of_lt tmpRealVec REAL_FIELD_EARTHQUAKE_LONGITUDE (by unfold REAL_FIELD_EARTHQUAKE_LONGITUDE; omega)
  obtain ⟨x2, hx2⟩ := vecAt_of_lt tmpRealVec REAL_FIELD_EARTHQUAKE_DEPTH_KM (by unfold REAL_FIELD_EARTHQUAKE_DEPTH_KM; omega)
  obtain ⟨x3, hx3⟩ := vecAt_of_lt tmpRealVec REAL_FIELD_SOURCE_MOMENT_MAGNITUDE (by unfold REAL_FIELD_SOURCE_MOMENT_MAGNITUDE; omega)
  obtain ⟨x4, hx4⟩ := vecAt_of_lt tmpRealVec REAL_FIELD_SOURCE_SURFACE_WAVE_MAGNITUDE (by unfold REAL_FIELD_SOURCE_SURFACE_WAVE_MAGNITUDE; omega)
  obtain ⟨x5, hx5⟩ := vecAt_of_lt tmpRealVec REAL_FIELD_SOURCE_LOCAL_MAGNITUDE (by unfold REAL_FIELD_SOURCE_LOCAL_MAGNITUDE; omega)
  obtain ⟨x6, hx6⟩ := vecAt_of_lt tmpRealVec REAL_FIELD_SOURCE_OTHER (by unfold REAL_FIELD_SOURCE_OTHER; omega)
  obtain ⟨x7, hx7⟩ := vecAt_of_lt tmpRealVec REAL_FIELD_SEISMIC_MOMENT_DYNE_CM (by unfold REAL_FIELD_SEISMIC_MOMENT_DYNE_CM; omega)
  obtain ⟨x8, hx8⟩ := vecAt_of_lt tmpRealVec REAL_FIELD_STATION_LATITUDE (by unfold REAL_FIELD_STATION_LATITUDE; omega)
  obtain ⟨x9, hx9⟩ := vecAt_of_lt tmpRealVec REAL_FIELD_STATION_LONGITUDE (by unfold REAL_FIELD_STATION_LONGITUDE; omega)
  obtain ⟨x10, hx10⟩ := vecAt_of_lt tmpRealVec REAL_FIELD_STATION_ELEVATION_M (by unfold REAL_FIELD_STATION_ELEVATION_M; omega)
  obtain ⟨x11, hx11⟩ := vecAt_of_lt tmpRealVec REAL_FIELD_STATION_OFFSET_N_M (by unfold REAL_FIELD_STATION_OFFSET_N_M; omega)
  obtain ⟨x12, hx12⟩ := vecAt_of_lt tmpRealVec REAL_FIELD_STATION_OFFSET_E_M (by unfold REAL_FIELD_STATION_OFFSET_E_M; omega)
  obtain ⟨x13, hx13⟩ := vecAt_of_lt tmpRealVec REAL_FIELD_STATION_OFFSET_UP_M (by unfold REAL_FIELD_STATION_OFFSET_UP_M; omega)
  obtain ⟨x14, hx14⟩ := vecAt_of_lt tmpRealVec REAL_FIELD_EPICENTRAL_DISTANCE_KM (by unfold REAL_FIELD_EPICENTRAL_DISTANCE_KM; omega)
  obtain ⟨x15, hx15⟩ := vecAt_of_lt tmpRealVec REAL_FIELD_EPICENTER_TO_STATION_AZIMUTH (by unfold REAL_FIELD_EPICENTER_TO_STATION_AZIMUTH; omega)
  obtain ⟨x16, hx16⟩ := vecAt_of_lt tmpRealVec REAL_FIELD_DIGITIZATION_UNITS_1_CM (by unfold REAL_FIELD_DIGITIZATION_UNITS_1_CM; omega)
  obtain ⟨x17, hx17⟩ := vecAt_of_lt tmpRealVec REAL_FIELD_SENSOR_CUTOFF_FREQUENCY_HZ (by unfold REAL_FIELD_SENSOR_CUTOFF_FREQUENCY_HZ; omega)
  obtain ⟨x18, hx18⟩ := vecAt_of_lt tmpRealVec REAL_FIELD_SENSOR_DAMPING_COEFFICIENT (by unfold REAL_FIELD_SENSOR_DAMPING_COEFFICIENT; omega)
  obtain ⟨x19, hx19⟩ := vecAt_of_lt tmpRealVec REAL_FIELD_RECORDER_SENSITIVITY_CM_G (by unfold REAL_FIELD_RECORDER_SENSITIVITY_CM_G; omega)
  obtain ⟨x20, hx20⟩ := vecAt_of_lt tmpRealVec REAL_FIELD_TIME_OF_MAXIMUM_S (by unfold REAL_FIELD_TIME_OF_MAXIMUM_S; omega)
  obtain ⟨x21, hx21⟩ := vecAt_of_lt tmpRealVec REAL_FIELD_VALUE_OF_MAXIMUM_CM_S2 (by unfold REAL_FIELD_VALUE_OF_MAXIMUM_CM_S2; omega)
  obtain ⟨x22, hx22⟩ := vecAt_of_lt tmpRealVec REAL_FIELD_TIME_OF_MINIMUM_S (by unfold REAL_FIELD_TIME_OF_MINIMUM_S; omega)
  obtain ⟨x23, hx23⟩ := vecAt_of_lt tmpRealVec REAL_FIELD_VALUE_OF_MINIMUM_CM_S2 (by unfold REAL_FIELD_VALUE_OF_MINIMUM_CM_S2; omega)
  have e9 : x7 = moment := by
    have := hx7.2; rw [h9] at this; exact (Option.some.inj this).symm
  have e29 : x21 = maximum := by
    have := hx21.2; rw [h29] at this; exact (Option.some.inj this).symm
  have e31 : x23 = minimum := by
    have := hx23.2; rw [h31] at this; exact (Option.some.inj this).symm
  subst e9 e29 e31
  unfold realHeaderFields
  simp only [bind, Except.bind, pure, Except.pure, hx0.1, hx1.1, hx2.1, hx3.1, hx4.1, hx5.1, hx6.1, hx7.1, hx8.1, hx9.1, hx10.1, hx11.1, hx12.1, hx13.1, hx14.1, hx15.1, hx16.1, hx17.1, hx18.1, hx19.1, hx20.1, hx21.1, hx22.1, hx23.1]
  exact ⟨_, rfl, rfl, rfl, rfl, rfl⟩

/-- A value is never valid against itself as the sentinel. -/
theorem checkValidReal_self (mSmc : Smc) (x : Dbl) (h : mSmc.mNoValueReal = x) :
    checkValidReal mSmc x = false := by
  unfold checkValidReal
  rw [h]
  cases x with
  | nan => rfl
  | inf neg => cases neg <;> rfl
  | finite neg m e =>
    have hz : Dbl.sub (.finite neg m e) (.finite neg m e) = .finite false 0 0 := by
      unfold Dbl.sub Dbl.neg Dbl.add
      simp only [min_self]
      have hx : Dbl.scaled neg m e e + Dbl.scaled (!neg) m e e = 0 := by
        unfold Dbl.scaled; cases neg <;> simp
      rw [if_pos hx]
      cases neg <;> rfl
    rw [hz]
    decide

theorem checkValidReal_congr (a b : Smc) (x : Dbl) (h : a.mNoValueReal = b.mNoValueReal) :
    checkValidReal a x = checkValidReal b x := by
  unfold checkValidReal
  rw [h]

/-- The sampling-rate block, with the sentinel and the rate at the fields 0
and 1 of the real header. -/
theorem samplingRate_eq (mSmc : Smc) (tmpRealVec : List Dbl) (noValue rate : Dbl)
    (h0 : tmpRealVec[REAL_FIELD_UNDEFINED_VALUE]? = some noValue)
    (h1 : tmpRealVec[REAL_FIELD_SAMPLING_RATE]? = some rate) :
    samplingRate mSmc tmpRealVec
      = if checkValidReal { mSmc with mNoValueReal := noValue } rate then
          if Dbl.lt Dbl.zero rate then
            .ok ({ mSmc with
                   mNoValueReal := noValue
                   mSamplingRate := rate
                   mDataLengthSeconds :=
                     Dbl.div (Dbl.ofInt mSmc.mDataValuesRecordedCount) rate }, none)
          else
            .ok ({ mSmc with
                   mNoValueReal := noValue
                   mSamplingRate := rate
                   mSmcFormatOk := false }, some .invalidSamplingRate)
        else
          .ok ({ mSmc with
                 mNoValueReal := noValue
                 mSamplingRate := rate
                 mSmcFormatOk := false }, some .noSamplingRate) := by
  unfold samplingRate vecAt
  rw [h0, h1]
  rfl

/-- C18, the claim as stated fails: with the sentinel 0 in the real header,
the acceleration 2^-30 of the maximum of the record is above the sentinel,
so it is not the sentinel, and yet it is stored as it is, which is not its
value times 1e-2: it lies within 1e-7 of the sentinel. -/
theorem C18_near_sentinel_counterexample :
    succeeded (realHeader Smc.init sampleNearSentinelFields) = true
      ∧ (resultOr (Smc.init, []) (realHeader Smc.init sampleNearSentinelFields)).1.mNoValueReal
          = Dbl.zero
      ∧ sampleNearSentinelFields[REAL_FIELD_VALUE_OF_MAXIMUM_CM_S2]? = some Dbl.sampleSmall
      ∧ Dbl.sampleSmall ≠ Dbl.zero
      ∧ Dbl.lt Dbl.zero Dbl.sampleSmall = true
      ∧ (resultOr (Smc.init, [])
            (realHeader Smc.init sampleNearSentinelFields)).1.mMaximumFromRecord.accelerationMs2
          = Dbl.sampleSmall
      ∧ Dbl.sampleSmall ≠ Dbl.mul Dbl.sampleSmall Dbl.hundredth := by
  decide!

/-- C18, amended: on a real header with all its fields and an accepted
sampling rate, the seismic moment is stored times 1e-7 and the
accelerations of the maximum and the minimum of the record times 1e-2 when
the field value is farther than 1e-7 from the sentinel of the file (the
test of `checkValidReal`); any other field value, the sentinel itself among
them, is stored as it is. -/
theorem C18_si_conversion (mSmc : Smc) (tmpRealVec : List Dbl)
    (noValue rate moment maximum minimum : Dbl)
    (hlen : 32 ≤ tmpRealVec.length)
    (h0 : tmpRealVec[REAL_FIELD_UNDEFINED_VALUE]? = some noValue)
    (h1 : tmpRealVec[REAL_FIELD_SAMPLING_RATE]? = some rate)
    (h9 : tmpRealVec[REAL_FIELD_SEISMIC_MOMENT_DYNE_CM]? = some moment)
    (h29 : tmpRealVec[REAL_FIELD_VALUE_OF_MAXIMUM_CM_S2]? = some maximum)
    (h31 : tmpRealVec[REAL_FIELD_VALUE_OF_MINIMUM_CM_S2]? = some minimum)
    (hvalid : checkValidReal { mSmc with mNoValueReal := noValue } rate = true)
    (hpos : Dbl.lt Dbl.zero rate = true) :
    ∃ m : Smc, realHeader mSmc tmpRealVec = .ok (m, [])
      ∧ m.mNoValueReal = noValue
      ∧ m.mSeismicMomentNm
          = (if checkValidReal m moment then Dbl.mul moment Dbl.tenMillionth else moment)
      ∧ m.mMaximumFromRecord.accelerationMs2
          = (if checkValidReal m maximum then Dbl.mul maximum Dbl.hundredth else maximum)
      ∧ m.mMinimumFromRecord.accelerationMs2
          = (if checkValidReal m minimum then Dbl.mul minimum Dbl.hundredth else minimum)
      ∧ (moment = noValue → m.mSeismicMomentNm = noValue)
      ∧ (maximum = noValue → m.mMaximumFromRecord.accelerationMs2 = noValue)
      ∧ (minimum = noValue → m.mMinimumFromRecord.accelerationMs2 = noValue) := by
  have hs := samplingRate_eq mSmc tmpRealVec noValue rate h0 h1
  rw [if_pos hvalid, if_pos hpos] at hs
  obtain ⟨m, hm, hn, e1, e2, e3⟩ :=
    realHeaderFields_ok
      { mSmc with
        mNoValueReal := noValue
        mSamplingRate := rate
        mDataLengthSeconds := Dbl.div (Dbl.ofInt mSmc.mDataValuesRecordedCount) rate }
      tmpRealVec moment maximum minimum hlen h9 h29 h31
  have hn' : m.mNoValueReal = noValue := hn
  have hc : ∀ x, checkValidReal
      { mSmc with
        mNoValueReal := noValue
        mSamplingRate := rate
        mDataLengthSeconds := Dbl.div (Dbl.ofInt mSmc.mDataValuesRecordedCount) rate } x
      = checkValidReal m x := fun x => checkValidReal_congr _ _ x hn.symm
  unfold toSi at e1 e2 e3
  rw [hc] at e1 e2 e3
  refine ⟨m, ?_, hn', e1, e2, e3, ?_, ?_, ?_⟩
  · unfold realHeader
    rw [hs]
    simp only [hm]
  · intro h
    rw [e1, h, checkValidReal_self m noValue hn']
    rfl
  · intro h
    rw [e2, h, checkValidReal_self m noValue hn']
    rfl
  · intro h
    rw [e3, h, checkValidReal_self m noValue hn']
    rfl

/-- C18, on the acceleration 98.1 of the maximum of the record, with the
sentinel of the constructor: 0.981 is stored; and the seismic moment, which
is the sentinel, is stored as it is. -/
theorem C18_si_conversion_witness :
    ∃ m : Smc, realHeader Smc.init sampleRealFields = .ok (m, [])
      ∧ m.mMaximumFromRecord.accelerationMs2 = .finite false 8836062468900913 (-53)
      ∧ m.mSeismicMomentNm = Dbl.noValue := by
  obtain ⟨m, hm, hn, -, e2, -, s1, -, -⟩ :=
    C18_si_conversion Smc.init sampleRealFields Dbl.noValue (Dbl.ofInt 200) Dbl.noValue
      Dbl.sampleAcceleration Dbl.noValue (by decide) (by decide!) (by decide!) (by decide!)
      (by decide!) (by decide!) (by decide!) (by decide!)
  have hc : checkValidReal m Dbl.sampleAcceleration = true := by
    rw [checkValidReal_congr m Smc.init Dbl.sampleAcceleration (by rw [hn]; rfl)]
    decide!
  refine ⟨m, hm, ?_, s1 rfl⟩
  rw [e2, hc]
  decide!

theorem dataLength_valid (mSmc : Smc)
    (hvalid : mSmc.mDataValuesCount ≠ mSmc.mNoValueInteger)
    (hcount : 1 ≤ mSmc.mDataValuesCount ∧ mSmc.mDataValuesCount ≤ 32767) :
    dataLength mSmc
      = .ok ({ mSmc with
               mDataValuesRecordedCount := mSmc.mDataValuesCount
               mDataLinesCount := (ceilOfQuotient mSmc.mDataValuesCount DATA_VALUES_PER_LINE).toNat },
             none) := by
  have hc := ceilOfQuotient_spec mSmc.mDataValuesCount
  have h1 : 0 ≤ ceilOfQuotient mSmc.mDataValuesCount DATA_VALUES_PER_LINE
      ∧ ceilOfQuotient mSmc.mDataValuesCount DATA_VALUES_PER_LINE ≤ 65535 := by omega
  have h2 : ¬ (0 = (ceilOfQuotient mSmc.mDataValuesCount DATA_VALUES_PER_LINE).toNat) := by omega
  simp [dataLength, checkValidInteger, doubleToUInt16, hvalid, h1, h2]

/-- C13: the recorded-window derivation. For a count of at least 1 that is
not the sentinel, the data-length block sets the recorded count to the
count; then, with the two indices stored, an index of the first sample that
is the sentinel or outside `[1, count]` becomes 1 and takes nothing off, any
other takes `first - 1` off; independently an index of the last sample that
is the sentinel or outside `[1, count]` becomes the count and takes nothing
off, any other takes `count - last` off. -/
theorem C13_recorded_window (mSmc : Smc) (firstRecorded lastRecorded : Int)
    (hcount : 1 ≤ mSmc.mDataValuesCount ∧ mSmc.mDataValuesCount ≤ 32767)
    (hvalid : mSmc.mDataValuesCount ≠ mSmc.mNoValueInteger)
    (hfirst : -32768 ≤ firstRecorded ∧ firstRecorded ≤ 32767)
    (hlast : -32768 ≤ lastRecorded ∧ lastRecorded ≤ 32767) :
    ∃ m : Smc, dataLength mSmc = .ok (m, none)
      ∧ m.mDataValuesRecordedCount = mSmc.mDataValuesCount
      ∧ (recordedWindow { m with
            mFirstRecordedSampleIndex := firstRecorded
            mLastRecordedSampleIndex := lastRecorded }).mFirstRecordedSampleIndex
          = (if firstRecorded = mSmc.mNoValueInteger ∨ firstRecorded < 1
                ∨ mSmc.mDataValuesCount < firstRecorded then 1 else firstRecorded)
      ∧ (recordedWindow { m with
            mFirstRecordedSampleIndex := firstRecorded
            mLastRecordedSampleIndex := lastRecorded }).mLastRecordedSampleIndex
          = (if lastRecorded = mSmc.mNoValueInteger ∨ lastRecorded < 1
                ∨ mSmc.mDataValuesCount < lastRecorded then mSmc.mDataValuesCount
             else lastRecorded)
      ∧ (recordedWindow { m with
            mFirstRecordedSampleIndex := firstRecorded
            mLastRecordedSampleIndex := lastRecorded }).mDataValuesRecordedCount
          = mSmc.mDataValuesCount
            - (if firstRecorded = mSmc.mNoValueInteger ∨ firstRecorded < 1
                  ∨ mSmc.mDataValuesCount < firstRecorded then 0 else firstRecorded - 1)
            - (if lastRecorded = mSmc.mNoValueInteger ∨ lastRecorded < 1
                  ∨ mSmc.mDataValuesCount < lastRecorded then 0
               else mSmc.mDataValuesCount - lastRecorded) := by
  refine ⟨_, dataLength_valid mSmc hvalid hcount, rfl, ?_⟩
  unfold recordedWindow checkValidInteger
  simp only [decide_eq_true_eq, ne_eq, ge_iff_le]
  by_cases hf1 : firstRecorded = mSmc.mNoValueInteger
  · by_cases hl1 : lastRecorded = mSmc.mNoValueInteger
    · simp [hf1, hl1]
    · by_cases hl2 : lastRecorded ≤ mSmc.mDataValuesCount ∧ 1 ≤ lastRecorded
      · have hl3 : ¬ (lastRecorded < 1 ∨ mSmc.mDataValuesCount < lastRecorded) := by omega
        simp only [hf1, hl1, hl2, hl3, not_true_eq_false, not_false_eq_true, if_true, if_false,
          true_or, or_self, and_self, sub_zero]
        refine ⟨trivial, trivial, ?_⟩
        rw [toInt16_of_range _ (by omega)]
      · have hl3 : lastRecorded < 1 ∨ mSmc.mDataValuesCount < lastRecorded := by omega
        simp [hf1, hl1, hl2, hl3]
  · by_cases hf2 : 1 ≤ firstRecorded ∧ firstRecorded ≤ mSmc.mDataValuesCount
    · have hf3 : ¬ (firstRecorded < 1 ∨ mSmc.mDataValuesCount < firstRecorded) := by omega
      by_cases hl1 : lastRecorded = mSmc.mNoValueInteger
      · simp only [hf1, hf2, hf3, hl1, not_true_eq_false, not_false_eq_true, if_true, if_false,
          true_or, or_self, and_self, sub_zero, false_or]
        refine ⟨trivial, trivial, ?_⟩
        rw [toInt16_of_range _ (by omega)]
      · by_cases hl2 : lastRecorded ≤ mSmc.mDataValuesCount ∧ 1 ≤ lastRecorded
        · have hl3 : ¬ (lastRecorded < 1 ∨ mSmc.mDataValuesCount < lastRecorded) := by omega
          simp only [hf1, hf2, hf3, hl1, hl2, hl3, not_true_eq_false, not_false_eq_true,
            if_true, if_false, true_or, or_self, and_self, sub_zero, false_or]
          refine ⟨trivial, trivial, ?_⟩
          rw [toInt16_of_range (mSmc.mDataValuesCount - (firstRecorded - 1)) (by omega),
            toInt16_of_range _ (by omega)]
        · have hl3 : lastRecorded < 1 ∨ mSmc.mDataValuesCount < lastRecorded := by omega
          simp only [hf1, hf2, hf3, hl1, hl2, hl3, not_true_eq_false, not_false_eq_true,
            if_true, if_false, true_or, or_self, and_self, sub_zero, false_or]
          refine ⟨trivial, trivial, ?_⟩
          rw [toInt16_of_range _ (by omega)]
    · have hf3 : firstRecorded < 1 ∨ mSmc.mDataValuesCount < firstRecorded := by omega
      by_cases hl1 : lastRecorded = mSmc.mNoValueInteger
      · simp [hf1, hf2, hf3, hl1]
      · by_cases hl2 : lastRecorded ≤ mSmc.mDataValuesCount ∧ 1 ≤ lastRecorded
        · have hl3 : ¬ (lastRecorded < 1 ∨ mSmc.mDataValuesCount < lastRecorded) := by omega
          simp only [hf1, hf2, hf3, hl1, hl2, hl3, not_true_eq_false, not_false_eq_true,
            if_true, if_false, true_or, or_self, and_self, sub_zero, false_or]
          refine ⟨trivial, trivial, ?_⟩
          rw [toInt16_of_range _ (by omega)]
        · have hl3 : lastRecorded < 1 ∨ mSmc.mDataValuesCount < lastRecorded := by omega
          simp [hf1, hf2, hf3, hl1, hl2, hl3]

/-- C13, on a count of 1000: the indices 1 and 1000 leave 1000 recorded
values, the indices 1 and 500 leave 500, and two indices that are the
sentinel leave 1000. -/
theorem C13_recorded_window_witness :
    (∃ m : Smc, dataLength { Smc.init with mDataValuesCount := 1000 } = .ok (m, none)
        ∧ (recordedWindow { m with
              mFirstRecordedSampleIndex := 1
              mLastRecordedSampleIndex := 1000 }).mDataValuesRecordedCount = 1000)
      ∧ (∃ m : Smc, dataLength { Smc.init with mDataValuesCount := 1000 } = .ok (m, none)
        ∧ (recordedWindow { m with
              mFirstRecordedSampleIndex := 1
              mLastRecordedSampleIndex := 500 }).mDataValuesRecordedCount = 500)
      ∧ (∃ m : Smc, dataLength { Smc.init with mDataValuesCount := 1000 } = .ok (m, none)
        ∧ (recordedWindow { m with
              mFirstRecordedSampleIndex := -32768
              mLastRecordedSampleIndex := -32768 }).mDataValuesRecordedCount = 1000) := by
  refine ⟨?_, ?_, ?_⟩
  · obtain ⟨m, hm, -, -, -, hc⟩ :=
      C13_recorded_window { Smc.init with mDataValuesCount := 1000 } 1 1000
        (by decide) (by decide) (by decide) (by decide)
    exact ⟨m, hm, hc.trans (by decide)⟩
  · obtain ⟨m, hm, -, -, -, hc⟩ :=
      C13_recorded_window { Smc.init with mDataValuesCount := 1000 } 1 500
        (by decide) (by decide) (by decide) (by decide)
    exact ⟨m, hm, hc.trans (by decide)⟩
  · obtain ⟨m, hm, -, -, -, hc⟩ :=
      C13_recorded_window { Smc.init with mDataValuesCount := 1000 } (-32768) (-32768)
        (by decide) (by decide) (by decide) (by decide)
    exact ⟨m, hm, hc.trans (by decide)⟩

/-- C16 (a defect of the code on negative counts): the data-length block on
a declared count of at most 32767. A count that is the sentinel clears the
format flag with the message on the data length. Any other count of at
least -7 gives the line count `d` with `8 * (d - 1) < count ≤ 8 * d`, the
ceiling of `count / 8`: `d = 0` clears the format flag with the message on
the data values, `d ≠ 0` lets the parse go on with `d` stored, and for a
count of at least 1, `d` is not 0. A count below -7 that is not the
sentinel has a negative ceiling, and there the block fails: it ends in the
undefined conversion of a negative `double` to `uint16_t`, with no format
error and no line count. -/
theorem C16_negative_count_undefined (mSmc : Smc) (hmax : mSmc.mDataValuesCount ≤ 32767) :
    (mSmc.mDataValuesCount = mSmc.mNoValueInteger →
        dataLength mSmc
          = .ok ({ mSmc with mSmcFormatOk := false }, some .noValidDataLength))
      ∧ (mSmc.mDataValuesCount ≠ mSmc.mNoValueInteger → -7 ≤ mSmc.mDataValuesCount →
          ∃ d : Nat,
            8 * ((d : Int) - 1) < mSmc.mDataValuesCount ∧ mSmc.mDataValuesCount ≤ 8 * (d : Int)
              ∧ (1 ≤ mSmc.mDataValuesCount → d ≠ 0)
              ∧ (d = 0 →
                  dataLength mSmc
                    = .ok ({ mSmc with
                             mDataValuesRecordedCount := mSmc.mDataValuesCount
                             mDataLinesCount := 0
                             mSmcFormatOk := false }, some .noDataValues))
              ∧ (d ≠ 0 →
                  dataLength mSmc
                    = .ok ({ mSmc with
                             mDataValuesRecordedCount := mSmc.mDataValuesCount
                             mDataLinesCount := d }, none)))
      ∧ (mSmc.mDataValuesCount ≠ mSmc.mNoValueInteger → mSmc.mDataValuesCount < -7 →
          ceilOfQuotient mSmc.mDataValuesCount DATA_VALUES_PER_LINE < 0
            ∧ dataLength mSmc = .error .undefinedBehaviour
            ∧ ∀ (m : Smc) (message : Option Message), dataLength mSmc ≠ .ok (m, message)) := by
  refine ⟨?_, ?_, ?_⟩
  · intro h
    simp [dataLength, checkValidInteger, h]
  · intro hvalid hmin
    have hc := ceilOfQuotient_spec mSmc.mDataValuesCount
    have h1 : 0 ≤ ceilOfQuotient mSmc.mDataValuesCount DATA_VALUES_PER_LINE
        ∧ ceilOfQuotient mSmc.mDataValuesCount DATA_VALUES_PER_LINE ≤ 65535 := by omega
    refine ⟨(ceilOfQuotient mSmc.mDataValuesCount DATA_VALUES_PER_LINE).toNat, ?_, ?_, ?_, ?_, ?_⟩
    · rw [Int.toNat_of_nonneg h1.1]; exact hc.1
    · rw [Int.toNat_of_nonneg h1.1]; exact hc.2
    · intro h; omega
    · intro hd
      have h2 : 0 = (ceilOfQuotient mSmc.mDataValuesCount DATA_VALUES_PER_LINE).toNat := hd.symm
      simp [dataLength, checkValidInteger, doubleToUInt16, hvalid, h1, hd]
    · intro hd
      have h2 : ¬ (0 = (ceilOfQuotient mSmc.mDataValuesCount DATA_VALUES_PER_LINE).toNat) :=
        fun h => hd h.symm
      simp [dataLength, checkValidInteger, doubleToUInt16, hvalid, h1, h2]
  · intro hvalid hneg
    have hc := ceilOfQuotient_spec mSmc.mDataValuesCount
    have h1 : ceilOfQuotient mSmc.mDataValuesCount DATA_VALUES_PER_LINE < 0 := by omega
    have h2 : ¬ (0 ≤ ceilOfQuotient mSmc.mDataValuesCount DATA_VALUES_PER_LINE
        ∧ ceilOfQuotient mSmc.mDataValuesCount DATA_VALUES_PER_LINE ≤ 65535) := by omega
    have h3 : dataLength mSmc = .error .undefinedBehaviour := by
      simp [dataLength, checkValidInteger, doubleToUInt16, hvalid, h2]
    refine ⟨h1, h3, ?_⟩
    intro m message hm
    rw [h3] at hm
    cases hm

/-- C16, on the counts -16 and 1000 with the sentinel -32768: the count -16
has the ceiling -2 and the block ends in the undefined conversion, with no
format error; the count 1000 lets the parse go on with the line count `d`,
where `8 * (d - 1) < 1000 ≤ 8 * d`. -/
theorem C16_negative_count_undefined_witness :
    (ceilOfQuotient (-16) DATA_VALUES_PER_LINE = -2
        ∧ dataLength { Smc.init with mDataValuesCount := -16 } = .error .undefinedBehaviour
        ∧ ∀ (m : Smc) (message : Option Message),
            dataLength { Smc.init with mDataValuesCount := -16 } ≠ .ok (m, message))
      ∧ ∃ d : Nat,
          8 * ((d : Int) - 1) < 1000 ∧ (1000 : Int) ≤ 8 * (d : Int)
            ∧ dataLength { Smc.init with mDataValuesCount := 1000 }
                = .ok ({ Smc.init with
                         mDataValuesCount := 1000
                         mDataValuesRecordedCount := 1000
                         mDataLinesCount := d }, none) := by
  refine ⟨?_, ?_⟩
  · obtain ⟨-, h2, h3⟩ :=
      (C16_negative_count_undefined { Smc.init with mDataValuesCount := -16 } (by decide)).2.2
        (by decide) (by decide)
    exact ⟨by decide, h2, h3⟩
  · obtain ⟨d, h1, h2, h3, -, h5⟩ :=
      (C16_negative_count_undefined { Smc.init with mDataValuesCount := 1000 } (by decide)).2.1
        (by decide) (by decide)
    exact ⟨d, h1, h2, h5 (h3 (by decide))⟩

/-- C17: the sampling-rate block. With the sentinel and the rate at the
fields 0 and 1 of the real header, a rate that is the sentinel or is not
above zero clears the format flag with a message; and whenever the block
lets the parse go on, the length of the data in seconds is the recorded
count over the rate. -/
theorem C17_sampling_rate (mSmc : Smc) (tmpRealVec : List Dbl) (noValue rate : Dbl)
    (h0 : tmpRealVec[REAL_FIELD_UNDEFINED_VALUE]? = some noValue)
    (h1 : tmpRealVec[REAL_FIELD_SAMPLING_RATE]? = some rate) :
    (rate = noValue ∨ Dbl.lt Dbl.zero rate = false →
        ∃ m message, samplingRate mSmc tmpRealVec = .ok (m, some message)
          ∧ m.mSmcFormatOk = false
          ∧ (message = .noSamplingRate ∨ message = .invalidSamplingRate))
      ∧ (checkValidReal { mSmc with mNoValueReal := noValue } rate = true
          → Dbl.lt Dbl.zero rate = true →
          samplingRate mSmc tmpRealVec
            = .ok ({ mSmc with
                     mNoValueReal := noValue
                     mSamplingRate := rate
                     mDataLengthSeconds :=
                       Dbl.div (Dbl.ofInt mSmc.mDataValuesRecordedCount) rate }, none))
      ∧ (∀ m, samplingRate mSmc tmpRealVec = .ok (m, none) →
          m.mSamplingRate = rate
            ∧ m.mDataLengthSeconds = Dbl.div (Dbl.ofInt mSmc.mDataValuesRecordedCount) rate
            ∧ m.mSmcFormatOk = mSmc.mSmcFormatOk) := by
  have hs : samplingRate mSmc tmpRealVec
      = if checkValidReal { mSmc with mNoValueReal := noValue } rate then
          if Dbl.lt Dbl.zero rate then
            .ok ({ mSmc with
                   mNoValueReal := noValue
                   mSamplingRate := rate
                   mDataLengthSeconds :=
                     Dbl.div (Dbl.ofInt mSmc.mDataValuesRecordedCount) rate }, none)
          else
            .ok ({ mSmc with
                   mNoValueReal := noValue
                   mSamplingRate := rate
                   mSmcFormatOk := false }, some .invalidSamplingRate)
        else
          .ok ({ mSmc with
                 mNoValueReal := noValue
                 mSamplingRate := rate
                 mSmcFormatOk := false }, some .noSamplingRate) := by
    unfold samplingRate vecAt
    rw [h0, h1]
    rfl
  refine ⟨?_, ?_, ?_⟩
  · intro h
    rw [hs]
    by_cases hv : checkValidReal { mSmc with mNoValueReal := noValue } rate = true
    · rw [if_pos hv]
      have hl : Dbl.lt Dbl.zero rate = false := by
        rcases h with h | h
        · rw [checkValidReal_self _ rate (by rw [h])] at hv
          cases hv
        · exact h
      rw [hl]
      exact ⟨_, _, rfl, rfl, Or.inr rfl⟩
    · rw [if_neg hv]
      exact ⟨_, _, rfl, rfl, Or.inl rfl⟩
  · intro hv hl
    rw [hs, if_pos hv, if_pos hl]
  · intro m hm
    rw [hs] at hm
    split_ifs at hm with hv hl
    · cases hm
      exact ⟨rfl, rfl, rfl⟩
    · cases hm
    · cases hm

/-- C17, on 1000 recorded values and the sampling rate 200: the length of
the data is 5 seconds. -/
theorem C17_sampling_rate_witness :
    ∃ m : Smc,
      samplingRate { Smc.init with mDataValuesRecordedCount := 1000 }
          [Dbl.noValue, Dbl.ofInt 200] = .ok (m, none)
        ∧ m.mSamplingRate = Dbl.ofInt 200
        ∧ m.mDataLengthSeconds = Dbl.ofInt 5 :=
  ⟨_, (C17_sampling_rate { Smc.init with mDataValuesRecordedCount := 1000 }
        [Dbl.noValue, Dbl.ofInt 200] Dbl.noValue (Dbl.ofInt 200) rfl rfl).2.1
        (by decide!) (by decide!),
    rfl, by decide!⟩

/-! ## Rows outside the catalog -/

theorem vectorAt_out_of_range (v : List Nat) (crtRow : Int)
    (h : crtRow < 0 ∨ (v.length : Int) ≤ crtRow) :
    vectorAt v crtRow = .error .outOfRange := by
  unfold vectorAt
  split_ifs with h0
  · have hlen : v.length ≤ crtRow.toNat := by omega
    rw [List.getElem?_eq_none hlen]
  · rfl

/-- C11: for a well-formed state and a row outside the catalog, the replace
operation ends with `std::out_of_range` before anything is changed, but the
slot `handleRemoveSignal` has no bounds check and runs into undefined
behaviour instead of an index error. -/
theorem C11_row_outside_catalog (st : State) (crtRow : Int) (d : SignalItem) (hwf : st.wf)
    (h : crtRow < 0 ∨ (st.catalog.length : Int) ≤ crtRow) :
    replaceAt st crtRow d = .error .outOfRange
      ∧ handleRemoveSignal st crtRow = .error .undefinedBehaviour := by
  rw [catalog_length_of_wf st hwf] at h
  constructor
  · unfold replaceAt handleEditSignal
    rw [vectorAt_out_of_range _ _ h]
  · unfold handleRemoveSignal
    simp only
    rw [if_neg]
    intro hc
    omega

/-- C11, on a catalog of one record and the row 1: the replace operation
ends with `std::out_of_range`, the removal in undefined behaviour. -/
theorem C11_row_outside_catalog_witness :
    (sampleCatalogState [.triangle (sampleTriangle Dbl.one)]).catalog
        = [.triangle (sampleTriangle Dbl.one)]
      ∧ replaceAt (sampleCatalogState [.triangle (sampleTriangle Dbl.one)]) 1
          (.triangle (sampleTriangle Dbl.one)) = .error .outOfRange
      ∧ handleRemoveSignal (sampleCatalogState [.triangle (sampleTriangle Dbl.one)]) 1
          = .error .undefinedBehaviour :=
  ⟨by decide,
   C11_row_outside_catalog (sampleCatalogState [.triangle (sampleTriangle Dbl.one)]) 1
     (.triangle (sampleTriangle Dbl.one)) (by decide) (by decide)⟩

/-! ## The reachable states of the window -/

theorem catalogInvariant_of_empty (st : State) (h1 : st.mSignalsVector = [])
    (h2 : st.mIsSignalEdited = false) (h3 : st.mSignalIsSmc = false) : st.catalogInvariant := by
  refine ⟨?_, ?_, ?_, ?_⟩
  · intro p hp; rw [h1] at hp; cases hp
  · intro p hp; rw [h1] at hp; cases hp
  · intro h; rw [h2] at h; cases h
  · intro h; rw [h3] at h; cases h

/-- The invariant only reads the heap, the vector, the edited pointer with
its flag, the SMC flag, the current type and the current tab. -/
theorem catalogInvariant_congr (st st' : State) (h : st.catalogInvariant)
    (e1 : st'.heap = st.heap) (e2 : st'.mSignalsVector = st.mSignalsVector)
    (e3 : st'.mEditedSignal = st.mEditedSignal) (e4 : st'.mIsSignalEdited = st.mIsSignalEdited)
    (e5 : st'.mSignalIsSmc = st.mSignalIsSmc)
    (e6 : st'.mCurrentSignalType = st.mCurrentSignalType) (e7 : st'.tabIndex = st.tabIndex) :
    st'.catalogInvariant := by
  unfold State.catalogInvariant State.wf State.modeOk at h ⊢
  rw [e1, e2, e3, e4, e5, e6, e7]
  exact h

theorem catalogInvariant_show (st : State) (m : Message) (h : st.catalogInvariant) :
    (st.show m).catalogInvariant :=
  catalogInvariant_congr st _ h rfl rfl rfl rfl rfl rfl rfl

theorem catalogInvariant_initial (formTriangle : SignalTriangle)
    (formRectangle : SignalRectangle) (formPulse : SignalPulse) (formRiseFall : SignalRiseFall)
    (formSinDamp : SignalSinDamp) (formSinRise : SignalSinRise) (formWavSin : SignalWavSin)
    (formAmSin : SignalAmSin) (formSinDampSin : SignalSinDampSin)
    (formTrapDampSin : SignalTrapDampSin) (formNoise : SignalNoise) :
    (State.initial formTriangle formRectangle formPulse formRiseFall formSinDamp formSinRise
      formWavSin formAmSin formSinDampSin formTrapDampSin formNoise).catalogInvariant :=
  catalogInvariant_of_empty _ rfl rfl rfl

theorem handleSignalTypeChanged_fields (st : State) :
    (handleSignalTypeChanged st).heap = st.heap
      ∧ (handleSignalTypeChanged st).mSignalsVector = st.mSignalsVector
      ∧ (handleSignalTypeChanged st).mSignalIsSmc = st.mSignalIsSmc
      ∧ (handleSignalTypeChanged st).tabIndex = st.tabIndex
      ∧ ((handleSignalTypeChanged st).mIsSignalEdited = true →
          st.mIsSignalEdited = true
            ∧ (handleSignalTypeChanged st).mEditedSignal = st.mEditedSignal) := by
  unfold handleSignalTypeChanged
  simp only
  split_ifs <;> simp_all

theorem setCurrentTab_fields (st : State) (crtTab : Int) :
    (setCurrentTab st crtTab).heap = st.heap
      ∧ (setCurrentTab st crtTab).mSignalsVector = st.mSignalsVector
      ∧ (setCurrentTab st crtTab).mSignalIsSmc = st.mSignalIsSmc
      ∧ ((setCurrentTab st crtTab).mIsSignalEdited = true →
          st.mIsSignalEdited = true ∧ (setCurrentTab st crtTab).mEditedSignal = st.mEditedSignal)
      ∧ (crtTab = st.tabIndex → setCurrentTab st crtTab = st) := by
  unfold setCurrentTab
  split_ifs with h
  · obtain ⟨a, b, c, -, e⟩ := handleSignalTypeChanged_fields { st with tabIndex := crtTab }
    exact ⟨a, b, c, e, fun h' => absurd h' h.2.2⟩
  · exact ⟨rfl, rfl, rfl, fun h' => ⟨h', rfl⟩, fun _ => rfl⟩

/-- A choice of tab keeps the invariant, when the tab is the current one or
the signal is no SMC signal. -/
theorem catalogInvariant_setCurrentTab (st : State) (crtTab : Int) (h : st.catalogInvariant)
    (hg : st.mSignalIsSmc = true → crtTab = st.tabIndex) :
    (setCurrentTab st crtTab).catalogInvariant := by
  obtain ⟨a, b, c, d, e⟩ := setCurrentTab_fields st crtTab
  by_cases hm : st.mSignalIsSmc = true
  · rw [e (hg hm)]; exact h
  · obtain ⟨h1, h2, h3, -⟩ := h
    unfold State.catalogInvariant State.wf State.modeOk at *
    rw [a, b, c]
    refine ⟨h1, h2, ?_, fun h' => absurd h' hm⟩
    intro hed q hq
    obtain ⟨hed', hq'⟩ := d hed
    rw [hq'] at hq
    exact h3 hed' q hq

theorem catalogInvariant_fillForm (st : State) (d : SignalItem) (h : st.catalogInvariant) :
    (st.fillForm d).catalogInvariant := by
  obtain ⟨a, b, c, e⟩ := fillForm_frame st d
  refine catalogInvariant_congr st _ h a b c e ?_ ?_ ?_ <;> cases d <;> rfl

theorem catalogInvariant_signalNew (st : State) (h : st.catalogInvariant) :
    (handleSignalNew st).catalogInvariant := by
  unfold handleSignalNew
  split_ifs
  · exact catalogInvariant_show _ _ h
  · apply catalogInvariant_of_empty
    · rfl
    · simp only
      obtain ⟨-, -, -, -, e⟩ := handleSignalTypeChanged_fields
        (setCurrentTab { st with
          mSignalUndefined := false, mSignalReady := false, mSignalStarted := false,
          mSignalPaused := false, mSignalIsSmc := false, mIsSignalEdited := false,
          mCurrentSignalType := SignalType.SIGNAL_TYPE_TRIANGLE.toInt } 0)
      obtain ⟨-, -, -, d, -⟩ := setCurrentTab_fields
        { st with
          mSignalUndefined := false, mSignalReady := false, mSignalStarted := false,
          mSignalPaused := false, mSignalIsSmc := false, mIsSignalEdited := false,
          mCurrentSignalType := SignalType.SIGNAL_TYPE_TRIANGLE.toInt } 0
      by_contra hc
      have hc' := (d (e (by simpa using hc)).1).1
      simp at hc'
    · simp only
      obtain ⟨-, -, c, -, -⟩ := handleSignalTypeChanged_fields
        (setCurrentTab { st with
          mSignalUndefined := false, mSignalReady := false, mSignalStarted := false,
          mSignalPaused := false, mSignalIsSmc := false, mIsSignalEdited := false,
          mCurrentSignalType := SignalType.SIGNAL_TYPE_TRIANGLE.toInt } 0)
      obtain ⟨-, -, c', -, -⟩ := setCurrentTab_fields
        { st with
          mSignalUndefined := false, mSignalReady := false, mSignalStarted := false,
          mSignalPaused := false, mSignalIsSmc := false, mIsSignalEdited := false,
          mCurrentSignalType := SignalType.SIGNAL_TYPE_TRIANGLE.toInt } 0
      rw [c, c']

theorem decodeLine_not_smc (currentLine : Str) (item : SignalItem) (lineString : Str)
    (h : decodeLine currentLine = some (item, lineString)) : item.isSmc = false := by
  unfold decodeLine at h
  rw [decodeSubstrings_eq_reference] at h
  have hp := (decodeReference_some _ _ _ h).2.1
  cases item <;> first | rfl | cases hp

theorem formItem_not_smc (st : State) (t : SignalType) (item : SignalItem)
    (h : st.formItem t = some item) : item.isSmc = false ∧ item.getType = t := by
  cases t <;> simp only [State.formItem, Option.some.injEq, reduceCtorEq] at h <;> subst h <;>
    exact ⟨rfl, rfl⟩

theorem modeOk_new (st : State) (item : SignalItem) (p : Nat) (hp : p < st.heap.length)
    (h : st.modeOk p) : State.modeOk { st with heap := st.heap ++ [item] } p := by
  intro x hx
  simp only at hx
  rw [getElem?_append_singleton_of_lt _ _ _ hp] at hx
  exact h x hx

/-- The invariant after a new object of the right variant is created and
its pointer pushed on the vector. -/
theorem catalogInvariant_push (st : State) (item : SignalItem) (h : st.catalogInvariant)
    (hitem : item.isSmc = st.mSignalIsSmc)
    (hsmc : st.mSignalIsSmc = true → st.mSignalsVector = []) :
    State.catalogInvariant
      { st with heap := st.heap ++ [item], mSignalsVector := st.mSignalsVector ++ [st.heap.length] } := by
  obtain ⟨h1, h2, h3, h4⟩ := h
  refine ⟨?_, ?_, ?_, ?_⟩
  · intro p hp
    simp only [List.mem_append, List.mem_singleton] at hp
    simp only [List.length_append, List.length_singleton]
    rcases hp with hp | rfl
    · have := h1 p hp; omega
    · omega
  · intro p hp
    simp only [List.mem_append, List.mem_singleton] at hp
    rcases hp with hp | rfl
    · exact modeOk_new st item p (h1 p hp) (h2 p hp)
    · intro x hx
      simp only [List.getElem?_concat_length, Option.some.injEq] at hx
      rw [← hx]; exact hitem
  · intro hed q hq
    obtain ⟨hq1, hq2⟩ := h3 hed q hq
    refine ⟨?_, modeOk_new st item q hq1 hq2⟩
    simp only [List.length_append, List.length_singleton]; omega
  · intro hm
    obtain ⟨a, b, -⟩ := h4 hm
    refine ⟨a, b, ?_⟩
    simp [hsmc hm]

theorem catalogInvariant_openLine (st : State) (currentLine : Str) (h : st.catalogInvariant)
    (hm : st.mSignalIsSmc = false) :
    (openLine st currentLine).catalogInvariant
      ∧ (openLine st currentLine).mSignalIsSmc = false := by
  unfold openLine
  split
  · rename_i item lineString hd
    simp only [State.new]
    refine ⟨?_, hm⟩
    have hp := catalogInvariant_push st item h
      (by rw [hm]; exact decodeLine_not_smc _ _ _ hd) (fun h' => by rw [hm] at h'; cases h')
    exact catalogInvariant_congr _ _ hp rfl rfl rfl rfl rfl rfl rfl
  · exact ⟨h, hm⟩

theorem catalogInvariant_foldl_openLine (lines : List Str) (st : State)
    (h : st.catalogInvariant) (hm : st.mSignalIsSmc = false) :
    (lines.foldl openLine st).catalogInvariant
      ∧ (lines.foldl openLine st).mSignalIsSmc = false := by
  induction lines generalizing st with
  | nil => exact ⟨h, hm⟩
  | cons currentLine lines ih =>
    obtain ⟨a, b⟩ := catalogInvariant_openLine st currentLine h hm
    exact ih _ a b

theorem catalogInvariant_signalOpen (st : State) (fileName : Str) (file : Option (List Str))
    (h : st.catalogInvariant) : (handleSignalOpen st fileName file).catalogInvariant := by
  unfold handleSignalOpen
  split_ifs
  · exact catalogInvariant_show _ _ h
  · exact catalogInvariant_show _ _ h
  · unfold openSignalFile
    simp only
    cases file with
    | none =>
      simp only
      split_ifs
      · exact catalogInvariant_show _ _ (catalogInvariant_of_empty _ rfl rfl rfl)
      · exact catalogInvariant_of_empty _ rfl rfl rfl
    | some lines =>
      simp only
      obtain ⟨a, b⟩ := catalogInvariant_foldl_openLine lines
        { st with
          mSignalUndefined := true, mSignalReady := false, mSignalStarted := false,
          mSignalPaused := false, mSignalIsSmc := false, mIsSignalEdited := false,
          mSignalsList := removeRows st.mSignalsList 0 st.mSignalsVector.length,
          mSignalsVector := [] }
        (catalogInvariant_of_empty _ rfl rfl rfl) rfl
      split_ifs
      · exact catalogInvariant_congr _ _ a rfl rfl rfl rfl b.symm rfl rfl
      · exact catalogInvariant_show _ _ a

theorem catalogInvariant_smcOpen (st st' : State) (fileName : Str) (file : Option (List Str))
    (hs : handleSmcOpen st fileName file = .ok st') (h : st.catalogInvariant) :
    st'.catalogInvariant := by
  unfold handleSmcOpen at hs
  split_ifs at hs
  · cases hs; exact catalogInvariant_show _ _ h
  · cases hs; exact catalogInvariant_show _ _ h
  · unfold openSmcFile at hs
    simp only at hs
    cases file with
    | none =>
      simp only at hs
      cases hs
      split_ifs
      · exact catalogInvariant_show _ _ (catalogInvariant_of_empty _ rfl rfl rfl)
      · exact catalogInvariant_of_empty _ rfl rfl rfl
    | some lines =>
      simp only at hs
      split at hs
      · cases hs
      · rename_i ls hl
        split_ifs at hs with hok
        · by_cases hneg : ls.mSmc.mDataValuesRecordedCount < 0
          · unfold createSmcSignal at hs
            simp only [hneg, if_true] at hs
            cases hs
          · obtain ⟨st2, hc, h1, h2, h3, h4, h5, -, h7, -, -, -⟩ :=
              createSmcSignal_ok
                { st with
                  mSignalUndefined := false, mSignalReady := true, mSignalStarted := false,
                  mSignalPaused := false, mSignalIsSmc := true, mIsSignalEdited := false,
                  mSignalsVector := [], mSmc := ls.mSmc,
                  messages := st.messages ++ ls.shown }
                (by show 0 ≤ ls.mSmc.mDataValuesRecordedCount; omega) rfl
            rw [hc] at hs
            cases hs
            simp only [List.nil_append] at h2
            simp only at h7
            refine ⟨?_, ?_, ?_, ?_⟩
            · intro p hp
              rw [h2] at hp
              rw [h1]
              simp only [List.mem_singleton] at hp
              simp only [List.length_append, List.length_singleton]
              omega
            · intro p hp
              rw [h2] at hp
              simp only [List.mem_singleton] at hp
              subst hp
              intro x hx
              rw [h1] at hx
              simp only [List.getElem?_concat_length, Option.some.injEq] at hx
              rw [← hx, h7]
              rfl
            · intro hed
              rw [h5] at hed
              cases hed
            · intro _
              refine ⟨h3, h4, ?_⟩
              rw [h2]
              simp
        · cases hs
          exact catalogInvariant_show _ _ (catalogInvariant_of_empty _ rfl rfl rfl)

theorem catalogInvariant_save (st : State) (fileName : Str) (isOpen : Bool)
    (h : st.catalogInvariant) : (handleSaveSignal st fileName isOpen).1.catalogInvariant := by
  unfold handleSaveSignal
  split_ifs
  · exact catalogInvariant_congr st _ h rfl rfl rfl rfl rfl rfl rfl
  · exact catalogInvariant_show _ _ h
  · exact h

theorem catalogInvariant_remove (st st' : State) (crtRow : Int)
    (hs : handleRemoveSignal st crtRow = .ok st') (h : st.catalogInvariant) :
    st'.catalogInvariant := by
  obtain ⟨h1, h2, h3, h4⟩ := h
  unfold handleRemoveSignal at hs
  simp only at hs
  split_ifs at hs with hr he
  all_goals
    cases hs
    refine ⟨?_, ?_, h3, ?_⟩
    · intro p hp
      exact h1 p (List.mem_of_mem_eraseIdx hp)
    · intro p hp
      exact h2 p (List.mem_of_mem_eraseIdx hp)
    · intro hm
      obtain ⟨a, b, c⟩ := h4 hm
      refine ⟨a, b, ?_⟩
      simp only [State.show, List.length_eraseIdx]
      split_ifs <;> omega

theorem modeOk_set (st : State) (p q : Nat) (item old : SignalItem)
    (hold : st.heap[p]? = some old) (hsame : item.isSmc = old.isSmc) (h : st.modeOk q) :
    State.modeOk { st with heap := st.heap.set p item } q := by
  intro x hx
  simp only at hx
  by_cases hpq : p = q
  · subst hpq
    have hlt : p < st.heap.length := by
      by_contra hc
      rw [List.getElem?_eq_none (by omega)] at hold
      cases hold
    rw [List.getElem?_set_self hlt] at hx
    cases hx
    rw [hsame]
    exact h old hold
  · rw [List.getElem?_set_ne hpq] at hx
    exact h x hx

theorem catalogInvariant_addReplace (st st' : State) (crtRow : Int)
    (hs : handleAddReplaceSignal st crtRow = .ok st') (h : st.catalogInvariant) :
    st'.catalogInvariant := by
  unfold handleAddReplaceSignal at hs
  split_ifs at hs with hed
  · cases hs
    unfold addSignal
    simp only
    split
    · exact catalogInvariant_congr st _ h rfl rfl rfl rfl rfl rfl rfl
    · rename_i item hitem
      obtain ⟨hi1, -⟩ := formItem_not_smc _ _ _ hitem
      have hm : st.mSignalIsSmc = false := by
        by_contra hc
        have hc' : st.mSignalIsSmc = true := by simpa using hc
        obtain ⟨a, -, -⟩ := h.2.2.2 hc'
        rw [a] at hitem
        simp [SignalType.toInt, SignalType.ofInt, State.formItem] at hitem
      have hp := catalogInvariant_push st item h (by rw [hm]; exact hi1)
        (fun h' => by rw [hm] at h'; cases h')
      simp only [State.new]
      split <;> exact catalogInvariant_congr _ _ hp rfl rfl rfl rfl rfl rfl rfl
  · have hed' : st.mIsSignalEdited = true := by simpa using hed
    obtain ⟨h1, h2, h3, h4⟩ := h
    unfold replaceSignal at hs
    split at hs
    · cases hs
      exact ⟨h1, h2, h3, h4⟩
    · rename_i p hp
      obtain ⟨hq1, hq2⟩ := h3 hed' p hp
      unfold State.deref at hs
      split at hs
      · cases hs
      · rename_i edited hedited
        simp only at hs
        split_ifs at hs with hrow
        cases hs
        split
        · rename_i item hitem
          obtain ⟨hi1, hi2⟩ := formItem_not_smc _ _ _ hitem
          have hsame : item.isSmc = edited.isSmc := by
            rw [hi1]
            cases edited <;> first | rfl | (simp [SignalItem.getType, State.formItem] at hitem)
          refine ⟨?_, ?_, ?_, ?_⟩
          · intro x hx
            simp only [List.length_set]
            rcases List.mem_or_eq_of_mem_set hx with hx | hxe
            · exact h1 x hx
            · rw [hxe]; exact hq1
          · intro x hx
            rcases List.mem_or_eq_of_mem_set hx with hx | hxe
            · exact modeOk_set st p x item edited hedited hsame (h2 x hx)
            · rw [hxe]; exact modeOk_set st p p item edited hedited hsame hq2
          · intro hc; cases hc
          · intro hm
            obtain ⟨a, b, c⟩ := h4 hm
            refine ⟨a, b, ?_⟩
            simp only [List.length_set]
            exact c
        · refine ⟨?_, ?_, ?_, ?_⟩
          · intro x hx
            rcases List.mem_or_eq_of_mem_set hx with hx | hxe
            · exact h1 x hx
            · rw [hxe]; exact hq1
          · intro x hx
            rcases List.mem_or_eq_of_mem_set hx with hx | hxe
            · exact h2 x hx
            · rw [hxe]; exact hq2
          · intro hc; cases hc
          · intro hm
            obtain ⟨a, b, c⟩ := h4 hm
            refine ⟨a, b, ?_⟩
            simp only [List.length_set]
            exact c

theorem vectorAt_mem (v : List Nat) (crtRow : Int) (p : Nat) (h : vectorAt v crtRow = .ok p) :
    p ∈ v := by
  unfold vectorAt at h
  split_ifs at h
  split at h
  · rename_i hp
    cases h
    exact List.mem_iff_getElem?.2 ⟨_, hp⟩
  · cases h

theorem setCurrentTab_edited (st : State) (crtTab : Int) :
    (setCurrentTab st crtTab).mEditedSignal = st.mEditedSignal
      ∨ (setCurrentTab st crtTab).mEditedSignal = none := by
  unfold setCurrentTab handleSignalTypeChanged
  simp only
  split_ifs <;> simp

/-- The invariant when an edit begins on a pointer of the vector. -/
theorem catalogInvariant_begin_edit (st : State) (h : st.catalogInvariant)
    (hq : ∀ q, st.mEditedSignal = some q → q ∈ st.mSignalsVector) :
    State.catalogInvariant { st with mIsSignalEdited := true } := by
  obtain ⟨h1, h2, -, h4⟩ := h
  exact ⟨h1, h2, fun _ q hq' => ⟨h1 q (hq q hq'), h2 q (hq q hq')⟩, h4⟩

theorem catalogInvariant_edit (st st' : State) (crtRow : Int)
    (hs : handleEditSignal st crtRow = .ok st') (h : st.catalogInvariant) :
    st'.catalogInvariant := by
  unfold handleEditSignal at hs
  split at hs
  · cases hs
  · rename_i p hp
    have hmem := vectorAt_mem _ _ _ hp
    simp only at hs
    split at hs
    · cases hs
    · rename_i item hitem
      have hitem' : st.heap[p]? = some item := hitem
      -- the state with the edited pointer stored
      have hinv1 : State.catalogInvariant { st with mEditedSignal := some p } := by
        obtain ⟨h1, h2, -, h4⟩ := h
        refine ⟨h1, h2, ?_, h4⟩
        intro _ q hq
        simp only [Option.some.injEq] at hq
        subst hq
        exact ⟨h1 _ hmem, h2 _ hmem⟩
      have hguard : ({ st with mEditedSignal := some p } : State).mSignalIsSmc = true →
          item.getType.toInt - SignalType.SIGNAL_TYPE_TRIANGLE.toInt
            = ({ st with mEditedSignal := some p } : State).tabIndex := by
        intro hm
        have hm' : st.mSignalIsSmc = true := hm
        have hi := h.2.1 p hmem item hitem'
        rw [hm'] at hi
        obtain ⟨-, b, -⟩ := h.2.2.2 hm'
        show _ = st.tabIndex
        rw [b]
        cases item <;> first | rfl | cases hi
      have hinv2 := catalogInvariant_setCurrentTab _
        (item.getType.toInt - SignalType.SIGNAL_TYPE_TRIANGLE.toInt) hinv1 hguard
      obtain ⟨-, f2, -, -, -⟩ := setCurrentTab_fields { st with mEditedSignal := some p }
        (item.getType.toInt - SignalType.SIGNAL_TYPE_TRIANGLE.toInt)
      have hptr : ∀ q, (setCurrentTab { st with mEditedSignal := some p }
          (item.getType.toInt - SignalType.SIGNAL_TYPE_TRIANGLE.toInt)).mEditedSignal = some q →
          q ∈ (setCurrentTab { st with mEditedSignal := some p }
            (item.getType.toInt - SignalType.SIGNAL_TYPE_TRIANGLE.toInt)).mSignalsVector := by
        intro q hq
        rw [f2]
        rcases setCurrentTab_edited { st with mEditedSignal := some p }
          (item.getType.toInt - SignalType.SIGNAL_TYPE_TRIANGLE.toInt) with e | e
        · rw [e] at hq
          simp only [Option.some.injEq] at hq
          subst hq
          exact hmem
        · rw [e] at hq
          cases hq
      have hfinal := catalogInvariant_begin_edit _ hinv2 hptr
      split at hs
      · cases hs
        exact hfinal
      · cases hs
      · split at hs
        · cases hs
        · rename_i edited _
          cases hs
          have hff := catalogInvariant_fillForm _ edited hinv2
          obtain ⟨a, b, c, -⟩ := fillForm_frame
            (setCurrentTab { st with mEditedSignal := some p }
              (item.getType.toInt - SignalType.SIGNAL_TYPE_TRIANGLE.toInt)) edited
          refine catalogInvariant_begin_edit _ hff ?_
          intro q hq
          rw [b]
          rw [c] at hq
          exact hptr q hq

theorem catalogInvariant_step (st st' : State) (hs : Step st st') (h : st.catalogInvariant) :
    st'.catalogInvariant := by
  cases hs with
  | signalNew => exact catalogInvariant_signalNew _ h
  | signalOpen => exact catalogInvariant_signalOpen _ _ _ h
  | smcOpen =>
    rename_i hs
    exact catalogInvariant_smcOpen _ _ _ _ hs h
  | addReplace =>
    rename_i hs
    exact catalogInvariant_addReplace _ _ _ hs h
  | edit =>
    rename_i hs
    exact catalogInvariant_edit _ _ _ hs h
  | remove =>
    rename_i hs
    exact catalogInvariant_remove _ _ _ hs h
  | save => exact catalogInvariant_save _ _ _ h
  | selectTab =>
    rename_i crtTab hg
    refine catalogInvariant_setCurrentTab st crtTab h ?_
    intro hm
    rw [hg hm, (h.2.2.2 hm).2.1]
  | input => exact catalogInvariant_fillForm _ _ h

theorem catalogInvariant_reachable (st : State) (h : Reachable st) : st.catalogInvariant := by
  induction h with
  | initial => exact catalogInvariant_initial _ _ _ _ _ _ _ _ _ _ _
  | step st st' _ hs ih => exact catalogInvariant_step st st' hs ih

/-- C12: in every state that the actions lead to from the constructor, an
imported (SMC) item of the catalog is the whole catalog: there is at most
one such item, and no other item beside it. -/
theorem C12_smc_item_alone (st : State) (h : Reachable st) (sig : SignalSmc)
    (hmem : SignalItem.smc sig ∈ st.catalog) : st.catalog = [.smc sig] := by
  obtain ⟨-, h2, -, h4⟩ := catalogInvariant_reachable st h
  unfold State.catalog at hmem ⊢
  obtain ⟨p, hp, hd⟩ := List.mem_filterMap.1 hmem
  have hm : st.mSignalIsSmc = true := (h2 p hp (.smc sig) hd).symm
  obtain ⟨-, -, hlen⟩ := h4 hm
  match hv : st.mSignalsVector with
  | [] => rw [hv] at hp; cases hp
  | [q] =>
    rw [hv] at hp
    simp only [List.mem_singleton] at hp
    subst hp
    simp [hd]
  | _ :: _ :: _ => rw [hv] at hlen; simp at hlen

/-- C12, on the window after the sample SMC file was imported into the
initial window: the catalog is the imported item alone. -/
theorem C12_smc_item_alone_witness :
    sampleSmcImported.catalog
      = [.smc { nrPoints := 2
                sps := Dbl.ofInt 200
                maxAccelMs2 := .finite false 5426837550981448 (-52)
                accelDataVec := [Dbl.ofInt 5, Dbl.ofInt 2] }] :=
  C12_smc_item_alone sampleSmcImported
    (Reachable.step sampleState sampleSmcImported
      (Reachable.initial _ _ _ _ _ _ _ _ _ _ _)
      (Step.smcOpen sampleState sampleSmcImported "a.smc".toList
        (some (sampleSmcHeader ++ [sampleSmcData]))
        (eq_ok_of_succeeded _ _ (by decide!))))
    _ (by decide!)

/-! ## Claims on the SMC import: the end of the input, faults and line 1 -/

/-- A line of the text header changes nothing in the record but the format
flag, the accelerogram flag and the type of the data. -/
theorem textLine_frame (mSmc m : Smc) (crtLineNr : Int) (currentLine : Str)
    (shown : List Message) (h : textLine mSmc crtLineNr currentLine = .ok (m, shown)) :
    ∃ (ok accelerogram : Bool) (dataType : Nat),
      m = { mSmc with
            mSmcFormatOk := ok
            mSmcTypeAccelerogram := accelerogram
            mTextDataTypeFile := dataType } := by
  unfold textLine at h
  by_cases c1 : crtLineNr = 1
  · rw [if_pos c1] at h
    split at h
    · cases h
      exact ⟨_, _, _, rfl⟩
    · rename_i i hi
      by_cases hc : i ≠ 1 ∧ i ≠ 2
      · simp [hc] at h
        exact ⟨_, _, _, h.1.symm⟩
      · cases hacc : mSmc.mSmcTypeAccelerogram
        · simp [hc, hacc] at h
          exact ⟨_, _, _, h.1.symm⟩
        · simp [hc, hacc] at h
          exact ⟨_, _, _, h.1.symm⟩
  rw [if_neg c1] at h
  by_cases c3 : crtLineNr = 3
  · rw [if_pos c3] at h
    cases h
    exact ⟨_, _, _, rfl⟩
  rw [if_neg c3] at h
  by_cases c4 : crtLineNr = 4
  · rw [if_pos c4] at h
    simp only [bind, Except.bind, pure, Except.pure] at h
    repeat' split at h
    all_goals first
      | (cases h; exact ⟨_, _, _, rfl⟩)
      | cases h
  rw [if_neg c4] at h
  by_cases c5 : crtLineNr = 5
  · rw [if_pos c5] at h
    simp only [bind, Except.bind, pure, Except.pure] at h
    repeat' split at h
    all_goals first
      | (cases h; exact ⟨_, _, _, rfl⟩)
      | cases h
  rw [if_neg c5] at h
  by_cases c6 : crtLineNr = 6
  · rw [if_pos c6] at h
    simp only [bind, Except.bind, pure, Except.pure] at h
    repeat' split at h
    all_goals first
      | (cases h; exact ⟨_, _, _, rfl⟩)
      | cases h
  rw [if_neg c6] at h
  by_cases c7 : crtLineNr = 7
  · rw [if_pos c7] at h
    simp only [bind, Except.bind, pure, Except.pure] at h
    repeat' split at h
    all_goals first
      | (cases h; exact ⟨_, _, _, rfl⟩)
      | cases h
  rw [if_neg c7] at h
  by_cases c8 : crtLineNr = 8
  · rw [if_pos c8] at h
    simp only [bind, Except.bind, pure, Except.pure] at h
    repeat' split at h
    all_goals first
      | (cases h; exact ⟨_, _, _, rfl⟩)
      | cases h
  rw [if_neg c8] at h
  repeat' split at h
  all_goals (cases h; exact ⟨_, _, _, rfl⟩)

/-- Before the last line of the integer header the recorded count is the 0
of the constructor. -/
theorem smcLine_early (ls ls' : SmcLoop) (currentLine : Str)
    (h : smcLine ls currentLine = .ok ls')
    (hinv : ls.crtLineNr < 17 → ls.mSmc.mDataValuesRecordedCount = 0)
    (h17 : ls'.crtLineNr < 17) : ls'.mSmc.mDataValuesRecordedCount = 0 := by
  have hnr := smcLine_crtLineNr _ _ _ h
  unfold smcLine at h
  unfold LAST_TEXT_LINE_NR LAST_INT_LINE_NR LAST_REAL_LINE_NR at h
  simp only at h
  split_ifs at h with c1 c2 c3
  · obtain ⟨m, shown, hr, rfl⟩ := after_ok _ _ _ _ _ h
    obtain ⟨a, b, c, rfl⟩ := textLine_frame _ _ _ _ _ hr
    exact hinv (by omega)
  · omega
  · cases h
    exact hinv (by omega)
  all_goals omega

theorem smcLoop_early (pre : List Str) (ls0 ls : SmcLoop)
    (hpre : smcLoop pre ls0 = .ok ls)
    (hinv : ls0.crtLineNr < 17 → ls0.mSmc.mDataValuesRecordedCount = 0)
    (h17 : ls.crtLineNr < 17) : ls.mSmc.mDataValuesRecordedCount = 0 := by
  induction pre generalizing ls0 with
  | nil =>
    simp only [smcLoop] at hpre
    cases hpre
    exact hinv h17
  | cons currentLine pre ih =>
    simp only [smcLoop] at hpre
    by_cases h0 : ls0.mSmc.mSmcFormatOk = true
    · rw [if_pos h0] at hpre
      cases hl : smcLine ls0 currentLine with
      | error fault => rw [hl] at hpre; cases hpre
      | ok ls1 =>
        rw [hl] at hpre
        simp only at hpre
        exact ih ls1 hpre (smcLine_early _ _ _ hl hinv)
    · rw [if_neg h0] at hpre
      cases hpre
      exact hinv h17

/-- The recorded count is never negative when the loop ends with the format
flag set. -/
theorem smcLoop_recorded_nonneg (lines : List Str) (ls : SmcLoop)
    (hloop : smcLoop lines SmcLoop.start = .ok ls) (hok : ls.mSmc.mSmcFormatOk = true) :
    0 ≤ ls.mSmc.mDataValuesRecordedCount := by
  by_cases h17 : 17 ≤ ls.crtLineNr
  · exact (smcLoop_start_window lines ls hloop hok h17).2.2.2.2.2.2.2.1
  · rw [smcLoop_early lines _ ls hloop (fun _ => rfl) (by omega)]

/-- The state that `openSmcFile` leaves when the loop ends with the format
flag set. -/
theorem openSmcFile_of_flag (st : State) (fileName : Str) (lines : List Str) (ls : SmcLoop)
    (hloop : smcLoop lines SmcLoop.start = .ok ls) (hok : ls.mSmc.mSmcFormatOk = true) :
    ∃ st' : State, openSmcFile st fileName (some lines) = .ok st'
      ∧ st'.heap
          = st.heap
            ++ [.smc { nrPoints := ls.mSmc.mDataValuesRecordedCount
                       sps := ls.mSmc.mSamplingRate
                       maxAccelMs2 :=
                         Dbl.max (Dbl.abs ls.mSmc.mMaximumFromRecord.accelerationMs2)
                           (Dbl.abs ls.mSmc.mMinimumFromRecord.accelerationMs2)
                       accelDataVec := ls.mSmc.mDataVector }]
      ∧ st'.mSignalsVector = [st.heap.length]
      ∧ st'.mSmc = ls.mSmc
      ∧ st'.mSignalIsSmc = true ∧ st'.mSignalUndefined = false ∧ st'.mSignalReady = true
      ∧ st'.mSignalStarted = false
      ∧ st'.messages = st.messages ++ ls.shown
      ∧ st'.mSignalsList = st.mSignalsList := by
  have hnn := smcLoop_recorded_nonneg lines ls hloop hok
  have hres : openSmcFile st fileName (some lines)
      = createSmcSignal
          { st with
            mSignalUndefined := false
            mSignalReady := true
            mSignalStarted := false
            mSignalPaused := false
            mSignalIsSmc := true
            mIsSignalEdited := false
            mSignalsVector := []
            mSmc := ls.mSmc
            messages := st.messages ++ ls.shown } := by
    unfold openSmcFile
    simp only [hloop, hok, if_true]
  rw [hres]
  have hnn2 : ¬ ls.mSmc.mDataValuesRecordedCount < 0 := by omega
  unfold createSmcSignal
  simp only [hnn2, if_false, State.new]
  by_cases ht : st.tabIndex = 11
  · refine ⟨_, rfl, ?_⟩
    simp [setCurrentTab, handleSignalTypeChanged, SignalType.toInt, ht]
  · refine ⟨_, rfl, ?_⟩
    have ht2 : (11 : Int) ≠ st.tabIndex := fun h => ht h.symm
    simp [setCurrentTab, handleSignalTypeChanged, SignalType.toInt, ht2]

/-- The catalog of a state whose vector holds the one pointer to the last
object of the heap. -/
theorem catalog_of_last (st : State) (heap : List SignalItem) (item : SignalItem)
    (hh : st.heap = heap ++ [item]) (hv : st.mSignalsVector = [heap.length]) :
    st.catalog = [item] := by
  unfold State.catalog State.deref
  rw [hh, hv]
  simp

/-- C21, what the code does instead: the import reports success whenever
the input ends with the format flag still set, wherever it ends.  Nothing
asks that the header, the comments and the data lines were all read: the
signal is marked as defined, ready and SMC, no message is shown beyond
those of the loop, and the catalog is the one item built from the record as
it stands.  The slot does so whenever its two guards pass. -/
theorem C21_input_end_imported (st : State) (fileName : Str) (lines : List Str) (ls : SmcLoop)
    (hloop : smcLoop lines SmcLoop.start = .ok ls) (hok : ls.mSmc.mSmcFormatOk = true) :
    ∃ st' : State, openSmcFile st fileName (some lines) = .ok st'
      ∧ st'.mSignalIsSmc = true ∧ st'.mSignalUndefined = false ∧ st'.mSignalReady = true
      ∧ st'.messages = st.messages ++ ls.shown
      ∧ st'.catalog
          = [.smc { nrPoints := ls.mSmc.mDataValuesRecordedCount
                    sps := ls.mSmc.mSamplingRate
                    maxAccelMs2 :=
                      Dbl.max (Dbl.abs ls.mSmc.mMaximumFromRecord.accelerationMs2)
                        (Dbl.abs ls.mSmc.mMinimumFromRecord.accelerationMs2)
                    accelDataVec := ls.mSmc.mDataVector }]
      ∧ (st.mSignalUndefined = true ∨ (st.mSignalReady = true ∧ st.mSignalStarted = false) →
          handleSmcOpen st fileName (some lines) = .ok st') := by
  obtain ⟨st', h1, h2, h3, -, h5, h6, h7, -, h9, -⟩ :=
    openSmcFile_of_flag st fileName lines ls hloop hok
  refine ⟨st', h1, h5, h6, h7, h9, catalog_of_last st' _ _ h2 h3, ?_⟩
  intro hg
  rw [handleSmcOpen_admitted st fileName _ hg, h1]

/-- C21, on a file without any line, on the first five lines of the sample
SMC file, and on the sample SMC file without its data line: each import
reports success, shows no message and leaves one imported item in the
catalog; the first has no data at all, the last has two samples that are
both 0. -/
theorem C21_input_end_imported_witness :
    (∃ st' : State, openSmcFile sampleState "a.smc".toList (some []) = .ok st'
        ∧ st'.mSignalIsSmc = true ∧ st'.mSignalUndefined = false ∧ st'.mSignalReady = true
        ∧ st'.messages = []
        ∧ st'.catalog
          = [.smc { nrPoints := 0, sps := Dbl.zero, maxAccelMs2 := Dbl.zero,
                    accelDataVec := [] }])
      ∧ (∃ st' : State,
          openSmcFile sampleState "a.smc".toList (some (sampleSmcText.take 5)) = .ok st'
            ∧ st'.mSignalIsSmc = true ∧ st'.messages = [] ∧ st'.catalog.length = 1)
      ∧ ∃ st' : State, openSmcFile sampleState "a.smc".toList (some sampleSmcHeader) = .ok st'
          ∧ st'.mSignalIsSmc = true ∧ st'.mSignalUndefined = false ∧ st'.mSignalReady = true
          ∧ st'.messages = []
          ∧ st'.catalog
            = [.smc { nrPoints := 2
                      sps := Dbl.ofInt 200
                      maxAccelMs2 := .finite false 5426837550981448 (-52)
                      accelDataVec := [Dbl.zero, Dbl.zero] }] := by
  refine ⟨?_, ?_, ?_⟩
  · obtain ⟨st', h1, h2, h3, h4, h5, h6, -⟩ :=
      C21_input_end_imported sampleState "a.smc".toList [] SmcLoop.start rfl rfl
    exact ⟨st', h1, h2, h3, h4, h5.trans (by decide), h6.trans (by decide!)⟩
  · obtain ⟨st', h1, h2, -, -, h5, h6, -⟩ :=
      C21_input_end_imported sampleState "a.smc".toList (sampleSmcText.take 5)
        (resultOr SmcLoop.start (smcLoop (sampleSmcText.take 5) SmcLoop.start))
        (eq_ok_of_succeeded _ _ (by decide!)) (by decide!)
    exact ⟨st', h1, h2, h5.trans (by decide!), by rw [h6]; rfl⟩
  · obtain ⟨st', h1, h2, h3, h4, h5, h6, -⟩ :=
      C21_input_end_imported sampleState "a.smc".toList sampleSmcHeader sampleSmcLoop
        (eq_ok_of_succeeded _ _ (by decide!)) (by decide!)
    exact ⟨st', h1, h2, h3, h4, h5.trans (by decide!), h6.trans (by decide!)⟩

/-- A call of `substr` with a position beyond the end of the text. -/
theorem substr_out_of_range (s : Str) (pos len : Nat) (h : s.length < pos) :
    substr s pos len = .error .outOfRange := by
  unfold substr
  rw [if_neg (by omega)]

/-- A call of `substr` with a position in the text or at its end. -/
theorem substr_in_range (s : Str) (pos len : Nat) (h : pos ≤ s.length) :
    substr s pos len = .ok ((s.drop pos).take len) := by
  unfold substr
  rw [if_pos h]

/-- The comparison of a literal with the start of a line that begins with
it. -/
theorem literalAt_start (literal currentLine : Str)
    (h : currentLine.take literal.length = literal) :
    literalAt literal currentLine 0 = .ok true := by
  unfold literalAt
  rw [substr_in_range _ _ _ (Nat.zero_le _)]
  simp [h]

/-- The comparison of a literal with a part of the line that starts beyond
its end. -/
theorem literalAt_out_of_range (literal currentLine : Str) (pos : Nat)
    (h : currentLine.length < pos) : literalAt literal currentLine pos = .error .outOfRange := by
  unfold literalAt
  rw [substr_out_of_range _ _ _ h]

/-- Line 4 of the text header, shorter than the offset 26. -/
theorem textLine_four_short (mSmc : Smc) (currentLine : Str) (h : currentLine.length < 26) :
    textLine mSmc 4 currentLine = .error .outOfRange := by
  have key : ∀ (pos len : Nat) (f : Str → Except Fault (Smc × List Message)),
      (∀ v, f v = .error .outOfRange) →
      (substr currentLine pos len >>= f) = .error .outOfRange := by
    intro pos len f hf
    unfold substr
    split <;> simp [bind, Except.bind, hf]
  unfold textLine
  rw [if_neg (by decide), if_neg (by decide), if_pos rfl]
  refine key _ _ _ (fun _ => ?_)
  refine key _ _ _ (fun _ => ?_)
  refine key _ _ _ (fun _ => ?_)
  refine key _ _ _ (fun _ => ?_)
  refine key _ _ _ (fun _ => ?_)
  refine key _ _ _ (fun _ => ?_)
  rw [substr_out_of_range currentLine 26 53 h]
  rfl

/-- Line 5 of the text header, with its first literal and shorter than the
offset 21 of the second one. -/
theorem textLine_five_short (mSmc : Smc) (currentLine : Str)
    (hlit : currentLine.take 11 = "Moment Mag=".toList) (h : currentLine.length < 21) :
    textLine mSmc 5 currentLine = .error .outOfRange := by
  unfold textLine
  rw [if_neg (by decide), if_neg (by decide), if_neg (by decide), if_pos rfl]
  rw [literalAt_start "Moment Mag=".toList _ hlit, literalAt_out_of_range _ _ 21 h]
  rfl

/-- Line 6 of the text header, with its first literal and shorter than the
offset 41 of the second one. -/
theorem textLine_six_short (mSmc : Smc) (currentLine : Str)
    (hlit : currentLine.take 10 = "station = ".toList ∨ currentLine.take 10 = "Station = ".toList)
    (h : currentLine.length < 41) :
    textLine mSmc 6 currentLine = .error .outOfRange := by
  unfold textLine
  rw [if_neg (by decide), if_neg (by decide), if_neg (by decide), if_neg (by decide), if_pos rfl]
  rw [literalAt_out_of_range _ _ 41 h]
  rcases hlit with hlit | hlit
  · rw [literalAt_start "station = ".toList _ hlit]
    rfl
  · rw [literalAt_start "Station = ".toList _ hlit]
    cases hl : literalAt "station = ".toList currentLine 0 with
    | error fault =>
      unfold literalAt at hl
      rw [substr_in_range _ _ _ (Nat.zero_le _)] at hl
      cases hl
    | ok a => cases a <;> rfl

/-- Line 7 of the text header, with its first literal and shorter than the
offset 33 of the second one. -/
theorem textLine_seven_short (mSmc : Smc) (currentLine : Str)
    (hlit : currentLine.take 17 = "epicentral dist =".toList) (h : currentLine.length < 33) :
    textLine mSmc 7 currentLine = .error .outOfRange := by
  unfold textLine
  rw [if_neg (by decide), if_neg (by decide), if_neg (by decide), if_neg (by decide),
    if_neg (by decide), if_pos rfl]
  rw [literalAt_start "epicentral dist =".toList _ hlit, literalAt_out_of_range _ _ 33 h]
  rfl

/-- Line 8 of the text header, with its first literal and shorter than the
offset 21 of the second one. -/
theorem textLine_eight_short (mSmc : Smc) (currentLine : Str)
    (hlit : currentLine.take 10 = "inst type=".toList) (h : currentLine.length < 21) :
    textLine mSmc 8 currentLine = .error .outOfRange := by
  unfold textLine
  rw [if_neg (by decide), if_neg (by decide), if_neg (by decide), if_neg (by decide),
    if_neg (by decide), if_neg (by decide), if_pos rfl]
  rw [literalAt_start "inst type=".toList _ hlit, literalAt_out_of_range _ _ 21 h]
  rfl

/-- A fault on a line of the text header ends the line loop. -/
theorem smcLine_text_fault (ls : SmcLoop) (currentLine : Str) (fault : Fault)
    (hnr : ls.crtLineNr + 1 ≤ LAST_TEXT_LINE_NR)
    (h : textLine ls.mSmc (ls.crtLineNr + 1) currentLine = .error fault) :
    smcLine ls currentLine = .error fault := by
  unfold smcLine
  simp only
  rw [if_pos hnr, h]
  rfl

/-- A fault on a line ends the slot: nothing catches it. -/
theorem openSmcFile_line_fault (st : State) (fileName : Str) (pre post : List Str)
    (currentLine : Str) (ls : SmcLoop) (fault : Fault)
    (hpre : smcLoop pre SmcLoop.start = .ok ls) (hok : ls.mSmc.mSmcFormatOk = true)
    (hline : smcLine ls currentLine = .error fault) :
    smcLoop (pre ++ currentLine :: post) SmcLoop.start = .error fault
      ∧ openSmcFile st fileName (some (pre ++ currentLine :: post)) = .error fault := by
  have hloop : smcLoop (pre ++ currentLine :: post) SmcLoop.start = .error fault := by
    rw [smcLoop_append pre _ _ _ hpre hok]
    simp only [smcLoop, hok, if_true, hline]
  refine ⟨hloop, ?_⟩
  unfold openSmcFile
  simp only [hloop]

/-- C22, what the code does instead: when the loop has read the lines
`pre` with the format flag set and the next line is line 4 and shorter than
26 characters, or is one of the lines 5 to 8, begins with the first literal
of its line and ends before the offset of the second one (21, 41, 33 and
21), a call of `substr` throws `std::out_of_range`; nothing catches it, so
the slot ends there without a message on the format and without a result.
The slot does so whenever its two guards pass. -/
theorem C22_short_line_out_of_range (st : State) (fileName : Str) (pre post : List Str)
    (currentLine : Str) (ls : SmcLoop)
    (hpre : smcLoop pre SmcLoop.start = .ok ls) (hok : ls.mSmc.mSmcFormatOk = true)
    (hshort : (pre.length + 1 = 4 ∧ currentLine.length < 26)
      ∨ (pre.length + 1 = 5 ∧ currentLine.take 11 = "Moment Mag=".toList
          ∧ currentLine.length < 21)
      ∨ (pre.length + 1 = 6
          ∧ (currentLine.take 10 = "station = ".toList
              ∨ currentLine.take 10 = "Station = ".toList)
          ∧ currentLine.length < 41)
      ∨ (pre.length + 1 = 7 ∧ currentLine.take 17 = "epicentral dist =".toList
          ∧ currentLine.length < 33)
      ∨ (pre.length + 1 = 8 ∧ currentLine.take 10 = "inst type=".toList
          ∧ currentLine.length < 21)) :
    smcLoop (pre ++ currentLine :: post) SmcLoop.start = .error .outOfRange
      ∧ openSmcFile st fileName (some (pre ++ currentLine :: post)) = .error .outOfRange
      ∧ (st.mSignalUndefined = true ∨ (st.mSignalReady = true ∧ st.mSignalStarted = false) →
          handleSmcOpen st fileName (some (pre ++ currentLine :: post))
            = .error .outOfRange) := by
  have hn : ls.crtLineNr = (pre.length : Int) := by
    rw [smcLoop_crtLineNr pre _ _ hpre hok]
    simp [SmcLoop.start]
  have hline : smcLine ls currentLine = .error .outOfRange := by
    rcases hshort with ⟨h1, h2⟩ | ⟨h1, h2, h3⟩ | ⟨h1, h2, h3⟩ | ⟨h1, h2, h3⟩ | ⟨h1, h2, h3⟩
    · have e : ls.crtLineNr + 1 = 4 := by omega
      exact smcLine_text_fault ls currentLine _ (by rw [e]; decide)
        (by rw [e]; exact textLine_four_short _ _ h2)
    · have e : ls.crtLineNr + 1 = 5 := by omega
      exact smcLine_text_fault ls currentLine _ (by rw [e]; decide)
        (by rw [e]; exact textLine_five_short _ _ h2 h3)
    · have e : ls.crtLineNr + 1 = 6 := by omega
      exact smcLine_text_fault ls currentLine _ (by rw [e]; decide)
        (by rw [e]; exact textLine_six_short _ _ h2 h3)
    · have e : ls.crtLineNr + 1 = 7 := by omega
      exact smcLine_text_fault ls currentLine _ (by rw [e]; decide)
        (by rw [e]; exact textLine_seven_short _ _ h2 h3)
    · have e : ls.crtLineNr + 1 = 8 := by omega
      exact smcLine_text_fault ls currentLine _ (by rw [e]; decide)
        (by rw [e]; exact textLine_eight_short _ _ h2 h3)
  obtain ⟨h1, h2⟩ := openSmcFile_line_fault st fileName pre post currentLine ls _ hpre hok hline
  refine ⟨h1, h2, ?_⟩
  intro hg
  rw [handleSmcOpen_admitted st fileName _ hg, h2]

/-- C22, on the sample SMC file with the nine characters `GMT  2020` as
its line 4, and with the eleven characters `Moment Mag=` as its line 5:
the slot ends in `std::out_of_range`. -/
theorem C22_short_line_out_of_range_witness :
    openSmcFile sampleState "a.smc".toList
        (some (sampleSmcText.take 3 ++ "GMT  2020".toList :: sampleSmcText.drop 4))
        = .error .outOfRange
      ∧ openSmcFile sampleState "a.smc".toList
        (some (sampleSmcText.take 4 ++ "Moment Mag=".toList :: sampleSmcText.drop 5))
        = .error .outOfRange :=
  ⟨(C22_short_line_out_of_range sampleState "a.smc".toList (sampleSmcText.take 3)
      (sampleSmcText.drop 4) "GMT  2020".toList
      (resultOr SmcLoop.start (smcLoop (sampleSmcText.take 3) SmcLoop.start))
      (eq_ok_of_succeeded _ _ (by decide!)) (by decide!) (Or.inl (by decide))).2.1,
   (C22_short_line_out_of_range sampleState "a.smc".toList (sampleSmcText.take 4)
      (sampleSmcText.drop 5) "Moment Mag=".toList
      (resultOr SmcLoop.start (smcLoop (sampleSmcText.take 4) SmcLoop.start))
      (eq_ok_of_succeeded _ _ (by decide!)) (by decide!)
      (Or.inr (Or.inl (by decide)))).2.1⟩

/-- The access `at` of a map with a key that none of its entries has. -/
theorem mapAt_out_of_range {κ α : Type} [DecidableEq κ] (m : List (κ × α)) (key : κ)
    (h : ∀ entry ∈ m, entry.1 ≠ key) : mapAt m key = .error .outOfRange := by
  unfold mapAt
  have hf : m.find? (fun entry => decide (entry.1 = key)) = none := by
    rw [List.find?_eq_none]
    intro entry hmem
    simpa using h entry hmem
  rw [hf]

/-- C23, what the code does instead: with the sentinel, the two
orientations and the sensor type code at their places in the converted
fields, a code that is not the sentinel and is no key of
`SENSOR_TYPE_NAMES` makes the access `at` throw `std::out_of_range`, which
ends the integer header and with it the slot; a code that is a key gets the
name of the table; only the code that is the sentinel gets the name
`undefined`. -/
theorem C23_unknown_sensor_code (mSmc : Smc) (tmpIntVec : List Int)
    (noValue vertical horizontal code : Int)
    (h0 : tmpIntVec[INT_FIELD_UNDEFINED_VALUE]? = some noValue)
    (h12 : tmpIntVec[INT_FIELD_VERTICAL_ORIENTATION_FROM_UP]? = some vertical)
    (h13 : tmpIntVec[INT_FIELD_HORIZONTAL_ORIENTATION_FROM_NORTH_TO_EAST]? = some horizontal)
    (h14 : tmpIntVec[INT_FIELD_SENSOR_TYPE_CODE]? = some code) :
    (code ≠ noValue → (∀ entry ∈ SENSOR_TYPE_NAMES, entry.1 ≠ code) →
        intHeaderFields mSmc tmpIntVec = .error .outOfRange
          ∧ intHeader mSmc tmpIntVec = .error .outOfRange)
      ∧ (code ≠ noValue → ∀ name : Str, mapAt SENSOR_TYPE_NAMES code = .ok name →
          ∀ m : Smc, intHeaderFields mSmc tmpIntVec = .ok m → m.mSensorTypeStr = name)
      ∧ (code = noValue →
          ∀ m : Smc, intHeaderFields mSmc tmpIntVec = .ok m →
            m.mSensorTypeStr = "undefined".toList) := by
  have e0 := vecAt_of_getElem? _ _ _ h0
  have e12 := vecAt_of_getElem? _ _ _ h12
  have e13 := vecAt_of_getElem? _ _ _ h13
  have e14 := vecAt_of_getElem? _ _ _ h14
  refine ⟨?_, ?_, ?_⟩
  · intro hne hkey
    have hf : intHeaderFields mSmc tmpIntVec = .error .outOfRange := by
      unfold intHeaderFields
      simp only [bind, Except.bind, pure, Except.pure, e0, e12, e13, e14, checkValidInteger]
      simp only [ne_eq, hne, not_false_eq_true, decide_True, if_true,
        mapAt_out_of_range SENSOR_TYPE_NAMES code hkey]
    refine ⟨hf, ?_⟩
    unfold intHeader
    rw [hf]
  · intro hne name hname m hm
    unfold intHeaderFields at hm
    simp only [bind, Except.bind, pure, Except.pure, e0, e12, e13, e14, checkValidInteger]
      at hm
    simp only [ne_eq, hne, not_false_eq_true, decide_True, if_true, hname] at hm
    repeat' split at hm
    all_goals first
      | (cases hm; rfl)
      | cases hm
  · intro heq m hm
    unfold intHeaderFields at hm
    simp only [bind, Except.bind, pure, Except.pure, e0, e12, e13, e14, checkValidInteger]
      at hm
    simp only [ne_eq, heq, not_true_eq_false, decide_False, if_false] at hm
    repeat' split at hm
    all_goals first
      | (cases hm; rfl)
      | (cases hm; contradiction)
      | cases hm

/-- C23, on an integer header with the sentinel -32768: the sensor type
code 5 is no key of the table and ends the header in `std::out_of_range`;
the code 101 gets the name `SMA-1`; the sentinel gets `undefined`.  So does
the sample SMC file with the code 5 in the place of 101. -/
theorem C23_unknown_sensor_code_witness :
    intHeader Smc.init (sampleIntFields 5) = .error .outOfRange
      ∧ (∀ m : Smc, intHeaderFields Smc.init (sampleIntFields 101) = .ok m →
          m.mSensorTypeStr = "SMA-1".toList)
      ∧ (∀ m : Smc, intHeaderFields Smc.init (sampleIntFields (-32768)) = .ok m →
          m.mSensorTypeStr = "undefined".toList)
      ∧ faultOf (openSmcFile sampleState "a.smc".toList
          (some (sampleSmcText
            ++ sampleSmcIntegers.set 1
              "    -32768    -32768    -32768    -32768         0        90         5         1".toList)))
        = some .outOfRange :=
  ⟨((C23_unknown_sensor_code Smc.init (sampleIntFields 5) (-32768) 0 90 5 (by decide)
      (by decide) (by decide) (by decide)).1 (by decide) (by decide)).2,
   (C23_unknown_sensor_code Smc.init (sampleIntFields 101) (-32768) 0 90 101 (by decide)
      (by decide) (by decide) (by decide)).2.1 (by decide) _ (by decide),
   (C23_unknown_sensor_code Smc.init (sampleIntFields (-32768)) (-32768) 0 90 (-32768)
      (by decide) (by decide) (by decide) (by decide)).2.2 rfl,
   by decide!⟩

/-! ### The lines after line 1 do not read what line 1 sets

Each part of the loop body gives, on the retyped record, the retyped result. -/

theorem intHeaderFields_retyped (mSmc : Smc) (tmpIntVec : List Int) (i : Nat) (b : Bool) :
    intHeaderFields (mSmc.retyped i b) tmpIntVec
      = (intHeaderFields mSmc tmpIntVec).map (fun m => m.retyped i b) := by
  unfold intHeaderFields
  simp only [bind, Except.bind, pure, Except.pure, Except.map, Smc.retyped, checkValidInteger]
  repeat' split
  all_goals rfl

theorem dataLength_retyped (mSmc : Smc) (i : Nat) (b : Bool) :
    dataLength (mSmc.retyped i b)
      = (dataLength mSmc).map (fun r => (r.1.retyped i b, r.2)) := by
  unfold dataLength
  simp only [Smc.retyped, checkValidInteger]
  by_cases hv : mSmc.mDataValuesCount = mSmc.mNoValueInteger
  · simp only [ne_eq, hv, not_true_eq_false, decide_False, if_false]
    rfl
  · simp only [ne_eq, hv, not_false_eq_true, decide_True, if_true]
    cases doubleToUInt16 (ceilOfQuotient mSmc.mDataValuesCount DATA_VALUES_PER_LINE) with
    | error f => rfl
    | ok p =>
      simp only
      by_cases hp : 0 = p
      · simp only [hp, if_true]
        rfl
      · simp only [hp, if_false]
        rfl

theorem intHeaderStructure_retyped (mSmc : Smc) (tmpIntVec : List Int) (i : Nat) (b : Bool) :
    intHeaderStructure (mSmc.retyped i b) tmpIntVec
      = (intHeaderStructure mSmc tmpIntVec).map (fun m => m.retyped i b) := by
  unfold intHeaderStructure
  simp only [bind, Except.bind, pure, Except.pure, Except.map, Smc.retyped]
  repeat' split
  all_goals rfl

theorem recordedWindow_retyped (mSmc : Smc) (i : Nat) (b : Bool) :
    recordedWindow (mSmc.retyped i b) = (recordedWindow mSmc).retyped i b := by
  unfold recordedWindow
  simp only [Smc.retyped, checkValidInteger]
  repeat' split
  all_goals rfl

theorem resizeDataVector_retyped (mSmc : Smc) (n : Int) (i : Nat) (b : Bool) :
    resizeDataVector (mSmc.retyped i b) n
      = (resizeDataVector mSmc n).map (fun m => m.retyped i b) := by
  unfold resizeDataVector
  split <;> rfl

theorem intHeader_retyped (mSmc : Smc) (tmpIntVec : List Int) (i : Nat) (b : Bool) :
    intHeader (mSmc.retyped i b) tmpIntVec
      = (intHeader mSmc tmpIntVec).map (fun r => (r.1.retyped i b, r.2)) := by
  unfold intHeader
  rw [intHeaderFields_retyped]
  cases intHeaderFields mSmc tmpIntVec with
  | error f => rfl
  | ok m1 =>
    simp only [Except.map]
    rw [dataLength_retyped]
    cases dataLength m1 with
    | error f => rfl
    | ok r =>
      obtain ⟨m2, message⟩ := r
      cases message with
      | some msg => rfl
      | none =>
        simp only [Except.map]
        rw [intHeaderStructure_retyped]
        cases intHeaderStructure m2 tmpIntVec with
        | error f => rfl
        | ok m3 =>
          simp only [Except.map]
          rw [recordedWindow_retyped, resizeDataVector_retyped]
          have e : ((recordedWindow m3).retyped i b).mDataValuesRecordedCount
              = (recordedWindow m3).mDataValuesRecordedCount := rfl
          rw [e]
          cases resizeDataVector (recordedWindow m3)
              (recordedWindow m3).mDataValuesRecordedCount with
          | error f => rfl
          | ok m4 => rfl

theorem samplingRate_retyped (mSmc : Smc) (tmpRealVec : List Dbl) (i : Nat) (b : Bool) :
    samplingRate (mSmc.retyped i b) tmpRealVec
      = (samplingRate mSmc tmpRealVec).map (fun r => (r.1.retyped i b, r.2)) := by
  unfold samplingRate
  cases vecAt tmpRealVec REAL_FIELD_UNDEFINED_VALUE with
  | error f => rfl
  | ok noValue =>
    simp only
    cases vecAt tmpRealVec REAL_FIELD_SAMPLING_RATE with
    | error f => rfl
    | ok rate =>
      simp only [Smc.retyped, checkValidReal]
      split
      · split <;> rfl
      · rfl

theorem realHeaderFields_retyped (mSmc : Smc) (tmpRealVec : List Dbl) (i : Nat) (b : Bool) :
    realHeaderFields (mSmc.retyped i b) tmpRealVec
      = (realHeaderFields mSmc tmpRealVec).map (fun m => m.retyped i b) := by
  unfold realHeaderFields
  simp only [bind, Except.bind, pure, Except.pure, Except.map, Smc.retyped]
  repeat' split
  all_goals rfl

theorem realHeader_retyped (mSmc : Smc) (tmpRealVec : List Dbl) (i : Nat) (b : Bool) :
    realHeader (mSmc.retyped i b) tmpRealVec
      = (realHeader mSmc tmpRealVec).map (fun r => (r.1.retyped i b, r.2)) := by
  unfold realHeader
  rw [samplingRate_retyped]
  cases samplingRate mSmc tmpRealVec with
  | error f => rfl
  | ok r =>
    obtain ⟨m1, message⟩ := r
    cases message with
    | some msg => rfl
    | none =>
      simp only [Except.map]
      rw [realHeaderFields_retyped]
      cases realHeaderFields m1 tmpRealVec with
      | error f => rfl
      | ok m2 => rfl

theorem dataValues_retyped (mSmc : Smc) (dataVec : List Dbl) (i : Nat) (b : Bool) :
    dataValues (mSmc.retyped i b) dataVec
      = (dataValues mSmc dataVec).map (fun r => (r.1.retyped i b, r.2)) := by
  unfold dataValues
  simp only [Smc.retyped]
  split
  · rfl
  · split <;> rfl

theorem textLine_retyped (mSmc : Smc) (crtLineNr : Int) (currentLine : Str) (i : Nat)
    (b : Bool) (hnr : crtLineNr ≠ 1) :
    textLine (mSmc.retyped i b) crtLineNr currentLine
      = (textLine mSmc crtLineNr currentLine).map (fun r => (r.1.retyped i b, r.2)) := by
  unfold textLine
  rw [if_neg hnr, if_neg hnr]
  by_cases c3 : crtLineNr = 3
  · rw [if_pos c3, if_pos c3]
    rfl
  rw [if_neg c3, if_neg c3]
  by_cases c4 : crtLineNr = 4
  · rw [if_pos c4, if_pos c4]
    simp only [bind, Except.bind, pure, Except.pure, Smc.retyped]
    repeat' split
    all_goals rfl
  rw [if_neg c4, if_neg c4]
  by_cases c5 : crtLineNr = 5
  · rw [if_pos c5, if_pos c5]
    simp only [bind, Except.bind, pure, Except.pure, Smc.retyped]
    repeat' split
    all_goals rfl
  rw [if_neg c5, if_neg c5]
  by_cases c6 : crtLineNr = 6
  · rw [if_pos c6, if_pos c6]
    simp only [bind, Except.bind, pure, Except.pure, Smc.retyped]
    repeat' split
    all_goals rfl
  rw [if_neg c6, if_neg c6]
  by_cases c7 : crtLineNr = 7
  · rw [if_pos c7, if_pos c7]
    simp only [bind, Except.bind, pure, Except.pure, Smc.retyped]
    repeat' split
    all_goals rfl
  rw [if_neg c7, if_neg c7]
  by_cases c8 : crtLineNr = 8
  · rw [if_pos c8, if_pos c8]
    simp only [bind, Except.bind, pure, Except.pure, Smc.retyped]
    repeat' split
    all_goals rfl
  rw [if_neg c8, if_neg c8]
  simp only [Smc.retyped]
  by_cases c9 : crtLineNr = 2 ∨ crtLineNr = 9 ∨ crtLineNr = 10 ∨ crtLineNr = 11
  · rw [if_pos c9, if_pos c9]
    cases hf : mSmc.mSmcFormatOk <;> simp [Except.map, hf]
  · rw [if_neg c9, if_neg c9]
    rfl

/-- The loop state that a line of a header or of the data leaves, retyped. -/
theorem after_retyped (ls : SmcLoop) (crtLineNr : Int) (substringsVec : List Str)
    (r : Except Fault (Smc × List Message)) (i : Nat) (b : Bool) (shown : List Message) :
    (ls.retyped i b shown).after crtLineNr substringsVec
        (r.map (fun r => (r.1.retyped i b, r.2)))
      = (ls.after crtLineNr substringsVec r).map (fun ls' => ls'.retyped i b shown) := by
  cases r with
  | error f => rfl
  | ok r =>
    obtain ⟨m, s⟩ := r
    simp [SmcLoop.after, SmcLoop.retyped, Except.map]

/-- No line after the first reads the type of the data or the accelerogram
flag: a round of the loop on the retyped state gives the retyped result. -/
theorem smcLine_retyped (ls : SmcLoop) (currentLine : Str) (i : Nat) (b : Bool)
    (shown : List Message) (hnr : 1 ≤ ls.crtLineNr) :
    smcLine (ls.retyped i b shown) currentLine
      = (smcLine ls currentLine).map (fun ls' => ls'.retyped i b shown) := by
  have e1 : (ls.retyped i b shown).crtLineNr = ls.crtLineNr := rfl
  have e2 : (ls.retyped i b shown).substringsVec = ls.substringsVec := rfl
  have e3 : (ls.retyped i b shown).mSmc = ls.mSmc.retyped i b := rfl
  have e4 : (ls.mSmc.retyped i b).mHeaderCommentLinesCount = ls.mSmc.mHeaderCommentLinesCount :=
    rfl
  have e5 : (ls.mSmc.retyped i b).mDataLinesCount = ls.mSmc.mDataLinesCount := rfl
  unfold smcLine
  simp only [e1, e2, e3, e4, e5]
  split_ifs
  · rw [textLine_retyped _ _ _ _ _ (by omega), after_retyped]
  · cases convertAll stoi
        (collectFields (LAST_TEXT_LINE_NR + 1) (ls.crtLineNr + 1) HEADER_INT_VALUE_LENGTH
          currentLine ls.substringsVec) with
    | error f => rfl
    | ok values =>
      simp only
      rw [intHeader_retyped, after_retyped]
  · rfl
  · cases convertAll stod
        (collectFields (LAST_INT_LINE_NR + 1) (ls.crtLineNr + 1) HEADER_REAL_VALUE_LENGTH
          currentLine ls.substringsVec) with
    | error f => rfl
    | ok values =>
      simp only
      rw [realHeader_retyped, after_retyped]
  · rfl
  · rfl
  · rfl
  · cases convertAll stod
        (collectFields (LAST_REAL_LINE_NR + ls.mSmc.mHeaderCommentLinesCount + 1)
          (ls.crtLineNr + 1) DATA_VALUE_LENGTH currentLine ls.substringsVec) with
    | error f => rfl
    | ok values =>
      simp only
      rw [dataValues_retyped, after_retyped]
  · rfl
  · rfl

theorem smcLoop_retyped (lines : List Str) (ls : SmcLoop) (i : Nat) (b : Bool)
    (shown : List Message) (hnr : 1 ≤ ls.crtLineNr) :
    smcLoop lines (ls.retyped i b shown)
      = (smcLoop lines ls).map (fun ls' => ls'.retyped i b shown) := by
  induction lines generalizing ls with
  | nil => rfl
  | cons currentLine rest ih =>
    have e : (ls.retyped i b shown).mSmc.mSmcFormatOk = ls.mSmc.mSmcFormatOk := rfl
    simp only [smcLoop, e]
    by_cases h0 : ls.mSmc.mSmcFormatOk = true
    · rw [if_pos h0, if_pos h0, smcLine_retyped _ _ _ _ _ hnr]
      cases hl : smcLine ls currentLine with
      | error f => rfl
      | ok ls1 =>
        simp only [Except.map]
        exact ih ls1 (by rw [smcLine_crtLineNr _ _ _ hl]; omega)
    · rw [if_neg h0, if_neg h0]
      rfl

/-- An index of the table of the data types is below 7. -/
theorem label_index_lt (text : Str) (i : Nat) (h : DATA_TYPE_FILE_STRINGS[i]? = some text) :
    i < 7 := by
  by_contra hc
  rw [List.getElem?_eq_none (by simp [DATA_TYPE_FILE_STRINGS]; omega)] at h
  cases h

/-- The loop of line 1 finds a label of the table at its own index: the
labels differ from one another. -/
theorem findIdx_label (text : Str) (i : Nat) (h : DATA_TYPE_FILE_STRINGS[i]? = some text) :
    DATA_TYPE_FILE_STRINGS.findIdx? (fun label => label == text) = some i := by
  have hi := label_index_lt text i h
  interval_cases i
  all_goals
    simp only [DATA_TYPE_FILE_STRINGS, List.getElem?_cons_zero, List.getElem?_cons_succ,
      Option.some.injEq] at h
    subst h
    decide

/-- The loop of line 1 finds nothing when the text is no label. -/
theorem findIdx_no_label (text : Str) (h : ∀ label ∈ DATA_TYPE_FILE_STRINGS, label ≠ text) :
    DATA_TYPE_FILE_STRINGS.findIdx? (fun label => label == text) = none := by
  rw [List.findIdx?_eq_none_iff]
  intro label hmem
  simpa using h label hmem

/-- What `smcLine` does on line 1 when the line is no label. -/
theorem smcLine_first_no_label (currentLine : Str)
    (h : ∀ label ∈ DATA_TYPE_FILE_STRINGS, label ≠ trimmed currentLine) :
    smcLine SmcLoop.start currentLine
      = .ok { mSmc := { Smc.init with mSmcFormatOk := false, mSmcTypeAccelerogram := false }
              substringsVec := []
              crtLineNr := 1
              shown := [.noSmcHeader] } := by
  unfold smcLine
  simp only [SmcLoop.start]
  rw [if_pos (by decide)]
  unfold textLine
  rw [if_pos (by decide), findIdx_no_label _ h]
  rfl

/-- What `smcLine` does on line 1 when the line is the label number `i`. -/
theorem smcLine_first_label (currentLine : Str) (i : Nat)
    (h : DATA_TYPE_FILE_STRINGS[i]? = some (trimmed currentLine)) :
    smcLine SmcLoop.start currentLine
      = .ok { mSmc := { Smc.init with
                        mTextDataTypeFile := i
                        mSmcTypeAccelerogram := decide (i = 1 ∨ i = 2) }
              substringsVec := []
              crtLineNr := 1
              shown := if i = 1 ∨ i = 2 then [] else [.notAccelerogram] } := by
  have hi := label_index_lt _ i h
  unfold smcLine
  simp only [SmcLoop.start]
  rw [if_pos (by decide)]
  unfold textLine
  rw [if_pos (by decide), findIdx_label _ _ h]
  interval_cases i <;> rfl

/-- C24: a line 1 that, without its leading and trailing white space, is
none of the seven labels of `DATA_TYPE_FILE_STRINGS` ends the import at
line 1.  A line 1 that is a label other than the two of an accelerogram
leaves the format flag set, clears the accelerogram flag and shows one
message; the lines after it are then read exactly as after the label
`2 CORRECTED ACCELEROGRAM`: the loop ends in the same state but for the type
of the data, the accelerogram flag and that one message, and when it ends
with the format flag set the import succeeds with the same catalog. -/
theorem C24_data_type_line (st : State) (fileName : Str) (currentLine : Str)
    (rest : List Str) :
    ((∀ label ∈ DATA_TYPE_FILE_STRINGS, label ≠ trimmed currentLine) →
        ∃ st' : State, openSmcFile st fileName (some (currentLine :: rest)) = .ok st'
          ∧ st'.messages = st.messages ++ [.noSmcHeader, .wrongFormatAtLine 1]
          ∧ st'.catalog = [] ∧ st'.mSignalUndefined = true ∧ st'.mSignalIsSmc = false)
      ∧ (∀ i : Nat, DATA_TYPE_FILE_STRINGS[i]? = some (trimmed currentLine) → i ≠ 1 → i ≠ 2 →
          (∃ ls1 : SmcLoop, smcLine SmcLoop.start currentLine = .ok ls1
              ∧ ls1.mSmc.mSmcFormatOk = true ∧ ls1.mSmc.mSmcTypeAccelerogram = false
              ∧ ls1.mSmc.mTextDataTypeFile = i ∧ ls1.shown = [.notAccelerogram])
            ∧ smcLoop (currentLine :: rest) SmcLoop.start
                = (smcLoop ("2 CORRECTED ACCELEROGRAM".toList :: rest) SmcLoop.start).map
                    (fun ls => ls.retyped i false [.notAccelerogram])
            ∧ (∀ ls2 : SmcLoop,
                smcLoop ("2 CORRECTED ACCELEROGRAM".toList :: rest) SmcLoop.start = .ok ls2 →
                ls2.mSmc.mSmcFormatOk = true →
                ∃ st1 st2 : State,
                  openSmcFile st fileName (some (currentLine :: rest)) = .ok st1
                    ∧ openSmcFile st fileName
                        (some ("2 CORRECTED ACCELEROGRAM".toList :: rest)) = .ok st2
                    ∧ st1.mSignalIsSmc = true ∧ st1.mSignalUndefined = false
                    ∧ st1.mSignalReady = true
                    ∧ st1.catalog = st2.catalog
                    ∧ st1.mSmc = st2.mSmc.retyped i false
                    ∧ st1.messages = st.messages ++ .notAccelerogram :: ls2.shown)) := by
  constructor
  · intro hno
    have hline := smcLine_first_no_label currentLine hno
    have hres := openSmcFile_line_violation st fileName [] rest currentLine SmcLoop.start _ rfl
      rfl hline rfl
    exact ⟨_, hres, by simp, rfl, rfl, rfl⟩
  · intro i hi h1 h2
    have hni : ¬ (i = 1 ∨ i = 2) := by omega
    have hline := smcLine_first_label currentLine i hi
    simp only [hni, if_false, decide_False] at hline
    have hacc := smcLine_first_label "2 CORRECTED ACCELEROGRAM".toList 2 (by decide)
    simp only [Nat.succ_ne_self, OfNat.ofNat_ne_one, or_true, if_true, decide_True] at hacc
    have hloop : smcLoop (currentLine :: rest) SmcLoop.start
        = (smcLoop ("2 CORRECTED ACCELEROGRAM".toList :: rest) SmcLoop.start).map
            (fun ls => ls.retyped i false [.notAccelerogram]) := by
      have hs : SmcLoop.start.mSmc.mSmcFormatOk = true := rfl
      simp only [smcLoop, hs, if_true, hline, hacc]
      exact smcLoop_retyped rest
        { mSmc := { Smc.init with mTextDataTypeFile := 2, mSmcTypeAccelerogram := true }
          substringsVec := [], crtLineNr := 1, shown := [] } i false [.notAccelerogram]
        (by decide)
    refine ⟨⟨_, hline, rfl, rfl, rfl, rfl⟩, hloop, ?_⟩
    intro ls2 hl2 hok2
    have hl1 : smcLoop (currentLine :: rest) SmcLoop.start
        = .ok (ls2.retyped i false [.notAccelerogram]) := by
      rw [hloop, hl2]
      rfl
    obtain ⟨st1, a1, a2, a3, a4, a5, a6, a7, -, a9, -⟩ :=
      openSmcFile_of_flag st fileName _ _ hl1 hok2
    obtain ⟨st2, b1, b2, b3, b4, -⟩ := openSmcFile_of_flag st fileName _ _ hl2 hok2
    refine ⟨st1, st2, a1, b1, a5, a6, a7, ?_, ?_, ?_⟩
    · rw [catalog_of_last st1 _ _ a2 a3, catalog_of_last st2 _ _ b2 b3]
      rfl
    · rw [a4, b4]
      rfl
    · rw [a9]
      rfl

/-- C24, on the sample SMC file with the label `3 VELOCITY` as its line
1: the import succeeds, with the message on the accelerogram as the only
one, and the catalog is the item that the sample SMC file itself gives; and
with the line `hello` as line 1 the import ends at line 1. -/
theorem C24_data_type_line_witness :
    (∃ st1 : State,
        openSmcFile sampleState "a.smc".toList
            (some (" 3 VELOCITY ".toList :: (sampleSmcHeader ++ [sampleSmcData]).drop 1))
            = .ok st1
          ∧ st1.mSignalIsSmc = true
          ∧ st1.messages = [.notAccelerogram]
          ∧ st1.mSmc.mSmcTypeAccelerogram = false
          ∧ st1.catalog
            = [.smc { nrPoints := 2
                      sps := Dbl.ofInt 200
                      maxAccelMs2 := .finite false 5426837550981448 (-52)
                      accelDataVec := [Dbl.ofInt 5, Dbl.ofInt 2] }])
      ∧ ∃ st' : State,
          openSmcFile sampleState "a.smc".toList
              (some ("hello".toList :: (sampleSmcHeader ++ [sampleSmcData]).drop 1)) = .ok st'
            ∧ st'.messages = [.noSmcHeader, .wrongFormatAtLine 1] ∧ st'.catalog = [] := by
  constructor
  · obtain ⟨-, -, h3⟩ :=
      (C24_data_type_line sampleState "a.smc".toList " 3 VELOCITY ".toList
        ((sampleSmcHeader ++ [sampleSmcData]).drop 1)).2 3 (by decide) (by decide) (by decide)
    obtain ⟨st1, st2, a1, a2, a3, -, -, a6, a7, a8⟩ :=
      h3 sampleSmcDone (eq_ok_of_succeeded _ _ (by decide!)) (by decide!)
    have hc : st2.catalog
        = [.smc { nrPoints := 2
                  sps := Dbl.ofInt 200
                  maxAccelMs2 := .finite false 5426837550981448 (-52)
                  accelDataVec := [Dbl.ofInt 5, Dbl.ofInt 2] }] := by
      obtain ⟨st3, c1, c2, c3, -⟩ :=
        openSmcFile_of_flag sampleState "a.smc".toList
          ("2 CORRECTED ACCELEROGRAM".toList :: (sampleSmcHeader ++ [sampleSmcData]).drop 1)
          sampleSmcDone (eq_ok_of_succeeded _ _ (by decide!)) (by decide!)
      rw [a2] at c1
      cases c1
      exact (catalog_of_last st2 _ _ c2 c3).trans (by decide!)
    exact ⟨st1, a1, a3, a8.trans (by decide!), by rw [a7]; rfl, a6.trans hc⟩
  · obtain ⟨st', h1, h2, h3, -⟩ :=
      (C24_data_type_line sampleState "a.smc".toList "hello".toList
        ((sampleSmcHeader ++ [sampleSmcData]).drop 1)).1 (by decide)
    exact ⟨st', h1, h2.trans (by decide), h3⟩

/-- What `smcLine` does on a line of the text header that holds the
asterisk: the flag becomes the comparison of the trimmed line with the
asterisk, nothing else changes but the line counter. -/
theorem smcLine_star_line (ls : SmcLoop) (currentLine : Str)
    (hok : ls.mSmc.mSmcFormatOk = true)
    (hnr : ls.crtLineNr + 1 = 2 ∨ ls.crtLineNr + 1 = 9 ∨ ls.crtLineNr + 1 = 10
      ∨ ls.crtLineNr + 1 = 11) :
    smcLine ls currentLine
      = .ok { ls with
              mSmc := { ls.mSmc with mSmcFormatOk := decide ("*".toList = trimmed currentLine) }
              crtLineNr := ls.crtLineNr + 1
              shown := ls.shown ++ [] } := by
  have h1 : ls.crtLineNr + 1 ≤ LAST_TEXT_LINE_NR := by unfold LAST_TEXT_LINE_NR; omega
  have h2 : ¬ ls.crtLineNr + 1 = 1 := by omega
  have h3 : ¬ ls.crtLineNr + 1 = 3 := by omega
  have h4 : ¬ ls.crtLineNr + 1 = 4 := by omega
  have h5 : ¬ ls.crtLineNr + 1 = 5 := by omega
  have h6 : ¬ ls.crtLineNr + 1 = 6 := by omega
  have h7 : ¬ ls.crtLineNr + 1 = 7 := by omega
  have h8 : ¬ ls.crtLineNr + 1 = 8 := by omega
  unfold smcLine
  simp only
  rw [if_pos h1]
  unfold textLine
  rw [if_neg h2, if_neg h3, if_neg h4, if_neg h5, if_neg h6, if_neg h7, if_neg h8, if_pos hnr,
    if_pos hok]
  rfl

/-- C25: when the loop has read the lines `pre` with the format flag set
and the next line is line 2, 9, 10 or 11, the loop goes on with the flag
set exactly when the line without its leading and trailing white space is
the one character `*`, and the line changes nothing else in the record; any
other content ends the import with the message that tells the number of that
line, and no item is created. -/
theorem C25_star_line_accepted (st : State) (fileName : Str) (pre post : List Str)
    (currentLine : Str) (ls : SmcLoop)
    (hpre : smcLoop pre SmcLoop.start = .ok ls) (hok : ls.mSmc.mSmcFormatOk = true)
    (hnr : pre.length + 1 = 2 ∨ pre.length + 1 = 9 ∨ pre.length + 1 = 10
      ∨ pre.length + 1 = 11) :
    ∃ ls' : SmcLoop, smcLoop (pre ++ [currentLine]) SmcLoop.start = .ok ls'
      ∧ (ls'.mSmc.mSmcFormatOk = true ↔ trimmed currentLine = "*".toList)
      ∧ ls'.mSmc
          = { ls.mSmc with mSmcFormatOk := decide ("*".toList = trimmed currentLine) }
      ∧ ls'.shown = ls.shown
      ∧ (trimmed currentLine = "*".toList →
          smcLoop (pre ++ currentLine :: post) SmcLoop.start = smcLoop post ls')
      ∧ (trimmed currentLine ≠ "*".toList →
          ∃ st' : State,
            openSmcFile st fileName (some (pre ++ currentLine :: post)) = .ok st'
              ∧ st'.messages
                  = st.messages ++ ls.shown ++ [.wrongFormatAtLine ((pre.length : Int) + 1)]
              ∧ st'.catalog = [] ∧ st'.mSignalUndefined = true ∧ st'.mSignalIsSmc = false) := by
  have hn : ls.crtLineNr = (pre.length : Int) := by
    rw [smcLoop_crtLineNr pre _ _ hpre hok]
    simp [SmcLoop.start]
  have hline := smcLine_star_line ls currentLine hok (by omega)
  refine ⟨_, smcLoop_snoc pre currentLine ls _ hpre hok hline, ?_, rfl, by simp, ?_, ?_⟩
  · simp only [decide_eq_true_eq]
    exact ⟨fun h => h.symm, fun h => h.symm⟩
  · intro hstar
    have hsnoc := smcLoop_snoc pre currentLine ls _ hpre hok hline
    have happ : pre ++ currentLine :: post = (pre ++ [currentLine]) ++ post := by simp
    rw [happ, smcLoop_append _ _ _ _ hsnoc (by simp [hstar])]
  · intro hstar
    have hbad : decide ("*".toList = trimmed currentLine) = false := by
      simp only [decide_eq_false_iff_not]
      exact fun h => hstar h.symm
    have hres := openSmcFile_line_violation st fileName pre post currentLine ls _ hpre hok hline
      hbad
    exact ⟨_, hres, by simp, rfl, rfl, rfl⟩

/-- C25, on the sample SMC file: its line 9 is accepted, and with the line
`* x` in its place the import ends with the message for line 9. -/
theorem C25_star_line_accepted_witness :
    (∃ ls' : SmcLoop,
        smcLoop (sampleSmcText.take 8 ++ [" *\t".toList]) SmcLoop.start = .ok ls'
          ∧ ls'.mSmc.mSmcFormatOk = true)
      ∧ ∃ st' : State,
          openSmcFile sampleState "a.smc".toList
              (some (sampleSmcText.take 8 ++ "* x".toList :: sampleSmcIntegers)) = .ok st'
            ∧ st'.messages = [.wrongFormatAtLine 9] ∧ st'.catalog = [] := by
  constructor
  · obtain ⟨ls', h1, h2, -⟩ :=
      C25_star_line_accepted sampleState "a.smc".toList (sampleSmcText.take 8) []
        " *\t".toList sampleSmcEight (eq_ok_of_succeeded _ _ (by decide!)) (by decide!)
        (by decide)
    exact ⟨ls', h1, h2.2 (by decide)⟩
  · obtain ⟨ls', -, -, -, -, -, h6⟩ :=
      C25_star_line_accepted sampleState "a.smc".toList (sampleSmcText.take 8)
        sampleSmcIntegers "* x".toList sampleSmcEight (eq_ok_of_succeeded _ _ (by decide!))
        (by decide!) (by decide)
    obtain ⟨st', h1, h2, h3, -⟩ := h6 (by decide)
    exact ⟨st', h1, h2.trans (by decide!), h3⟩

/-- C26, what the code does instead: when the import succeeds,
`createSmcSignal` takes the peak of the imported item as the greater of the
absolute values of the stored accelerations of the maximum and of the
minimum of the record, whatever they are; when one of them is the sentinel
of the file (a field that is the sentinel is stored as it is), the peak is
computed from the sentinel as from any other number. -/
theorem C26_peak_from_sentinel (st : State) (fileName : Str) (lines : List Str) (ls : SmcLoop)
    (hloop : smcLoop lines SmcLoop.start = .ok ls) (hok : ls.mSmc.mSmcFormatOk = true) :
    ∃ (st' : State) (sig : SignalSmc),
      openSmcFile st fileName (some lines) = .ok st'
        ∧ st'.catalog = [.smc sig]
        ∧ sig.maxAccelMs2
            = Dbl.max (Dbl.abs ls.mSmc.mMaximumFromRecord.accelerationMs2)
                (Dbl.abs ls.mSmc.mMinimumFromRecord.accelerationMs2)
        ∧ (ls.mSmc.mMaximumFromRecord.accelerationMs2 = ls.mSmc.mNoValueReal →
            sig.maxAccelMs2
              = Dbl.max (Dbl.abs ls.mSmc.mNoValueReal)
                  (Dbl.abs ls.mSmc.mMinimumFromRecord.accelerationMs2))
        ∧ (ls.mSmc.mMinimumFromRecord.accelerationMs2 = ls.mSmc.mNoValueReal →
            sig.maxAccelMs2
              = Dbl.max (Dbl.abs ls.mSmc.mMaximumFromRecord.accelerationMs2)
                  (Dbl.abs ls.mSmc.mNoValueReal)) := by
  obtain ⟨st', h1, h2, h3, -⟩ := openSmcFile_of_flag st fileName lines ls hloop hok
  refine ⟨st', _, h1, catalog_of_last st' _ _ h2 h3, rfl, ?_, ?_⟩
  · intro h
    simp only [h]
  · intro h
    simp only [h]

/-- C26, on the sample SMC file with the sentinel 1.7e38 as the
acceleration of the maximum of the record and -120.5 as that of the minimum:
the stored maximum is the sentinel and the peak of the imported item is
1.7e38. -/
theorem C26_peak_from_sentinel_witness :
    (resultOr SmcLoop.start
        (smcLoop sampleSmcNoMaximum SmcLoop.start)).mSmc.mMaximumFromRecord.accelerationMs2
        = Dbl.noValue
      ∧ (resultOr SmcLoop.start (smcLoop sampleSmcNoMaximum SmcLoop.start)).mSmc.mNoValueReal
        = Dbl.noValue
      ∧ ∃ (st' : State) (sig : SignalSmc),
          openSmcFile sampleState "a.smc".toList (some sampleSmcNoMaximum) = .ok st'
            ∧ st'.catalog = [.smc sig] ∧ sig.maxAccelMs2 = Dbl.noValue := by
  obtain ⟨st', sig, h1, h2, -, h4, -⟩ :=
    C26_peak_from_sentinel sampleState "a.smc".toList sampleSmcNoMaximum
      (resultOr SmcLoop.start (smcLoop sampleSmcNoMaximum SmcLoop.start))
      (eq_ok_of_succeeded _ _ (by decide!)) (by decide!)
  exact ⟨by decide!, by decide!, st', sig, h1, h2, (h4 (by decide!)).trans (by decide!)⟩

/-- C27: the recorded-window derivation on a record whose recorded count
starts as the number of data values, at least 1: both indices end up in
`[1, count]`, the recorded count is `last - first + 1` and at most the
number of data values, and it is at least 1 exactly when the first index is
not after the last one.  Two valid indices of the data with
`first > last + 1` are kept and give a negative recorded count, and a
negative recorded count goes to `resize` as the new length, which ends in
`std::length_error`. -/
theorem C27_window_normalised (m : Smc)
    (hcount : 1 ≤ m.mDataValuesCount ∧ m.mDataValuesCount ≤ 32767)
    (hstart : m.mDataValuesRecordedCount = m.mDataValuesCount)
    (hfirst : -32768 ≤ m.mFirstRecordedSampleIndex ∧ m.mFirstRecordedSampleIndex ≤ 32767)
    (hlast : -32768 ≤ m.mLastRecordedSampleIndex ∧ m.mLastRecordedSampleIndex ≤ 32767) :
    (1 ≤ (recordedWindow m).mFirstRecordedSampleIndex
        ∧ (recordedWindow m).mFirstRecordedSampleIndex ≤ m.mDataValuesCount)
      ∧ (1 ≤ (recordedWindow m).mLastRecordedSampleIndex
        ∧ (recordedWindow m).mLastRecordedSampleIndex ≤ m.mDataValuesCount)
      ∧ (recordedWindow m).mDataValuesCount = m.mDataValuesCount
      ∧ (recordedWindow m).mDataValuesRecordedCount
          = (recordedWindow m).mLastRecordedSampleIndex
            - (recordedWindow m).mFirstRecordedSampleIndex + 1
      ∧ (recordedWindow m).mDataValuesRecordedCount ≤ m.mDataValuesCount
      ∧ (1 ≤ (recordedWindow m).mDataValuesRecordedCount
          ↔ (recordedWindow m).mFirstRecordedSampleIndex
              ≤ (recordedWindow m).mLastRecordedSampleIndex)
      ∧ (m.mFirstRecordedSampleIndex ≠ m.mNoValueInteger
          → m.mLastRecordedSampleIndex ≠ m.mNoValueInteger
          → 1 ≤ m.mLastRecordedSampleIndex
          → m.mLastRecordedSampleIndex + 1 < m.mFirstRecordedSampleIndex
          → m.mFirstRecordedSampleIndex ≤ m.mDataValuesCount
          → (recordedWindow m).mFirstRecordedSampleIndex = m.mFirstRecordedSampleIndex
            ∧ (recordedWindow m).mLastRecordedSampleIndex = m.mLastRecordedSampleIndex
            ∧ (recordedWindow m).mDataValuesRecordedCount < 0)
      ∧ ((recordedWindow m).mDataValuesRecordedCount < 0
          → resizeDataVector (recordedWindow m) (recordedWindow m).mDataValuesRecordedCount
              = .error .lengthError) := by
  obtain ⟨h1, -, -, -, h5, h6, h7, h8, h9⟩ := recordedWindow_spec m hcount hstart hfirst hlast
  refine ⟨⟨h5, h6⟩, ⟨h7, h8⟩, h1, h9, by omega, by omega, ?_, ?_⟩
  · intro hf hl hl1 hgt hfc
    have e1 : (recordedWindow m).mFirstRecordedSampleIndex = m.mFirstRecordedSampleIndex := by
      have hl2 : m.mLastRecordedSampleIndex ≤ m.mDataValuesCount ∧ 1 ≤ m.mLastRecordedSampleIndex :=
        by omega
      have hf2 : 1 ≤ m.mFirstRecordedSampleIndex
          ∧ m.mFirstRecordedSampleIndex ≤ m.mDataValuesCount := by omega
      simp [recordedWindow, checkValidInteger, hf, hl, hl2, hf2]
    have e2 : (recordedWindow m).mLastRecordedSampleIndex = m.mLastRecordedSampleIndex := by
      have hl2 : m.mLastRecordedSampleIndex ≤ m.mDataValuesCount ∧ 1 ≤ m.mLastRecordedSampleIndex :=
        by omega
      have hf2 : 1 ≤ m.mFirstRecordedSampleIndex
          ∧ m.mFirstRecordedSampleIndex ≤ m.mDataValuesCount := by omega
      simp [recordedWindow, checkValidInteger, hf, hl, hl2, hf2]
    refine ⟨e1, e2, ?_⟩
    rw [h9, e1, e2]
    omega
  · intro hneg
    unfold resizeDataVector
    rw [if_pos hneg]

/-- C27, on ten data values: the indices 8 and 3 are kept and leave the
recorded count -4, which `resize` refuses; the indices 3 and 7 leave 5. -/
theorem C27_window_normalised_witness :
    (recordedWindow { Smc.init with
        mDataValuesCount := 10, mDataValuesRecordedCount := 10
        mFirstRecordedSampleIndex := 8
        mLastRecordedSampleIndex := 3 }).mDataValuesRecordedCount = -4
      ∧ resizeDataVector
          (recordedWindow { Smc.init with
            mDataValuesCount := 10, mDataValuesRecordedCount := 10
            mFirstRecordedSampleIndex := 8, mLastRecordedSampleIndex := 3 })
          (recordedWindow { Smc.init with
            mDataValuesCount := 10, mDataValuesRecordedCount := 10
            mFirstRecordedSampleIndex := 8
            mLastRecordedSampleIndex := 3 }).mDataValuesRecordedCount
        = .error .lengthError
      ∧ (1 ≤ (recordedWindow { Smc.init with
            mDataValuesCount := 10, mDataValuesRecordedCount := 10
            mFirstRecordedSampleIndex := 3
            mLastRecordedSampleIndex := 7 }).mDataValuesRecordedCount
          ↔ (recordedWindow { Smc.init with
              mDataValuesCount := 10, mDataValuesRecordedCount := 10
              mFirstRecordedSampleIndex := 3
              mLastRecordedSampleIndex := 7 }).mFirstRecordedSampleIndex
            ≤ (recordedWindow { Smc.init with
              mDataValuesCount := 10, mDataValuesRecordedCount := 10
              mFirstRecordedSampleIndex := 3
              mLastRecordedSampleIndex := 7 }).mLastRecordedSampleIndex) := by
  have h := C27_window_normalised
    { Smc.init with
      mDataValuesCount := 10, mDataValuesRecordedCount := 10
      mFirstRecordedSampleIndex := 8, mLastRecordedSampleIndex := 3 }
    (by decide) rfl (by decide) (by decide)
  have h2 := C27_window_normalised
    { Smc.init with
      mDataValuesCount := 10, mDataValuesRecordedCount := 10
      mFirstRecordedSampleIndex := 3, mLastRecordedSampleIndex := 7 }
    (by decide) rfl (by decide) (by decide)
  exact ⟨by decide, h.2.2.2.2.2.2.2 (by decide), h2.2.2.2.2.2.1⟩

/-- The tab change and the slot it runs leave the list model alone. -/
theorem handleSignalTypeChanged_list (st : State) :
    (handleSignalTypeChanged st).mSignalsList = st.mSignalsList := by
  unfold handleSignalTypeChanged
  simp only
  split_ifs <;> rfl

theorem setCurrentTab_list (st : State) (crtTab : Int) :
    (setCurrentTab st crtTab).mSignalsList = st.mSignalsList := by
  unfold setCurrentTab
  split_ifs
  · rw [handleSignalTypeChanged_list]
  · rfl

/-- What `handleSignalNew` leaves of the list model and of the vector when
no signal is being generated: as many rows are removed from the top as the
vector held pointers, and the vector is empty. -/
theorem handleSignalNew_list (st : State) (h : st.mSignalStarted = false) :
    (handleSignalNew st).mSignalsList
        = removeRows st.mSignalsList 0 st.mSignalsVector.length
      ∧ (handleSignalNew st).mSignalsVector = [] := by
  unfold handleSignalNew
  rw [if_neg (by simp [h])]
  simp only
  obtain ⟨-, c, -⟩ := handleSignalTypeChanged_fields
    (setCurrentTab { st with
      mSignalUndefined := false, mSignalReady := false, mSignalStarted := false,
      mSignalPaused := false, mSignalIsSmc := false, mIsSignalEdited := false,
      mCurrentSignalType := SignalType.SIGNAL_TYPE_TRIANGLE.toInt } 0)
  obtain ⟨-, c', -⟩ := setCurrentTab_fields
    { st with
      mSignalUndefined := false, mSignalReady := false, mSignalStarted := false,
      mSignalPaused := false, mSignalIsSmc := false, mIsSignalEdited := false,
      mCurrentSignalType := SignalType.SIGNAL_TYPE_TRIANGLE.toInt } 0
  rw [handleSignalTypeChanged_list, setCurrentTab_list, c, c']
  constructor <;> first | rfl | trivial

/-- C28, what the code does instead: `handleSmcOpen` clears the vector but
not the list model.  When a signal is defined, saved and not being
generated, and the import succeeds, the list model keeps all the rows it
had while the catalog is the one imported item, which has no row; and
`handleSignalNew` then removes one row only, the number of pointers in the
vector, and empties the catalog, so that every row but the first stays in
the list with no item behind it. -/
theorem C28_import_keeps_list_rows (st : State) (fileName : Str) (lines : List Str)
    (ls : SmcLoop)
    (hloop : smcLoop lines SmcLoop.start = .ok ls) (hok : ls.mSmc.mSmcFormatOk = true)
    (hg : st.mSignalUndefined = true ∨ (st.mSignalReady = true ∧ st.mSignalStarted = false)) :
    ∃ st1 : State, handleSmcOpen st fileName (some lines) = .ok st1
      ∧ st1.mSignalsList = st.mSignalsList
      ∧ st1.catalog.length = 1
      ∧ st1.catalog.filterMap SignalItem.lineString? = []
      ∧ (handleSignalNew st1).mSignalsList = removeRows st.mSignalsList 0 1
      ∧ (handleSignalNew st1).catalog = []
      ∧ (2 ≤ st.mSignalsList.length →
          (handleSignalNew st1).mSignalsList = st.mSignalsList.drop 1
            ∧ (handleSignalNew st1).mSignalsList ≠ []
            ∧ handleRemoveSignal (handleSignalNew st1) 0 = .error .undefinedBehaviour) := by
  obtain ⟨st1, h1, h2, h3, -, -, -, -, h8, -, h10⟩ :=
    openSmcFile_of_flag st fileName lines ls hloop hok
  have hcat := catalog_of_last st1 _ _ h2 h3
  obtain ⟨n1, n2⟩ := handleSignalNew_list st1 h8
  rw [h3, h10] at n1
  have hempty : (handleSignalNew st1).catalog = [] := by
    unfold State.catalog
    rw [n2]
    rfl
  refine ⟨st1, by rw [handleSmcOpen_admitted st fileName _ hg, h1], h10, by rw [hcat]; rfl,
    by rw [hcat]; rfl, n1, hempty, ?_⟩
  intro hlen
  have hrows : (handleSignalNew st1).mSignalsList = st.mSignalsList.drop 1 := by
    rw [n1]
    unfold removeRows
    rw [if_neg (by simp only [List.length_singleton]; omega)]
    simp
  refine ⟨hrows, ?_, ?_⟩
  · rw [hrows]
    intro hnil
    have := congrArg List.length hnil
    simp only [List.length_drop, List.length_nil] at this
    omega
  · unfold handleRemoveSignal
    simp only [n2]
    rfl

/-- C28, on a catalog of two saved records, a Rectangle and a Triangle:
after the import of the sample SMC file the list still shows the two lines
and the catalog is the imported item; after `handleSignalNew` the list
shows the line of the Triangle and the catalog is empty, and the removal of
that row is undefined. -/
theorem C28_import_keeps_list_rows_witness :
    ∃ st1 : State,
      handleSmcOpen
          (sampleCatalogState [sampleRectangle Dbl.one, .triangle (sampleTriangle Dbl.one)])
          "a.smc".toList (some (sampleSmcHeader ++ [sampleSmcData])) = .ok st1
        ∧ st1.mSignalsList = ["2, 1, 1, 1, 1, 1".toList, "1, 1, 1, 1, 1, 1, 1".toList]
        ∧ st1.catalog.length = 1
        ∧ (handleSignalNew st1).mSignalsList = ["1, 1, 1, 1, 1, 1, 1".toList]
        ∧ (handleSignalNew st1).catalog = []
        ∧ handleRemoveSignal (handleSignalNew st1) 0 = .error .undefinedBehaviour := by
  obtain ⟨st1, h1, h2, h3, -, -, h6, h7⟩ :=
    C28_import_keeps_list_rows
      (sampleCatalogState [sampleRectangle Dbl.one, .triangle (sampleTriangle Dbl.one)])
      "a.smc".toList (sampleSmcHeader ++ [sampleSmcData]) sampleSmcDone
      (eq_ok_of_succeeded _ _ (by decide!)) (by decide!) (Or.inr ⟨rfl, rfl⟩)
  have hl : (sampleCatalogState
      [sampleRectangle Dbl.one, .triangle (sampleTriangle Dbl.one)]).mSignalsList
      = ["2, 1, 1, 1, 1, 1".toList, "1, 1, 1, 1, 1, 1, 1".toList] := by decide!
  obtain ⟨h8, -, h9⟩ := h7 (by rw [hl]; decide)
  exact ⟨st1, h1, h2.trans hl, h3, by rw [h8, hl]; rfl, h6, h9⟩

/-- The members that the first part of the integer header reads from the
converted fields. -/
theorem intHeaderFields_members (mSmc m : Smc) (tmpIntVec : List Int)
    (h : intHeaderFields mSmc tmpIntVec = .ok m) :
    tmpIntVec[INT_FIELD_UNDEFINED_VALUE]? = some m.mNoValueInteger
      ∧ tmpIntVec[INT_FIELD_VERTICAL_ORIENTATION_FROM_UP]? = some m.mVerticalOrientation
      ∧ tmpIntVec[INT_FIELD_HORIZONTAL_ORIENTATION_FROM_NORTH_TO_EAST]?
          = some m.mHorizontalOrientation
      ∧ tmpIntVec[INT_FIELD_SENSOR_TYPE_CODE]? = some m.mSensorTypeCode
      ∧ tmpIntVec[INT_FIELD_NR_OF_COMMENT_LINES]? = some m.mHeaderCommentLinesCount
      ∧ tmpIntVec[INT_FIELD_NR_OF_VALUES]? = some m.mDataValuesCount := by
  unfold intHeaderFields at h
  simp only [bind, Except.bind, pure, Except.pure] at h
  repeat' split at h
  all_goals first
    | (cases h
       exact ⟨vecAt_ok _ _ _ (by assumption), vecAt_ok _ _ _ (by assumption),
         vecAt_ok _ _ _ (by assumption), vecAt_ok _ _ _ (by assumption),
         vecAt_ok _ _ _ (by assumption), vecAt_ok _ _ _ (by assumption)⟩)
    | cases h

/-- The members that the part of the integer header on the structure reads
from the converted fields: the station number and the two indices of the
recorded window. -/
theorem intHeaderStructure_members (mSmc m : Smc) (tmpIntVec : List Int)
    (h : intHeaderStructure mSmc tmpIntVec = .ok m) :
    tmpIntVec[INT_FIELD_STATION_NR]? = some m.mStationNr
      ∧ tmpIntVec[INT_FIELD_FIRST_RECORDED_SAMPLE]? = some m.mFirstRecordedSampleIndex
      ∧ tmpIntVec[INT_FIELD_LAST_RECORDED_SAMPLE]? = some m.mLastRecordedSampleIndex := by
  unfold intHeaderStructure at h
  simp only [bind, Except.bind, pure, Except.pure] at h
  repeat' split at h
  all_goals first
    | (cases h
       exact ⟨vecAt_ok _ _ _ (by assumption), vecAt_ok _ _ _ (by assumption),
         vecAt_ok _ _ _ (by assumption)⟩)
    | cases h

/-- What `smcLine` does on the last line of the integer header, once the
fields are converted by `std::stoi`: each value goes into the vector of
`int16_t`, and the header is read from that vector. -/
theorem smcLine_last_int_line (ls : SmcLoop) (currentLine : Str) (values : List Int)
    (hnr : ls.crtLineNr + 1 = LAST_INT_LINE_NR)
    (hconv : convertAll stoi
        (collectFields (LAST_TEXT_LINE_NR + 1) (ls.crtLineNr + 1) HEADER_INT_VALUE_LENGTH
          currentLine ls.substringsVec) = .ok values) :
    smcLine ls currentLine
      = ls.after (ls.crtLineNr + 1)
          (collectFields (LAST_TEXT_LINE_NR + 1) (ls.crtLineNr + 1) HEADER_INT_VALUE_LENGTH
            currentLine ls.substringsVec)
          (intHeader ls.mSmc (values.map toInt16)) := by
  unfold smcLine
  simp only
  rw [if_neg (by rw [hnr]; decide), if_pos (by rw [hnr]), if_pos hnr.symm, hconv]

/-- The conversion to `int16_t` keeps the value modulo `2^16`. -/
theorem toInt16_congruent (v : Int) : (toInt16 v - v) % 65536 = 0 := by
  unfold toInt16; omega

/-- C30: on the last line of the integer header every field that
`std::stoi` converts goes through a vector of `int16_t`: a value `v` is
stored as `toInt16 v`, which is `v` itself when `v` is a 16-bit value and
otherwise the value in `[-32768, 32767]` that differs from `v` by a multiple
of `2^16` (40000 becomes -25536); the members of the record are read from
the stored values, and the data length, the number of data lines and the
recorded window are computed from these members. -/
theorem C30_fields_wrap_to_int16 (ls : SmcLoop) (currentLine : Str) (values : List Int)
    (hnr : ls.crtLineNr + 1 = LAST_INT_LINE_NR)
    (hconv : convertAll stoi
        (collectFields (LAST_TEXT_LINE_NR + 1) (ls.crtLineNr + 1) HEADER_INT_VALUE_LENGTH
          currentLine ls.substringsVec) = .ok values) :
    smcLine ls currentLine
        = ls.after (ls.crtLineNr + 1)
            (collectFields (LAST_TEXT_LINE_NR + 1) (ls.crtLineNr + 1) HEADER_INT_VALUE_LENGTH
              currentLine ls.substringsVec)
            (intHeader ls.mSmc (values.map toInt16))
      ∧ (∀ (i : Nat) (v : Int), values[i]? = some v →
          (values.map toInt16)[i]? = some (toInt16 v)
            ∧ -32768 ≤ toInt16 v ∧ toInt16 v ≤ 32767
            ∧ (toInt16 v - v) % 65536 = 0
            ∧ (-32768 ≤ v ∧ v ≤ 32767 → toInt16 v = v))
      ∧ toInt16 40000 = -25536
      ∧ (∀ (m : Smc) (v : Int), intHeaderFields ls.mSmc (values.map toInt16) = .ok m →
          values[INT_FIELD_NR_OF_VALUES]? = some v →
          m.mDataValuesCount = toInt16 v
            ∧ (1 ≤ toInt16 v → toInt16 v ≠ m.mNoValueInteger →
                dataLength m
                  = .ok ({ m with
                           mDataValuesRecordedCount := toInt16 v
                           mDataLinesCount :=
                             (ceilOfQuotient (toInt16 v) DATA_VALUES_PER_LINE).toNat }, none)))
      ∧ (∀ (m : Smc) (v : Int), intHeaderFields ls.mSmc (values.map toInt16) = .ok m →
          (values[INT_FIELD_UNDEFINED_VALUE]? = some v → m.mNoValueInteger = toInt16 v)
            ∧ (values[INT_FIELD_SENSOR_TYPE_CODE]? = some v → m.mSensorTypeCode = toInt16 v)
            ∧ (values[INT_FIELD_NR_OF_COMMENT_LINES]? = some v →
                m.mHeaderCommentLinesCount = toInt16 v))
      ∧ (∀ (m0 m : Smc) (v : Int), intHeaderStructure m0 (values.map toInt16) = .ok m →
          (values[INT_FIELD_FIRST_RECORDED_SAMPLE]? = some v →
              m.mFirstRecordedSampleIndex = toInt16 v)
            ∧ (values[INT_FIELD_LAST_RECORDED_SAMPLE]? = some v →
                m.mLastRecordedSampleIndex = toInt16 v)) := by
  have hget : ∀ (i : Nat) (v w : Int), values[i]? = some v →
      (values.map toInt16)[i]? = some w → w = toInt16 v := by
    intro i v w hv hw
    rw [List.getElem?_map, hv] at hw
    exact (Option.some.inj hw).symm
  refine ⟨smcLine_last_int_line ls currentLine values hnr hconv, ?_, by decide, ?_, ?_, ?_⟩
  · intro i v hv
    refine ⟨by rw [List.getElem?_map, hv]; rfl, (toInt16_range v).1, (toInt16_range v).2,
      toInt16_congruent v, toInt16_of_range v⟩
  · intro m v hm hv
    obtain ⟨-, -, -, -, -, h16⟩ := intHeaderFields_members _ _ _ hm
    have e := hget _ _ _ hv h16
    refine ⟨e, ?_⟩
    intro hpos hvalid
    have hd := dataLength_valid m (by rw [e]; exact hvalid)
      (by rw [e]; exact ⟨hpos, (toInt16_range v).2⟩)
    rw [hd, e]
  · intro m v hm
    obtain ⟨h0, -, -, h14, h15, -⟩ := intHeaderFields_members _ _ _ hm
    exact ⟨fun hv => hget _ _ _ hv h0, fun hv => hget _ _ _ hv h14,
      fun hv => hget _ _ _ hv h15⟩
  · intro m0 m v hm
    obtain ⟨-, h30, h31⟩ := intHeaderStructure_members _ _ _ hm
    exact ⟨fun hv => hget _ _ _ hv h30, fun hv => hget _ _ _ hv h31⟩

/-- C30, on the integer header of the sample SMC file with the text 40000
as the number of data values: `std::stoi` gives 40000, the vector of
`int16_t` holds -25536, and that is the number of data values of the
record. -/
theorem C30_fields_wrap_to_int16_witness :
    sampleSmcWrappedValues[INT_FIELD_NR_OF_VALUES]? = some 40000
      ∧ (sampleSmcWrappedValues.map toInt16)[INT_FIELD_NR_OF_VALUES]? = some (-25536)
      ∧ ∃ m : Smc,
          intHeaderFields sampleSmcSixteen.mSmc (sampleSmcWrappedValues.map toInt16) = .ok m
            ∧ m.mDataValuesCount = -25536 := by
  have h := C30_fields_wrap_to_int16 sampleSmcSixteen (sampleSmcWrappedIntegers.getD 5 [])
    sampleSmcWrappedValues (by decide!) (eq_ok_of_succeeded _ _ (by decide!))
  have hv : sampleSmcWrappedValues[INT_FIELD_NR_OF_VALUES]? = some 40000 := by decide!
  have hm := eq_ok_of_succeeded
    (intHeaderFields sampleSmcSixteen.mSmc (sampleSmcWrappedValues.map toInt16)) Smc.init
    (by decide!)
  refine ⟨hv, ?_, _, hm, ?_⟩
  · rw [(h.2.1 _ _ hv).1, h.2.2.1]
  · rw [(h.2.2.2.1 _ _ hm hv).1, h.2.2.1]

/-! ## The tokeniser and a final delimiter -/

/-- One more delimiter at the end of a text adds one empty token at the end
of the reference split. -/
theorem splitAll_append_delimiter (s : Str) :
    ∀ cur : Str, splitAll (s ++ SUBSTR_DELIMITER) cur = splitAll s cur ++ [[]] := by
  generalize hn : s.length = n
  induction n using Nat.strong_induction_on generalizing s with
  | _ n ih =>
    intro cur
    cases s with
    | nil => simp [splitAll, SUBSTR_DELIMITER]
    | cons c rest =>
      by_cases h : ∀ r, c = ',' → rest = ' ' :: r → False
      · rw [splitAll.eq_3 cur c rest h, ← ih rest.length (by rw [← hn]; simp) rest rfl]
        have h2 : ∀ r, c = ',' → rest ++ SUBSTR_DELIMITER = ' ' :: r → False := by
          intro r hc hr
          cases rest with
          | nil => simp [SUBSTR_DELIMITER] at hr
          | cons d rest2 =>
            simp only [List.cons_append, List.cons.injEq] at hr
            exact h rest2 hc (by rw [hr.1])
        exact splitAll.eq_3 cur c (rest ++ SUBSTR_DELIMITER) h2
      · push_neg at h
        obtain ⟨r, rfl, rfl, -⟩ := h
        simp only [List.cons_append, splitAll, List.cons.injEq, true_and]
        exact ih r.length (by rw [← hn]; simp; omega) r rfl []

/-- The tokens of a text followed by one more delimiter: all the tokens of
the reference split of the text, the last one also when it is empty. -/
theorem substrings_append_delimiter (line : Str) :
    substrings (line ++ SUBSTR_DELIMITER) = splitAll line [] := by
  rw [substrings_eq_splitTokens]
  unfold splitTokens
  simp only [splitAll_append_delimiter]
  simp

/-- The last token of the reference split is empty only for the empty text
and for a text that ends with the delimiter. -/
theorem splitAll_getLast_nil (s : Str) :
    ∀ cur : Str, (splitAll s cur).getLastD [] = [] →
      (s = [] ∧ cur = []) ∨ SUBSTR_DELIMITER <:+ s := by
  generalize hn : s.length = n
  induction n using Nat.strong_induction_on generalizing s with
  | _ n ih =>
    intro cur h
    cases s with
    | nil =>
      simp [splitAll] at h
      exact Or.inl ⟨rfl, h⟩
    | cons c rest =>
      by_cases hd : ∀ r, c = ',' → rest = ' ' :: r → False
      · rw [splitAll.eq_3 cur c rest hd] at h
        rcases ih rest.length (by rw [← hn]; simp) rest rfl _ h with ⟨-, h2⟩ | h2
        · cases h2
        · exact Or.inr (List.IsSuffix.trans h2 (List.suffix_cons c rest))
      · push_neg at hd
        obtain ⟨r, rfl, rfl, -⟩ := hd
        have hne := splitAll_ne_nil r []
        have h' : (splitAll r []).getLastD [] = [] := by
          simp only [splitAll] at h
          cases hs : splitAll r [] with
          | nil => exact absurd hs hne
          | cons a l =>
            rw [hs] at h
            simpa [List.getLastD] using h
        rcases ih r.length (by rw [← hn]; simp; omega) r rfl _ h' with ⟨h1, -⟩ | h2
        · subst h1
          exact Or.inr (List.suffix_refl _)
        · exact Or.inr ((List.IsSuffix.trans h2 (List.suffix_cons ' ' r)).trans
            (List.suffix_cons ',' (' ' :: r)))

/-- The last token of the reference split of a text that ends with the
delimiter is empty. -/
theorem splitAll_getLast_of_suffix (s : Str) (h : SUBSTR_DELIMITER <:+ s) :
    (splitAll s []).getLastD [] = [] := by
  obtain ⟨t, rfl⟩ := h
  rw [splitAll_append_delimiter]
  simp

/-- The empty text is no number for `toDouble` and for `toInt`. -/
theorem parseField_nil (k : FieldKind) : parseField k [] = none := by
  cases k <;> decide

/-- When all the tokens convert, none of them is empty. -/
theorem parseFields_no_empty : ∀ (ks : List FieldKind) (ts : List Str) (vs : List FieldValue),
    parseFields ks ts = some vs → [] ∉ ts
  | [], [], _, _ => by simp
  | [], _ :: _, _, h => by simp [parseFields] at h
  | _ :: _, [], _, h => by simp [parseFields] at h
  | k :: ks, t :: ts, vs, h => by
    simp only [parseFields] at h
    cases hp : parseField k t with
    | none => rw [hp] at h; cases h
    | some v =>
      rw [hp] at h
      cases hr : parseFields ks ts with
      | none => rw [hr] at h; cases h
      | some ws =>
        have ih := parseFields_no_empty ks ts ws hr
        intro hmem
        rcases List.mem_cons.1 hmem with h0 | h1
        · rw [← h0, parseField_nil] at hp
          cases hp
        · exact ih h1

/-- Tokens that decode hold no empty token. -/
theorem decodeSubstrings_no_empty (tokens : List Str) (r : SignalItem × Str)
    (h : decodeSubstrings tokens = some r) : [] ∉ tokens := by
  rw [decodeSubstrings_eq_reference] at h
  obtain ⟨item, l⟩ := r
  obtain ⟨h1, h2, h3, h4, -⟩ := decodeReference_some tokens item l h
  have h5 := parseFields_no_empty _ _ _ h4
  cases tokens with
  | nil => simp
  | cons t ts =>
    intro hmem
    rcases List.mem_cons.1 hmem with h0 | hts
    · subst h0
      rw [h1] at h2
      simp only [List.getD_cons_zero] at h2
      revert h2
      decide
    · exact h5 hts

/-- Tokens that decode no longer decode with one more token. -/
theorem decodeSubstrings_append_none (tokens : List Str) (extra : Str) (r : SignalItem × Str)
    (h : decodeSubstrings tokens = some r) : decodeSubstrings (tokens ++ [extra]) = none := by
  rw [decodeSubstrings_eq_reference] at h ⊢
  obtain ⟨item, l⟩ := r
  obtain ⟨h1, -, h3, -, -⟩ := decodeReference_some tokens item l h
  have h0 : (tokens ++ [extra]).getD 0 [] = tokens.getD 0 [] := by
    cases tokens with
    | nil => simp at h3
    | cons t ts => rfl
  unfold decodeReference
  simp only [h0, ← h1, List.length_append, List.length_singleton, h3]
  simp

/-- C29, the claim as stated fails: the line `1, 1, 1, 1, 1, 1, 1, ` decodes
to a Triangle record, its empty final token being dropped; followed by one
more delimiter it has eight tokens, the last of them empty, and no longer
decodes. -/
theorem C29_second_delimiter_counterexample :
    substrings "1, 1, 1, 1, 1, 1, 1, ".toList
        = ["1".toList, "1".toList, "1".toList, "1".toList, "1".toList, "1".toList, "1".toList]
      ∧ decodeItem "1, 1, 1, 1, 1, 1, 1, ".toList = some (.triangle (sampleTriangle Dbl.one))
      ∧ substrings ("1, 1, 1, 1, 1, 1, 1, ".toList ++ SUBSTR_DELIMITER)
        = ["1".toList, "1".toList, "1".toList, "1".toList, "1".toList, "1".toList, "1".toList,
           []]
      ∧ decodeItem ("1, 1, 1, 1, 1, 1, 1, ".toList ++ SUBSTR_DELIMITER) = none := by
  decide!

/-- C29, amended: a line that decodes and does not already end with the
delimiter has the same tokens when one more delimiter follows it, and
decodes to the same item with the same line text; a line that decodes and
ends with the delimiter gets one more token, which is empty, and no longer
decodes; and a line whose tokens hold an empty token, at whatever position,
does not decode. -/
theorem C29_trailing_delimiter (currentLine : Str) (item : SignalItem) (lineString : Str)
    (h : decodeLine currentLine = some (item, lineString)) :
    (¬ SUBSTR_DELIMITER <:+ currentLine →
        substrings (currentLine ++ SUBSTR_DELIMITER) = substrings currentLine
          ∧ decodeLine (currentLine ++ SUBSTR_DELIMITER) = some (item, lineString)
          ∧ decodeItem (currentLine ++ SUBSTR_DELIMITER) = some item)
      ∧ (SUBSTR_DELIMITER <:+ currentLine →
          substrings (currentLine ++ SUBSTR_DELIMITER) = substrings currentLine ++ [[]]
            ∧ decodeLine (currentLine ++ SUBSTR_DELIMITER) = none)
      ∧ [] ∉ substrings currentLine
      ∧ ∀ other : Str, [] ∈ substrings other → decodeLine other = none := by
  have hne : currentLine ≠ [] := by
    intro h0
    rw [h0] at h
    have hnil : decodeLine [] = none := by decide
    rw [hnil] at h
    cases h
  refine ⟨?_, ?_, decodeSubstrings_no_empty _ _ h, ?_⟩
  · intro hs
    have hlast : ¬ (splitAll currentLine []).getLastD [] = [] := by
      intro hl
      rcases splitAll_getLast_nil currentLine [] hl with ⟨h1, -⟩ | h2
      · exact hne h1
      · exact hs h2
    have htok : substrings (currentLine ++ SUBSTR_DELIMITER) = substrings currentLine := by
      rw [substrings_append_delimiter, substrings_eq_splitTokens]
      unfold splitTokens
      simp only
      rw [if_neg hlast]
    refine ⟨htok, ?_, ?_⟩
    · unfold decodeLine at h ⊢
      rw [htok, h]
    · unfold decodeItem decodeLine at *
      rw [htok, h]
      rfl
  · intro hs
    have hlast := splitAll_getLast_of_suffix currentLine hs
    have htok : substrings (currentLine ++ SUBSTR_DELIMITER) = substrings currentLine ++ [[]] := by
      rw [substrings_append_delimiter, substrings_eq_splitTokens]
      unfold splitTokens
      simp only
      rw [if_pos hlast]
      obtain ⟨l, a, hla⟩ :=
        (List.eq_nil_or_concat (splitAll currentLine [])).resolve_left
          (splitAll_ne_nil currentLine [])
      rw [hla] at hlast ⊢
      simp at hlast
      simp [hlast]
    refine ⟨htok, ?_⟩
    unfold decodeLine at h ⊢
    rw [htok]
    exact decodeSubstrings_append_none _ _ _ h
  · intro other hmem
    unfold decodeLine
    cases hd : decodeSubstrings (substrings other) with
    | none => rfl
    | some r => exact absurd hmem (decodeSubstrings_no_empty _ r hd)

/-- C29, on the line of a Triangle record with every parameter 1: with one
more delimiter it decodes to the same record; and the line with an empty
second token keeps that token and does not decode. -/
theorem C29_trailing_delimiter_witness :
    decodeItem ("1, 1, 1, 1, 1, 1, 1".toList ++ SUBSTR_DELIMITER)
        = some (.triangle (sampleTriangle Dbl.one))
      ∧ substrings "1, , 1, 1, 1, 1, 1".toList
        = ["1".toList, [], "1".toList, "1".toList, "1".toList, "1".toList, "1".toList]
      ∧ decodeLine "1, , 1, 1, 1, 1, 1".toList = none := by
  have h := C29_trailing_delimiter "1, 1, 1, 1, 1, 1, 1".toList
    (.triangle (sampleTriangle Dbl.one)) "1, 1, 1, 1, 1, 1, 1".toList (by decide!)
  exact ⟨(h.1 (by decide)).2.2, by decide!, h.2.2.2 _ (by decide!)⟩

/-! ## The window in use -/

theorem rowInvariant_congr (st st' : State) (row : Int) (h : st.rowInvariant row)
    (e2 : st'.mSignalsVector = st.mSignalsVector) (e3 : st'.mEditedSignal = st.mEditedSignal)
    (e4 : st'.mIsSignalEdited = st.mIsSignalEdited) (e5 : st'.mSignalIsSmc = st.mSignalIsSmc) :
    st'.rowInvariant row := by
  unfold State.rowInvariant at h ⊢
  rw [e2, e3, e4, e5]
  exact h

theorem rowInvariant_of_idle (st : State) (row : Int) (h1 : st.mSignalsVector.Nodup)
    (h2 : st.mIsSignalEdited = false) : st.rowInvariant row := by
  refine ⟨h1, ?_⟩
  intro h; rw [h2] at h; cases h

theorem rowInvariant_signalNew (st : State) (row : Int) (h : st.rowInvariant row) :
    (handleSignalNew st).rowInvariant row := by
  unfold handleSignalNew
  split_ifs
  · exact rowInvariant_congr st _ row h rfl rfl rfl rfl
  · apply rowInvariant_of_idle
    · exact List.nodup_nil
    · simp only
      obtain ⟨-, -, -, -, e⟩ := handleSignalTypeChanged_fields
        (setCurrentTab { st with
          mSignalUndefined := false, mSignalReady := false, mSignalStarted := false,
          mSignalPaused := false, mSignalIsSmc := false, mIsSignalEdited := false,
          mCurrentSignalType := SignalType.SIGNAL_TYPE_TRIANGLE.toInt } 0)
      obtain ⟨-, -, -, d, -⟩ := setCurrentTab_fields
        { st with
          mSignalUndefined := false, mSignalReady := false, mSignalStarted := false,
          mSignalPaused := false, mSignalIsSmc := false, mIsSignalEdited := false,
          mCurrentSignalType := SignalType.SIGNAL_TYPE_TRIANGLE.toInt } 0
      by_contra hc
      have hc' := (d (e (by simpa using hc)).1).1
      simp at hc'

/-- One round of the line loop keeps the pointers of the vector valid and
distinct, and does not touch the edit flag. -/
theorem openLine_nodup (st : State) (currentLine : Str) (hwf : st.wf)
    (hnd : st.mSignalsVector.Nodup) :
    (openLine st currentLine).wf ∧ (openLine st currentLine).mSignalsVector.Nodup
      ∧ (openLine st currentLine).mIsSignalEdited = st.mIsSignalEdited := by
  refine ⟨(openLine_spec st currentLine hwf).2.1, ?_, ?_⟩
  · unfold openLine
    split
    · simp only [State.new]
      rw [List.nodup_append]
      refine ⟨hnd, List.nodup_singleton _, ?_⟩
      intro p hp hq
      simp only [List.mem_singleton] at hq
      have := hwf p hp
      omega
    · exact hnd
  · unfold openLine
    split <;> rfl

theorem foldl_openLine_nodup (lines : List Str) : ∀ (st : State), st.wf →
    st.mSignalsVector.Nodup →
    (lines.foldl openLine st).mSignalsVector.Nodup
      ∧ (lines.foldl openLine st).mIsSignalEdited = st.mIsSignalEdited := by
  induction lines with
  | nil => intro st _ h; exact ⟨h, rfl⟩
  | cons l ls ih =>
    intro st hwf hnd
    obtain ⟨h1, h2, h3⟩ := openLine_nodup st l hwf hnd
    obtain ⟨i1, i2⟩ := ih (openLine st l) h1 h2
    exact ⟨i1, i2.trans h3⟩

theorem rowInvariant_signalOpen (st : State) (row : Int) (fileName : Str)
    (file : Option (List Str)) (h : st.rowInvariant row) :
    (handleSignalOpen st fileName file).rowInvariant row := by
  unfold handleSignalOpen
  split_ifs
  · exact rowInvariant_congr st _ row h rfl rfl rfl rfl
  · exact rowInvariant_congr st _ row h rfl rfl rfl rfl
  · unfold openSignalFile
    simp only
    cases file with
    | none =>
      simp only
      split_ifs
      · exact rowInvariant_of_idle _ _ List.nodup_nil rfl
      · exact rowInvariant_of_idle _ _ List.nodup_nil rfl
    | some lines =>
      simp only
      obtain ⟨a, b⟩ := foldl_openLine_nodup lines
        { st with
          mSignalUndefined := true, mSignalReady := false, mSignalStarted := false,
          mSignalPaused := false, mSignalIsSmc := false, mIsSignalEdited := false,
          mSignalsList := removeRows st.mSignalsList 0 st.mSignalsVector.length,
          mSignalsVector := [] }
        (by intro p hp; cases hp) List.nodup_nil
      split_ifs
      · exact rowInvariant_of_idle _ _ a b
      · exact rowInvariant_of_idle _ _ a b

theorem rowInvariant_smcOpen (st st' : State) (row : Int) (fileName : Str)
    (file : Option (List Str)) (hs : handleSmcOpen st fileName file = .ok st')
    (h : st.rowInvariant row) : st'.rowInvariant row := by
  unfold handleSmcOpen at hs
  split_ifs at hs
  · cases hs; exact rowInvariant_congr st _ row h rfl rfl rfl rfl
  · cases hs; exact rowInvariant_congr st _ row h rfl rfl rfl rfl
  · unfold openSmcFile at hs
    simp only at hs
    cases file with
    | none =>
      simp only at hs
      cases hs
      split_ifs
      · exact rowInvariant_of_idle _ _ List.nodup_nil rfl
      · exact rowInvariant_of_idle _ _ List.nodup_nil rfl
    | some lines =>
      simp only at hs
      split at hs
      · cases hs
      · rename_i ls hl
        split_ifs at hs with hok
        · by_cases hneg : ls.mSmc.mDataValuesRecordedCount < 0
          · unfold createSmcSignal at hs
            simp only [hneg, if_true] at hs
            cases hs
          · obtain ⟨st2, hc, -, h2, -, -, h5, -⟩ :=
              createSmcSignal_ok
                { st with
                  mSignalUndefined := false, mSignalReady := true, mSignalStarted := false,
                  mSignalPaused := false, mSignalIsSmc := true, mIsSignalEdited := false,
                  mSignalsVector := [], mSmc := ls.mSmc,
                  messages := st.messages ++ ls.shown }
                (by show 0 ≤ ls.mSmc.mDataValuesRecordedCount; omega) rfl
            rw [hc] at hs
            cases hs
            simp only [List.nil_append] at h2
            refine rowInvariant_of_idle _ _ ?_ h5
            rw [h2]
            exact List.nodup_singleton _
        · cases hs
          exact rowInvariant_of_idle _ _ List.nodup_nil rfl

theorem rowInvariant_addReplace (st st' : State) (row : Int) (hwf : st.wf)
    (hsmc : st.mSignalIsSmc = false) (hs : handleAddReplaceSignal st row = .ok st')
    (h : st.rowInvariant row) : st'.rowInvariant row := by
  obtain ⟨hnd, hrow⟩ := h
  unfold handleAddReplaceSignal at hs
  split_ifs at hs with hed
  · have hed' : st.mIsSignalEdited = false := by simpa using hed
    cases hs
    unfold addSignal
    simp only
    split
    · exact rowInvariant_of_idle _ _ hnd hed'
    · simp only [State.new]
      have hnd' : (st.mSignalsVector ++ [st.heap.length]).Nodup := by
        rw [List.nodup_append]
        refine ⟨hnd, List.nodup_singleton _, ?_⟩
        intro p hp hq
        simp only [List.mem_singleton] at hq
        have := hwf p hp
        omega
      split <;> exact rowInvariant_of_idle _ _ hnd' hed'
  · have hed' : st.mIsSignalEdited = true := by simpa using hed
    obtain ⟨p, hp, hat⟩ := hrow hed' hsmc
    unfold replaceSignal at hs
    rw [hp] at hs
    simp only at hs
    split at hs
    · cases hs
    · split_ifs at hs with hr
      cases hs
      have hset : st.mSignalsVector.set row.toNat p = st.mSignalsVector := by
        unfold vectorAt at hat
        rw [if_pos hr.1] at hat
        split at hat
        · rename_i q hq
          cases hat
          exact set_of_getElem? _ _ _ hq
        · cases hat
      refine rowInvariant_of_idle _ _ ?_ rfl
      split <;> (simp only; rw [hset]; exact hnd)

theorem getType_smc (item : SignalItem) (h : item.getType = .SIGNAL_TYPE_SMC) :
    item.isSmc = true := by
  cases item <;> first | rfl | cases h

theorem rowInvariant_edit (st st' : State) (row : Int) (hinv : st.catalogInvariant)
    (hs : handleEditSignal st row = .ok st') (h : st.rowInvariant row) :
    st'.rowInvariant row := by
  obtain ⟨hnd, -⟩ := h
  unfold handleEditSignal at hs
  split at hs
  · cases hs
  · rename_i p hp
    have hmem := vectorAt_mem _ _ _ hp
    simp only at hs
    split at hs
    · cases hs
    · rename_i item hitem
      have hitem' : st.heap[p]? = some item := hitem
      obtain ⟨-, f2, f3, -, -⟩ := setCurrentTab_fields { st with mEditedSignal := some p }
        (item.getType.toInt - SignalType.SIGNAL_TYPE_TRIANGLE.toInt)
      have hed := setCurrentTab_edited { st with mEditedSignal := some p }
        (item.getType.toInt - SignalType.SIGNAL_TYPE_TRIANGLE.toInt)
      split at hs
      · rename_i hty
        cases hs
        refine ⟨by rw [f2]; exact hnd, ?_⟩
        intro _ hm
        have hm' : st.mSignalIsSmc = false := by rw [f3] at hm; exact hm
        have hi := hinv.2.1 p hmem item hitem'
        rw [getType_smc item hty, hm'] at hi
        cases hi
      · cases hs
      · rename_i q hq _
        split at hs
        · cases hs
        · rename_i edited _
          cases hs
          obtain ⟨-, b, c, -⟩ := fillForm_frame
            (setCurrentTab { st with mEditedSignal := some p }
              (item.getType.toInt - SignalType.SIGNAL_TYPE_TRIANGLE.toInt)) edited
          refine ⟨?_, ?_⟩
          · show (State.fillForm _ edited).mSignalsVector.Nodup
            rw [b, f2]; exact hnd
          · intro _ _
            refine ⟨p, ?_, ?_⟩
            · show (State.fillForm _ edited).mEditedSignal = some p
              rw [c]
              rcases hed with e | e
              · rw [e]
              · rw [e] at hq; cases hq
            · show vectorAt (State.fillForm _ edited).mSignalsVector row = .ok p
              rw [b, f2]; exact hp

theorem rowInvariant_remove (st st' : State) (row : Int)
    (hg : st.mSignalIsSmc = false → st.mIsSignalEdited = false)
    (hs : handleRemoveSignal st row = .ok st') (h : st.rowInvariant row) :
    st'.rowInvariant row := by
  obtain ⟨hnd, -⟩ := h
  unfold handleRemoveSignal at hs
  simp only at hs
  split_ifs at hs with hr he
  all_goals
    cases hs
    refine ⟨List.Nodup.eraseIdx _ hnd, ?_⟩
    intro hed hm
    have := hg hm
    rw [this] at hed
    cases hed

theorem rowInvariant_save (st : State) (row : Int) (fileName : Str) (isOpen : Bool)
    (h : st.rowInvariant row) : (handleSaveSignal st fileName isOpen).1.rowInvariant row := by
  unfold handleSaveSignal
  split_ifs
  · exact rowInvariant_congr st _ row h rfl rfl rfl rfl
  · exact rowInvariant_congr st _ row h rfl rfl rfl rfl
  · exact h

theorem rowInvariant_setCurrentTab (st : State) (row : Int) (crtTab : Int)
    (h : st.rowInvariant row) : (setCurrentTab st crtTab).rowInvariant row := by
  obtain ⟨hnd, hrow⟩ := h
  obtain ⟨-, b, c, d, -⟩ := setCurrentTab_fields st crtTab
  refine ⟨by rw [b]; exact hnd, ?_⟩
  intro hed hm
  obtain ⟨hed', hq⟩ := d hed
  rw [c] at hm
  rw [hq, b]
  exact hrow hed' hm

theorem fillForm_mode (st : State) (d : SignalItem) :
    (st.fillForm d).mSignalIsSmc = st.mSignalIsSmc ∧ (st.fillForm d).tabIndex = st.tabIndex
      ∧ (st.fillForm d).mSignalsList = st.mSignalsList := by
  cases d <;> exact ⟨rfl, rfl, rfl⟩

theorem rowInvariant_fillForm (st : State) (row : Int) (d : SignalItem)
    (h : st.rowInvariant row) : (st.fillForm d).rowInvariant row := by
  obtain ⟨-, b, c, e⟩ := fillForm_frame st d
  exact rowInvariant_congr st _ row h b c e (fillForm_mode st d).1

/-- The window in use keeps the invariant of the catalog and the invariant
of the current row. -/
theorem session_invariant (st : State) (row : Int) (h : Session st row) :
    st.catalogInvariant ∧ st.rowInvariant row := by
  induction h with
  | initial =>
    exact ⟨catalogInvariant_initial _ _ _ _ _ _ _ _ _ _ _,
      rowInvariant_of_idle _ _ List.nodup_nil rfl⟩
  | signalNew st row _ ih =>
    exact ⟨catalogInvariant_signalNew _ ih.1, rowInvariant_signalNew _ _ ih.2⟩
  | signalOpen st row fileName file _ ih =>
    exact ⟨catalogInvariant_signalOpen _ _ _ ih.1, rowInvariant_signalOpen _ _ _ _ ih.2⟩
  | smcOpen st st' row fileName file _ hs ih =>
    exact ⟨catalogInvariant_smcOpen _ _ _ _ hs ih.1, rowInvariant_smcOpen _ _ _ _ _ hs ih.2⟩
  | addReplace st st' row _ hsmc hs ih =>
    exact ⟨catalogInvariant_addReplace _ _ _ hs ih.1,
      rowInvariant_addReplace _ _ _ ih.1.1 hsmc hs ih.2⟩
  | edit st st' row _ _ hs ih =>
    exact ⟨catalogInvariant_edit _ _ _ hs ih.1, rowInvariant_edit _ _ _ ih.1 hs ih.2⟩
  | remove st st' row _ hg hs ih =>
    exact ⟨catalogInvariant_remove _ _ _ hs ih.1, rowInvariant_remove _ _ _ hg hs ih.2⟩
  | save st row fileName isOpen _ ih =>
    exact ⟨catalogInvariant_save _ _ _ ih.1, rowInvariant_save _ _ _ _ ih.2⟩
  | generate st row started paused _ ih =>
    exact ⟨catalogInvariant_congr st _ ih.1 rfl rfl rfl rfl rfl rfl rfl,
      rowInvariant_congr st _ row ih.2 rfl rfl rfl rfl⟩
  | selectTab st row crtTab _ hg ih =>
    refine ⟨catalogInvariant_setCurrentTab st crtTab ih.1 ?_,
      rowInvariant_setCurrentTab _ _ _ ih.2⟩
    intro hm
    rw [hg hm, (ih.1.2.2.2 hm).2.1]
  | input st row d _ ih =>
    exact ⟨catalogInvariant_fillForm _ _ ih.1, rowInvariant_fillForm _ _ _ ih.2⟩
  | currentRow st row row' _ hg ih =>
    refine ⟨ih.1, ih.2.1, ?_⟩
    intro hed hm
    have := hg hm
    rw [this] at hed
    cases hed

theorem length_insertRow_end (rows : List Str) :
    (insertRow rows rows.length).length = rows.length + 1 := by
  unfold insertRow
  rw [if_pos ⟨by omega, le_refl _⟩]
  simp

theorem length_setData (rows : List Str) (row : Int) (value : Str) :
    (setData rows row value).length = rows.length := by
  unfold setData
  split_ifs
  · rw [List.length_set]
  · rfl

theorem length_removeRow (rows : List Str) (row : Int)
    (h : 0 ≤ row ∧ row.toNat < rows.length) :
    (removeRow rows row).length + 1 = rows.length := by
  unfold removeRow removeRows
  have h1 : ¬ ((1 : Int) ≤ 0 ∨ row < 0 ∨ (rows.length : Int) < row + 1) := by omega
  rw [if_neg h1]
  have h2 : (row + 1).toNat = row.toNat + 1 := by omega
  rw [h2, List.length_append, List.length_take, List.length_drop]
  omega

theorem rowsInvariant_of_empty (st : State) (h : st.mSignalsVector = []) : st.rowsInvariant := by
  intro _
  rw [h]
  exact Nat.zero_le _

theorem rowsInvariant_of_smc (st : State) (h : st.mSignalIsSmc = true) : st.rowsInvariant := by
  intro h'
  rw [h] at h'
  cases h'

theorem rowsInvariant_congr (st st' : State) (h : st.rowsInvariant)
    (e1 : st'.mSignalsVector = st.mSignalsVector) (e2 : st'.mSignalsList = st.mSignalsList)
    (e3 : st'.mSignalIsSmc = st.mSignalIsSmc) : st'.rowsInvariant := by
  unfold State.rowsInvariant at h ⊢
  rw [e1, e2, e3]
  exact h

theorem openLine_rows (st : State) (currentLine : Str)
    (h : st.mSignalsVector.length ≤ st.mSignalsList.length) :
    (openLine st currentLine).mSignalsVector.length
      ≤ (openLine st currentLine).mSignalsList.length := by
  unfold openLine
  split
  · simp only [State.new, List.length_append, List.length_singleton, length_setData,
      length_insertRow_end]
    omega
  · exact h

theorem foldl_openLine_rows (lines : List Str) : ∀ (st : State),
    st.mSignalsVector.length ≤ st.mSignalsList.length →
    (lines.foldl openLine st).mSignalsVector.length
      ≤ (lines.foldl openLine st).mSignalsList.length := by
  induction lines with
  | nil => intro st h; exact h
  | cons l ls ih => intro st h; exact ih _ (openLine_rows st l h)

theorem rowsInvariant_signalNew (st : State) (h : st.rowsInvariant) :
    (handleSignalNew st).rowsInvariant := by
  unfold handleSignalNew
  split_ifs
  · exact rowsInvariant_congr st _ h rfl rfl rfl
  · exact rowsInvariant_of_empty _ rfl

theorem rowsInvariant_signalOpen (st : State) (fileName : Str) (file : Option (List Str))
    (h : st.rowsInvariant) : (handleSignalOpen st fileName file).rowsInvariant := by
  unfold handleSignalOpen
  split_ifs
  · exact rowsInvariant_congr st _ h rfl rfl rfl
  · exact rowsInvariant_congr st _ h rfl rfl rfl
  · unfold openSignalFile
    simp only
    cases file with
    | none =>
      simp only
      split_ifs
      · exact rowsInvariant_of_empty _ rfl
      · exact rowsInvariant_of_empty _ rfl
    | some lines =>
      simp only
      have a := foldl_openLine_rows lines
        { st with
          mSignalUndefined := true, mSignalReady := false, mSignalStarted := false,
          mSignalPaused := false, mSignalIsSmc := false, mIsSignalEdited := false,
          mSignalsList := removeRows st.mSignalsList 0 st.mSignalsVector.length,
          mSignalsVector := [] }
        (Nat.zero_le _)
      split_ifs
      · exact fun _ => a
      · exact fun _ => a

theorem rowsInvariant_smcOpen (st st' : State) (fileName : Str) (file : Option (List Str))
    (hs : handleSmcOpen st fileName file = .ok st') (h : st.rowsInvariant) :
    st'.rowsInvariant := by
  unfold handleSmcOpen at hs
  split_ifs at hs
  · cases hs; exact rowsInvariant_congr st _ h rfl rfl rfl
  · cases hs; exact rowsInvariant_congr st _ h rfl rfl rfl
  · unfold openSmcFile at hs
    simp only at hs
    cases file with
    | none =>
      simp only at hs
      cases hs
      split_ifs
      · exact rowsInvariant_of_empty _ rfl
      · exact rowsInvariant_of_empty _ rfl
    | some lines =>
      simp only at hs
      split at hs
      · cases hs
      · rename_i ls hl
        split_ifs at hs with hok
        · by_cases hneg : ls.mSmc.mDataValuesRecordedCount < 0
          · unfold createSmcSignal at hs
            simp only [hneg, if_true] at hs
            cases hs
          · obtain ⟨st2, hc, -, -, -, -, -, -, h8, -⟩ :=
              createSmcSignal_ok
                { st with
                  mSignalUndefined := false, mSignalReady := true, mSignalStarted := false,
                  mSignalPaused := false, mSignalIsSmc := true, mIsSignalEdited := false,
                  mSignalsVector := [], mSmc := ls.mSmc,
                  messages := st.messages ++ ls.shown }
                (by show 0 ≤ ls.mSmc.mDataValuesRecordedCount; omega) rfl
            rw [hc] at hs
            cases hs
            exact rowsInvariant_of_smc _ h8
        · cases hs
          exact rowsInvariant_of_empty _ rfl

theorem rowsInvariant_addReplace (st st' : State) (crtRow : Int)
    (hs : handleAddReplaceSignal st crtRow = .ok st') (h : st.rowsInvariant) :
    st'.rowsInvariant := by
  unfold handleAddReplaceSignal at hs
  split_ifs at hs with hed
  · cases hs
    unfold addSignal
    simp only
    split
    · intro hm
      have := h hm
      show st.mSignalsVector.length ≤ (insertRow st.mSignalsList st.mSignalsList.length).length
      rw [length_insertRow_end]
      omega
    · simp only [State.new]
      intro hm
      have hm' : st.mSignalIsSmc = false := by
        revert hm
        split <;> exact fun hm => hm
      have := h hm'
      split <;>
        simp only [List.length_append, List.length_singleton, length_setData,
          length_insertRow_end] <;> omega
  · unfold replaceSignal at hs
    split at hs
    · cases hs
      exact h
    · split at hs
      · cases hs
      · simp only at hs
        split_ifs at hs with hr
        cases hs
        split
        · intro hm
          have h0 := h hm
          simp only [List.length_set]
          split
          · rw [length_setData]; exact h0
          · exact h0
        · intro hm
          have h0 := h hm
          simp only [List.length_set]
          exact h0

theorem handleEditSignal_list (st st' : State) (crtRow : Int)
    (hs : handleEditSignal st crtRow = .ok st') :
    st'.mSignalsVector = st.mSignalsVector ∧ st'.mSignalsList = st.mSignalsList
      ∧ st'.mSignalIsSmc = st.mSignalIsSmc := by
  unfold handleEditSignal at hs
  split at hs
  · cases hs
  · rename_i p hp
    simp only at hs
    split at hs
    · cases hs
    · rename_i item hitem
      obtain ⟨-, f2, f3, -, -⟩ := setCurrentTab_fields { st with mEditedSignal := some p }
        (item.getType.toInt - SignalType.SIGNAL_TYPE_TRIANGLE.toInt)
      have f4 := setCurrentTab_list { st with mEditedSignal := some p }
        (item.getType.toInt - SignalType.SIGNAL_TYPE_TRIANGLE.toInt)
      split at hs
      · cases hs
        exact ⟨f2, f4, f3⟩
      · cases hs
      · split at hs
        · cases hs
        · rename_i edited _
          cases hs
          obtain ⟨-, b, -, -⟩ := fillForm_frame
            (setCurrentTab { st with mEditedSignal := some p }
              (item.getType.toInt - SignalType.SIGNAL_TYPE_TRIANGLE.toInt)) edited
          obtain ⟨c, -, l⟩ := fillForm_mode
            (setCurrentTab { st with mEditedSignal := some p }
              (item.getType.toInt - SignalType.SIGNAL_TYPE_TRIANGLE.toInt)) edited
          exact ⟨b.trans f2, l.trans f4, c.trans f3⟩

theorem rowsInvariant_remove (st st' : State) (crtRow : Int)
    (hs : handleRemoveSignal st crtRow = .ok st') (h : st.rowsInvariant) :
    st'.rowsInvariant := by
  unfold handleRemoveSignal at hs
  simp only at hs
  split_ifs at hs with hr he
  all_goals
    cases hs
    intro hm
    have h0 := h hm
    have h1 := length_removeRow st.mSignalsList crtRow ⟨hr.1, by omega⟩
    show (st.mSignalsVector.eraseIdx crtRow.toNat).length
      ≤ (removeRow st.mSignalsList crtRow).length
    rw [List.length_eraseIdx, if_pos hr.2]
    omega

theorem rowsInvariant_save (st : State) (fileName : Str) (isOpen : Bool)
    (h : st.rowsInvariant) : (handleSaveSignal st fileName isOpen).1.rowsInvariant := by
  unfold handleSaveSignal
  split_ifs
  · exact rowsInvariant_congr st _ h rfl rfl rfl
  · exact rowsInvariant_congr st _ h rfl rfl rfl
  · exact h

/-- The window in use keeps a row of the list for every pointer of the
vector while the signal is no SMC signal. -/
theorem session_rows (st : State) (row : Int) (h : Session st row) : st.rowsInvariant := by
  induction h with
  | initial => exact rowsInvariant_of_empty _ rfl
  | signalNew st row _ ih => exact rowsInvariant_signalNew _ ih
  | signalOpen st row fileName file _ ih => exact rowsInvariant_signalOpen _ _ _ ih
  | smcOpen st st' row fileName file _ hs ih => exact rowsInvariant_smcOpen _ _ _ _ hs ih
  | addReplace st st' row _ _ hs ih => exact rowsInvariant_addReplace _ _ _ hs ih
  | edit st st' row _ _ hs ih =>
    obtain ⟨a, b, c⟩ := handleEditSignal_list _ _ _ hs
    exact rowsInvariant_congr st _ ih a b c
  | remove st st' row _ _ hs ih => exact rowsInvariant_remove _ _ _ hs ih
  | save st row fileName isOpen _ ih => exact rowsInvariant_save _ _ _ ih
  | generate st row started paused _ ih => exact rowsInvariant_congr st _ ih rfl rfl rfl
  | selectTab st row crtTab _ _ ih =>
    obtain ⟨-, b, c, -, -⟩ := setCurrentTab_fields st crtTab
    exact rowsInvariant_congr st _ ih b (setCurrentTab_list st crtTab) c
  | input st row d _ ih =>
    exact rowsInvariant_congr st _ ih (fillForm_frame st d).2.1 (fillForm_mode st d).2.2
      (fillForm_mode st d).1
  | currentRow st row row' _ _ ih => exact ih

theorem setCurrentTab_tab (st : State) (crtTab : Int) (h : 0 ≤ crtTab ∧ crtTab < 12) :
    (setCurrentTab st crtTab).tabIndex = crtTab := by
  unfold setCurrentTab
  split_ifs with h1
  · exact (handleSignalTypeChanged_fields { st with tabIndex := crtTab }).2.2.2.1
  · by_contra hc
    exact h1 ⟨h.1, h.2, fun e => hc e.symm⟩

/-- The choice of a tab other than the current one ends an edit. -/
theorem setCurrentTab_cancels (st : State) (crtTab : Int) (h0 : 0 ≤ crtTab) (h1 : crtTab < 12)
    (h2 : crtTab ≠ st.tabIndex) : (setCurrentTab st crtTab).mIsSignalEdited = false := by
  unfold setCurrentTab handleSignalTypeChanged
  rw [if_pos ⟨h0, h1, h2⟩]
  simp only
  split_ifs <;> simp_all

theorem parametric_tab (t : SignalType) (h : t.isParametric = true) :
    0 ≤ t.toInt - SignalType.SIGNAL_TYPE_TRIANGLE.toInt
      ∧ t.toInt - SignalType.SIGNAL_TYPE_TRIANGLE.toInt < 12 := by
  cases t <;> first | (constructor <;> decide) | cases h

/-- The state after `handleEditSignal` on the row of a parametric record,
when no edit is in progress: the catalog is untouched, the record is the
edited one, and the tab shown is the tab of its type. -/
theorem handleEditSignal_shown (st : State) (i p : Nat) (item : SignalItem)
    (hne : st.mIsSignalEdited = false) (hp : st.mSignalsVector[i]? = some p)
    (hd : st.deref p = some item) (hpar : item.getType.isParametric = true) :
    ∃ st1 : State, handleEditSignal st i = .ok st1 ∧ st1.heap = st.heap
      ∧ st1.mSignalsVector = st.mSignalsVector ∧ st1.mEditedSignal = some p
      ∧ st1.mIsSignalEdited = true
      ∧ st1.mSignalIsSmc = st.mSignalIsSmc
      ∧ st1.tabIndex = item.getType.toInt - SignalType.SIGNAL_TYPE_TRIANGLE.toInt := by
  unfold handleEditSignal
  rw [vectorAt_ok _ _ _ hp]
  simp only
  have hd' : ({ st with mEditedSignal := some p } : State).deref p = some item := hd
  rw [hd']
  simp only
  obtain ⟨f1, f2, f3, f4⟩ := setCurrentTab_frame { st with mEditedSignal := some p }
    (item.getType.toInt - SignalType.SIGNAL_TYPE_TRIANGLE.toInt) hne
  have f5 := (setCurrentTab_fields { st with mEditedSignal := some p }
    (item.getType.toInt - SignalType.SIGNAL_TYPE_TRIANGLE.toInt)).2.2.1
  have f6 := setCurrentTab_tab { st with mEditedSignal := some p }
    (item.getType.toInt - SignalType.SIGNAL_TYPE_TRIANGLE.toInt) (parametric_tab _ hpar)
  generalize setCurrentTab { st with mEditedSignal := some p }
    (item.getType.toInt - SignalType.SIGNAL_TYPE_TRIANGLE.toInt) = s at f1 f2 f3 f4 f5 f6
  simp only at f1 f2 f3 f5
  have hs : s.deref p = some item := by
    simp only [State.deref, f1]; exact hd
  split
  · rename_i heq
    rw [heq] at hpar
    simp [SignalType.isParametric] at hpar
  · rename_i heq _
    rw [f3] at heq
    simp at heq
  · rename_i q heq _
    rw [f3, Option.some.injEq] at heq
    subst heq
    rw [hs]
    obtain ⟨g1, g2, g3, g4⟩ := fillForm_frame s item
    obtain ⟨g5, g6, -⟩ := fillForm_mode s item
    exact ⟨_, rfl, g1.trans f1, g2.trans f2, g3.trans f3, rfl, g5.trans f5, g6.trans f6⟩

/-- The replacement on a state where the pointers of the vector are valid
and distinct and no edit is in progress: `handleEditSignal` on the row of a
parametric record, a record `d` of the same variant entered in the form,
then `handleAddReplaceSignal` on the same row. Element `i` of the catalog
becomes `d`, and nothing else of the catalog changes. -/
theorem replaceAt_sets_element (st : State) (i : Nat) (item d : SignalItem)
    (hwf : st.wf) (hnd : st.mSignalsVector.Nodup) (hne : st.mIsSignalEdited = false)
    (hi : st.catalog[i]? = some item) (hpar : item.getType.isParametric = true)
    (hd : d.getType = item.getType) :
    ∃ st1 st2 : State, handleEditSignal st i = .ok st1
      ∧ st1.mSignalIsSmc = st.mSignalIsSmc
      ∧ st1.tabIndex = item.getType.toInt - SignalType.SIGNAL_TYPE_TRIANGLE.toInt
      ∧ handleAddReplaceSignal (st1.fillForm d) i = .ok st2
      ∧ replaceAt st i d = .ok st2
      ∧ st2.catalog = st.catalog.set i d := by
  obtain ⟨p, hp, hdp⟩ := vector_getElem?_of_catalog st hwf i item hi
  obtain ⟨st1, e1, e2, e3, e4, e5, e6, e7⟩ := handleEditSignal_shown st i p item hne hp hdp hpar
  obtain ⟨g1, g2, g3, g4⟩ := fillForm_frame st1 d
  have hform := fillForm_formItem st1 d (by rw [hd]; exact hpar)
  have hiv : i < st.mSignalsVector.length := (List.getElem?_eq_some.1 hp).1
  have hres : ∃ st2 : State, handleAddReplaceSignal (st1.fillForm d) i = .ok st2
      ∧ st2.heap = st.heap.set p d ∧ st2.mSignalsVector = st.mSignalsVector := by
    unfold handleAddReplaceSignal
    rw [g4, e5]
    simp only [Bool.not_true, Bool.false_eq_true, if_false]
    unfold replaceSignal
    rw [g3, e4]
    simp only
    have hdd : (st1.fillForm d).deref p = some item := by
      simp only [State.deref, g1, e2]; exact hdp
    rw [hdd]
    simp only
    rw [← hd, hform]
    simp only [Int.toNat_ofNat, Int.ofNat_zero_le, true_and]
    rw [if_pos (by rw [g2, e3]; exact hiv)]
    refine ⟨_, rfl, ?_, ?_⟩
    · simp only [g1, e2]
    · simp only [g2, e3]
      exact set_of_getElem? _ _ _ hp
  obtain ⟨st2, h1, h2, h3⟩ := hres
  have hrep : replaceAt st i d = .ok st2 := by
    unfold replaceAt
    rw [e1]
    exact h1
  have hcat : st2.catalog = st.catalog.set i d := by
    simp only [State.catalog]
    have : st2.deref = fun q => (st.heap.set p d)[q]? := by
      funext q; simp [State.deref, h2]
    rw [this, h3]
    exact filterMap_set_heap st.heap d p st.mSignalsVector i hnd hwf hp
  exact ⟨st1, st2, e1, e6, e7, h1, hrep, hcat⟩

/-- An item of the catalog while the signal is no SMC signal is a
parametric item. -/
theorem parametric_of_catalog (st : State) (hinv : st.catalogInvariant)
    (hsmc : st.mSignalIsSmc = false) (i : Nat) (item : SignalItem)
    (hi : st.catalog[i]? = some item) : item.getType.isParametric = true := by
  obtain ⟨p, hp, hdp⟩ := vector_getElem?_of_catalog st hinv.1 i item hi
  have hmode := hinv.2.1 p (List.mem_iff_getElem?.2 ⟨i, hp⟩) item hdp
  rw [hsmc] at hmode
  cases item <;> first | rfl | cases hmode

/-- C10: in the window in use, while the signal is no SMC signal and no
item is edited (only then does `updateControls` leave both the Edit button
and the button of `handleAddReplaceSignal` to the user), for every
in-bounds index `i` of the catalog and every record `d` of the variant of
element `i`: the list has a row `i`; `handleEditSignal` on that row
succeeds, begins the edit and shows the tab of the variant of `d`, where
the choice of any other tab would end the edit; with `d` entered in the
form, `handleAddReplaceSignal` on the same row takes its replace branch and
succeeds; and the state it leaves is a state of the window in use whose
catalog is of the same length, holds `d` as element `i`, and holds every
other element unchanged in its position. -/
theorem C10_replace_sets_element (st : State) (row : Int) (i : Nat) (item d : SignalItem)
    (hs : Session st row) (hsmc : st.mSignalIsSmc = false) (hne : st.mIsSignalEdited = false)
    (hi : st.catalog[i]? = some item) (hd : d.getType = item.getType) :
    i < st.mSignalsList.length
      ∧ ∃ st1 st2 : State,
          handleEditSignal st i = .ok st1
            ∧ st1.mIsSignalEdited = true
            ∧ st1.tabIndex = d.getType.toInt - SignalType.SIGNAL_TYPE_TRIANGLE.toInt
            ∧ (∀ crtTab : Int, 0 ≤ crtTab → crtTab < 12 → crtTab ≠ st1.tabIndex →
                (setCurrentTab st1 crtTab).mIsSignalEdited = false)
            ∧ replaceSignal (st1.fillForm d) i = .ok st2
            ∧ replaceAt st i d = .ok st2
            ∧ Session st2 i
            ∧ st2.catalog = st.catalog.set i d
            ∧ st2.catalog.length = st.catalog.length
            ∧ st2.catalog[i]? = some d
            ∧ (∀ j, j ≠ i → st2.catalog[j]? = st.catalog[j]?) := by
  obtain ⟨hinv, hrow⟩ := session_invariant st row hs
  have hpar := parametric_of_catalog st hinv hsmc i item hi
  obtain ⟨st1, st2, e1, e2, e3, e4, e5, hcat⟩ :=
    replaceAt_sets_element st i item d hinv.1 hrow.1 hne hi hpar hd
  have hed : st1.mIsSignalEdited = true := by
    obtain ⟨p, hp, hdp⟩ := vector_getElem?_of_catalog st hinv.1 i item hi
    obtain ⟨s, f1, -, -, -, f5, -⟩ := handleEditSignal_shown st i p item hne hp hdp hpar
    rw [e1] at f1
    cases f1
    exact f5
  have hbranch : replaceSignal (st1.fillForm d) i = .ok st2 := by
    have h := e4
    unfold handleAddReplaceSignal at h
    rw [(fillForm_frame st1 d).2.2.2, hed] at h
    exact h
  have hsess : Session st2 i := by
    have s0 : Session st i := Session.currentRow st row i hs (fun _ => hne)
    have s1 : Session st1 i := Session.edit st st1 i s0 (fun _ => hne) e1
    have s2 : Session (st1.fillForm d) i := Session.input st1 i d s1
    exact Session.addReplace _ st2 i s2 (by rw [(fillForm_mode st1 d).1, e2]; exact hsmc) e4
  have hlt : i < st.catalog.length := (List.getElem?_eq_some.1 hi).1
  have hrows : i < st.mSignalsList.length := by
    have h1 := session_rows st row hs hsmc
    have h2 := catalog_length_of_wf st hinv.1
    omega
  refine ⟨hrows, st1, st2, e1, hed, by rw [hd]; exact e3, ?_, hbranch, e5, hsess, hcat,
    ?_, ?_, ?_⟩
  · intro crtTab h0 h1 h2
    exact setCurrentTab_cancels st1 crtTab h0 h1 h2
  · rw [hcat, List.length_set]
  · rw [hcat]; simp [hlt]
  · intro j hj
    rw [hcat]
    exact getElem?_set_cases _ _ _ _ hj

/-- The window after three additions and the removal of row 1 is a state of
the window in use. -/
theorem session_sampleAfterRemoval : Session sampleAfterRemoval 1 := by
  have s0 : Session sampleState (-1) := Session.initial _ _ _ _ _ _ _ _ _ _ _
  have s1 := Session.signalNew _ _ s0
  have s2 := Session.input _ _ (.triangle (sampleTriangle Dbl.one)) s1
  have s3 : Session (addSignal ((handleSignalNew sampleState).fillForm
      (.triangle (sampleTriangle Dbl.one)))) (-1) :=
    Session.addReplace _ _ _ s2 rfl rfl
  have s4 := Session.selectTab _ _ 1 s3 (fun h => by cases h)
  have s5 := Session.input _ _ (sampleRectangle Dbl.one) s4
  have s6 : Session (addSignal ((setCurrentTab (addSignal ((handleSignalNew sampleState).fillForm
      (.triangle (sampleTriangle Dbl.one)))) 1).fillForm (sampleRectangle Dbl.one))) (-1) :=
    Session.addReplace _ _ _ s5 rfl rfl
  have s7 := Session.input _ _ (sampleRectangle Dbl.two) s6
  have s8 : Session sampleThreeAdded (-1) := Session.addReplace _ _ _ s7 rfl rfl
  have s9 : Session sampleThreeAdded 1 := Session.currentRow _ _ 1 s8 (fun _ => rfl)
  exact Session.remove _ _ _ s9 (fun _ => rfl) (eq_ok_of_succeeded _ _ (by decide))

/-- C10, on the catalog `[A, B, C]` of a Triangle record and two Rectangle
records: the removal of row 1 leaves `[A, C]`, and the replacement of row 1
by the Rectangle record `D` of the period 4 then gives `[A, D]`. -/
theorem C10_replace_sets_element_witness :
    sampleThreeAdded.catalog
        = [.triangle (sampleTriangle Dbl.one), sampleRectangle Dbl.one, sampleRectangle Dbl.two]
      ∧ sampleAfterRemoval.catalog
        = [.triangle (sampleTriangle Dbl.one), sampleRectangle Dbl.two]
      ∧ ∃ st2 : State,
          replaceAt sampleAfterRemoval (1 : Nat) (sampleRectangle Dbl.four) = .ok st2
            ∧ st2.catalog = [.triangle (sampleTriangle Dbl.one), sampleRectangle Dbl.four] := by
  refine ⟨by decide, by decide, ?_⟩
  obtain ⟨-, -, st2, -, -, -, -, -, h1, -, h2, -⟩ :=
    C10_replace_sets_element sampleAfterRemoval 1 1 (sampleRectangle Dbl.two)
      (sampleRectangle Dbl.four) session_sampleAfterRemoval (by decide) (by decide)
      (by decide) (by decide)
  exact ⟨st2, h1, h2.trans (by decide)⟩

end SignalGenerator
